import Mathlib

/-!
# MCVR render pipeline: blueprint, builder, frame executor and the XeSS upscaler module

A shallow embedding of `src/core/render/pipeline.cpp` and of
`src/core/render/modules/world/xess_upscaler/` together with the properties
proved about them.

Conventions of the embedding.

* `uint32_t` / `int` values are natural numbers; the wrap-around of either type
  is not modelled (counters and sizes stay far below it).
* C arrays reached through a pointer (`params->inputIndices[i][j]`) are functions
  of the index: the code reads exactly the cells it is told to read.
* `std::vector` is `List`; `std::shared_ptr<T>` that may be null is `Option T`.
* An exception is the `error` case of `Except`.
* Code that lives outside the repository excerpt (Vulkan, glm, the XeSS SDK,
  `std::stof`, the other world modules) is a parameter of the model.
-/

namespace MCVR

/-! # Part I: the embedding (all definitions) -/

/-! ## Images, layouts and command buffers -/

/-- A `vk::DeviceLocalImage`: `id` is the identity of the object behind the
`shared_ptr`, the other fields are the arguments it was created with. -/
structure DeviceLocalImage where
  id : Nat
  width : Nat
  height : Nat
  format : Nat
  usage : Nat
deriving Repr, DecidableEq

/-- `VkImageLayout`, by its numeric value. -/
abbrev VkImageLayout := Nat

def VK_IMAGE_LAYOUT_UNDEFINED : VkImageLayout := 0
def VK_IMAGE_LAYOUT_GENERAL : VkImageLayout := 1
def VK_IMAGE_LAYOUT_COLOR_ATTACHMENT_OPTIMAL : VkImageLayout := 2
def VK_IMAGE_LAYOUT_SHADER_READ_ONLY_OPTIMAL : VkImageLayout := 5
def VK_IMAGE_LAYOUT_TRANSFER_SRC_OPTIMAL : VkImageLayout := 6
def VK_IMAGE_LAYOUT_TRANSFER_DST_OPTIMAL : VkImageLayout := 7
def VK_IMAGE_LAYOUT_PRESENT_SRC_KHR : VkImageLayout := 1000001002

/-- An image barrier as the claims read it: the declared layouts and the image. The stage
masks, access masks and queue family indices of the source are constants of each call site
and are left out. -/
structure ImageBarrier where
  oldLayout : VkImageLayout
  newLayout : VkImageLayout
  image : Nat
deriving Repr, DecidableEq

/-- The commands recorded into a command buffer. -/
inductive Command where
  | barriersBufferImage (imageBarriers : List ImageBarrier)
  | barriersMemory
  | blitImage (src : Nat) (srcLayout : VkImageLayout) (dst : Nat) (dstLayout : VkImageLayout)
      (srcExtent dstExtent : Nat × Nat)
  | bindDescriptorTable
  | bindComputePipeline
  | pushConstants (width height : Nat)
  | dispatch (x y z : Nat)
deriving Repr, DecidableEq

/-- The state a frame is rendered over: the tracked layout `imageLayout()` of every image
object (by identity), the world and overlay command buffers of the frame, and the state
`W` of everything else a module context may touch. -/
structure RenderState (W : Type) where
  layouts : Nat → VkImageLayout
  worldCommandBuffer : List Command
  overlayCommandBuffer : List Command
  world : W

/-- The assignment `image->imageLayout() = layout`. -/
def RenderState.setLayout {W : Type} (s : RenderState W) (image : Nat) (layout : VkImageLayout) :
    RenderState W :=
  { s with layouts := Function.update s.layouts image layout }

/-- `worldCommandBuffer->barriersBufferImage({}, barriers)`. -/
def RenderState.barriers {W : Type} (s : RenderState W) (imageBarriers : List ImageBarrier) :
    RenderState W :=
  { s with worldCommandBuffer := s.worldCommandBuffer ++ [.barriersBufferImage imageBarriers] }

/-- A `WorldModuleContext`: its `render()`. -/
abbrev WorldModuleContext (W : Type) := RenderState W → RenderState W

/-- The data members of `WorldPipelineContext` (lines 205-214): the image of slot 0 of the
frame and the module contexts in declared order. -/
structure WorldPipelineContext (W : Type) where
  outputImage : Option DeviceLocalImage
  worldModuleContexts : List (Option (WorldModuleContext W))

/-! ## Containers -/

/-- The loop `for (int i = 0; i < n; i++) body(i)` over a state. -/
def forLoop {σ : Type} (n : Nat) (body : Nat → σ → σ) (s : σ) : σ :=
  (List.range n).foldl (fun acc i => body i acc) s

/-- Insertion into a `std::set<uint32_t>`, kept as its ascending iteration order. -/
def setInsert (x : Nat) : List Nat → List Nat
  | [] => [x]
  | y :: ys =>
    if x < y then x :: y :: ys
    else if x = y then y :: ys
    else y :: setInsert x ys

/-- The static registry `Pipeline::worldModuleInOutImageNums`,
a `std::map<std::string, std::pair<uint32_t, uint32_t>>`. -/
abbrev InOutImageNums := List (String × (Nat × Nat))

/-- The expression `worldModuleInOutImageNums[name]`: `std::map::operator[]` returns the
stored pair, and value-initialises and stores `(0, 0)` when the key is absent. -/
def InOutImageNums.index (reg : InOutImageNums) (name : String) : (Nat × Nat) × InOutImageNums :=
  match reg.lookup name with
  | some nums => (nums, reg)
  | none => ((0, 0), reg ++ [(name, (0, 0))])

/-! ## Blueprint (`WorldPipelineBlueprint::WorldPipelineBlueprint`) -/

/-- The fields of `WorldPipelineBuildParams` read by the constructor. -/
structure WorldPipelineBuildParams where
  moduleCount : Nat
  moduleNames : Nat → String
  attributeCounts : Nat → Nat
  attributeKVs : Nat → Nat → String
  inputIndices : Nat → Nat → Nat
  outputIndices : Nat → Nat → Nat
  imageFormats : Nat → Nat

/-- The data members of `WorldPipelineBlueprint`. -/
structure WorldPipelineBlueprint where
  moduleNames_ : List String
  attributeCounts_ : List Nat
  attributeKVs_ : List (List String)
  modulesInputIndices_ : List (List Nat)
  modulesOutputIndices_ : List (List Nat)
  imageFormats_ : List Nat
deriving Repr, DecidableEq

/-- The state of the constructor while it walks the descriptors: the members filled so
far, the local `imageIndices` set and the static registry. -/
structure BlueprintBuild where
  bp : WorldPipelineBlueprint
  imageIndices : List Nat
  registry : InOutImageNums

/-- The loop `for (j < num) { indices.emplace_back(src[j]); imageIndices.insert(src[j]); }`
(pipeline.cpp lines 40-43 and 44-47); returns the module's index vector and the set. -/
def readIndices (src : Nat → Nat) (num : Nat) (imageIndices : List Nat) : List Nat × List Nat :=
  forLoop num (fun j acc => (acc.1 ++ [src j], setInsert (src j) acc.2)) ([], imageIndices)

/-- The loop over the attribute pairs of one descriptor (lines 34-37). -/
def readAttributeKV (src : Nat → String) (count : Nat) : List String :=
  forLoop count (fun j kv => (kv ++ [src (2 * j + 0)]) ++ [src (2 * j + 1)]) []

/-- One iteration of the descriptor loop (lines 27-47). -/
def blueprintModuleStep (params : WorldPipelineBuildParams) (i : Nat) (s : BlueprintBuild) :
    BlueprintBuild :=
  let moduleName := params.moduleNames i
  let attributeKV := readAttributeKV (params.attributeKVs i) (params.attributeCounts i)
  let (nums, registry) := s.registry.index moduleName
  let (moduleInputIndices, imageIndices1) := readIndices (params.inputIndices i) nums.1 s.imageIndices
  let (moduleOutputIndices, imageIndices2) := readIndices (params.outputIndices i) nums.2 imageIndices1
  { bp :=
      { s.bp with
        moduleNames_ := s.bp.moduleNames_ ++ [moduleName]
        attributeCounts_ := s.bp.attributeCounts_ ++ [params.attributeCounts i]
        attributeKVs_ := s.bp.attributeKVs_ ++ [attributeKV]
        modulesInputIndices_ := s.bp.modulesInputIndices_ ++ [moduleInputIndices]
        modulesOutputIndices_ := s.bp.modulesOutputIndices_ ++ [moduleOutputIndices] }
    imageIndices := imageIndices2
    registry := registry }

/-- The descriptor loop (lines 26-48), from the empty members. -/
def blueprintModules (reg : InOutImageNums) (params : WorldPipelineBuildParams) : BlueprintBuild :=
  forLoop params.moduleCount (blueprintModuleStep params)
    { bp := ⟨[], [], [], [], [], []⟩, imageIndices := [], registry := reg }

/-- The closing loop (lines 50-55) over the set in ascending order:
`if (i != cnt) throw; cnt++; imageFormats_.push_back(params->imageFormats[i])`. -/
def checkContinuous (imageFormats : Nat → Nat) : List Nat → Nat → List Nat → Except String (List Nat)
  | [], _, formats => .ok formats
  | i :: rest, cnt, formats =>
    if i ≠ cnt then .error "Indices are not continous!"
    else checkContinuous imageFormats rest (cnt + 1) (formats ++ [imageFormats i])

/-- `WorldPipelineBlueprint::WorldPipelineBlueprint(params)`: the registry as the constructor
leaves it, and the blueprint or the exception. -/
def WorldPipelineBlueprint.construct (reg : InOutImageNums) (params : WorldPipelineBuildParams) :
    InOutImageNums × Except String WorldPipelineBlueprint :=
  let s := blueprintModules reg params
  (s.registry,
    match checkContinuous params.imageFormats s.imageIndices 0 [] with
    | .ok formats => .ok { s.bp with imageFormats_ := formats }
    | .error e => .error e)

/-- The slot indices referenced by the modules' inputs and outputs taken together. -/
def referencedSlots (bp : WorldPipelineBlueprint) : List Nat :=
  bp.modulesInputIndices_.flatten ++ bp.modulesOutputIndices_.flatten

/-- The input and output counts the constructor reads for a module name: the pair stored
in the registry, `(0, 0)` for a name without an entry. -/
def InOutImageNums.nums (reg : InOutImageNums) (name : String) : Nat × Nat :=
  (reg.index name).1

/-- The slot indices the descriptors reference, descriptor by descriptor: of descriptor `i`
the input indices and the output indices, as many of each as the registry gives for its
module name. -/
def declaredSlots (reg : InOutImageNums) (params : WorldPipelineBuildParams) : List Nat :=
  (List.range params.moduleCount).flatMap fun i =>
    (List.range (reg.nums (params.moduleNames i)).1).map (params.inputIndices i) ++
      (List.range (reg.nums (params.moduleNames i)).2).map (params.outputIndices i)

/-- Whether the constructor throws. -/
def WorldPipelineBlueprint.throws (reg : InOutImageNums) (params : WorldPipelineBuildParams) : Bool :=
  match (WorldPipelineBlueprint.construct reg params).2 with
  | .ok _ => false
  | .error _ => true

/-- A registry with one module kind of one input and one output. -/
def demoRegistry : InOutImageNums := [("m", (1, 1))]

/-- Two descriptors of kind `m`: the first reads slot `a` and writes slot 1, the second
reads slot 1 and writes slot 0. -/
def demoParams (a : Nat) : WorldPipelineBuildParams :=
  { moduleCount := 2
    moduleNames := fun _ => "m"
    attributeCounts := fun _ => 0
    attributeKVs := fun _ _ => ""
    inputIndices := fun i _ => if i = 0 then a else 1
    outputIndices := fun i _ => if i = 0 then 1 else 0
    imageFormats := fun _ => 37 }

/-! ## Shared image pool and world modules -/

/-- The pool `sharedImages_`, indexed `[frameIndex][slot]`; a null pointer is `none`. -/
abbrev SharedImages := List (List (Option DeviceLocalImage))

/-- The read `sharedImages_[frameIndex][idx]`. The source does not check the indices; a
cell that does not exist reads as null here. -/
def SharedImages.at (pool : SharedImages) (frameIndex idx : Nat) : Option DeviceLocalImage :=
  (pool.getD frameIndex []).getD idx none

/-- The write `sharedImages_[frameIndex][idx] = img`; a write to a cell that does not exist
is dropped here. -/
def SharedImages.put (pool : SharedImages) (frameIndex idx : Nat) (img : Option DeviceLocalImage) :
    SharedImages :=
  pool.modify (fun row => row.set idx img) frameIndex

/-- The image usage flags of the pool images (lines 103-106 and 114-117):
`STORAGE | COLOR_ATTACHMENT | SAMPLED`, and `TRANSFER_SRC` when built with `USE_AMD`. -/
def poolImageUsage (useAmd : Bool) : Nat :=
  (0x8 ||| 0x10 ||| 0x4) ||| (if useAmd then 0x1 else 0)

/-- What `WorldPipeline::init` reads from the framework. `W` is the state of everything
outside the pipeline object (the device and the private state of the modules);
`newImage` is the object identity handed out by `vk::DeviceLocalImage::create`. -/
structure Framework (W : Type) where
  imageCount : Nat
  extent : Nat × Nat
  useAmd : Bool
  newImage : W → Nat × W

/-- The two directions of negotiation. -/
inductive Direction where
  | output
  | input
deriving Repr, DecidableEq

/-- The result of a negotiation call: the returned flag and the two vectors, which the
module receives by reference, as the call leaves them. -/
structure Negotiated where
  result : Bool
  images : List (Option DeviceLocalImage)
  formats : List Nat

/-- The `WorldModule` interface as the pipeline uses it; every entry point of the build
protocol may change the outside state and may throw, `contexts()` is a getter. -/
structure WorldModule (W : Type) where
  setAttributes : Nat → List String → W → Except String W
  setOrCreateOutputImages :
    List (Option DeviceLocalImage) → List Nat → Nat → W → Except String (Negotiated × W)
  setOrCreateInputImages :
    List (Option DeviceLocalImage) → List Nat → Nat → W → Except String (Negotiated × W)
  build : W → Except String W
  contexts : W → List (Option (WorldModuleContext W))
  preClose : W → W

/-- The registry `Pipeline::worldModuleConstructors`; a name without an entry yields an
empty `std::function`, whose call throws `std::bad_function_call`. -/
abbrev WorldModuleConstructors (W : Type) := String → Option (W → Except String (WorldModule W × W))

/-- The data members of `WorldPipeline`. -/
structure WorldPipeline (W : Type) where
  worldModules_ : List (Option (WorldModule W))
  sharedImages_ : SharedImages
  contexts_ : List (Option (WorldPipelineContext W))

/-- What `init` does to the modules and to the pool, in the order it does it, with the
arguments of each call. A call is logged when it is made; `result` is `none` when a
negotiation call threw. `retry` tells the second call site (lines 144, 170) from the
first (lines 136, 163). -/
inductive InitEvent where
  | construct (i : Nat)
  | setAttributes (i : Nat)
  | negotiate (dir : Direction) (i frameIndex : Nat) (retry : Bool)
      (images : List (Option DeviceLocalImage)) (formats : List Nat) (result : Option Bool)
  | createImageAt (dir : Direction) (i frameIndex idx width height format : Nat)
  | build (i : Nat)
deriving Repr, DecidableEq

/-- The state `init` runs over. -/
structure InitState (W : Type) where
  world : W
  wp : WorldPipeline W
  trace : List InitEvent

/-- A step of `init`: the next state, or the exception together with the state at the throw. -/
abbrev InitStep (W : Type) := Except (String × InitState W) (InitState W)

/-- A counting loop whose body may throw: `for (i = start; i < start + count; i++)`. -/
def loopFrom {σ ε : Type} (body : Nat → σ → Except ε σ) : Nat → Nat → σ → Except ε σ
  | _, 0, s => .ok s
  | start, count + 1, s =>
    match body start s with
    | .ok s1 => loopFrom body (start + 1) count s1
    | .error e => .error e

/-- The loop `for (int i = n - 1; i >= 0; i--)` whose body may throw. -/
def loopDown {σ ε : Type} (body : Nat → σ → Except ε σ) : Nat → σ → Except ε σ
  | 0, s => .ok s
  | n + 1, s =>
    match body n s with
    | .ok s1 => loopDown body n s1
    | .error e => .error e

/-- The state a fallible step ends in, whether it returned or threw. -/
def endState {ε σ : Type} : Except (ε × σ) σ → σ
  | .ok s => s
  | .error (_, s) => s

/-- `std::vector::resize(n, v)`. -/
def vectorResize {α : Type} (l : List α) (n : Nat) (v : α) : List α :=
  l.take n ++ List.replicate (n - l.length) v

/-- The lambda `tryIndices` (lines 86-93) on the row of one frame. -/
def tryIndices (row : List (Option DeviceLocalImage)) : List Nat → Option (Nat × Nat)
  | [] => none
  | idx :: rest =>
    if idx ≥ row.length then tryIndices row rest
    else
      match row.getD idx none with
      | some img => some (img.width, img.height)
      | none => tryIndices row rest

/-- The lambda `inferModuleExtent` (lines 83-98). -/
def inferModuleExtent (pool : SharedImages) (extent : Nat × Nat) (frameIndex : Nat)
    (outputIndices inputIndices : List Nat) : Nat × Nat :=
  match tryIndices (pool.getD frameIndex []) outputIndices with
  | some size => size
  | none =>
    match tryIndices (pool.getD frameIndex []) inputIndices with
    | some size => size
    | none => extent

/-- The lambda `createImageAt` (lines 99-108): nothing when the cell is occupied. -/
def createImageAt {W : Type} (fw : Framework W) (frameIndex idx width height format : Nat)
    (s : InitState W) : InitState W :=
  match s.wp.sharedImages_.at frameIndex idx with
  | some _ => s
  | none =>
    let (id, world) := fw.newImage s.world
    { s with
      world := world
      wp := { s.wp with
        sharedImages_ := s.wp.sharedImages_.put frameIndex idx
          (some ⟨id, width, height, format, poolImageUsage fw.useAmd⟩) } }

/-- The eager allocation of slot 0 (lines 110-119), one frame. -/
def allocateSlot0 {W : Type} (fw : Framework W) (bp : WorldPipelineBlueprint) (frameIndex : Nat)
    (s : InitState W) : InitState W :=
  let (id, world) := fw.newImage s.world
  { s with
    world := world
    wp := { s.wp with
      sharedImages_ := s.wp.sharedImages_.put frameIndex 0
        (some ⟨id, fw.extent.1, fw.extent.2, bp.imageFormats_.getD 0 0, poolImageUsage fw.useAmd⟩) } }

/-- The index vector of module `i` for a direction. -/
def moduleIndices (bp : WorldPipelineBlueprint) (dir : Direction) (i : Nat) : List Nat :=
  match dir with
  | .output => bp.modulesOutputIndices_.getD i []
  | .input => bp.modulesInputIndices_.getD i []

/-- The entry point of a module for a direction. -/
def WorldModule.setOrCreate {W : Type} (m : WorldModule W) (dir : Direction) :
    List (Option DeviceLocalImage) → List Nat → Nat → W → Except String (Negotiated × W) :=
  match dir with
  | .output => m.setOrCreateOutputImages
  | .input => m.setOrCreateInputImages

/-- The message of the exception after a rejected retry (lines 148 and 174). -/
def notSetProperly (dir : Direction) : String :=
  match dir with
  | .output => "Output image not set properly"
  | .input => "Input image not set properly"

/-- One negotiation call of module `i` (lines 136, 144, 163, 170), logged. -/
def callSetOrCreate {W : Type} (m : WorldModule W) (dir : Direction) (i frameIndex : Nat)
    (retry : Bool) (images : List (Option DeviceLocalImage)) (formats : List Nat)
    (s : InitState W) : Except (String × InitState W) (Negotiated × InitState W) :=
  match m.setOrCreate dir images formats frameIndex s.world with
  | .ok (r, world) =>
    .ok (r, { s with world := world,
                     trace := s.trace ++
                       [.negotiate dir i frameIndex retry images formats (some r.result)] })
  | .error e =>
    .error (e, { s with trace := s.trace ++ [.negotiate dir i frameIndex retry images formats none] })

/-- The loop of the fallback (lines 139-142 and 166-169): allocate the empty cells of the
direction's slots at the inferred extent and reload the proposal from the pool. -/
def fallbackFill {W : Type} (fw : Framework W) (bp : WorldPipelineBlueprint) (dir : Direction)
    (i frameIndex : Nat) (extent : Nat × Nat) (indices : List Nat)
    (acc : List (Option DeviceLocalImage) × InitState W) :
    List (Option DeviceLocalImage) × InitState W :=
  forLoop indices.length
    (fun j acc =>
      let idx := indices.getD j 0
      let s1 := createImageAt fw frameIndex idx extent.1 extent.2 (bp.imageFormats_.getD idx 0)
        { acc.2 with trace := acc.2.trace ++
            [.createImageAt dir i frameIndex idx extent.1 extent.2 (bp.imageFormats_.getD idx 0)] }
      (acc.1.set j (s1.wp.sharedImages_.at frameIndex idx), s1))
    acc

/-- The write-back loop (lines 151-153 and 177-179). -/
def writeBack (frameIndex : Nat) (indices : List Nat) (images : List (Option DeviceLocalImage))
    (pool : SharedImages) : SharedImages :=
  forLoop indices.length
    (fun j pool => pool.put frameIndex (indices.getD j 0) (images.getD j none)) pool

/-- The proposal of a negotiation (lines 130-135 and 157-162): for every slot of the
direction, the image the pool holds for it and the blueprint's format of the slot. -/
def proposal (bp : WorldPipelineBlueprint) (dir : Direction) (i frameIndex : Nat)
    (pool : SharedImages) : List (Option DeviceLocalImage) × List Nat :=
  ((moduleIndices bp dir i).map fun idx => pool.at frameIndex idx,
   (moduleIndices bp dir i).map fun idx => bp.imageFormats_.getD idx 0)

/-- The fallback step after a rejected call (lines 138-142 and 165-169): the extent is
inferred from the module's output and input slots, and the loop allocates the empty cells
of the direction's slots and reloads the vector the call left. -/
def fallbackStep {W : Type} (fw : Framework W) (bp : WorldPipelineBlueprint) (dir : Direction)
    (i frameIndex : Nat) (images : List (Option DeviceLocalImage)) (s : InitState W) :
    List (Option DeviceLocalImage) × InitState W :=
  fallbackFill fw bp dir i frameIndex
    (inferModuleExtent s.wp.sharedImages_ fw.extent frameIndex
      (moduleIndices bp .output i) (moduleIndices bp .input i))
    (moduleIndices bp dir i) (images, s)

/-- The negotiation of one direction for module `i` and one frame: the block of lines
129-154 for outputs and the block of lines 156-180 for inputs. The two blocks differ in
the entry point called, the index vector walked and the message thrown; both call
`inferModuleExtent(frameIndex, moduleOutputIndices, moduleInputIndices)`. The retry is
passed the two vectors as the rejected call left them, the image vector reloaded by the
fallback. -/
def negotiate {W : Type} (fw : Framework W) (bp : WorldPipelineBlueprint) (m : WorldModule W)
    (dir : Direction) (i frameIndex : Nat) (s : InitState W) : InitStep W :=
  let indices := moduleIndices bp dir i
  let (images, formats) := proposal bp dir i frameIndex s.wp.sharedImages_
  match callSetOrCreate m dir i frameIndex false images formats s with
  | .error e => .error e
  | .ok (r1, s1) =>
    if r1.result then
      .ok { s1 with wp := { s1.wp with
              sharedImages_ := writeBack frameIndex indices r1.images s1.wp.sharedImages_ } }
    else
      let (images2, s2) := fallbackStep fw bp dir i frameIndex r1.images s1
      match callSetOrCreate m dir i frameIndex true images2 r1.formats s2 with
      | .error e => .error e
      | .ok (r2, s3) =>
        if r2.result then
          .ok { s3 with wp := { s3.wp with
                  sharedImages_ := writeBack frameIndex indices r2.images s3.wp.sharedImages_ } }
        else .error (notSetProperly dir, s3)

/-- The body of the frame loop (lines 128-181): outputs, then inputs. -/
def negotiateFrame {W : Type} (fw : Framework W) (bp : WorldPipelineBlueprint) (m : WorldModule W)
    (i frameIndex : Nat) (s : InitState W) : InitStep W :=
  match negotiate fw bp m .output i frameIndex s with
  | .error e => .error e
  | .ok s1 => negotiate fw bp m .input i frameIndex s1

/-- The body of the module loop (lines 122-183) for module `i`. -/
def initModule {W : Type} (fw : Framework W) (ctors : WorldModuleConstructors W)
    (bp : WorldPipelineBlueprint) (i : Nat) (s : InitState W) : InitStep W :=
  match ctors (bp.moduleNames_.getD i "") with
  | none => .error ("bad_function_call", s)
  | some ctor =>
    let s0 := { s with trace := s.trace ++ [.construct i] }
    match ctor s0.world with
    | .error e => .error (e, s0)
    | .ok (m, world) =>
      let s1 : InitState W :=
        { world := world
          wp := { s0.wp with worldModules_ := s0.wp.worldModules_.set i (some m) }
          trace := s0.trace ++ [.setAttributes i] }
      match m.setAttributes (bp.attributeCounts_.getD i 0) (bp.attributeKVs_.getD i []) s1.world with
      | .error e => .error (e, s1)
      | .ok world2 =>
        match loopFrom (negotiateFrame fw bp m i) 0 fw.imageCount { s1 with world := world2 } with
        | .error e => .error e
        | .ok s3 =>
          let s4 := { s3 with trace := s3.trace ++ [.build i] }
          match m.build s4.world with
          | .error e => .error (e, s4)
          | .ok world5 => .ok { s4 with world := world5 }

/-- `WorldPipelineContext::WorldPipelineContext` (lines 205-214) for one frame: the image of
slot 0 and, for every module in declared order, its context of that frame. The source
indexes `contexts()` unchecked; an entry that does not exist is null here. -/
def WorldPipelineContext.create {W : Type} (frameIndex : Nat) (wp : WorldPipeline W) (world : W) :
    WorldPipelineContext W :=
  { outputImage := wp.sharedImages_.at frameIndex 0
    worldModuleContexts := forLoop wp.worldModules_.length
      (fun i acc => acc ++ [match wp.worldModules_.getD i none with
        | some m => (m.contexts world).getD frameIndex none
        | none => none]) [] }

/-- The closing loop of `init` (lines 186-188): one context per swapchain image. -/
def createContexts {W : Type} (fw : Framework W) (s : InitState W) : InitState W :=
  forLoop fw.imageCount
    (fun i s => { s with wp := { s.wp with
      contexts_ := s.wp.contexts_.set i (some (WorldPipelineContext.create i s.wp s.world)) } }) s

/-- The allocation step of `init` (lines 77-80 and 110-119), on a freshly constructed
pipeline: the three vectors are sized, and slot 0 of every frame is created. -/
def WorldPipeline.allocate {W : Type} (fw : Framework W) (bp : WorldPipelineBlueprint)
    (world : W) : InitState W :=
  let s0 : InitState W :=
    { world := world
      wp :=
        { worldModules_ := vectorResize [] bp.moduleNames_.length none
          sharedImages_ :=
            vectorResize [] fw.imageCount (List.replicate bp.imageFormats_.length none)
          contexts_ := vectorResize [] fw.imageCount none }
      trace := [] }
  forLoop fw.imageCount (allocateSlot0 fw bp) s0

/-- `WorldPipeline::init` (lines 73-189), on a freshly constructed pipeline: the allocation
step, the module loop and the context loop. -/
def WorldPipeline.init {W : Type} (fw : Framework W) (ctors : WorldModuleConstructors W)
    (bp : WorldPipelineBlueprint) (world : W) : InitStep W :=
  match loopDown (initModule fw ctors bp) bp.moduleNames_.length
      (WorldPipeline.allocate fw bp world) with
  | .ok s2 => .ok (createContexts fw s2)
  | .error e => .error e

/-- The state an `init` step ends in, whether it returned or threw. -/
def InitStep.state {W : Type} (r : InitStep W) : InitState W :=
  match r with
  | .ok s => s
  | .error (_, s) => s

/-- Whether an `init` step threw. -/
def InitStep.throws {W : Type} (r : InitStep W) : Bool :=
  match r with
  | .ok _ => false
  | .error _ => true

/-! ## The fallback extent as the specification words it -/

/-- The first non-empty pool cell among the given slot indices, in declared order. -/
def firstResolved (pool : SharedImages) (frameIndex : Nat) (indices : List Nat) :
    Option DeviceLocalImage :=
  (indices.filterMap (fun idx => pool.at frameIndex idx)).head?

/-- The fallback extent in the words of the specification: the size of the first resolved
output slot, else of the first resolved input slot, else the swapchain extent. -/
def specFallbackExtent (pool : SharedImages) (extent : Nat × Nat) (frameIndex : Nat)
    (outputIndices inputIndices : List Nat) : Nat × Nat :=
  match firstResolved pool frameIndex outputIndices with
  | some img => (img.width, img.height)
  | none =>
    match firstResolved pool frameIndex inputIndices with
    | some img => (img.width, img.height)
    | none => extent

/-! ## Reading the log of `init` -/

/-- The module an event belongs to. -/
def InitEvent.module : InitEvent → Nat
  | .construct i => i
  | .setAttributes i => i
  | .negotiate _ i _ _ _ _ _ => i
  | .createImageAt _ i _ _ _ _ _ => i
  | .build i => i

/-- The negotiation calls for one direction, module and frame found in a log, in order:
for each the call site (`true` for the retry) and the returned flag. -/
def negotiationCalls (dir : Direction) (i frameIndex : Nat) (trace : List InitEvent) :
    List (Bool × Option Bool) :=
  trace.filterMap fun e =>
    match e with
    | .negotiate d i1 f1 retry _ _ result =>
      if d = dir ∧ i1 = i ∧ f1 = frameIndex then some (retry, result) else none
    | _ => none

/-- The fallback allocations (calls of `createImageAt`) for one direction, module and
frame found in a log. -/
def fallbackAllocations (dir : Direction) (i frameIndex : Nat) (trace : List InitEvent) :
    List InitEvent :=
  trace.filter fun e =>
    match e with
    | .createImageAt d i1 f1 _ _ _ _ => decide (d = dir ∧ i1 = i ∧ f1 = frameIndex)
    | _ => false

/-- The calls of `createImageAt` a fallback makes, one per slot of the direction. -/
def fallbackEvents (bp : WorldPipelineBlueprint) (dir : Direction) (i frameIndex : Nat)
    (extent : Nat × Nat) (indices : List Nat) : List InitEvent :=
  indices.map fun idx =>
    .createImageAt dir i frameIndex idx extent.1 extent.2 (bp.imageFormats_.getD idx 0)

/-- The shape of the log of one negotiation; the flag tells whether it returned. -/
inductive NegotiationLog (bp : WorldPipelineBlueprint) (dir : Direction) (i frameIndex : Nat) :
    List InitEvent → Bool → Prop where
  | accepted (images : List (Option DeviceLocalImage)) (formats : List Nat) :
      NegotiationLog bp dir i frameIndex
        [.negotiate dir i frameIndex false images formats (some true)] true
  | threw (images : List (Option DeviceLocalImage)) (formats : List Nat) :
      NegotiationLog bp dir i frameIndex
        [.negotiate dir i frameIndex false images formats none] false
  | retried (images : List (Option DeviceLocalImage)) (formats : List Nat) (extent : Nat × Nat)
      (images2 : List (Option DeviceLocalImage)) (formats2 : List Nat) (result2 : Option Bool) :
      NegotiationLog bp dir i frameIndex
        (.negotiate dir i frameIndex false images formats (some false) ::
          (fallbackEvents bp dir i frameIndex extent (moduleIndices bp dir i) ++
            [.negotiate dir i frameIndex true images2 formats2 result2]))
        (result2 == some true)

/-- The shape of the log of the frame loop of module `i` over the frames
`start, ..., start + count - 1`. -/
inductive FramesLog (bp : WorldPipelineBlueprint) (i : Nat) :
    Nat → Nat → List InitEvent → Bool → Prop where
  | done (start : Nat) : FramesLog bp i start 0 [] true
  | frame {start count : Nat} {a b rest : List InitEvent} {ok : Bool} :
      NegotiationLog bp .output i start a true → NegotiationLog bp .input i start b true →
      FramesLog bp i (start + 1) count rest ok → FramesLog bp i start (count + 1) (a ++ (b ++ rest)) ok
  | outputFailed {start count : Nat} {a : List InitEvent} :
      NegotiationLog bp .output i start a false → FramesLog bp i start (count + 1) a false
  | inputFailed {start count : Nat} {a b : List InitEvent} :
      NegotiationLog bp .output i start a true → NegotiationLog bp .input i start b false →
      FramesLog bp i start (count + 1) (a ++ b) false

/-- The shape of the log of the body of the module loop for module `i`. -/
inductive ModuleLog (bp : WorldPipelineBlueprint) (frameNum i : Nat) : List InitEvent → Bool → Prop where
  | noConstructor : ModuleLog bp frameNum i [] false
  | constructThrew : ModuleLog bp frameNum i [.construct i] false
  | setAttributesThrew : ModuleLog bp frameNum i [.construct i, .setAttributes i] false
  | framesFailed {seg : List InitEvent} : FramesLog bp i 0 frameNum seg false →
      ModuleLog bp frameNum i (.construct i :: .setAttributes i :: seg) false
  | built {seg : List InitEvent} (ok : Bool) : FramesLog bp i 0 frameNum seg true →
      ModuleLog bp frameNum i (.construct i :: .setAttributes i :: (seg ++ [.build i])) ok

/-- The shape of the log of the module loop over the modules `n - 1, ..., 0`. -/
inductive ModulesLog (bp : WorldPipelineBlueprint) (frameNum : Nat) :
    Nat → List InitEvent → Bool → Prop where
  | done : ModulesLog bp frameNum 0 [] true
  | module {n : Nat} {a rest : List InitEvent} {ok : Bool} :
      ModuleLog bp frameNum n a true → ModulesLog bp frameNum n rest ok →
      ModulesLog bp frameNum (n + 1) (a ++ rest) ok
  | failed {n : Nat} {a : List InitEvent} :
      ModuleLog bp frameNum n a false → ModulesLog bp frameNum (n + 1) a false

/-- The direction, module and frame of a negotiation event (a call of a negotiation entry
point or a fallback allocation). -/
def InitEvent.tag : InitEvent → Option (Direction × Nat × Nat)
  | .negotiate dir i f _ _ _ _ => some (dir, i, f)
  | .createImageAt dir i f _ _ _ _ => some (dir, i, f)
  | _ => none

/-- The operations `init` performs on a module. -/
inductive ModuleOperation where
  | construct (i : Nat)
  | setAttributes (i : Nat)
  | negotiateOutputs (i frameIndex : Nat)
  | negotiateInputs (i frameIndex : Nat)
  | build (i : Nat)
deriving Repr, DecidableEq

/-- The operation an event opens. The first call of a negotiation opens it; the fallback
allocations and the retry are steps of the negotiation already open. -/
def InitEvent.operation : InitEvent → Option ModuleOperation
  | .construct i => some (.construct i)
  | .setAttributes i => some (.setAttributes i)
  | .negotiate .output i f false _ _ _ => some (.negotiateOutputs i f)
  | .negotiate .input i f false _ _ _ => some (.negotiateInputs i f)
  | .negotiate _ _ _ true _ _ _ => none
  | .createImageAt _ _ _ _ _ _ _ => none
  | .build i => some (.build i)

/-- The operations on module `i`, in the order the specification gives them. -/
def moduleOperations (frameNum i : Nat) : List ModuleOperation :=
  .construct i :: .setAttributes i ::
    ((List.range' 0 frameNum).flatMap
        (fun f => [ModuleOperation.negotiateOutputs i f, ModuleOperation.negotiateInputs i f]) ++
      [.build i])

/-- The operations of a whole `init` over `n` modules: module `n - 1` first, module `0` last. -/
def expectedOperations (frameNum : Nat) : Nat → List ModuleOperation
  | 0 => []
  | n + 1 => moduleOperations frameNum n ++ expectedOperations frameNum n

/-- What the calls and the fallback allocations of one negotiation can be: no call at all;
one accepted call; one call that threw; or a rejected call followed by exactly one retry.
Only the last comes with fallback allocations. -/
def CallsWellFormed (calls : List (Bool × Option Bool)) (allocs : List InitEvent) : Prop :=
  (calls = [] ∧ allocs = []) ∨ (calls = [(false, some true)] ∧ allocs = []) ∨
    (calls = [(false, none)] ∧ allocs = []) ∨
    ∃ result2, calls = [(false, some false), (true, result2)]

/-! ## A small pipeline to run `init` on -/

/-- A framework with two swapchain images of 1920 x 1080; the outside state is the
counter of image objects created so far. -/
def demoFramework : Framework Nat :=
  { imageCount := 2, extent := (1920, 1080), useAmd := false, newImage := fun w => (w, w + 1) }

/-- A module that accepts every proposal as it is. -/
def acceptingModule : WorldModule Nat :=
  { setAttributes := fun _ _ w => .ok w
    setOrCreateOutputImages := fun images formats _ w => .ok (⟨true, images, formats⟩, w)
    setOrCreateInputImages := fun images formats _ w => .ok (⟨true, images, formats⟩, w)
    build := fun w => .ok w
    contexts := fun _ => [none, none]
    preClose := fun w => w }

/-- A module that rejects a proposal with a null entry and accepts any other. -/
def strictModule : WorldModule Nat :=
  { setAttributes := fun _ _ w => .ok w
    setOrCreateOutputImages := fun images formats _ w =>
      .ok (⟨images.all Option.isSome, images, formats⟩, w)
    setOrCreateInputImages := fun images formats _ w =>
      .ok (⟨images.all Option.isSome, images, formats⟩, w)
    build := fun w => .ok w
    contexts := fun _ => [none, none]
    preClose := fun w => w }

/-- A module that rejects every proposal. -/
def rejectingModule : WorldModule Nat :=
  { setAttributes := fun _ _ w => .ok w
    setOrCreateOutputImages := fun images formats _ w => .ok (⟨false, images, formats⟩, w)
    setOrCreateInputImages := fun images formats _ w => .ok (⟨false, images, formats⟩, w)
    build := fun w => .ok w
    contexts := fun _ => [none, none]
    preClose := fun w => w }

/-- The constructors of the three modules above. -/
def demoConstructors : WorldModuleConstructors Nat := fun name =>
  if name = "accept" then some (fun w => .ok (acceptingModule, w))
  else if name = "strict" then some (fun w => .ok (strictModule, w))
  else if name = "reject" then some (fun w => .ok (rejectingModule, w))
  else none

/-- Module 0 (`first`) reads slot 2 and writes slot 1; module 1 (`accept`) reads slot 1 and
writes slot 0. -/
def demoBlueprint (first : String) : WorldPipelineBlueprint :=
  { moduleNames_ := [first, "accept"]
    attributeCounts_ := [0, 0]
    attributeKVs_ := [[], []]
    modulesInputIndices_ := [[2], [1]]
    modulesOutputIndices_ := [[1], [0]]
    imageFormats_ := [37, 97, 97] }

/-! ## Frame executor: `render` and `fuseWorld` -/

/-- The layout slot 0 is presented in: `COLOR_ATTACHMENT_OPTIMAL` when built with
`USE_AMD`, `PRESENT_SRC_KHR` otherwise. -/
def presentLayout (useAmd : Bool) : VkImageLayout :=
  if useAmd then VK_IMAGE_LAYOUT_COLOR_ATTACHMENT_OPTIMAL else VK_IMAGE_LAYOUT_PRESENT_SRC_KHR

/-- The preflight of `render` (lines 222-255). -/
def WorldPipelineContext.preflight {W : Type} (useAmd : Bool) (ctx : WorldPipelineContext W)
    (s : RenderState W) : RenderState W :=
  match ctx.outputImage with
  | some outputImage =>
    if s.layouts outputImage.id = VK_IMAGE_LAYOUT_UNDEFINED then
      (s.barriers [{ oldLayout := VK_IMAGE_LAYOUT_UNDEFINED, newLayout := presentLayout useAmd,
                     image := outputImage.id }]).setLayout outputImage.id (presentLayout useAmd)
    else s
  | none => s

/-- The loop over the module contexts (line 257). The source calls `render()` on every
entry unchecked; a null entry is skipped in the model. -/
def WorldPipelineContext.renderModules {W : Type}
    (contexts : List (Option (WorldModuleContext W))) (s : RenderState W) : RenderState W :=
  forLoop contexts.length
    (fun i s => match contexts.getD i none with
      | some render => render s
      | none => s) s

/-- The closing transition of `render` (lines 259-282). The source dereferences
`outputImage` unchecked here; a null `outputImage` leaves the state as it is in the model. -/
def WorldPipelineContext.closeFrame {W : Type} (useAmd : Bool) (ctx : WorldPipelineContext W)
    (s : RenderState W) : RenderState W :=
  match ctx.outputImage with
  | some outputImage =>
    (s.barriers [{ oldLayout := s.layouts outputImage.id, newLayout := presentLayout useAmd,
                   image := outputImage.id }]).setLayout outputImage.id (presentLayout useAmd)
  | none => s

/-- `WorldPipelineContext::render()`. -/
def WorldPipelineContext.render {W : Type} (useAmd : Bool) (ctx : WorldPipelineContext W)
    (s : RenderState W) : RenderState W :=
  ctx.closeFrame useAmd (WorldPipelineContext.renderModules ctx.worldModuleContexts
    (ctx.preflight useAmd s))

/-- `PipelineContext::fuseWorld()` (lines 467-579) on the overlay command buffer.
`isRunning` is `framework->isRunning()`, `uiEnd` is `uiModuleContext->end()`, `overlay` is
`uiModuleContext->overlayDrawColorImage`. -/
def PipelineContext.fuseWorld {W : Type} (useAmd isRunning : Bool)
    (uiEnd : RenderState W → RenderState W) (outputImage overlay : DeviceLocalImage)
    (s : RenderState W) :
    RenderState W :=
  if !isRunning then s
  else
    let s1 := uiEnd s
    let s2 : RenderState W :=
      { s1 with overlayCommandBuffer := s1.overlayCommandBuffer ++
          [.barriersBufferImage
            [{ oldLayout := presentLayout useAmd, newLayout := VK_IMAGE_LAYOUT_TRANSFER_SRC_OPTIMAL,
               image := outputImage.id },
             { oldLayout := s1.layouts overlay.id, newLayout := VK_IMAGE_LAYOUT_TRANSFER_DST_OPTIMAL,
               image := overlay.id }]] }
    let s3 := s2.setLayout overlay.id VK_IMAGE_LAYOUT_TRANSFER_DST_OPTIMAL
    let s4 : RenderState W :=
      { s3 with overlayCommandBuffer := s3.overlayCommandBuffer ++
          [.blitImage outputImage.id VK_IMAGE_LAYOUT_TRANSFER_SRC_OPTIMAL overlay.id
              (s3.layouts overlay.id) (outputImage.width, outputImage.height)
              (overlay.width, overlay.height),
           .barriersBufferImage
            [{ oldLayout := VK_IMAGE_LAYOUT_TRANSFER_SRC_OPTIMAL, newLayout := presentLayout useAmd,
               image := outputImage.id },
             { oldLayout := s3.layouts overlay.id, newLayout := presentLayout useAmd,
               image := overlay.id }]] }
    (s4.setLayout overlay.id (presentLayout useAmd)).setLayout outputImage.id (presentLayout useAmd)

/-- The barriers on `image` among the commands of a command buffer, in recording order. -/
def barriersOn (image : Nat) (commands : List Command) : List ImageBarrier :=
  commands.flatMap fun c =>
    match c with
    | .barriersBufferImage bs => bs.filter (fun b => b.image = image)
    | _ => []

/-- A pipeline context over the image with identity 0 and one module context that leaves
slot 0 in `GENERAL`. -/
def demoPipelineContext : WorldPipelineContext Unit :=
  { outputImage := some ⟨0, 1920, 1080, 37, 28⟩
    worldModuleContexts := [some (fun s => s.setLayout 0 VK_IMAGE_LAYOUT_GENERAL)] }

/-- A frame state in which no image has been written yet. -/
def demoRenderState : RenderState Unit :=
  { layouts := fun _ => VK_IMAGE_LAYOUT_UNDEFINED
    worldCommandBuffer := []
    overlayCommandBuffer := []
    world := () }

/-! ## binary32 arithmetic

`float` values are kept exactly. A finite value is `± mantissa * 2 ^ exponent / 2 ^ 149`,
so that every binary32 number, subnormal or normal, has such a form with a natural
exponent; arithmetic results are rounded to nearest, ties to even, as IEEE 754 asks. -/

/-- A `float`. -/
inductive F32 where
  | nan
  | inf (negative : Bool)
  | finite (negative : Bool) (mantissa exponent : Nat)
deriving Repr, DecidableEq

/-- The position of the leading bit of `n`, by halving; `acc` counts the halvings. -/
def floorLog2Aux : Nat → Nat → Nat → Nat
  | 0, _, acc => acc
  | fuel + 1, n, acc => if n < 2 then acc else floorLog2Aux fuel (n / 2) (acc + 1)

/-- The position of the leading bit of `n`: the largest `k` with `2 ^ k ≤ n` (0 for 0). -/
def floorLog2 (n : Nat) : Nat := floorLog2Aux n n 0

/-- The binary32 value nearest to `p / q` (`q ≠ 0`), ties to even, with the given sign.
With `P = p * 2 ^ 149`, the exponent `e` is the one that brings `P / (q * 2 ^ e)` into
`[2 ^ 23, 2 ^ 24)`, or 0 in the subnormal range; a result beyond the largest finite
value is an infinity. -/
def F32.roundRatio (negative : Bool) (p q : Nat) : F32 :=
  let P := p * 2 ^ 149
  let e := floorLog2 (P / q) - 23
  let D := q * 2 ^ e
  let m0 := P / D
  let r := P % D
  let m := if 2 * r < D then m0 else if D < 2 * r then m0 + 1 else m0 + m0 % 2
  if 254 ≤ e ∨ (e = 253 ∧ 2 ^ 24 ≤ m) then .inf negative else .finite negative m e

/-- `static_cast<float>(n)` for a `uint32_t`. -/
def F32.ofUInt32 (n : Nat) : F32 := F32.roundRatio false n 1

/-- The quotient `a / b` of two floats. -/
def F32.div : F32 → F32 → F32
  | .nan, _ => .nan
  | _, .nan => .nan
  | .inf _, .inf _ => .nan
  | .inf s1, .finite s2 _ _ => .inf (xor s1 s2)
  | .finite s1 _ _, .inf s2 => .finite (xor s1 s2) 0 0
  | .finite s1 m1 e1, .finite s2 m2 e2 =>
    if m2 = 0 then (if m1 = 0 then .nan else .inf (xor s1 s2))
    else F32.roundRatio (xor s1 s2) (m1 * 2 ^ e1) (m2 * 2 ^ e2)

/-- `static_cast<uint32_t>(x)`: truncation toward zero. The conversion is undefined in C++
when the truncated value does not fit; the model then yields the value modulo `2 ^ 32`
for a positive finite float and 0 otherwise. -/
def F32.toUInt32 : F32 → Nat
  | .finite false m e => (m * 2 ^ e / 2 ^ 149) % 2 ^ 32
  | _ => 0

/-- The comparison `a < b` of two floats; false when either is a NaN. -/
def F32.lt : F32 → F32 → Bool
  | .nan, _ => false
  | _, .nan => false
  | .inf n1, .inf n2 => n1 && !n2
  | .inf n, .finite _ _ _ => n
  | .finite _ _ _, .inf n => !n
  | .finite false m1 e1, .finite false m2 e2 => decide (m1 * 2 ^ e1 < m2 * 2 ^ e2)
  | .finite true m1 e1, .finite true m2 e2 => decide (m2 * 2 ^ e2 < m1 * 2 ^ e1)
  | .finite true m1 _, .finite false m2 _ => decide (m1 ≠ 0 ∨ m2 ≠ 0)
  | .finite false _ _, .finite true _ _ => false

/-- The comparison `a > b` of two floats. -/
def F32.gt (a b : F32) : Bool := F32.lt b a

/-- The negation `-a`. -/
def F32.neg : F32 → F32
  | .nan => .nan
  | .inf n => .inf (!n)
  | .finite n m e => .finite (!n) m e

/-- The literal `0.0f`. -/
def f32_0_0 : F32 := .finite false 0 0
/-- The literal `0.5f`. -/
def f32_0_5 : F32 := .finite false 8388608 125
/-- The literal `0.866f`: the binary32 value nearest to 0.866 is `14529069 / 2 ^ 24`. -/
def f32_0_866 : F32 := .finite false 14529069 125
/-- The binary32 value nearest to 0.99, `16609444 / 2 ^ 24`. -/
def f32_0_99 : F32 := .finite false 16609444 125
/-- The literal `1.0f`. -/
def f32_1_0 : F32 := .finite false 8388608 126
/-- The literal `1.3f`: the binary32 value nearest to 1.3 is `10905190 / 2 ^ 23`. -/
def f32_1_3 : F32 := .finite false 10905190 126
/-- The literal `1.5f`. -/
def f32_1_5 : F32 := .finite false 12582912 126
/-- The literal `1.7f`: the binary32 value nearest to 1.7 is `14260634 / 2 ^ 23`. -/
def f32_1_7 : F32 := .finite false 14260634 126
/-- The literal `2.0f`. -/
def f32_2_0 : F32 := .finite false 8388608 127
/-- The literal `2.3f`: the binary32 value nearest to 2.3 is `9646899 / 2 ^ 22`. -/
def f32_2_3 : F32 := .finite false 9646899 127
/-- The literal `3.0f`. -/
def f32_3_0 : F32 := .finite false 12582912 127

/-- A `glm::vec3`. -/
structure Vec3 where
  x : F32
  y : F32
  z : F32
deriving Repr, DecidableEq

/-- The glm functions `checkCameraReset` calls; glm is outside the repository. -/
structure Glm where
  sub : Vec3 → Vec3 → Vec3
  length : Vec3 → F32
  normalize : Vec3 → Vec3
  dot : Vec3 → Vec3 → F32

/-! ## XeSS wrapper (`xess_wrapper.hpp`, `xess_wrapper.cpp`) -/

/-- `mcvr::XeSSQualityMode` (xess_wrapper.hpp lines 10-18). -/
inductive XeSSQualityMode where
  | NativeAA
  | UltraQualityPlus
  | UltraQuality
  | Quality
  | Balanced
  | Performance
  | UltraPerformance
deriving Repr, DecidableEq

/-- The SDK's `xess_quality_settings_t` values the wrapper produces. -/
inductive XessQualitySetting where
  | AA
  | QUALITY
  | BALANCED
  | PERFORMANCE
  | ULTRA_PERFORMANCE
deriving Repr, DecidableEq

/-- `mcvr::XeSSImage`; a handle is a number and `VK_NULL_HANDLE` is 0. -/
structure XeSSImage where
  imageView : Nat
  image : Nat
  format : Nat
  width : Nat
  height : Nat
deriving Repr, DecidableEq

/-- `mcvr::XeSSConfig`. -/
structure XeSSConfig where
  vkInstance : Nat
  physicalDevice : Nat
  device : Nat
  renderWidth : Nat
  renderHeight : Nat
  displayWidth : Nat
  displayHeight : Nat
  qualityMode : XeSSQualityMode
  initFlags : Nat
  velocityScaleX : F32
  velocityScaleY : F32
deriving Repr, DecidableEq

/-- `mcvr::XeSSInput`. -/
structure XeSSInput where
  commandBuffer : Nat
  colorTexture : XeSSImage
  velocityTexture : XeSSImage
  depthTexture : XeSSImage
  exposureTexture : XeSSImage
  responsiveMaskTexture : XeSSImage
  outputTexture : XeSSImage
  jitterOffsetX : F32
  jitterOffsetY : F32
  exposureScale : F32
  resetHistory : Bool
  inputWidth : Nat
  inputHeight : Nat
deriving Repr, DecidableEq

/-- The XeSS SDK, which is outside the repository: whether the build has
`MCVR_ENABLE_XESS`, and what each SDK entry point answers. `xessVKCreateContext` yields
whether it reported success and the context handle; the resolution queries yield whether
they reported success and the resolution they wrote. -/
structure XessSdk where
  enabled : Bool
  xessVKCreateContext : Nat → Nat → Nat → Bool × Nat
  xessVKInit : Nat → Nat × Nat → XessQualitySetting → Nat → Bool
  xessVKExecute : Nat → XeSSInput → Bool
  xessGetOptimalInputResolution : Nat → Nat × Nat → XessQualitySetting → Bool × (Nat × Nat)
  xessGetInputResolution : Nat → Nat × Nat → XessQualitySetting → Bool × (Nat × Nat)

/-- The data members of `mcvr::XeSSWrapper` (xess_wrapper.hpp lines 98-116). -/
structure XeSSWrapper where
  instance_ : Nat
  physicalDevice_ : Nat
  device_ : Nat
  renderWidth_ : Nat
  renderHeight_ : Nat
  displayWidth_ : Nat
  displayHeight_ : Nat
  qualityMode_ : XeSSQualityMode
  initFlags_ : Nat
  velocityScaleX_ : F32
  velocityScaleY_ : F32
  initialized_ : Bool
  contextCreated_ : Bool
  contextHandle_ : Nat
deriving Repr, DecidableEq

/-- A default-constructed wrapper. -/
def XeSSWrapper.new : XeSSWrapper :=
  { instance_ := 0, physicalDevice_ := 0, device_ := 0
    renderWidth_ := 0, renderHeight_ := 0, displayWidth_ := 0, displayHeight_ := 0
    qualityMode_ := .Quality, initFlags_ := 0
    velocityScaleX_ := f32_1_0, velocityScaleY_ := f32_1_0
    initialized_ := false, contextCreated_ := false, contextHandle_ := 0 }

/-- The lambda `toXeSSQuality` (xess_wrapper.cpp lines 85-94 and 268-277). -/
def toXeSSQuality : XeSSQualityMode → XessQualitySetting
  | .NativeAA => .AA
  | .Quality => .QUALITY
  | .Balanced => .BALANCED
  | .Performance => .PERFORMANCE
  | .UltraPerformance => .ULTRA_PERFORMANCE
  | _ => .QUALITY

/-- `XeSSWrapper::destroy()` (lines 222-231). -/
def XeSSWrapper.destroy (sdk : XessSdk) (w : XeSSWrapper) : XeSSWrapper :=
  { w with
    contextHandle_ := if sdk.enabled && w.contextCreated_ && w.contextHandle_ != 0 then 0
      else w.contextHandle_
    initialized_ := false
    contextCreated_ := false }

/-- `XeSSWrapper::initContextAndPipelines()` (lines 245-258): the flag returned and the
wrapper it leaves. -/
def XeSSWrapper.initContextAndPipelines (sdk : XessSdk) (w : XeSSWrapper) : Bool × XeSSWrapper :=
  if !sdk.enabled then (false, w)
  else
    let (success, handle) := sdk.xessVKCreateContext w.instance_ w.physicalDevice_ w.device_
    let w1 := { w with contextHandle_ := handle }
    if !success || handle = 0 then (false, w1)
    else (true, { w1 with contextCreated_ := true })

/-- `XeSSWrapper::initXeSS(...)` (lines 260-305). The result of `xessSetVelocityScale` is
only logged by the source. -/
def XeSSWrapper.initXeSS (sdk : XessSdk) (w : XeSSWrapper) (displayWidth displayHeight : Nat)
    (qualityMode : XeSSQualityMode) (initFlags : Nat) : Bool :=
  if !sdk.enabled then false
  else sdk.xessVKInit w.contextHandle_ (displayWidth, displayHeight) (toXeSSQuality qualityMode)
    initFlags

/-- `XeSSWrapper::initialize(config)` (lines 123-158): the flag returned and the wrapper it
leaves. -/
def XeSSWrapper.initialize (sdk : XessSdk) (w : XeSSWrapper) (config : XeSSConfig) :
    Bool × XeSSWrapper :=
  let w0 := XeSSWrapper.destroy sdk w
  let w1 : XeSSWrapper :=
    { w0 with
      instance_ := config.vkInstance
      physicalDevice_ := config.physicalDevice
      device_ := config.device
      renderWidth_ := config.renderWidth
      renderHeight_ := config.renderHeight
      displayWidth_ := config.displayWidth
      displayHeight_ := config.displayHeight
      qualityMode_ := config.qualityMode
      initFlags_ := config.initFlags
      velocityScaleX_ := config.velocityScaleX
      velocityScaleY_ := config.velocityScaleY }
  if w1.instance_ = 0 || w1.physicalDevice_ = 0 || w1.device_ = 0 || w1.renderWidth_ = 0 ||
      w1.renderHeight_ = 0 || w1.displayWidth_ = 0 || w1.displayHeight_ = 0 then (false, w1)
  else if !sdk.enabled then (false, w1)
  else
    let (created, w2) := XeSSWrapper.initContextAndPipelines sdk w1
    if !created then (false, w2)
    else if !XeSSWrapper.initXeSS sdk w2 w2.displayWidth_ w2.displayHeight_ w2.qualityMode_
        w2.initFlags_ then
      (false, XeSSWrapper.destroy sdk w2)
    else (true, { w2 with initialized_ := true })

/-- `XeSSWrapper::isImageValid(image)` (lines 307-310); `VK_FORMAT_UNDEFINED` is 0. -/
def XeSSWrapper.isImageValid (image : XeSSImage) : Bool :=
  image.image != 0 && image.imageView != 0 && image.format != 0 && decide (image.width > 0) &&
    decide (image.height > 0)

/-- `XeSSWrapper::dispatch(input)` (lines 175-220). -/
def XeSSWrapper.dispatch (sdk : XessSdk) (w : XeSSWrapper) (input : XeSSInput) : Bool :=
  if !w.initialized_ || !w.contextCreated_ || input.commandBuffer = 0 then false
  else if !XeSSWrapper.isImageValid input.colorTexture ||
      !XeSSWrapper.isImageValid input.velocityTexture ||
      !XeSSWrapper.isImageValid input.outputTexture ||
      input.inputWidth = 0 || input.inputHeight = 0 then false
  else if !sdk.enabled then false
  else sdk.xessVKExecute w.contextHandle_ input

/-- `XeSSWrapper::queryOptimalInputResolution(...)` (lines 61-121): `none` when it returns
false, the resolution written through the two pointers when it returns true. -/
def XeSSWrapper.queryOptimalInputResolution (sdk : XessSdk) (vkInstance physicalDevice device : Nat)
    (outputWidth outputHeight : Nat) (qualityMode : XeSSQualityMode) : Option (Nat × Nat) :=
  if !sdk.enabled then none
  else if vkInstance = 0 || physicalDevice = 0 || device = 0 || outputWidth = 0 ||
      outputHeight = 0 then none
  else
    let (created, ctx) := sdk.xessVKCreateContext vkInstance physicalDevice device
    if !created || ctx = 0 then none
    else
      let (ok1, optimal1) := sdk.xessGetOptimalInputResolution ctx (outputWidth, outputHeight)
        (toXeSSQuality qualityMode)
      let optimal :=
        if !ok1 || optimal1.1 = 0 || optimal1.2 = 0 then
          let (ok2, inputRes) := sdk.xessGetInputResolution ctx (outputWidth, outputHeight)
            (toXeSSQuality qualityMode)
          if ok2 && decide (inputRes.1 > 0) && decide (inputRes.2 > 0) then inputRes else optimal1
        else optimal1
      if optimal.1 = 0 || optimal.2 = 0 then none else some optimal

/-! ## XeSS super-resolution module (`xess_sr_module.hpp`, `xess_sr_module.cpp`) -/

/-- `XessSrModule::QualityMode` (xess_sr_module.hpp lines 16-24). -/
inductive QualityMode where
  | NativeAA
  | UltraQualityPlus
  | UltraQuality
  | Quality
  | Balanced
  | Performance
  | UltraPerformance
deriving Repr, DecidableEq

/-- The numeric value of a quality mode. -/
def QualityMode.code : QualityMode → Nat
  | .NativeAA => 0
  | .UltraQualityPlus => 1
  | .UltraQuality => 2
  | .Quality => 3
  | .Balanced => 4
  | .Performance => 5
  | .UltraPerformance => 6

/-- `static_cast<mcvr::XeSSQualityMode>(qualityMode_)`: the enumerator of the same value. -/
def QualityMode.toXeSS : QualityMode → XeSSQualityMode
  | .NativeAA => .NativeAA
  | .UltraQualityPlus => .UltraQualityPlus
  | .UltraQuality => .UltraQuality
  | .Quality => .Quality
  | .Balanced => .Balanced
  | .Performance => .Performance
  | .UltraPerformance => .UltraPerformance

/-- `XessSrModule::inputImageNum`: color, depth, motion vectors, firstHitDepth. -/
def XessSrModule.inputImageNum : Nat := 4
/-- `XessSrModule::outputImageNum`: upscaled HDR output, upscaled firstHitDepth. -/
def XessSrModule.outputImageNum : Nat := 2

/-- The data members of `XessSrModule` (xess_sr_module.hpp lines 68-92) with their
initialisers; the descriptor tables and the compute pipeline are Vulkan objects the claims
do not read and are left out. -/
structure XessSrModule where
  renderWidth_ : Nat := 0
  renderHeight_ : Nat := 0
  displayWidth_ : Nat := 0
  displayHeight_ : Nat := 0
  qualityMode_ : QualityMode := .Quality
  preExposure_ : F32 := f32_1_0
  xessEnabled_ : Bool := true
  xess_ : Option XeSSWrapper := none
  initialized_ : Bool := false
  deviceDepthImages_ : List (Option DeviceLocalImage) := []
  xessMotionVectorImages_ : List (Option DeviceLocalImage) := []
  lastCameraPos_ : Vec3 := ⟨f32_0_0, f32_0_0, f32_0_0⟩
  lastCameraDir_ : Vec3 := ⟨f32_0_0, f32_0_0, .finite true 8388608 126⟩
  firstFrame_ : Bool := true
  inputImages_ : List (List (Option DeviceLocalImage)) := []
  outputImages_ : List (List (Option DeviceLocalImage)) := []
deriving Repr, DecidableEq

/-- What the module reads from the framework once `framework_.lock()` has succeeded. -/
structure XessFramework where
  extent : Nat × Nat
  imageCount : Nat
  vkInstance : Nat
  vkPhysicalDevice : Nat
  vkDevice : Nat

/-- The surroundings of a call into the module: the SDK, `std::stof` (which throws
`std::invalid_argument` or `std::out_of_range`), glm, and the result of
`framework_.lock()`. -/
structure XessEnv where
  sdk : XessSdk
  stof : String → Except String F32
  glm : Glm
  framework : Option XessFramework

/-- `XessSrModule::isQualityModeAttributeKey` (lines 14-16). -/
def XessSrModule.isQualityModeAttributeKey (key : String) : Bool :=
  key = "render_pipeline.module.xess_sr.attribute.quality_mode"

/-- The `std::transform` with `std::tolower` of line 20, in the "C" locale. -/
def toLowerString (value : String) : String :=
  ⟨value.data.map Char.toLower⟩

/-- `XessSrModule::parseQualityModeValue` (lines 18-59): the mode written to `outMode`
when it returns true, `none` when it returns false. -/
def XessSrModule.parseQualityModeValue (value : String) : Option QualityMode :=
  let v := toLowerString value
  if v = "0" || v = "native" || v = "native_aa" || v = "1x" ||
      v = "render_pipeline.module.xess_sr.attribute.quality_mode.native_aa" ||
      v = "render_pipeline.module.xess_sr.attribute.quality_mode.native_anti_aliasing" then
    some .NativeAA
  else if v = "ultra_quality_plus" || v = "uq_plus" || v = "uqp" || v = "ultraqualityplus" ||
      v = "render_pipeline.module.xess_sr.attribute.quality_mode.ultra_quality_plus" ||
      v = "1" then
    some .UltraQualityPlus
  else if v = "ultra_quality" || v = "ultraquality" ||
      v = "render_pipeline.module.xess_sr.attribute.quality_mode.ultra_quality" || v = "2" then
    some .UltraQuality
  else if v = "3" || v = "quality" ||
      v = "render_pipeline.module.xess_sr.attribute.quality_mode.quality" then
    some .Quality
  else if v = "4" || v = "balanced" ||
      v = "render_pipeline.module.xess_sr.attribute.quality_mode.balanced" then
    some .Balanced
  else if v = "5" || v = "performance" ||
      v = "render_pipeline.module.xess_sr.attribute.quality_mode.performance" then
    some .Performance
  else if v = "6" || v = "ultra" || v = "ultra_performance" || v = "ultra_performance_3x" ||
      v = "render_pipeline.module.xess_sr.attribute.quality_mode.ultra_performance" then
    some .UltraPerformance
  else none

/-- The `ratio` chosen by the `switch` of `getRenderResolution` (lines 343-352). -/
def renderRatio : QualityMode → F32
  | .NativeAA => f32_1_0
  | .UltraQualityPlus => f32_1_3
  | .UltraQuality => f32_1_5
  | .Quality => f32_1_7
  | .Balanced => f32_2_0
  | .Performance => f32_2_3
  | .UltraPerformance => f32_3_0

/-- `XessSrModule::getRenderResolution` (lines 338-356): the values written to
`outRenderWidth` and `outRenderHeight`. -/
def XessSrModule.getRenderResolution (displayWidth displayHeight : Nat) (mode : QualityMode) :
    Nat × Nat :=
  let ratio := renderRatio mode
  (F32.toUInt32 (F32.div (F32.ofUInt32 displayWidth) ratio),
   F32.toUInt32 (F32.div (F32.ofUInt32 displayHeight) ratio))

/-- The lambda `parseBool` of `setAttributes` (lines 283-287). -/
def parseBool (value : String) : Bool :=
  if value = "1" || value = "true" || value = "True" || value = "TRUE" then true
  else if value = "0" || value = "false" || value = "False" || value = "FALSE" then false
  else true

/-- The derivation of the render resolution from the display resolution (lines 299-314 of
`setAttributes`): the backend query when the module is enabled and the framework is
alive, the ratio table when the query is not made or fails. -/
def XessSrModule.deriveRenderResolution (env : XessEnv) (m : XessSrModule) : XessSrModule :=
  if m.displayWidth_ > 0 ∧ m.displayHeight_ > 0 then
    let queried : Option (Nat × Nat) :=
      match m.xessEnabled_, env.framework with
      | true, some fw =>
        XeSSWrapper.queryOptimalInputResolution env.sdk fw.vkInstance fw.vkPhysicalDevice
          fw.vkDevice m.displayWidth_ m.displayHeight_ m.qualityMode_.toXeSS
      | _, _ => none
    match queried with
    | some (w, h) => { m with renderWidth_ := w, renderHeight_ := h }
    | none =>
      let (w, h) := XessSrModule.getRenderResolution m.displayWidth_ m.displayHeight_ m.qualityMode_
      { m with renderWidth_ := w, renderHeight_ := h }
  else { m with renderWidth_ := 0, renderHeight_ := 0 }

/-- One iteration of the loop of `setAttributes` (lines 290-318) on the pair `(key, value)`;
the exception of `std::stof` leaves the module as it is at the throw. -/
def XessSrModule.setAttribute (env : XessEnv) (key value : String) (m : XessSrModule) :
    Except (String × XessSrModule) XessSrModule :=
  if key = "render_pipeline.module.xess_sr.attribute.enable" then
    .ok { m with xessEnabled_ := parseBool value }
  else if XessSrModule.isQualityModeAttributeKey key then
    match XessSrModule.parseQualityModeValue value with
    | some mode => .ok (XessSrModule.deriveRenderResolution env { m with qualityMode_ := mode })
    | none => .ok m
  else if key = "render_pipeline.module.xess_sr.attribute.pre_exposure" then
    match env.stof value with
    | .ok x => .ok { m with preExposure_ := x }
    | .error e => .error (e, m)
  else .ok m

/-- `XessSrModule::setAttributes(attributeCount, attributeKVs)` (lines 282-320). The source
indexes the vector unchecked; an entry that does not exist reads as the empty string here. -/
def XessSrModule.setAttributes (env : XessEnv) (attributeCount : Nat) (attributeKVs : List String)
    (m : XessSrModule) : Except (String × XessSrModule) XessSrModule :=
  loopFrom
    (fun i m => XessSrModule.setAttribute env (attributeKVs.getD (2 * i) "")
      (attributeKVs.getD (2 * i + 1) "") m)
    0 attributeCount m

/-- The calls that reach the wrapper object of a module. -/
inductive BackendCall where
  | initializeCall (config : XeSSConfig)
  | dispatchCall (input : XeSSInput)
deriving Repr, DecidableEq

/-- The outside state of a frame as the XeSS module sees it: the module (behind the
`weak_ptr` of its contexts, which `lock()` finds alive or not), the calls made to its
wrapper so far, and the counter of image objects created. -/
structure XessWorld where
  module : XessSrModule
  moduleAlive : Bool
  backendCalls : List BackendCall
  nextImage : Nat

/-- `XessSrModule::initImages()` (lines 255-269): one device-depth image (`R32_SFLOAT`, 100)
and one motion-vector image (`R16G16_SFLOAT`, 83) per frame, at render resolution, with
usage `STORAGE | SAMPLED`. -/
def XessSrModule.initImages (size : Nat) (w : XessWorld) : XessWorld :=
  forLoop size
    (fun i w =>
      { w with
        module := { w.module with
          deviceDepthImages_ := w.module.deviceDepthImages_.set i
            (some ⟨w.nextImage, w.module.renderWidth_, w.module.renderHeight_, 100, 0x8 ||| 0x4⟩)
          xessMotionVectorImages_ := w.module.xessMotionVectorImages_.set i
            (some ⟨w.nextImage + 1, w.module.renderWidth_, w.module.renderHeight_, 83,
              0x8 ||| 0x4⟩) }
        nextImage := w.nextImage + 2 }) w

/-- `XessSrModule::build()` (lines 160-191) with the framework locked: a fresh wrapper, the
backend initialisation unless the module is disabled, and the private images. The
descriptor tables, the compute pipeline and the contexts (lines 193-208) hold no state
the claims read. -/
def XessSrModule.build (sdk : XessSdk) (fw : XessFramework) (w : XessWorld) : XessWorld :=
  let m := w.module
  let config : XeSSConfig :=
    { vkInstance := fw.vkInstance
      physicalDevice := fw.vkPhysicalDevice
      device := fw.vkDevice
      renderWidth := m.renderWidth_
      renderHeight := m.renderHeight_
      displayWidth := m.displayWidth_
      displayHeight := m.displayHeight_
      qualityMode := m.qualityMode_.toXeSS
      initFlags := 0
      velocityScaleX := f32_1_0
      velocityScaleY := f32_1_0 }
  let w1 : XessWorld :=
    if !m.xessEnabled_ then
      { w with module := { m with xess_ := some XeSSWrapper.new, initialized_ := false } }
    else
      let (ok, xess) := XeSSWrapper.initialize sdk XeSSWrapper.new config
      { w with
        module := { m with xess_ := some xess, initialized_ := ok }
        backendCalls := w.backendCalls ++ [.initializeCall config] }
  XessSrModule.initImages fw.imageCount w1

/-- `XessSrModule::preClose()` (lines 330-336). -/
def XessSrModule.preClose (w : XessWorld) : XessWorld :=
  { w with module := { w.module with xess_ := none, initialized_ := false } }

/-- `XessSrModule::init` (lines 61-69): the per-frame vectors get one null entry per
swapchain image. -/
def XessSrModule.init (size : Nat) (m : XessSrModule) : XessSrModule :=
  { m with
    deviceDepthImages_ := vectorResize m.deviceDepthImages_ size none
    xessMotionVectorImages_ := vectorResize m.xessMotionVectorImages_ size none
    inputImages_ := vectorResize m.inputImages_ size (List.replicate 4 none)
    outputImages_ := vectorResize m.outputImages_ size (List.replicate 2 none) }

/-- The `VkImage` handle of a created image: not null, one per object. -/
def DeviceLocalImage.vkImage (img : DeviceLocalImage) : Nat := img.id + 1
/-- The `VkImageView` handle of a created image: not null, one per object. -/
def DeviceLocalImage.vkImageView (img : DeviceLocalImage) : Nat := img.id + 1

/-- The fields of `vk::Data::WorldUBO` that `render` reads; `cameraViewDir` is the vector
`(cameraViewMat[0][2], cameraViewMat[1][2], cameraViewMat[2][2])`. -/
structure WorldUBO where
  cameraJitter : F32 × F32
  cameraPos : Vec3
  cameraViewDir : Vec3

/-- The images of an `XessSrModuleContext` (xess_sr_module.hpp lines 103-113). `render`
dereferences every one of them unchecked. -/
structure XessSrModuleContext where
  inputColorImage : DeviceLocalImage
  inputDepthImage : DeviceLocalImage
  inputMotionVectorImage : DeviceLocalImage
  inputFirstHitDepthImage : DeviceLocalImage
  outputImage : DeviceLocalImage
  upscaledFirstHitDepthImage : DeviceLocalImage
  deviceDepthImage : DeviceLocalImage
  xessMotionVectorImage : DeviceLocalImage
deriving Repr, DecidableEq

/-- `XessSrModuleContext::checkCameraReset` (lines 363-379): the flag returned and the
module it leaves. -/
def XessSrModuleContext.checkCameraReset (glm : Glm) (cameraPos cameraDir : Vec3)
    (m : XessSrModule) : Bool × XessSrModule :=
  if m.firstFrame_ then
    (true, { m with firstFrame_ := false, lastCameraPos_ := cameraPos, lastCameraDir_ := cameraDir })
  else
    let positionDelta := glm.length (glm.sub cameraPos m.lastCameraPos_)
    let directionDot := glm.dot (glm.normalize cameraDir) (glm.normalize m.lastCameraDir_)
    let shouldReset := F32.gt positionDelta f32_1_0 || F32.lt directionDot f32_0_866
    (shouldReset, { m with lastCameraPos_ := cameraPos, lastCameraDir_ := cameraDir })

/-- A recorded command appended to the world command buffer. -/
def RenderState.record {W : Type} (s : RenderState W) (c : Command) : RenderState W :=
  { s with worldCommandBuffer := s.worldCommandBuffer ++ [c] }

/-- The lambda `fallbackBlit` of `render` (lines 389-474). -/
def XessSrModuleContext.fallbackBlit {W : Type} (ctx : XessSrModuleContext) (s : RenderState W) :
    RenderState W :=
  let s1 := s.barriers
    [{ oldLayout := s.layouts ctx.inputColorImage.id
       newLayout := VK_IMAGE_LAYOUT_TRANSFER_SRC_OPTIMAL, image := ctx.inputColorImage.id },
     { oldLayout := s.layouts ctx.outputImage.id
       newLayout := VK_IMAGE_LAYOUT_TRANSFER_DST_OPTIMAL, image := ctx.outputImage.id },
     { oldLayout := s.layouts ctx.inputFirstHitDepthImage.id
       newLayout := VK_IMAGE_LAYOUT_TRANSFER_SRC_OPTIMAL, image := ctx.inputFirstHitDepthImage.id },
     { oldLayout := s.layouts ctx.upscaledFirstHitDepthImage.id
       newLayout := VK_IMAGE_LAYOUT_TRANSFER_DST_OPTIMAL
       image := ctx.upscaledFirstHitDepthImage.id }]
  let s2 := (((s1.setLayout ctx.inputColorImage.id VK_IMAGE_LAYOUT_TRANSFER_SRC_OPTIMAL).setLayout
    ctx.outputImage.id VK_IMAGE_LAYOUT_TRANSFER_DST_OPTIMAL).setLayout
    ctx.inputFirstHitDepthImage.id VK_IMAGE_LAYOUT_TRANSFER_SRC_OPTIMAL).setLayout
    ctx.upscaledFirstHitDepthImage.id VK_IMAGE_LAYOUT_TRANSFER_DST_OPTIMAL
  let s3 := (s2.record
    (.blitImage ctx.inputColorImage.id VK_IMAGE_LAYOUT_TRANSFER_SRC_OPTIMAL ctx.outputImage.id
      VK_IMAGE_LAYOUT_TRANSFER_DST_OPTIMAL (ctx.inputColorImage.width, ctx.inputColorImage.height)
      (ctx.outputImage.width, ctx.outputImage.height))).record
    (.blitImage ctx.inputFirstHitDepthImage.id VK_IMAGE_LAYOUT_TRANSFER_SRC_OPTIMAL
      ctx.upscaledFirstHitDepthImage.id VK_IMAGE_LAYOUT_TRANSFER_DST_OPTIMAL
      (ctx.inputFirstHitDepthImage.width, ctx.inputFirstHitDepthImage.height)
      (ctx.upscaledFirstHitDepthImage.width, ctx.upscaledFirstHitDepthImage.height))
  let s4 := s3.barriers
    [{ oldLayout := VK_IMAGE_LAYOUT_TRANSFER_DST_OPTIMAL, newLayout := VK_IMAGE_LAYOUT_GENERAL
       image := ctx.outputImage.id }]
  s4.setLayout ctx.outputImage.id VK_IMAGE_LAYOUT_GENERAL

/-- The `XeSSImage` filled from an image (lines 620-642). -/
def DeviceLocalImage.toXeSSImage (img : DeviceLocalImage) : XeSSImage :=
  { image := img.vkImage, imageView := img.vkImageView, format := img.format
    width := img.width, height := img.height }

/-- A value-initialised `XeSSImage`. -/
def XeSSImage.empty : XeSSImage :=
  { imageView := 0, image := 0, format := 0, width := 0, height := 0 }

/-- The part of `render` before the dispatch (lines 484-615): the transitions to `GENERAL`,
the depth conversion pass, and the transitions to `SHADER_READ_ONLY_OPTIMAL`. -/
def XessSrModuleContext.prepare (ctx : XessSrModuleContext) (s : RenderState XessWorld) :
    RenderState XessWorld :=
  let m := s.world.module
  let s1 := s.barriers
    [{ oldLayout := s.layouts ctx.inputColorImage.id, newLayout := VK_IMAGE_LAYOUT_GENERAL
       image := ctx.inputColorImage.id },
     { oldLayout := s.layouts ctx.inputDepthImage.id, newLayout := VK_IMAGE_LAYOUT_GENERAL
       image := ctx.inputDepthImage.id },
     { oldLayout := s.layouts ctx.inputMotionVectorImage.id, newLayout := VK_IMAGE_LAYOUT_GENERAL
       image := ctx.inputMotionVectorImage.id },
     { oldLayout := s.layouts ctx.deviceDepthImage.id, newLayout := VK_IMAGE_LAYOUT_GENERAL
       image := ctx.deviceDepthImage.id },
     { oldLayout := s.layouts ctx.xessMotionVectorImage.id, newLayout := VK_IMAGE_LAYOUT_GENERAL
       image := ctx.xessMotionVectorImage.id },
     { oldLayout := s.layouts ctx.outputImage.id, newLayout := VK_IMAGE_LAYOUT_GENERAL
       image := ctx.outputImage.id }]
  let s2 := (((((s1.setLayout ctx.inputColorImage.id VK_IMAGE_LAYOUT_GENERAL).setLayout
    ctx.inputDepthImage.id VK_IMAGE_LAYOUT_GENERAL).setLayout
    ctx.inputMotionVectorImage.id VK_IMAGE_LAYOUT_GENERAL).setLayout
    ctx.deviceDepthImage.id VK_IMAGE_LAYOUT_GENERAL).setLayout
    ctx.xessMotionVectorImage.id VK_IMAGE_LAYOUT_GENERAL).setLayout
    ctx.outputImage.id VK_IMAGE_LAYOUT_GENERAL
  let s3 := ((((s2.record .bindDescriptorTable).record .bindComputePipeline).record
    (.pushConstants m.renderWidth_ m.renderHeight_)).record
    (.dispatch ((m.renderWidth_ + 15) / 16) ((m.renderHeight_ + 15) / 16) 1)).record
    .barriersMemory
  let s4 := s3.barriers
    [{ oldLayout := s3.layouts ctx.inputColorImage.id
       newLayout := VK_IMAGE_LAYOUT_SHADER_READ_ONLY_OPTIMAL, image := ctx.inputColorImage.id },
     { oldLayout := s3.layouts ctx.deviceDepthImage.id
       newLayout := VK_IMAGE_LAYOUT_SHADER_READ_ONLY_OPTIMAL, image := ctx.deviceDepthImage.id },
     { oldLayout := s3.layouts ctx.xessMotionVectorImage.id
       newLayout := VK_IMAGE_LAYOUT_SHADER_READ_ONLY_OPTIMAL
       image := ctx.xessMotionVectorImage.id }]
  ((s4.setLayout ctx.inputColorImage.id VK_IMAGE_LAYOUT_SHADER_READ_ONLY_OPTIMAL).setLayout
    ctx.deviceDepthImage.id VK_IMAGE_LAYOUT_SHADER_READ_ONLY_OPTIMAL).setLayout
    ctx.xessMotionVectorImage.id VK_IMAGE_LAYOUT_SHADER_READ_ONLY_OPTIMAL

/-- The request built by `render` (lines 617-651) from the module as `checkCameraReset`
left it and the flag it returned. -/
def XessSrModuleContext.makeInput (ctx : XessSrModuleContext) (commandBuffer : Nat)
    (ubo : WorldUBO) (m : XessSrModule) (resetHistory : Bool) : XeSSInput :=
  { commandBuffer := commandBuffer
    colorTexture := ctx.inputColorImage.toXeSSImage
    velocityTexture := ctx.xessMotionVectorImage.toXeSSImage
    depthTexture := ctx.deviceDepthImage.toXeSSImage
    exposureTexture := XeSSImage.empty
    responsiveMaskTexture := XeSSImage.empty
    outputTexture := ctx.outputImage.toXeSSImage
    jitterOffsetX := F32.neg ubo.cameraJitter.1
    jitterOffsetY := F32.neg ubo.cameraJitter.2
    exposureScale := m.preExposure_
    resetHistory := resetHistory
    inputWidth := m.renderWidth_
    inputHeight := m.renderHeight_ }

/-- The end of `render` after a successful dispatch (lines 658-693). -/
def XessSrModuleContext.finish (ctx : XessSrModuleContext) (s : RenderState XessWorld) :
    RenderState XessWorld :=
  let m := s.world.module
  let s1 := s.setLayout ctx.outputImage.id VK_IMAGE_LAYOUT_GENERAL
  let s2 := s1.barriers
    [{ oldLayout := s1.layouts ctx.inputFirstHitDepthImage.id
       newLayout := VK_IMAGE_LAYOUT_TRANSFER_SRC_OPTIMAL, image := ctx.inputFirstHitDepthImage.id },
     { oldLayout := s1.layouts ctx.upscaledFirstHitDepthImage.id
       newLayout := VK_IMAGE_LAYOUT_TRANSFER_DST_OPTIMAL
       image := ctx.upscaledFirstHitDepthImage.id }]
  let s3 := (s2.setLayout ctx.inputFirstHitDepthImage.id
    VK_IMAGE_LAYOUT_TRANSFER_SRC_OPTIMAL).setLayout
    ctx.upscaledFirstHitDepthImage.id VK_IMAGE_LAYOUT_TRANSFER_DST_OPTIMAL
  s3.record
    (.blitImage ctx.inputFirstHitDepthImage.id VK_IMAGE_LAYOUT_TRANSFER_SRC_OPTIMAL
      ctx.upscaledFirstHitDepthImage.id VK_IMAGE_LAYOUT_TRANSFER_DST_OPTIMAL
      (m.renderWidth_, m.renderHeight_) (m.displayWidth_, m.displayHeight_))

/-- The state in which `render` calls the wrapper's `dispatch` and the request it passes
(lines 484-652): the images prepared, the camera history consumed by `checkCameraReset`,
the call logged. -/
def XessSrModuleContext.beforeDispatch (env : XessEnv) (commandBuffer : Nat) (ubo : WorldUBO)
    (ctx : XessSrModuleContext) (s : RenderState XessWorld) : XeSSInput × RenderState XessWorld :=
  let s1 := ctx.prepare s
  let (resetHistory, m1) :=
    XessSrModuleContext.checkCameraReset env.glm ubo.cameraPos ubo.cameraViewDir s1.world.module
  let input := ctx.makeInput commandBuffer ubo m1 resetHistory
  (input,
    { s1 with world := { s1.world with
        module := m1
        backendCalls := s1.world.backendCalls ++ [.dispatchCall input] } })

/-- `XessSrModuleContext::render()` (lines 381-694). `commandBuffer` is the handle of the
world command buffer and `ubo` the mapped world uniform buffer of the frame. -/
def XessSrModuleContext.render (env : XessEnv) (commandBuffer : Nat) (ubo : WorldUBO)
    (ctx : XessSrModuleContext) (s : RenderState XessWorld) : RenderState XessWorld :=
  if !s.world.moduleAlive then s
  else
    match s.world.module.xessEnabled_, s.world.module.initialized_, s.world.module.xess_ with
    | true, true, some xess =>
      if !XeSSWrapper.dispatch env.sdk xess (ctx.beforeDispatch env commandBuffer ubo s).1 then
        ctx.fallbackBlit (ctx.beforeDispatch env commandBuffer ubo s).2
      else ctx.finish (ctx.beforeDispatch env commandBuffer ubo s).2
    | _, _, _ => ctx.fallbackBlit s

/-- A call made on a built module between two rebuilds. -/
inductive XessCall where
  | render (env : XessEnv) (commandBuffer : Nat) (ubo : WorldUBO) (ctx : XessSrModuleContext)
  | setAttributes (env : XessEnv) (attributeCount : Nat) (attributeKVs : List String)

/-- The effect of one call; a `setAttributes` that throws leaves the module as it is at
the throw. -/
def XessCall.run (c : XessCall) (s : RenderState XessWorld) : RenderState XessWorld :=
  match c with
  | .render env commandBuffer ubo ctx => ctx.render env commandBuffer ubo s
  | .setAttributes env attributeCount attributeKVs =>
    { s with world := { s.world with
        module := endState (XessSrModule.setAttributes env attributeCount attributeKVs s.world.module) } }

/-- A sequence of calls, in order. -/
def runCalls (calls : List XessCall) (s : RenderState XessWorld) : RenderState XessWorld :=
  calls.foldl (fun s c => c.run s) s

/-- The dispatch calls among the calls made to the wrapper. -/
def dispatchCalls (calls : List BackendCall) : List XeSSInput :=
  calls.filterMap fun c =>
    match c with
    | .dispatchCall input => some input
    | .initializeCall _ => none

/-! ## A small XeSS module to run `render` on -/

/-- An SDK that is compiled in and succeeds at everything but the resolution queries;
`executeOk` is the answer of `xessVKExecute`. -/
def demoSdk (executeOk : Bool) : XessSdk :=
  { enabled := true
    xessVKCreateContext := fun _ _ _ => (true, 1)
    xessVKInit := fun _ _ _ _ => true
    xessVKExecute := fun _ _ => executeOk
    xessGetOptimalInputResolution := fun _ _ _ => (false, (0, 0))
    xessGetInputResolution := fun _ _ _ => (false, (0, 0)) }

/-- A stand-in for glm in which every camera is at distance `delta` from the previous one
and every pair of directions has dot product `dot`. -/
def demoGlm (delta dot : F32) : Glm :=
  { sub := fun a _ => a
    length := fun _ => delta
    normalize := fun a => a
    dot := fun _ _ => dot }

/-- The surroundings of the demo module: a 1920 x 1080 swapchain of two images. -/
def demoEnv (executeOk : Bool) : XessEnv :=
  { sdk := demoSdk executeOk
    stof := fun _ => .error "invalid_argument"
    glm := demoGlm f32_0_5 f32_0_99
    framework := some ⟨(1920, 1080), 2, 1, 1, 1⟩ }

/-- A context over eight distinct images: the inputs have the identities 10 to 13, the
color output 14, the first-hit-depth output 15, the private images 16 and 17. -/
def demoContext : XessSrModuleContext :=
  { inputColorImage := ⟨10, 960, 540, 97, 31⟩
    inputDepthImage := ⟨11, 960, 540, 100, 31⟩
    inputMotionVectorImage := ⟨12, 960, 540, 83, 31⟩
    inputFirstHitDepthImage := ⟨13, 960, 540, 100, 31⟩
    outputImage := ⟨14, 1920, 1080, 97, 15⟩
    upscaledFirstHitDepthImage := ⟨15, 1920, 1080, 100, 15⟩
    deviceDepthImage := ⟨16, 960, 540, 100, 12⟩
    xessMotionVectorImage := ⟨17, 960, 540, 83, 12⟩ }

/-- The context of a module whose two output slots name the same pool slot: both outputs
are the one image object 14. -/
def aliasedContext : XessSrModuleContext :=
  { demoContext with upscaledFirstHitDepthImage := demoContext.outputImage }

/-- The context of a module whose first-hit-depth input slot is also its color output slot:
the first-hit-depth input and the color output are the one image object 14. -/
def feedbackContext : XessSrModuleContext :=
  { demoContext with inputFirstHitDepthImage := demoContext.outputImage }

/-- A built module at 960 x 540 to 1920 x 1080 whose wrapper is initialised. -/
def demoModule (enabled : Bool) : XessSrModule :=
  { renderWidth_ := 960, renderHeight_ := 540, displayWidth_ := 1920, displayHeight_ := 1080
    xessEnabled_ := enabled
    xess_ := some { XeSSWrapper.new with initialized_ := true, contextCreated_ := true,
                                         contextHandle_ := 1 }
    initialized_ := enabled }

/-- A frame state over the demo module in which no image has been written yet. -/
def demoXessState (enabled : Bool) : RenderState XessWorld :=
  { layouts := fun _ => VK_IMAGE_LAYOUT_UNDEFINED
    worldCommandBuffer := []
    overlayCommandBuffer := []
    world := { module := demoModule enabled, moduleAlive := true, backendCalls := [],
               nextImage := 100 } }

/-- A world uniform buffer with no jitter and the camera at the origin. -/
def demoUbo : WorldUBO :=
  { cameraJitter := (f32_0_0, f32_0_0)
    cameraPos := ⟨f32_0_0, f32_0_0, f32_0_0⟩
    cameraViewDir := ⟨f32_0_0, f32_0_0, f32_1_0⟩ }

/-- The render/display ratio table in the order of the quality modes, as the specification
lists it. -/
def ratioTable : List F32 := [f32_1_0, f32_1_3, f32_1_5, f32_1_7, f32_2_0, f32_2_3, f32_3_0]

/-- Specification side: the same table as decimal numbers, in tenths (1.0, 1.3, 1.5, 1.7,
2.0, 2.3, 3.0), so that `trunc (n / r)` in exact arithmetic is
`n * 10 / specRatioTenths mode`. -/
def specRatioTenths : QualityMode → Nat
  | .NativeAA => 10
  | .UltraQualityPlus => 13
  | .UltraQuality => 15
  | .Quality => 17
  | .Balanced => 20
  | .Performance => 23
  | .UltraPerformance => 30

/-! ## The attribute values as the specification lists them -/

/-- Specification side: the numeric code of a quality level, as an attribute value. -/
def QualityMode.numeral : QualityMode → String
  | .NativeAA => "0"
  | .UltraQualityPlus => "1"
  | .UltraQuality => "2"
  | .Quality => "3"
  | .Balanced => "4"
  | .Performance => "5"
  | .UltraPerformance => "6"

/-- Specification side: the snake-case alias of a quality level. -/
def QualityMode.snakeCase : QualityMode → String
  | .NativeAA => "native_aa"
  | .UltraQualityPlus => "ultra_quality_plus"
  | .UltraQuality => "ultra_quality"
  | .Quality => "quality"
  | .Balanced => "balanced"
  | .Performance => "performance"
  | .UltraPerformance => "ultra_performance"

/-- Specification side: the fully-qualified dotted key of a quality level. -/
def QualityMode.dottedKey (mode : QualityMode) : String :=
  "render_pipeline.module.xess_sr.attribute.quality_mode." ++ mode.snakeCase

/-- Specification side: a string with every letter upper-cased. -/
def toUpperString (value : String) : String :=
  ⟨value.data.map Char.toUpper⟩

/-- An ASCII string: every character is below 128. -/
def isAsciiString (value : String) : Bool :=
  value.data.all fun c => decide (c.toNat < 128)

/-- The key/value pairs a call of `setAttributes` walks: pair `i` is
`(attributeKVs[2 * i], attributeKVs[2 * i + 1])`. -/
def attributePairs (attributeCount : Nat) (attributeKVs : List String) : List (String × String) :=
  (List.range' 0 attributeCount).map fun i =>
    (attributeKVs.getD (2 * i) "", attributeKVs.getD (2 * i + 1) "")

/-- The vector `attributeKVs` that lists the given pairs. -/
def attributeKVsOf (pairs : List (String × String)) : List String :=
  pairs.flatMap fun p => [p.1, p.2]

/-- Specification side: whether `setAttributes` acts on a pair: its key is one of the three
attribute keys, and for the quality key its value is one `parseQualityModeValue` accepts. -/
def isRecognisedPair (p : String × String) : Bool :=
  p.1 = "render_pipeline.module.xess_sr.attribute.enable" ||
    (XessSrModule.isQualityModeAttributeKey p.1 &&
      (XessSrModule.parseQualityModeValue p.2).isSome) ||
    p.1 = "render_pipeline.module.xess_sr.attribute.pre_exposure"

/-- The loop of `setAttributes` over an explicit list of pairs. -/
def applyAttributePairs (env : XessEnv) :
    List (String × String) → XessSrModule → Except (String × XessSrModule) XessSrModule
  | [], m => .ok m
  | p :: rest, m =>
    match XessSrModule.setAttribute env p.1 p.2 m with
    | .ok m1 => applyAttributePairs env rest m1
    | .error e => .error e

/-! ## XeSS module: negotiation (`setOrCreateInputImages`, `setOrCreateOutputImages`) -/

/-- The usage flags of the images `setOrCreateInputImages` creates (lines 109-110):
`STORAGE | COLOR_ATTACHMENT | SAMPLED | TRANSFER_SRC | TRANSFER_DST`. -/
def xessInputImageUsage : Nat := 0x8 ||| 0x10 ||| 0x4 ||| 0x1 ||| 0x2

/-- The usage flags of the images `setOrCreateOutputImages` creates (lines 146-147):
`STORAGE | SAMPLED | TRANSFER_SRC | TRANSFER_DST`. -/
def xessOutputImageUsage : Nat := 0x8 ||| 0x4 ||| 0x1 ||| 0x2

/-- The scan `for (const auto &img : images) if (img != nullptr) { ...; break; }`
(lines 86-92 and 131-137): the first non-null entry. -/
def firstImage : List (Option DeviceLocalImage) → Option DeviceLocalImage
  | [] => none
  | some img :: _ => some img
  | none :: rest => firstImage rest

/-- The assignment `inputImages_[frameIndex][i] = img` or `outputImages_[frameIndex][i] = img`;
the source indexes unchecked, a write to an entry that does not exist is dropped here. -/
def XessSrModule.storeImage (dir : Direction) (frameIndex i : Nat) (img : Option DeviceLocalImage)
    (m : XessSrModule) : XessSrModule :=
  match dir with
  | .input => { m with inputImages_ := m.inputImages_.modify (fun row => row.set i img) frameIndex }
  | .output => { m with outputImages_ := m.outputImages_.modify (fun row => row.set i img) frameIndex }

/-- One iteration of the loop of lines 107-116 (inputs) and 143-152 (outputs) on entry `i`:
a null entry is created at the given size with `formats[i]`, an entry of another size makes
the function return false (`none` here), and the entry is stored in the module. -/
def XessSrModule.adoptImage (dir : Direction) (width height usage : Nat) (formats : List Nat)
    (frameIndex i : Nat) (acc : List (Option DeviceLocalImage) × XessWorld) :
    Option (List (Option DeviceLocalImage) × XessWorld) :=
  match acc.1.getD i none with
  | none =>
    let img : DeviceLocalImage := ⟨acc.2.nextImage, width, height, formats.getD i 0, usage⟩
    some (acc.1.set i (some img),
      { acc.2 with
        module := acc.2.module.storeImage dir frameIndex i (some img)
        nextImage := acc.2.nextImage + 1 })
  | some img =>
    if img.width ≠ width ∨ img.height ≠ height then none
    else some (acc.1, { acc.2 with module := acc.2.module.storeImage dir frameIndex i (some img) })

/-- The loop of lines 107-116 and 143-152 over the entries `i, ..., i + count - 1`: the flag
tells whether it ran to its end, the state is the one at the end or at the `return false`. -/
def XessSrModule.adoptImages (dir : Direction) (width height usage : Nat) (formats : List Nat)
    (frameIndex : Nat) :
    Nat → Nat → List (Option DeviceLocalImage) × XessWorld →
      Bool × (List (Option DeviceLocalImage) × XessWorld)
  | _, 0, acc => (true, acc)
  | i, count + 1, acc =>
    match XessSrModule.adoptImage dir width height usage formats frameIndex i acc with
    | some acc1 => XessSrModule.adoptImages dir width height usage formats frameIndex (i + 1) count acc1
    | none => (false, acc)

/-- The display resolution `setOrCreateInputImages` takes from the swapchain when it is
unset (lines 78-82). -/
def XessSrModule.fillDisplayFromSwapchain (fw : XessFramework) (m : XessSrModule) : XessSrModule :=
  if m.displayWidth_ = 0 ∨ m.displayHeight_ = 0 then
    { m with displayWidth_ := fw.extent.1, displayHeight_ := fw.extent.2 }
  else m

/-- The render resolution `setOrCreateInputImages` settles on when it is unset (lines
84-105): the size of the first proposed image, and when there is none (or it has a zero
side) the backend query if the module is enabled, the ratio table if the query is not made
or fails. -/
def XessSrModule.settleRenderResolution (sdk : XessSdk) (fw : XessFramework)
    (images : List (Option DeviceLocalImage)) (m : XessSrModule) : XessSrModule :=
  if m.renderWidth_ = 0 ∨ m.renderHeight_ = 0 then
    let m1 :=
      match firstImage images with
      | some img => { m with renderWidth_ := img.width, renderHeight_ := img.height }
      | none => m
    if m1.renderWidth_ = 0 ∨ m1.renderHeight_ = 0 then
      let gotOptimal : Option (Nat × Nat) :=
        if m1.xessEnabled_ then
          XeSSWrapper.queryOptimalInputResolution sdk fw.vkInstance fw.vkPhysicalDevice fw.vkDevice
            m1.displayWidth_ m1.displayHeight_ m1.qualityMode_.toXeSS
        else none
      match gotOptimal with
      | some (w, h) => { m1 with renderWidth_ := w, renderHeight_ := h }
      | none =>
        let (w, h) :=
          XessSrModule.getRenderResolution m1.displayWidth_ m1.displayHeight_ m1.qualityMode_
        { m1 with renderWidth_ := w, renderHeight_ := h }
    else m1
  else m

/-- `XessSrModule::setOrCreateInputImages` (lines 70-119): the flag returned, the two vectors
as the call leaves them, and the outside state. -/
def XessSrModule.setOrCreateInputImages (env : XessEnv) (images : List (Option DeviceLocalImage))
    (formats : List Nat) (frameIndex : Nat) (w : XessWorld) : Negotiated × XessWorld :=
  if images.length ≠ XessSrModule.inputImageNum then (⟨false, images, formats⟩, w)
  else
    match env.framework with
    | none => (⟨false, images, formats⟩, w)
    | some fw =>
      let m := XessSrModule.settleRenderResolution env.sdk fw images
        (XessSrModule.fillDisplayFromSwapchain fw w.module)
      let (result, images1, w1) :=
        XessSrModule.adoptImages .input m.renderWidth_ m.renderHeight_ xessInputImageUsage formats
          frameIndex 0 images.length (images, { w with module := m })
      (⟨result, images1, formats⟩, w1)

/-- The display resolution `setOrCreateOutputImages` settles on when it is unset (lines
130-141): the size of the first proposed image, else the swapchain extent. -/
def XessSrModule.settleDisplayResolution (fw : XessFramework)
    (images : List (Option DeviceLocalImage)) (m : XessSrModule) : XessSrModule :=
  if m.displayWidth_ = 0 ∨ m.displayHeight_ = 0 then
    let m1 :=
      match firstImage images with
      | some img => { m with displayWidth_ := img.width, displayHeight_ := img.height }
      | none => m
    if m1.displayWidth_ = 0 ∨ m1.displayHeight_ = 0 then
      { m1 with displayWidth_ := fw.extent.1, displayHeight_ := fw.extent.2 }
    else m1
  else m

/-- `XessSrModule::setOrCreateOutputImages` (lines 121-158). -/
def XessSrModule.setOrCreateOutputImages (env : XessEnv) (images : List (Option DeviceLocalImage))
    (formats : List Nat) (frameIndex : Nat) (w : XessWorld) : Negotiated × XessWorld :=
  if images.length ≠ XessSrModule.outputImageNum then (⟨false, images, formats⟩, w)
  else
    match env.framework with
    | none => (⟨false, images, formats⟩, w)
    | some fw =>
      let m := XessSrModule.settleDisplayResolution fw images w.module
      let (result, images1, w1) :=
        XessSrModule.adoptImages .output m.displayWidth_ m.displayHeight_ xessOutputImageUsage
          formats frameIndex 0 images.length (images, { w with module := m })
      (⟨result, images1, formats⟩, w1)

/-- Specification side: the render resolution derived from a display resolution and a
quality mode: the answer of the backend query when the module is enabled and the query
succeeds, the entry of the ratio table otherwise. -/
def specDerivedResolution (sdk : XessSdk) (fw : XessFramework) (enabled : Bool)
    (display : Nat × Nat) (mode : QualityMode) : Nat × Nat :=
  match (if enabled then
      XeSSWrapper.queryOptimalInputResolution sdk fw.vkInstance fw.vkPhysicalDevice fw.vkDevice
        display.1 display.2 mode.toXeSS
    else none) with
  | some answer => answer
  | none => XessSrModule.getRenderResolution display.1 display.2 mode

/-- An SDK whose optimal-resolution query answers 1280 x 720. -/
def answeringSdk : XessSdk :=
  { enabled := true
    xessVKCreateContext := fun _ _ _ => (true, 1)
    xessVKInit := fun _ _ _ _ => true
    xessVKExecute := fun _ _ => true
    xessGetOptimalInputResolution := fun _ _ _ => (true, (1280, 720))
    xessGetInputResolution := fun _ _ _ => (false, (0, 0)) }

/-- A freshly constructed module in a world that has created no image yet. -/
def freshXessWorld (enabled : Bool) : XessWorld :=
  { module := XessSrModule.init 2 { xessEnabled_ := enabled }
    moduleAlive := true, backendCalls := [], nextImage := 0 }

/-- The first input negotiation of a fresh module: four empty proposals with the formats
of the color, depth, motion-vector and first-hit-depth slots. -/
def demoInputNegotiation (sdk : XessSdk) (enabled : Bool) : Negotiated × XessWorld :=
  XessSrModule.setOrCreateInputImages { demoEnv true with sdk := sdk } [none, none, none, none]
    [97, 100, 83, 100] 0 (freshXessWorld enabled)

/-! ## A frame with logging module contexts -/

/-- A module context that appends its number to the outside state and leaves the layouts
alone. -/
def loggingContext (k : Nat) : WorldModuleContext (List Nat) :=
  fun s => { s with world := s.world ++ [k] }

/-- A pipeline context over the image with identity 0 and three logging module contexts. -/
def loggingPipelineContext : WorldPipelineContext (List Nat) :=
  { outputImage := some ⟨0, 1920, 1080, 37, 28⟩
    worldModuleContexts := [some (loggingContext 0), some (loggingContext 1), some (loggingContext 2)] }

/-- A frame state with slot 0 in the given layout and nothing recorded. -/
def loggingRenderState (layout : VkImageLayout) : RenderState (List Nat) :=
  { layouts := fun _ => layout
    worldCommandBuffer := []
    overlayCommandBuffer := []
    world := [] }

/-! ## Reading the pool -/

/-- The number of cells of the row of a frame; 0 for a frame the pool has no row for. -/
def SharedImages.rowLength (pool : SharedImages) (frameIndex : Nat) : Nat :=
  (pool.getD frameIndex []).length

/-- A pool of `frames` rows of `slots` cells each. -/
def SharedImages.HasShape (pool : SharedImages) (frames slots : Nat) : Prop :=
  pool.length = frames ∧ ∀ row ∈ pool, row.length = slots

/-! ## What the builder assumes of a module, and what the claims read off a run -/

/-- The modules a constructor registry can hand to `init` all have the property `P`. -/
def WorldModuleConstructors.Yields {W : Type} (ctors : WorldModuleConstructors W)
    (P : WorldModule W → Prop) : Prop :=
  ∀ name ctor w m w1, ctors name = some ctor → ctor w = .ok (m, w1) → P m

/-- A module that never shortens the image vector it is passed (the builder indexes it
unchecked afterwards) and, when it accepts, leaves no empty entry in it. -/
def WorldModule.FillsWhatItAccepts {W : Type} (m : WorldModule W) : Prop :=
  ∀ dir images formats frameIndex w r w1,
    m.setOrCreate dir images formats frameIndex w = .ok (r, w1) →
      images.length ≤ r.images.length ∧ (r.result = true → ∀ x ∈ r.images, x ≠ none)

/-- A module that, when it rejects, leaves the format vector it was passed as it was. -/
def WorldModule.KeepsFormats {W : Type} (m : WorldModule W) : Prop :=
  ∀ dir images formats frameIndex w r w1,
    m.setOrCreate dir images formats frameIndex w = .ok (r, w1) → r.result = false →
      r.formats = formats

/-- Every slot module `i` declares, as output or as input, holds an image in the pool row
of the frame. -/
def SlotsFilled (bp : WorldPipelineBlueprint) (pool : SharedImages) (i frameIndex : Nat) : Prop :=
  ∀ idx ∈ moduleIndices bp .output i ++ moduleIndices bp .input i, pool.at frameIndex idx ≠ none

/-- The formats an event of `init` carries are the blueprint's: in a negotiation call the
format vector lists `imageFormats_[slot]` for the slots of the direction, in a fallback
allocation the format asked for is `imageFormats_[slot]`. With `retries` false the retry
calls are not looked at. -/
def InitEvent.FormatsFromBlueprint (bp : WorldPipelineBlueprint) (retries : Bool) :
    InitEvent → Prop
  | .negotiate dir i _ retry _ formats _ =>
    (retry = true → retries = true) →
      formats = (moduleIndices bp dir i).map fun idx => bp.imageFormats_.getD idx 0
  | .createImageAt _ _ _ idx _ _ format => format = bp.imageFormats_.getD idx 0
  | _ => True

/-- The retry calls of a log: the image vector each was passed. -/
def retryProposals (trace : List InitEvent) : List (List (Option DeviceLocalImage)) :=
  trace.filterMap fun e =>
    match e with
    | .negotiate _ _ _ true images _ _ => some images
    | _ => none

/-- A module that rejects every proposal after appending an empty entry to the image
vector. -/
def paddingModule : WorldModule Nat :=
  { setAttributes := fun _ _ w => .ok w
    setOrCreateOutputImages := fun images formats _ w => .ok (⟨false, images ++ [none], formats⟩, w)
    setOrCreateInputImages := fun images formats _ w => .ok (⟨false, images ++ [none], formats⟩, w)
    build := fun w => .ok w
    contexts := fun _ => [none, none]
    preClose := fun w => w }

/-- A module that rejects a proposal with an empty entry after overwriting the format vector
with zeros, and accepts any other. -/
def reformattingModule : WorldModule Nat :=
  { setAttributes := fun _ _ w => .ok w
    setOrCreateOutputImages := fun images formats _ w =>
      .ok (⟨images.all Option.isSome, images,
        if images.all Option.isSome then formats else formats.map fun _ => 0⟩, w)
    setOrCreateInputImages := fun images formats _ w =>
      .ok (⟨images.all Option.isSome, images,
        if images.all Option.isSome then formats else formats.map fun _ => 0⟩, w)
    build := fun w => .ok w
    contexts := fun _ => [none, none]
    preClose := fun w => w }

/-- The constructors of the demo modules, those two included. -/
def moreConstructors : WorldModuleConstructors Nat := fun name =>
  if name = "pad" then some (fun w => .ok (paddingModule, w))
  else if name = "reformat" then some (fun w => .ok (reformattingModule, w))
  else demoConstructors name

/-- The registry of the demo pipeline: every demo module has one input and one output. -/
def demoInitRegistry (first : String) : InOutImageNums := [(first, (1, 1)), ("accept", (1, 1))]

/-- The build parameters `demoBlueprint first` is constructed from: slot 0 in format 37, the
other slots in format 97. -/
def demoInitParams (first : String) : WorldPipelineBuildParams :=
  { moduleCount := 2
    moduleNames := fun i => if i = 0 then first else "accept"
    attributeCounts := fun _ => 0
    attributeKVs := fun _ _ => ""
    inputIndices := fun i _ => if i = 0 then 2 else 1
    outputIndices := fun i _ => if i = 0 then 1 else 0
    imageFormats := fun k => if k = 0 then 37 else 97 }

/-- A registry that constructs the strict module only. -/
def strictConstructors : WorldModuleConstructors Nat := fun name =>
  if name = "strict" then some (fun w => .ok (strictModule, w)) else none

/-- The build parameters of the demo pipeline with the strict module in both places. -/
def strictParams : WorldPipelineBuildParams :=
  { demoInitParams "strict" with moduleNames := fun _ => "strict" }

/-- The demo blueprint with the strict module in both places. -/
def strictBlueprint : WorldPipelineBlueprint :=
  { demoBlueprint "strict" with moduleNames_ := ["strict", "strict"] }

/-- Whether `destroy()` releases a backend context (lines 223-228): the condition under
which it calls `xessDestroyContext`. -/
def XeSSWrapper.destroysContext (sdk : XessSdk) (w : XeSSWrapper) : Bool :=
  sdk.enabled && w.contextCreated_ && w.contextHandle_ != 0

/-- Three descriptors: the two of the demo pipeline (kind `m`, over the slots 2, 1 and 0)
and between them one whose name `ghost` the registry does not have, declaring the slots 7
(input) and 9 (output). -/
def ghostParams : WorldPipelineBuildParams :=
  { moduleCount := 3
    moduleNames := fun i => if i = 1 then "ghost" else "m"
    attributeCounts := fun _ => 0
    attributeKVs := fun _ _ => ""
    inputIndices := fun i _ => if i = 0 then 2 else if i = 1 then 7 else 1
    outputIndices := fun i _ => if i = 0 then 1 else if i = 1 then 9 else 0
    imageFormats := fun _ => 37 }

/-! ## `XessSrModule` under the builder -/

/-- What `WorldPipeline::init` reads from the framework when the outside state is an
`XessWorld`: `vk::DeviceLocalImage::create` hands out the next object identity, as it does
when the module creates an image. -/
def XessFramework.builder (xfw : XessFramework) (useAmd : Bool) : Framework XessWorld :=
  { imageCount := xfw.imageCount, extent := xfw.extent, useAmd := useAmd
    newImage := fun w => (w.nextImage, { w with nextImage := w.nextImage + 1 }) }

/-- `XessSrModule` behind the `WorldModule` interface, as `WorldPipeline::init` drives it.
An exception of `setAttributes` leaves through the builder. `build` needs the framework (the
source dereferences it unchecked; the model leaves the state alone when it is gone). The
contexts `build` creates (lines 193-208) are not part of the module state kept in
`XessSrModule`, so `contexts()` lists none here. -/
def XessSrModule.worldModule (env : XessEnv) : WorldModule XessWorld :=
  { setAttributes := fun attributeCount attributeKVs w =>
      match XessSrModule.setAttributes env attributeCount attributeKVs w.module with
      | .ok m => .ok { w with module := m }
      | .error (e, _) => .error e
    setOrCreateOutputImages := fun images formats frameIndex w =>
      .ok (XessSrModule.setOrCreateOutputImages env images formats frameIndex w)
    setOrCreateInputImages := fun images formats frameIndex w =>
      .ok (XessSrModule.setOrCreateInputImages env images formats frameIndex w)
    build := fun w =>
      match env.framework with
      | some fw => .ok (XessSrModule.build env.sdk fw w)
      | none => .ok w
    contexts := fun _ => []
    preClose := XessSrModule.preClose }

/-- The negotiation call of `XessSrModule` for a direction. -/
def XessSrModule.setOrCreate (env : XessEnv) (dir : Direction)
    (images : List (Option DeviceLocalImage)) (formats : List Nat) (frameIndex : Nat)
    (w : XessWorld) : Negotiated × XessWorld :=
  match dir with
  | .output => XessSrModule.setOrCreateOutputImages env images formats frameIndex w
  | .input => XessSrModule.setOrCreateInputImages env images formats frameIndex w

/-- A module that accepts every output proposal as it is and fills every empty input
proposal with an image of 960 x 540. -/
def halfSizeModule : WorldModule XessWorld :=
  { setAttributes := fun _ _ w => .ok w
    setOrCreateOutputImages := fun images formats _ w => .ok (⟨true, images, formats⟩, w)
    setOrCreateInputImages := fun images formats _ w =>
      .ok (⟨true, images.map fun x =>
          match x with
          | some img => some img
          | none => some ⟨w.nextImage, 960, 540, 97, 28⟩, formats⟩,
        { w with nextImage := w.nextImage + 1 })
    build := fun w => .ok w
    contexts := fun _ => []
    preClose := fun w => w }

/-- The constructor registry of the demo: `XessSrModule` under its `NAME` (a new module with
its per-frame vectors sized by `XessSrModule::init`), and the half-size module. -/
def xessConstructors (env : XessEnv) (size : Nat) : WorldModuleConstructors XessWorld := fun name =>
  if name = "render_pipeline.module.xess_sr.name" then
    some (fun w => .ok (XessSrModule.worldModule env, { w with module := XessSrModule.init size {} }))
  else if name = "half" then some (fun w => .ok (halfSizeModule, w))
  else none

/-- Module 0 is the upscaler, writing the slots 0 and 1 and reading the slots 2 to 5; module 1
is the half-size module, reading slot 1. -/
def xessBlueprint : WorldPipelineBlueprint :=
  { moduleNames_ := ["render_pipeline.module.xess_sr.name", "half"]
    attributeCounts_ := [0, 0]
    attributeKVs_ := [[], []]
    modulesInputIndices_ := [[2, 3, 4, 5], [1]]
    modulesOutputIndices_ := [[0, 1], []]
    imageFormats_ := [97, 100, 97, 100, 83, 100] }

/-- The framework of the demo: two swapchain images of 1920 x 1080. -/
def demoXessFramework : XessFramework := ⟨(1920, 1080), 2, 1, 1, 1⟩

/-! ## `render`: the spans between two recordings -/

/-- The identities of the eight image objects of a context. -/
def XessSrModuleContext.imageIds (ctx : XessSrModuleContext) : List Nat :=
  [ctx.inputColorImage.id, ctx.inputDepthImage.id, ctx.inputMotionVectorImage.id,
   ctx.inputFirstHitDepthImage.id, ctx.outputImage.id, ctx.upscaledFirstHitDepthImage.id,
   ctx.deviceDepthImage.id, ctx.xessMotionVectorImage.id]

/-- The first batch of `fallbackBlit` (lines 390-435): four transitions to the transfer
layouts, then the four assignments to `imageLayout()`. -/
def XessSrModuleContext.toTransfer {W : Type} (ctx : XessSrModuleContext) (s : RenderState W) :
    RenderState W :=
  let s1 := s.barriers
    [{ oldLayout := s.layouts ctx.inputColorImage.id
       newLayout := VK_IMAGE_LAYOUT_TRANSFER_SRC_OPTIMAL, image := ctx.inputColorImage.id },
     { oldLayout := s.layouts ctx.outputImage.id
       newLayout := VK_IMAGE_LAYOUT_TRANSFER_DST_OPTIMAL, image := ctx.outputImage.id },
     { oldLayout := s.layouts ctx.inputFirstHitDepthImage.id
       newLayout := VK_IMAGE_LAYOUT_TRANSFER_SRC_OPTIMAL, image := ctx.inputFirstHitDepthImage.id },
     { oldLayout := s.layouts ctx.upscaledFirstHitDepthImage.id
       newLayout := VK_IMAGE_LAYOUT_TRANSFER_DST_OPTIMAL
       image := ctx.upscaledFirstHitDepthImage.id }]
  (((s1.setLayout ctx.inputColorImage.id VK_IMAGE_LAYOUT_TRANSFER_SRC_OPTIMAL).setLayout
    ctx.outputImage.id VK_IMAGE_LAYOUT_TRANSFER_DST_OPTIMAL).setLayout
    ctx.inputFirstHitDepthImage.id VK_IMAGE_LAYOUT_TRANSFER_SRC_OPTIMAL).setLayout
    ctx.upscaledFirstHitDepthImage.id VK_IMAGE_LAYOUT_TRANSFER_DST_OPTIMAL

/-- The two blits of `fallbackBlit` (lines 437-459). -/
def XessSrModuleContext.blits {W : Type} (ctx : XessSrModuleContext) (s : RenderState W) :
    RenderState W :=
  (s.record
    (.blitImage ctx.inputColorImage.id VK_IMAGE_LAYOUT_TRANSFER_SRC_OPTIMAL ctx.outputImage.id
      VK_IMAGE_LAYOUT_TRANSFER_DST_OPTIMAL (ctx.inputColorImage.width, ctx.inputColorImage.height)
      (ctx.outputImage.width, ctx.outputImage.height))).record
    (.blitImage ctx.inputFirstHitDepthImage.id VK_IMAGE_LAYOUT_TRANSFER_SRC_OPTIMAL
      ctx.upscaledFirstHitDepthImage.id VK_IMAGE_LAYOUT_TRANSFER_DST_OPTIMAL
      (ctx.inputFirstHitDepthImage.width, ctx.inputFirstHitDepthImage.height)
      (ctx.upscaledFirstHitDepthImage.width, ctx.upscaledFirstHitDepthImage.height))

/-- The last batch of `fallbackBlit` (lines 461-473): the color output from
`TRANSFER_DST_OPTIMAL`, a constant of the source, to `GENERAL`. -/
def XessSrModuleContext.outputToGeneral {W : Type} (ctx : XessSrModuleContext)
    (s : RenderState W) : RenderState W :=
  (s.barriers
    [{ oldLayout := VK_IMAGE_LAYOUT_TRANSFER_DST_OPTIMAL, newLayout := VK_IMAGE_LAYOUT_GENERAL
       image := ctx.outputImage.id }]).setLayout ctx.outputImage.id VK_IMAGE_LAYOUT_GENERAL

/-- The first batch of the dispatch path (lines 484-551): six transitions to `GENERAL`,
then the six assignments. -/
def XessSrModuleContext.toGeneral {W : Type} (ctx : XessSrModuleContext) (s : RenderState W) :
    RenderState W :=
  let s1 := s.barriers
    [{ oldLayout := s.layouts ctx.inputColorImage.id, newLayout := VK_IMAGE_LAYOUT_GENERAL
       image := ctx.inputColorImage.id },
     { oldLayout := s.layouts ctx.inputDepthImage.id, newLayout := VK_IMAGE_LAYOUT_GENERAL
       image := ctx.inputDepthImage.id },
     { oldLayout := s.layouts ctx.inputMotionVectorImage.id, newLayout := VK_IMAGE_LAYOUT_GENERAL
       image := ctx.inputMotionVectorImage.id },
     { oldLayout := s.layouts ctx.deviceDepthImage.id, newLayout := VK_IMAGE_LAYOUT_GENERAL
       image := ctx.deviceDepthImage.id },
     { oldLayout := s.layouts ctx.xessMotionVectorImage.id, newLayout := VK_IMAGE_LAYOUT_GENERAL
       image := ctx.xessMotionVectorImage.id },
     { oldLayout := s.layouts ctx.outputImage.id, newLayout := VK_IMAGE_LAYOUT_GENERAL
       image := ctx.outputImage.id }]
  (((((s1.setLayout ctx.inputColorImage.id VK_IMAGE_LAYOUT_GENERAL).setLayout
    ctx.inputDepthImage.id VK_IMAGE_LAYOUT_GENERAL).setLayout
    ctx.inputMotionVectorImage.id VK_IMAGE_LAYOUT_GENERAL).setLayout
    ctx.deviceDepthImage.id VK_IMAGE_LAYOUT_GENERAL).setLayout
    ctx.xessMotionVectorImage.id VK_IMAGE_LAYOUT_GENERAL).setLayout
    ctx.outputImage.id VK_IMAGE_LAYOUT_GENERAL

/-- The depth conversion pass (lines 553-579): the bindings, the push constants, the
dispatch and the memory barrier. -/
def XessSrModuleContext.convertDepth (_ctx : XessSrModuleContext) (s : RenderState XessWorld) :
    RenderState XessWorld :=
  ((((s.record .bindDescriptorTable).record .bindComputePipeline).record
    (.pushConstants s.world.module.renderWidth_ s.world.module.renderHeight_)).record
    (.dispatch ((s.world.module.renderWidth_ + 15) / 16)
      ((s.world.module.renderHeight_ + 15) / 16) 1)).record
    .barriersMemory

/-- The second batch of the dispatch path (lines 581-615): three transitions to
`SHADER_READ_ONLY_OPTIMAL`, then the three assignments. -/
def XessSrModuleContext.toShaderRead {W : Type} (ctx : XessSrModuleContext)
    (s : RenderState W) : RenderState W :=
  let s1 := s.barriers
    [{ oldLayout := s.layouts ctx.inputColorImage.id
       newLayout := VK_IMAGE_LAYOUT_SHADER_READ_ONLY_OPTIMAL, image := ctx.inputColorImage.id },
     { oldLayout := s.layouts ctx.deviceDepthImage.id
       newLayout := VK_IMAGE_LAYOUT_SHADER_READ_ONLY_OPTIMAL, image := ctx.deviceDepthImage.id },
     { oldLayout := s.layouts ctx.xessMotionVectorImage.id
       newLayout := VK_IMAGE_LAYOUT_SHADER_READ_ONLY_OPTIMAL
       image := ctx.xessMotionVectorImage.id }]
  ((s1.setLayout ctx.inputColorImage.id VK_IMAGE_LAYOUT_SHADER_READ_ONLY_OPTIMAL).setLayout
    ctx.deviceDepthImage.id VK_IMAGE_LAYOUT_SHADER_READ_ONLY_OPTIMAL).setLayout
    ctx.xessMotionVectorImage.id VK_IMAGE_LAYOUT_SHADER_READ_ONLY_OPTIMAL

/-- The request and the call of the wrapper (lines 617-653) as far as the frame state
goes: `checkCameraReset` updates the module and the call is logged. -/
def XessSrModuleContext.request (env : XessEnv) (commandBuffer : Nat) (ubo : WorldUBO)
    (ctx : XessSrModuleContext) (s : RenderState XessWorld) : RenderState XessWorld :=
  let (resetHistory, m1) :=
    XessSrModuleContext.checkCameraReset env.glm ubo.cameraPos ubo.cameraViewDir s.world.module
  { s with world := { s.world with
      module := m1
      backendCalls := s.world.backendCalls ++
        [.dispatchCall (ctx.makeInput commandBuffer ubo m1 resetHistory)] } }

/-- The assignment after a successful dispatch (line 658):
`outputImage->imageLayout() = VK_IMAGE_LAYOUT_GENERAL`, with no barrier. -/
def XessSrModuleContext.markOutput {W : Type} (ctx : XessSrModuleContext) (s : RenderState W) :
    RenderState W :=
  s.setLayout ctx.outputImage.id VK_IMAGE_LAYOUT_GENERAL

/-- The last batch of the success path (lines 660-683): the two first-hit-depth images to
the transfer layouts, then the two assignments. -/
def XessSrModuleContext.depthToTransfer {W : Type} (ctx : XessSrModuleContext)
    (s : RenderState W) : RenderState W :=
  let s1 := s.barriers
    [{ oldLayout := s.layouts ctx.inputFirstHitDepthImage.id
       newLayout := VK_IMAGE_LAYOUT_TRANSFER_SRC_OPTIMAL, image := ctx.inputFirstHitDepthImage.id },
     { oldLayout := s.layouts ctx.upscaledFirstHitDepthImage.id
       newLayout := VK_IMAGE_LAYOUT_TRANSFER_DST_OPTIMAL
       image := ctx.upscaledFirstHitDepthImage.id }]
  (s1.setLayout ctx.inputFirstHitDepthImage.id VK_IMAGE_LAYOUT_TRANSFER_SRC_OPTIMAL).setLayout
    ctx.upscaledFirstHitDepthImage.id VK_IMAGE_LAYOUT_TRANSFER_DST_OPTIMAL

/-- The blit of the first-hit depth that ends the success path (lines 685-693). -/
def XessSrModuleContext.depthBlit (ctx : XessSrModuleContext) (s : RenderState XessWorld) :
    RenderState XessWorld :=
  s.record
    (.blitImage ctx.inputFirstHitDepthImage.id VK_IMAGE_LAYOUT_TRANSFER_SRC_OPTIMAL
      ctx.upscaledFirstHitDepthImage.id VK_IMAGE_LAYOUT_TRANSFER_DST_OPTIMAL
      (s.world.module.renderWidth_, s.world.module.renderHeight_)
      (s.world.module.displayWidth_, s.world.module.displayHeight_))

/-- The spans of `fallbackBlit`, in order. -/
def XessSrModuleContext.fallbackSteps {W : Type} (ctx : XessSrModuleContext) :
    List (RenderState W → RenderState W) :=
  [ctx.toTransfer, ctx.blits, ctx.outputToGeneral]

/-- The spans of `render` from the guard to the call of the wrapper, in order. -/
def XessSrModuleContext.dispatchSteps (env : XessEnv) (commandBuffer : Nat) (ubo : WorldUBO)
    (ctx : XessSrModuleContext) : List (RenderState XessWorld → RenderState XessWorld) :=
  [ctx.toGeneral, ctx.convertDepth, ctx.toShaderRead, ctx.request env commandBuffer ubo]

/-- The spans of `render` after a successful dispatch, in order. -/
def XessSrModuleContext.finishSteps (ctx : XessSrModuleContext) :
    List (RenderState XessWorld → RenderState XessWorld) :=
  [ctx.markOutput, ctx.depthToTransfer, ctx.depthBlit]

/-- The spans `render` goes through from a state, by the branches of the source: none when
the module is gone, `fallbackBlit` when the module is disabled, not initialised or without
a wrapper, else the dispatch path followed by `fallbackBlit` when the dispatch fails and by
the closing spans when it succeeds. -/
def XessSrModuleContext.renderSteps (env : XessEnv) (commandBuffer : Nat) (ubo : WorldUBO)
    (ctx : XessSrModuleContext) (s : RenderState XessWorld) :
    List (RenderState XessWorld → RenderState XessWorld) :=
  if !s.world.moduleAlive then []
  else
    match s.world.module.xessEnabled_, s.world.module.initialized_, s.world.module.xess_ with
    | true, true, some xess =>
      if !XeSSWrapper.dispatch env.sdk xess (ctx.beforeDispatch env commandBuffer ubo s).1 then
        ctx.dispatchSteps env commandBuffer ubo ++ ctx.fallbackSteps
      else ctx.dispatchSteps env commandBuffer ubo ++ ctx.finishSteps
    | _, _, _ => ctx.fallbackSteps

/-- The spans of a list run one after the other. -/
def runSteps {W : Type} (steps : List (RenderState W → RenderState W)) (s : RenderState W) :
    RenderState W :=
  steps.foldl (fun s step => step s) s

/-- From `s` to `t` one batch of layout transitions was recorded into the world command
buffer, and nothing else: every barrier of the batch declares as old layout the layout
tracked for its image in `s`, in `t` the layout tracked for its image is the new layout it
declares, and the images outside the batch are tracked as in `s`. -/
def RecordsTransitions {W : Type} (s t : RenderState W) : Prop :=
  ∃ batch : List ImageBarrier,
    t.worldCommandBuffer = s.worldCommandBuffer ++ [.barriersBufferImage batch] ∧
    (∀ b ∈ batch, b.oldLayout = s.layouts b.image ∧ t.layouts b.image = b.newLayout) ∧
    ∀ image, (∀ b ∈ batch, b.image ≠ image) → t.layouts image = s.layouts image

/-- From `s` to `t` no layout transition was recorded: the commands appended to the world
command buffer hold no image barrier, and every image is tracked as in `s`. -/
def RecordsNoTransition {W : Type} (s t : RenderState W) : Prop :=
  ∃ cmds : List Command,
    t.worldCommandBuffer = s.worldCommandBuffer ++ cmds ∧
    (∀ batch, Command.barriersBufferImage batch ∉ cmds) ∧
    t.layouts = s.layouts

/-- Every span of the list, run from the state the spans before it leave, either records
one batch of transitions that agrees with the tracked layouts or records no transition. -/
def TracksLayouts {W : Type} : List (RenderState W → RenderState W) → RenderState W → Prop
  | [], _ => True
  | step :: rest, s =>
    (RecordsTransitions s (step s) ∨ RecordsNoTransition s (step s)) ∧
      TracksLayouts rest (step s)

/-! ## `Pipeline::recreate` -/

/-- A `PipelineContext` as its constructor fills it (lines 460-465): the frame, the UI
module whose context of that frame it holds, and the world pipeline context of that frame,
null when the pipeline has no world pipeline. -/
structure PipelineContext (W : Type) where
  frameIndex : Nat
  uiModule : Option Nat
  worldPipelineContext : Option (WorldPipelineContext W)

/-- The data members of `Pipeline` that `recreate` reads and writes; the UI module is an
object identity. -/
structure Pipeline (W : Type) where
  uiModule_ : Option Nat
  worldPipeline_ : Option (WorldPipeline W)
  worldPipelineBlueprint_ : Option WorldPipelineBlueprint
  contexts_ : List (Option (PipelineContext W))

/-- What `recreate` calls outside `pipeline.cpp`: `gc.collect` of the framework's garbage
collector, `UIModule::create(framework)` and `WorldPipeline::create(framework, pipeline)`,
each acting on the outside state; the two factories may throw. -/
structure PipelineOutside (W : Type) where
  collect : W → W
  createUiModule : W → Except String (Nat × W)
  createWorldPipeline : WorldPipelineBlueprint → W → Except String (WorldPipeline W × W)

/-- What `recreate` does, in the order it does it. A call is logged when it is made. -/
inductive RecreateEvent where
  | collectUiModule
  | createUiModule
  | preClose (i : Nat)
  | collectWorldPipeline
  | createWorldPipeline
  | collectContexts
  | createContext (i : Nat)
deriving Repr, DecidableEq

/-- The state `recreate` runs over. -/
structure RecreateState (W : Type) where
  world : W
  pipeline : Pipeline W
  trace : List RecreateEvent

/-- The loop `for (auto &module : worldPipeline_->worldModules()) module->preClose()`
(lines 410-411), skipped when there is no world pipeline. The source calls `preClose()` on
every entry unchecked; a null entry is skipped in the model. -/
def Pipeline.preCloseModules {W : Type} (s : RecreateState W) : RecreateState W :=
  match s.pipeline.worldPipeline_ with
  | some wp =>
    forLoop wp.worldModules_.length
      (fun i s =>
        match wp.worldModules_.getD i none with
        | some m => { s with world := m.preClose s.world, trace := s.trace ++ [.preClose i] }
        | none => s) s
  | none => s

/-- `PipelineContext::PipelineContext` (lines 460-465) for frame `i`. The source indexes
`contexts()` unchecked; an entry that does not exist is null here. -/
def PipelineContext.create {W : Type} (i : Nat) (p : Pipeline W) : PipelineContext W :=
  { frameIndex := i
    uiModule := p.uiModule_
    worldPipelineContext :=
      match p.worldPipeline_ with
      | none => none
      | some wp => wp.contexts_.getD i none }

/-- The end of `recreate` (lines 415-424): the old contexts go to the collector, and one
context per swapchain image is created. -/
def Pipeline.recreateContexts {W : Type} (out : PipelineOutside W) (imageCount : Nat)
    (s : RecreateState W) : RecreateState W :=
  let s1 : RecreateState W :=
    { world := out.collect s.world
      pipeline := { s.pipeline with contexts_ := vectorResize [] imageCount none }
      trace := s.trace ++ [.collectContexts] }
  forLoop imageCount
    (fun i s =>
      { s with
        pipeline := { s.pipeline with
          contexts_ := s.pipeline.contexts_.set i (some (PipelineContext.create i s.pipeline)) }
        trace := s.trace ++ [.createContext i] }) s1

/-- `Pipeline::recreate` (lines 404-425) on a pipeline and an outside state; `imageCount`
is `framework->swapchain()->imageCount()`. The result is the state it leaves, or the
exception of a factory together with the state at the throw. -/
def Pipeline.recreate {W : Type} (out : PipelineOutside W) (imageCount : Nat) (p : Pipeline W)
    (world : W) : Except (String × RecreateState W) (RecreateState W) :=
  let s1 : RecreateState W :=
    { world := out.collect world, pipeline := p
      trace := [.collectUiModule, .createUiModule] }
  match out.createUiModule s1.world with
  | .error e => .error (e, s1)
  | .ok (ui, world2) =>
    let s2 : RecreateState W :=
      { s1 with world := world2, pipeline := { s1.pipeline with uiModule_ := some ui } }
    let s3 := Pipeline.preCloseModules s2
    let s4 : RecreateState W :=
      { s3 with world := out.collect s3.world, trace := s3.trace ++ [.collectWorldPipeline] }
    match s4.pipeline.worldPipelineBlueprint_ with
    | none =>
      .ok (Pipeline.recreateContexts out imageCount
        { s4 with pipeline := { s4.pipeline with worldPipeline_ := none } })
    | some bp =>
      let s5 : RecreateState W := { s4 with trace := s4.trace ++ [.createWorldPipeline] }
      match out.createWorldPipeline bp s5.world with
      | .error e => .error (e, s5)
      | .ok (wp, world6) =>
        .ok (Pipeline.recreateContexts out imageCount
          { s5 with world := world6, pipeline := { s5.pipeline with worldPipeline_ := some wp } })

/-- The calls of `preClose` on the modules of a world pipeline, in order of the module
vector, one per non-null entry; none when there is no world pipeline. -/
def preCloseEvents {W : Type} (worldPipeline : Option (WorldPipeline W)) : List RecreateEvent :=
  match worldPipeline with
  | some wp =>
    (List.range wp.worldModules_.length).filterMap fun i =>
      (wp.worldModules_.getD i none).map fun _ => RecreateEvent.preClose i
  | none => []

/-- An outside in which the collector leaves the state alone, the UI module created gets
the state as identity, and the world pipeline created holds one module, the accepting
one. -/
def demoOutside : PipelineOutside Nat :=
  { collect := fun w => w
    createUiModule := fun w => .ok (w, w + 1)
    createWorldPipeline := fun _ w =>
      .ok ({ worldModules_ := [some acceptingModule], sharedImages_ := [], contexts_ := [] }, w) }

/-- A pipeline with a world pipeline of two modules whose `preClose` adds 10 and 100 to the
outside state. -/
def demoPipeline (blueprint : Option WorldPipelineBlueprint) : Pipeline Nat :=
  { uiModule_ := some 0
    worldPipeline_ := some
      { worldModules_ := [some { acceptingModule with preClose := fun w => w + 10 },
                          some { acceptingModule with preClose := fun w => w + 100 }]
        sharedImages_ := []
        contexts_ := [] }
    worldPipelineBlueprint_ := blueprint
    contexts_ := [] }

/-! ## Demo modules for the slots a later module empties -/

/-- A module that accepts every proposal after emptying every entry of the image vector. -/
def nullingModule : WorldModule Nat :=
  { setAttributes := fun _ _ w => .ok w
    setOrCreateOutputImages := fun images formats _ w =>
      .ok (⟨true, images.map fun _ => none, formats⟩, w)
    setOrCreateInputImages := fun images formats _ w =>
      .ok (⟨true, images.map fun _ => none, formats⟩, w)
    build := fun w => .ok w
    contexts := fun _ => [none, none]
    preClose := fun w => w }

/-- The constructors of the demo modules and of the emptying module. -/
def nullingConstructors : WorldModuleConstructors Nat := fun name =>
  if name = "null" then some (fun w => .ok (nullingModule, w)) else demoConstructors name

/-- The build parameters of the demo pipeline with the emptying module as module 0 and the
strict module as module 1. -/
def nullingParams : WorldPipelineBuildParams :=
  { demoInitParams "null" with moduleNames := fun i => if i = 0 then "null" else "strict" }

/-- The demo blueprint with the emptying module as module 0 (reads slot 2, writes slot 1)
and the strict module as module 1 (reads slot 1, writes slot 0). -/
def nullingBlueprint : WorldPipelineBlueprint :=
  { demoBlueprint "null" with moduleNames_ := ["null", "strict"] }

/-- A module that accepts every proposal as it is and whose context of frame 0 logs `k`
and whose context of frame 1 logs `k + 10`. -/
def loggingModule (k : Nat) : WorldModule (List Nat) :=
  { setAttributes := fun _ _ w => .ok w
    setOrCreateOutputImages := fun images formats _ w => .ok (⟨true, images, formats⟩, w)
    setOrCreateInputImages := fun images formats _ w => .ok (⟨true, images, formats⟩, w)
    build := fun w => .ok w
    contexts := fun _ => [some (loggingContext k), some (loggingContext (k + 10))]
    preClose := fun w => w }

/-- The constructors of the logging modules `log0`, `log1` and `log2`. -/
def loggingConstructors : WorldModuleConstructors (List Nat) := fun name =>
  if name = "log0" then some (fun w => .ok (loggingModule 0, w))
  else if name = "log1" then some (fun w => .ok (loggingModule 1, w))
  else if name = "log2" then some (fun w => .ok (loggingModule 2, w))
  else none

/-- A blueprint of the three logging modules, each writing slot 0 and reading nothing. -/
def loggingBlueprint : WorldPipelineBlueprint :=
  { moduleNames_ := ["log0", "log1", "log2"]
    attributeCounts_ := [0, 0, 0]
    attributeKVs_ := [[], [], []]
    modulesInputIndices_ := [[], [], []]
    modulesOutputIndices_ := [[0], [0], [0]]
    imageFormats_ := [37] }

/-- A framework of two swapchain images over the logging state; image identities are
counted by the length of the log. -/
def loggingFramework : Framework (List Nat) :=
  { imageCount := 2, extent := (1920, 1080), useAmd := false
    newImage := fun w => (w.length, w) }

/-! # Part II: the properties (all theorems) -/

/-! ## Facts about the containers -/

theorem forLoop_zero {σ : Type} (body : Nat → σ → σ) (s : σ) : forLoop 0 body s = s := rfl

theorem forLoop_succ {σ : Type} (n : Nat) (body : Nat → σ → σ) (s : σ) :
    forLoop (n + 1) body s = body n (forLoop n body s) := by
  simp [forLoop, List.range_succ, List.foldl_append]

theorem mem_setInsert (x k : Nat) (l : List Nat) : k ∈ setInsert x l ↔ k = x ∨ k ∈ l := by
  induction l with
  | nil => simp [setInsert]
  | cons y ys ih =>
    unfold setInsert
    split_ifs with h1 h2
    · simp
    · subst h2; simp
    · simp [ih]; tauto

theorem setInsert_lowerBound (x b : Nat) (l : List Nat) (hb : ∀ k ∈ l, b < k) (hx : b < x) :
    ∀ k ∈ setInsert x l, b < k := by
  intro k hk
  rcases (mem_setInsert x k l).1 hk with h | h
  · exact h ▸ hx
  · exact hb k h

theorem setInsert_sorted (x : Nat) (l : List Nat) (h : l.Sorted (· < ·)) :
    (setInsert x l).Sorted (· < ·) := by
  induction l with
  | nil => simp [setInsert]
  | cons y ys ih =>
    have hy : ∀ k ∈ ys, y < k := fun k hk => List.rel_of_sorted_cons h k hk
    have hys : ys.Sorted (· < ·) := List.Sorted.of_cons h
    unfold setInsert
    split_ifs with h1 h2
    · refine List.sorted_cons.2 ⟨?_, h⟩
      intro k hk
      rcases List.mem_cons.1 hk with hk | hk
      · exact hk ▸ h1
      · exact lt_trans h1 (hy k hk)
    · exact h
    · exact List.sorted_cons.2 ⟨setInsert_lowerBound x y ys hy (by omega), ih hys⟩

/-! ## Blueprint construction -/

theorem readIndices_fst (src : Nat → Nat) (num : Nat) (set : List Nat) :
    (readIndices src num set).1 = (List.range num).map src := by
  induction num with
  | zero => rfl
  | succ n ih =>
    unfold readIndices at ih ⊢
    rw [forLoop_succ, ih]
    simp [List.range_succ]

theorem readIndices_snd_mem (src : Nat → Nat) (num : Nat) (set : List Nat) (k : Nat) :
    k ∈ (readIndices src num set).2 ↔ k ∈ set ∨ k ∈ (List.range num).map src := by
  induction num with
  | zero => simp [readIndices, forLoop_zero]
  | succ n ih =>
    unfold readIndices at ih ⊢
    rw [forLoop_succ]
    simp only [mem_setInsert, ih, List.range_succ, List.map_append, List.mem_append,
      List.map_cons, List.map_nil, List.mem_singleton]
    tauto

theorem readIndices_snd_sorted (src : Nat → Nat) (num : Nat) (set : List Nat)
    (h : set.Sorted (· < ·)) : (readIndices src num set).2.Sorted (· < ·) := by
  induction num with
  | zero => simpa [readIndices, forLoop_zero] using h
  | succ n ih =>
    unfold readIndices at ih ⊢
    rw [forLoop_succ]
    exact setInsert_sorted _ _ ih

/-- The invariant of the descriptor loop: the local set is ascending and holds exactly the
indices stored in the per-module index vectors. -/
theorem blueprintModules_invariant (reg : InOutImageNums) (params : WorldPipelineBuildParams) :
    (blueprintModules reg params).imageIndices.Sorted (· < ·) ∧
    ∀ k, k ∈ (blueprintModules reg params).imageIndices ↔
      k ∈ referencedSlots (blueprintModules reg params).bp := by
  unfold blueprintModules
  induction params.moduleCount with
  | zero => simp [forLoop_zero, referencedSlots]
  | succ n ih =>
    rw [forLoop_succ]
    obtain ⟨hs, hm⟩ := ih
    constructor
    · simp only [blueprintModuleStep]
      exact readIndices_snd_sorted _ _ _ (readIndices_snd_sorted _ _ _ hs)
    · intro k
      simp only [blueprintModuleStep, referencedSlots, readIndices_snd_mem, hm k,
        readIndices_fst, List.flatten_append, List.mem_append, List.flatten_cons,
        List.flatten_nil, List.append_nil]
      tauto

theorem checkContinuous_ok_iff (imageFormats : Nat → Nat) (l : List Nat) (cnt : Nat)
    (formats : List Nat) :
    (∃ r, checkContinuous imageFormats l cnt formats = .ok r) ↔ l = List.range' cnt l.length := by
  induction l generalizing cnt formats with
  | nil => simp [checkContinuous]
  | cons i rest ih =>
    unfold checkContinuous
    by_cases h : i = cnt
    · subst h
      simp [ih, List.range'_succ]
    · simp [h, List.range'_succ]

theorem sorted_eq_range_iff (l : List Nat) (h : l.Sorted (· < ·)) :
    l = List.range l.length ↔ l.toFinset = Finset.range l.toFinset.card := by
  have hnd : l.Nodup := h.nodup
  have hcard : l.toFinset.card = l.length := List.toFinset_card_of_nodup hnd
  constructor
  · intro hl
    rw [hcard]
    conv_lhs => rw [hl]
    ext k
    simp
  · intro hl
    rw [hcard] at hl
    have hperm : l.Perm (List.range l.length) := by
      rw [List.perm_ext_iff_of_nodup hnd (List.nodup_range _)]
      intro k
      have := congrArg (fun s => k ∈ s) hl
      simpa using this
    exact List.eq_of_perm_of_sorted hperm h (List.sorted_lt_range _)

theorem lookup_append_singleton (reg : InOutImageNums) (a b : String) (v : Nat × Nat) :
    List.lookup b (reg ++ [(a, v)]) =
      match List.lookup b reg with
      | some x => some x
      | none => if b = a then some v else none := by
  induction reg with
  | nil =>
    by_cases h : b = a
    · subst h; simp [List.lookup]
    · have hne : (b == a) = false := by simpa using h
      simp [List.lookup, h, hne]
  | cons p rest ih =>
    obtain ⟨k, x⟩ := p
    by_cases h : b = k
    · subst h; simp [List.lookup]
    · have hne : (b == k) = false := by simpa using h
      simp only [List.cons_append, List.lookup, hne]
      exact ih

theorem nums_index (reg : InOutImageNums) (a b : String) :
    (reg.index a).2.nums b = reg.nums b := by
  unfold InOutImageNums.nums InOutImageNums.index
  cases ha : List.lookup a reg with
  | some v => rfl
  | none =>
    simp only [lookup_append_singleton]
    cases hb : List.lookup b reg with
    | some x => rfl
    | none =>
      by_cases h : b = a
      · simp [h]
      · simp [h]

/-- What the descriptor loop has stored after `n` descriptors: the index vectors read with
the counts of the registry the constructor started from. -/
theorem blueprintModules_stored (reg : InOutImageNums) (params : WorldPipelineBuildParams)
    (n : Nat) :
    let s := forLoop n (blueprintModuleStep params)
      { bp := ⟨[], [], [], [], [], []⟩, imageIndices := [], registry := reg }
    (∀ name, s.registry.nums name = reg.nums name) ∧
    s.bp.modulesInputIndices_ = (List.range n).map (fun i =>
      (List.range (reg.nums (params.moduleNames i)).1).map (params.inputIndices i)) ∧
    s.bp.modulesOutputIndices_ = (List.range n).map (fun i =>
      (List.range (reg.nums (params.moduleNames i)).2).map (params.outputIndices i)) := by
  induction n with
  | zero => simp [forLoop_zero]
  | succ k ih =>
    simp only at ih ⊢
    rw [forLoop_succ]
    obtain ⟨hreg, hin, hout⟩ := ih
    have hnums := hreg (params.moduleNames k)
    unfold InOutImageNums.nums at hnums
    refine ⟨?_, ?_, ?_⟩
    · intro name
      simp only [blueprintModuleStep]
      rw [nums_index, hreg]
    · simp only [blueprintModuleStep, readIndices_fst, hin, List.range_succ, List.map_append,
        List.map_cons, List.map_nil, hnums]
      rfl
    · simp only [blueprintModuleStep, readIndices_fst, hout, List.range_succ, List.map_append,
        List.map_cons, List.map_nil, hnums]
      rfl

theorem mem_referencedSlots_iff (reg : InOutImageNums) (params : WorldPipelineBuildParams)
    (k : Nat) :
    k ∈ referencedSlots (blueprintModules reg params).bp ↔ k ∈ declaredSlots reg params := by
  obtain ⟨_, hin, hout⟩ := blueprintModules_stored reg params params.moduleCount
  unfold blueprintModules referencedSlots declaredSlots
  rw [hin, hout]
  simp only [List.mem_append, List.mem_flatten, List.mem_map, List.mem_range, List.mem_flatMap]
  constructor
  · rintro (⟨l, ⟨i, hi, rfl⟩, hk⟩ | ⟨l, ⟨i, hi, rfl⟩, hk⟩)
    · exact ⟨i, hi, Or.inl (by simpa using hk)⟩
    · exact ⟨i, hi, Or.inr (by simpa using hk)⟩
  · rintro ⟨i, hi, hk | hk⟩
    · exact Or.inl ⟨_, ⟨i, hi, rfl⟩, by simpa using hk⟩
    · exact Or.inr ⟨_, ⟨i, hi, rfl⟩, by simpa using hk⟩

/-- **C1.** The constructor throws exactly when the slot indices referenced by the inputs and
outputs of all descriptors, taken together, are not the set `{0, ..., N-1}`, with `N` the
number of distinct referenced indices. -/
theorem blueprint_throws_iff_not_contiguous (reg : InOutImageNums)
    (params : WorldPipelineBuildParams) :
    WorldPipelineBlueprint.throws reg params = true ↔
      (declaredSlots reg params).toFinset ≠
        Finset.range (declaredSlots reg params).toFinset.card := by
  obtain ⟨hs, hm⟩ := blueprintModules_invariant reg params
  have hfin : (blueprintModules reg params).imageIndices.toFinset =
      (declaredSlots reg params).toFinset := by
    ext k
    simp [hm k, mem_referencedSlots_iff]
  rw [← hfin, Ne, ← sorted_eq_range_iff _ hs]
  have hiff := checkContinuous_ok_iff params.imageFormats
    (blueprintModules reg params).imageIndices 0 []
  rw [← List.range_eq_range'] at hiff
  rw [← hiff]
  unfold WorldPipelineBlueprint.throws WorldPipelineBlueprint.construct
  cases hc : checkContinuous params.imageFormats (blueprintModules reg params).imageIndices 0 [] with
  | ok r => simp [hc]
  | error e => simp [hc]

/-- The descriptors over the slots `{0, 1, 2}` construct; over `{0, 1, 3}` the constructor
throws. -/
theorem demo_blueprint_gap :
    WorldPipelineBlueprint.throws demoRegistry (demoParams 2) = false ∧
      WorldPipelineBlueprint.throws demoRegistry (demoParams 3) = true := by
  decide

/-! ## Fallback extent -/

theorem tryIndices_eq_firstResolved (pool : SharedImages) (frameIndex : Nat) (indices : List Nat) :
    tryIndices (pool.getD frameIndex []) indices =
      (firstResolved pool frameIndex indices).map (fun img => (img.width, img.height)) := by
  induction indices with
  | nil => rfl
  | cons idx rest ih =>
    unfold tryIndices
    by_cases hge : idx ≥ (pool.getD frameIndex []).length
    · have hnone : pool.at frameIndex idx = none := by
        unfold SharedImages.at
        exact List.getD_eq_default _ _ hge
      simp only [hge, if_true, ih, firstResolved, List.filterMap_cons, hnone]
    · cases hcell : (pool.getD frameIndex []).getD idx none with
      | none =>
        have hnone : pool.at frameIndex idx = none := hcell
        simp only [hge, if_false, ih, firstResolved, List.filterMap_cons, hnone]
      | some img =>
        have hsome : pool.at frameIndex idx = some img := hcell
        simp only [hge, if_false, hcell, firstResolved, List.filterMap_cons, hsome,
          List.head?_cons, Option.map_some']

theorem inferModuleExtent_eq_spec (pool : SharedImages) (extent : Nat × Nat) (frameIndex : Nat)
    (outputIndices inputIndices : List Nat) :
    inferModuleExtent pool extent frameIndex outputIndices inputIndices =
      specFallbackExtent pool extent frameIndex outputIndices inputIndices := by
  unfold inferModuleExtent specFallbackExtent
  rw [tryIndices_eq_firstResolved, tryIndices_eq_firstResolved]
  cases firstResolved pool frameIndex outputIndices with
  | some img => rfl
  | none =>
    cases firstResolved pool frameIndex inputIndices with
    | some img => rfl
    | none => rfl

/-! ## The log of one negotiation -/

theorem createImageAt_trace {W : Type} (fw : Framework W) (frameIndex idx width height format : Nat)
    (s : InitState W) :
    (createImageAt fw frameIndex idx width height format s).trace = s.trace := by
  unfold createImageAt
  cases s.wp.sharedImages_.at frameIndex idx <;> rfl

theorem fallbackFill_trace {W : Type} (fw : Framework W) (bp : WorldPipelineBlueprint)
    (dir : Direction) (i frameIndex : Nat) (extent : Nat × Nat) (indices : List Nat)
    (acc : List (Option DeviceLocalImage) × InitState W) :
    (fallbackFill fw bp dir i frameIndex extent indices acc).2.trace =
      acc.2.trace ++ fallbackEvents bp dir i frameIndex extent indices := by
  unfold fallbackFill fallbackEvents
  have key : ∀ k, k ≤ indices.length →
      (forLoop k
        (fun j (acc : List (Option DeviceLocalImage) × InitState W) =>
          let idx := indices.getD j 0
          let s1 := createImageAt fw frameIndex idx extent.1 extent.2 (bp.imageFormats_.getD idx 0)
            { acc.2 with trace := acc.2.trace ++
                [.createImageAt dir i frameIndex idx extent.1 extent.2 (bp.imageFormats_.getD idx 0)] }
          (acc.1.set j (s1.wp.sharedImages_.at frameIndex idx), s1))
        acc).2.trace =
      acc.2.trace ++ (indices.take k).map fun idx =>
        InitEvent.createImageAt dir i frameIndex idx extent.1 extent.2 (bp.imageFormats_.getD idx 0) := by
    intro k
    induction k with
    | zero => intro _; simp [forLoop_zero]
    | succ n ih =>
      intro hk
      rw [forLoop_succ]
      simp only [createImageAt_trace]
      rw [ih (by omega)]
      have hlt : n < indices.length := by omega
      rw [List.take_succ, List.map_append, List.getD_eq_getElem _ _ hlt]
      simp [List.getElem?_eq_getElem hlt]
  have := key indices.length (le_refl _)
  simpa using this

theorem callSetOrCreate_wp {W : Type} (m : WorldModule W) (dir : Direction) (i frameIndex : Nat)
    (retry : Bool) (images : List (Option DeviceLocalImage)) (formats : List Nat)
    (s : InitState W) (r : Negotiated) (s1 : InitState W)
    (h : callSetOrCreate m dir i frameIndex retry images formats s = .ok (r, s1)) :
    s1.wp = s.wp ∧
      s1.trace = s.trace ++ [.negotiate dir i frameIndex retry images formats (some r.result)] := by
  unfold callSetOrCreate at h
  cases hc : m.setOrCreate dir images formats frameIndex s.world with
  | error e => simp [hc] at h
  | ok p =>
    obtain ⟨r0, w0⟩ := p
    simp only [hc, Except.ok.injEq, Prod.mk.injEq] at h
    obtain ⟨h1, h2⟩ := h
    subst h1 h2
    exact ⟨rfl, rfl⟩

theorem callSetOrCreate_error {W : Type} (m : WorldModule W) (dir : Direction) (i frameIndex : Nat)
    (retry : Bool) (images : List (Option DeviceLocalImage)) (formats : List Nat)
    (s : InitState W) (e : String × InitState W)
    (h : callSetOrCreate m dir i frameIndex retry images formats s = .error e) :
    e.2.wp = s.wp ∧
      e.2.trace = s.trace ++ [.negotiate dir i frameIndex retry images formats none] := by
  unfold callSetOrCreate at h
  cases hc : m.setOrCreate dir images formats frameIndex s.world with
  | error e0 =>
    simp only [hc, Except.error.injEq] at h
    subst h
    exact ⟨rfl, rfl⟩
  | ok p =>
    obtain ⟨r0, w0⟩ := p
    simp [hc] at h

/-- The log of one negotiation: what it appends, its shape, and the extent every fallback
allocation asks for. -/
theorem negotiate_log {W : Type} (fw : Framework W) (bp : WorldPipelineBlueprint)
    (m : WorldModule W) (dir : Direction) (i frameIndex : Nat) (s : InitState W) :
    ∃ seg, (negotiate fw bp m dir i frameIndex s).state.trace = s.trace ++ seg ∧
      NegotiationLog bp dir i frameIndex seg (!(negotiate fw bp m dir i frameIndex s).throws) ∧
      ∀ e ∈ seg, ∀ d i1 f1 idx w h fmt, e = InitEvent.createImageAt d i1 f1 idx w h fmt →
        (w, h) = inferModuleExtent s.wp.sharedImages_ fw.extent frameIndex
          (moduleIndices bp .output i) (moduleIndices bp .input i) := by
  unfold negotiate fallbackStep proposal
  simp only
  cases h1 : callSetOrCreate m dir i frameIndex false
      ((moduleIndices bp dir i).map fun idx => s.wp.sharedImages_.at frameIndex idx)
      ((moduleIndices bp dir i).map fun idx => bp.imageFormats_.getD idx 0) s with
  | error e =>
    obtain ⟨_, ht⟩ := callSetOrCreate_error _ _ _ _ _ _ _ _ _ h1
    refine ⟨_, ht, ?_, ?_⟩
    · exact NegotiationLog.threw _ _
    · intro ev hev; simp at hev; subst hev; intros; contradiction
  | ok p =>
    obtain ⟨r1, s1⟩ := p
    obtain ⟨hwp, ht⟩ := callSetOrCreate_wp _ _ _ _ _ _ _ _ _ _ h1
    simp only
    by_cases hr : r1.result = true
    · simp only [hr, if_true, InitStep.state, InitStep.throws]
      refine ⟨_, ht, ?_, ?_⟩
      · rw [hr]; exact NegotiationLog.accepted _ _
      · intro ev hev; simp at hev; subst hev; intros; contradiction
    · have hrf : r1.result = false := by simpa using hr
      simp only [hrf, Bool.false_eq_true, if_false]
      generalize hfill : fallbackFill fw bp dir i frameIndex
        (inferModuleExtent s1.wp.sharedImages_ fw.extent frameIndex
          (moduleIndices bp .output i) (moduleIndices bp .input i))
        (moduleIndices bp dir i) (r1.images, s1) = filled
      have hft := fallbackFill_trace fw bp dir i frameIndex
        (inferModuleExtent s1.wp.sharedImages_ fw.extent frameIndex
          (moduleIndices bp .output i) (moduleIndices bp .input i))
        (moduleIndices bp dir i) (r1.images, s1)
      rw [hfill] at hft
      obtain ⟨images2, s2⟩ := filled
      simp only at hft ⊢
      have hallocs : ∀ e ∈ fallbackEvents bp dir i frameIndex
          (inferModuleExtent s1.wp.sharedImages_ fw.extent frameIndex
            (moduleIndices bp .output i) (moduleIndices bp .input i)) (moduleIndices bp dir i),
          ∀ d i1 f1 idx w h fmt, e = InitEvent.createImageAt d i1 f1 idx w h fmt →
            (w, h) = inferModuleExtent s.wp.sharedImages_ fw.extent frameIndex
              (moduleIndices bp .output i) (moduleIndices bp .input i) := by
        intro e he d i1 f1 idx w h fmt heq
        unfold fallbackEvents at he
        rw [List.mem_map] at he
        obtain ⟨idx0, _, h0⟩ := he
        rw [heq] at h0
        injection h0 with _ _ _ _ hw hh _
        rw [← hw, ← hh, hwp]
      cases h2 : callSetOrCreate m dir i frameIndex true images2 r1.formats s2 with
      | error e =>
        obtain ⟨_, ht2⟩ := callSetOrCreate_error _ _ _ _ _ _ _ _ _ h2
        refine ⟨(InitEvent.negotiate dir i frameIndex false
            ((moduleIndices bp dir i).map fun idx => s.wp.sharedImages_.at frameIndex idx)
            ((moduleIndices bp dir i).map fun idx => bp.imageFormats_.getD idx 0) (some false) ::
          (fallbackEvents bp dir i frameIndex
            (inferModuleExtent s1.wp.sharedImages_ fw.extent frameIndex
              (moduleIndices bp .output i) (moduleIndices bp .input i)) (moduleIndices bp dir i) ++
            [InitEvent.negotiate dir i frameIndex true images2 r1.formats none])), ?_, ?_, ?_⟩
        · simp only [InitStep.state, ht2, hft, ht, hrf, List.append_assoc]
          rfl
        · exact NegotiationLog.retried _ _ _ _ _ none
        · intro ev hev
          simp only [List.mem_cons, List.mem_append, List.not_mem_nil, or_false] at hev
          rcases hev with hev | hev | hev
          · subst hev; intros; contradiction
          · exact hallocs ev hev
          · subst hev; intros; contradiction
      | ok p2 =>
        obtain ⟨r2, s3⟩ := p2
        obtain ⟨_, ht2⟩ := callSetOrCreate_wp _ _ _ _ _ _ _ _ _ _ h2
        simp only
        by_cases hr2 : r2.result = true
        · simp only [hr2, if_true, InitStep.state, InitStep.throws]
          refine ⟨(InitEvent.negotiate dir i frameIndex false
            ((moduleIndices bp dir i).map fun idx => s.wp.sharedImages_.at frameIndex idx)
            ((moduleIndices bp dir i).map fun idx => bp.imageFormats_.getD idx 0) (some false) ::
          (fallbackEvents bp dir i frameIndex
            (inferModuleExtent s1.wp.sharedImages_ fw.extent frameIndex
              (moduleIndices bp .output i) (moduleIndices bp .input i)) (moduleIndices bp dir i) ++
            [InitEvent.negotiate dir i frameIndex true images2 r1.formats (some true)])), ?_, ?_, ?_⟩
          · simp only [ht2, hft, ht, hrf, hr2, List.append_assoc]
            rfl
          · exact NegotiationLog.retried _ _ _ _ _ (some true)
          · intro ev hev
            simp only [List.mem_cons, List.mem_append, List.not_mem_nil, or_false] at hev
            rcases hev with hev | hev | hev
            · subst hev; intros; contradiction
            · exact hallocs ev hev
            · subst hev; intros; contradiction
        · have hrf2 : r2.result = false := by simpa using hr2
          simp only [hrf2, Bool.false_eq_true, if_false, InitStep.state, InitStep.throws]
          refine ⟨(InitEvent.negotiate dir i frameIndex false
            ((moduleIndices bp dir i).map fun idx => s.wp.sharedImages_.at frameIndex idx)
            ((moduleIndices bp dir i).map fun idx => bp.imageFormats_.getD idx 0) (some false) ::
          (fallbackEvents bp dir i frameIndex
            (inferModuleExtent s1.wp.sharedImages_ fw.extent frameIndex
              (moduleIndices bp .output i) (moduleIndices bp .input i)) (moduleIndices bp dir i) ++
            [InitEvent.negotiate dir i frameIndex true images2 r1.formats (some false)])), ?_, ?_, ?_⟩
          · simp only [ht2, hft, ht, hrf, hrf2, List.append_assoc]
            rfl
          · exact NegotiationLog.retried _ _ _ _ _ (some false)
          · intro ev hev
            simp only [List.mem_cons, List.mem_append, List.not_mem_nil, or_false] at hev
            rcases hev with hev | hev | hev
            · subst hev; intros; contradiction
            · exact hallocs ev hev
            · subst hev; intros; contradiction

/-- **C3.** The fallback extent computed by `inferModuleExtent` is the size of the first
non-empty pool cell among the module's output slots in declared order, else among its
input slots, else the swapchain extent; and every allocation of the output fallback and of
the input fallback alike asks for exactly that extent. -/
theorem fallback_extent_is_outputs_inputs_swapchain_scan {W : Type} (fw : Framework W)
    (bp : WorldPipelineBlueprint) (m : WorldModule W) (i frameIndex : Nat) (s : InitState W)
    (pool : SharedImages) (extent : Nat × Nat) (outputIndices inputIndices : List Nat) :
    inferModuleExtent pool extent frameIndex outputIndices inputIndices =
        (match firstResolved pool frameIndex outputIndices with
          | some img => (img.width, img.height)
          | none =>
            match firstResolved pool frameIndex inputIndices with
            | some img => (img.width, img.height)
            | none => extent) ∧
      ∀ dir : Direction,
        ∀ e ∈ (negotiate fw bp m dir i frameIndex s).state.trace.drop s.trace.length,
          ∀ d i1 f1 idx w h fmt, e = InitEvent.createImageAt d i1 f1 idx w h fmt →
            (w, h) = specFallbackExtent s.wp.sharedImages_ fw.extent frameIndex
              (moduleIndices bp .output i) (moduleIndices bp .input i) := by
  refine ⟨inferModuleExtent_eq_spec pool extent frameIndex outputIndices inputIndices, ?_⟩
  intro dir e he
  obtain ⟨seg, ht, _, hext⟩ := negotiate_log fw bp m dir i frameIndex s
  rw [ht, List.drop_left] at he
  intro d i1 f1 idx w h fmt heq
  rw [← inferModuleExtent_eq_spec]
  exact hext e he d i1 f1 idx w h fmt heq

/-! ## The log of the loops -/

theorem negotiateFrame_log {W : Type} (fw : Framework W) (bp : WorldPipelineBlueprint)
    (m : WorldModule W) (i frameIndex : Nat) (s : InitState W) :
    ∃ a, (negotiateFrame fw bp m i frameIndex s).state.trace = s.trace ++ a ∧
      ((negotiateFrame fw bp m i frameIndex s).throws = true →
        NegotiationLog bp .output i frameIndex a false ∨
        ∃ a1 a2, a = a1 ++ a2 ∧ NegotiationLog bp .output i frameIndex a1 true ∧
          NegotiationLog bp .input i frameIndex a2 false) ∧
      ((negotiateFrame fw bp m i frameIndex s).throws = false →
        ∃ a1 a2, a = a1 ++ a2 ∧ NegotiationLog bp .output i frameIndex a1 true ∧
          NegotiationLog bp .input i frameIndex a2 true) := by
  obtain ⟨a1, ht1, hl1, _⟩ := negotiate_log fw bp m .output i frameIndex s
  unfold negotiateFrame
  cases h1 : negotiate fw bp m .output i frameIndex s with
  | error e =>
    rw [h1] at ht1 hl1
    refine ⟨a1, ht1, ?_, ?_⟩
    · intro _; left; simpa [InitStep.throws] using hl1
    · intro h; simp [InitStep.throws] at h
  | ok s1 =>
    rw [h1] at ht1 hl1
    simp only [InitStep.state, InitStep.throws, Bool.not_false] at ht1 hl1
    obtain ⟨a2, ht2, hl2, _⟩ := negotiate_log fw bp m .input i frameIndex s1
    simp only
    refine ⟨a1 ++ a2, ?_, ?_, ?_⟩
    · rw [ht2, ht1, List.append_assoc]
    · intro h; right; rw [h] at hl2; exact ⟨a1, a2, rfl, hl1, hl2⟩
    · intro h; rw [h] at hl2; exact ⟨a1, a2, rfl, hl1, hl2⟩

theorem loopFrom_frames_log {W : Type} (fw : Framework W) (bp : WorldPipelineBlueprint)
    (m : WorldModule W) (i : Nat) (count start : Nat) (s : InitState W) :
    ∃ seg, (InitStep.state (loopFrom (negotiateFrame fw bp m i) start count s)).trace =
        s.trace ++ seg ∧
      FramesLog bp i start count seg
        (!InitStep.throws (loopFrom (negotiateFrame fw bp m i) start count s)) := by
  induction count generalizing start s with
  | zero => exact ⟨[], by simp [loopFrom, InitStep.state], FramesLog.done start⟩
  | succ n ih =>
    obtain ⟨a, hta, hthrow, hok⟩ := negotiateFrame_log fw bp m i start s
    unfold loopFrom
    cases h1 : negotiateFrame fw bp m i start s with
    | error e =>
      rw [h1] at hta hthrow
      simp only [InitStep.state, InitStep.throws, Bool.not_true] at hta hthrow ⊢
      refine ⟨a, hta, ?_⟩
      rcases hthrow trivial with h | ⟨a1, a2, rfl, h1, h2⟩
      · exact FramesLog.outputFailed h
      · exact FramesLog.inputFailed h1 h2
    | ok s1 =>
      rw [h1] at hta hok
      simp only [InitStep.state, InitStep.throws] at hta hok
      obtain ⟨a1, a2, rfl, hl1, hl2⟩ := hok trivial
      obtain ⟨rest, htr, hlr⟩ := ih (start + 1) s1
      simp only
      refine ⟨(a1 ++ a2) ++ rest, ?_, ?_⟩
      · rw [htr, hta, List.append_assoc]
      · rw [List.append_assoc]
        exact FramesLog.frame hl1 hl2 hlr

theorem initModule_log {W : Type} (fw : Framework W) (ctors : WorldModuleConstructors W)
    (bp : WorldPipelineBlueprint) (i : Nat) (s : InitState W) :
    ∃ seg, (InitStep.state (initModule fw ctors bp i s)).trace = s.trace ++ seg ∧
      ModuleLog bp fw.imageCount i seg (!InitStep.throws (initModule fw ctors bp i s)) := by
  unfold initModule
  cases hc : ctors (bp.moduleNames_.getD i "") with
  | none => exact ⟨[], by simp [InitStep.state], ModuleLog.noConstructor⟩
  | some ctor =>
    simp only
    cases hm : ctor s.world with
    | error e =>
      exact ⟨[.construct i], by simp [InitStep.state], ModuleLog.constructThrew⟩
    | ok p =>
      obtain ⟨m, world⟩ := p
      simp only
      cases ha : m.setAttributes (bp.attributeCounts_.getD i 0) (bp.attributeKVs_.getD i []) world with
      | error e =>
        exact ⟨[.construct i, .setAttributes i], by simp [InitStep.state],
          ModuleLog.setAttributesThrew⟩
      | ok world2 =>
        simp only
        obtain ⟨seg, hts, hls⟩ := loopFrom_frames_log fw bp m i fw.imageCount 0
          { world := world2
            wp := { s.wp with worldModules_ := s.wp.worldModules_.set i (some m) }
            trace := s.trace ++ [.construct i] ++ [.setAttributes i] }
        cases hl : loopFrom (negotiateFrame fw bp m i) 0 fw.imageCount
            { world := world2
              wp := { s.wp with worldModules_ := s.wp.worldModules_.set i (some m) }
              trace := s.trace ++ [.construct i] ++ [.setAttributes i] } with
        | error e =>
          rw [hl] at hts hls
          simp only [InitStep.state, InitStep.throws, Bool.not_true] at hts hls ⊢
          exact ⟨.construct i :: .setAttributes i :: seg, by simp [hts],
            ModuleLog.framesFailed hls⟩
        | ok s3 =>
          rw [hl] at hts hls
          simp only [InitStep.state, InitStep.throws, Bool.not_false] at hts hls ⊢
          cases hb : m.build s3.world with
          | error e =>
            exact ⟨.construct i :: .setAttributes i :: (seg ++ [.build i]),
              by simp [InitStep.state, hts], ModuleLog.built _ hls⟩
          | ok world5 =>
            exact ⟨.construct i :: .setAttributes i :: (seg ++ [.build i]),
              by simp [InitStep.state, hts], ModuleLog.built _ hls⟩

theorem loopDown_modules_log {W : Type} (fw : Framework W) (ctors : WorldModuleConstructors W)
    (bp : WorldPipelineBlueprint) (n : Nat) (s : InitState W) :
    ∃ seg, (InitStep.state (loopDown (initModule fw ctors bp) n s)).trace = s.trace ++ seg ∧
      ModulesLog bp fw.imageCount n seg
        (!InitStep.throws (loopDown (initModule fw ctors bp) n s)) := by
  induction n generalizing s with
  | zero => exact ⟨[], by simp [loopDown, InitStep.state], ModulesLog.done⟩
  | succ k ih =>
    obtain ⟨a, hta, hla⟩ := initModule_log fw ctors bp k s
    unfold loopDown
    cases h1 : initModule fw ctors bp k s with
    | error e =>
      rw [h1] at hta hla
      simp only [InitStep.state, InitStep.throws, Bool.not_true] at hta hla ⊢
      exact ⟨a, hta, ModulesLog.failed hla⟩
    | ok s1 =>
      rw [h1] at hta hla
      simp only [InitStep.state, InitStep.throws, Bool.not_false] at hta hla
      obtain ⟨rest, htr, hlr⟩ := ih s1
      simp only
      exact ⟨a ++ rest, by rw [htr, hta, List.append_assoc], ModulesLog.module hla hlr⟩

theorem allocateSlot0_loop_trace {W : Type} (fw : Framework W) (bp : WorldPipelineBlueprint)
    (n : Nat) (s : InitState W) : (forLoop n (allocateSlot0 fw bp) s).trace = s.trace := by
  induction n with
  | zero => rfl
  | succ k ih => rw [forLoop_succ]; simpa [allocateSlot0] using ih

theorem createContexts_trace {W : Type} (fw : Framework W) (s : InitState W) :
    (createContexts fw s).trace = s.trace := by
  unfold createContexts
  induction fw.imageCount with
  | zero => rfl
  | succ k ih => rw [forLoop_succ]; exact ih

/-- The log of `init` has the shape of the module loop over all modules of the blueprint. -/
theorem init_log {W : Type} (fw : Framework W) (ctors : WorldModuleConstructors W)
    (bp : WorldPipelineBlueprint) (world : W) :
    ModulesLog bp fw.imageCount bp.moduleNames_.length
      (WorldPipeline.init fw ctors bp world).state.trace
      (!(WorldPipeline.init fw ctors bp world).throws) := by
  unfold WorldPipeline.init
  obtain ⟨seg, hts, hls⟩ := loopDown_modules_log fw ctors bp bp.moduleNames_.length
    (WorldPipeline.allocate fw bp world)
  have hat : (WorldPipeline.allocate fw bp world).trace = [] := by
    unfold WorldPipeline.allocate
    simp only [allocateSlot0_loop_trace]
  rw [hat] at hts
  simp only [List.nil_append] at hts
  revert hts hls
  cases loopDown (initModule fw ctors bp) bp.moduleNames_.length
      (WorldPipeline.allocate fw bp world) with
  | ok s2 =>
    intro hts hls
    simp only [InitStep.state, InitStep.throws, createContexts_trace] at hts hls ⊢
    rw [hts]
    exact hls
  | error e =>
    intro hts hls
    simp only [InitStep.state, InitStep.throws] at hts hls ⊢
    rw [hts]
    exact hls

/-! ## The operations of a completed `init` -/

theorem fallbackEvents_operation (bp : WorldPipelineBlueprint) (dir : Direction) (i f : Nat)
    (extent : Nat × Nat) (indices : List Nat) :
    (fallbackEvents bp dir i f extent indices).filterMap InitEvent.operation = [] := by
  unfold fallbackEvents
  induction indices with
  | nil => rfl
  | cons idx rest ih => simp [List.filterMap_cons, InitEvent.operation]

theorem NegotiationLog.negotiation_operations {bp : WorldPipelineBlueprint} {dir : Direction} {i f : Nat}
    {a : List InitEvent} {ok : Bool} (h : NegotiationLog bp dir i f a ok) (hok : ok = true) :
    a.filterMap InitEvent.operation =
      [match dir with
        | .output => ModuleOperation.negotiateOutputs i f
        | .input => ModuleOperation.negotiateInputs i f] := by
  cases h with
  | accepted images formats => cases dir <;> rfl
  | threw images formats => cases hok
  | retried images formats extent images2 formats2 result2 =>
    rw [List.filterMap_cons, List.filterMap_append, fallbackEvents_operation]
    cases dir <;> simp [InitEvent.operation]

theorem FramesLog.frames_operations {bp : WorldPipelineBlueprint} {i start count : Nat}
    {seg : List InitEvent} {ok : Bool} (h : FramesLog bp i start count seg ok) (hok : ok = true) :
    seg.filterMap InitEvent.operation =
      (List.range' start count).flatMap
        (fun f => [ModuleOperation.negotiateOutputs i f, ModuleOperation.negotiateInputs i f]) := by
  induction h with
  | done start => rfl
  | frame ha hb _ ih =>
    rw [List.filterMap_append, List.filterMap_append, ha.negotiation_operations rfl, hb.negotiation_operations rfl,
      ih hok, List.range'_succ]
    simp
  | outputFailed _ => cases hok
  | inputFailed _ _ => cases hok

theorem ModuleLog.module_operations {bp : WorldPipelineBlueprint} {frameNum i : Nat}
    {a : List InitEvent} {ok : Bool} (h : ModuleLog bp frameNum i a ok) (hok : ok = true) :
    a.filterMap InitEvent.operation = moduleOperations frameNum i := by
  cases h with
  | noConstructor => cases hok
  | constructThrew => cases hok
  | setAttributesThrew => cases hok
  | framesFailed _ => cases hok
  | built _ hf =>
    unfold moduleOperations
    simp [List.filterMap_cons, List.filterMap_append, InitEvent.operation, hf.frames_operations rfl]

theorem ModulesLog.modules_operations {bp : WorldPipelineBlueprint} {frameNum n : Nat}
    {seg : List InitEvent} {ok : Bool} (h : ModulesLog bp frameNum n seg ok) (hok : ok = true) :
    seg.filterMap InitEvent.operation = expectedOperations frameNum n := by
  induction h with
  | done => rfl
  | module ha _ ih =>
    rw [List.filterMap_append, ha.module_operations rfl, ih hok]
    rfl
  | failed _ => cases hok

/-! ## Which module and frame the events of a log belong to -/

theorem InitEvent.module_of_tag {e : InitEvent} {dir : Direction} {i f : Nat}
    (h : e.tag = some (dir, i, f)) : e.module = i := by
  cases e <;> simp [InitEvent.tag] at h <;> simp [InitEvent.module, h]

theorem fallbackEvents_tag (bp : WorldPipelineBlueprint) (dir : Direction) (i f : Nat)
    (extent : Nat × Nat) (indices : List Nat) :
    ∀ e ∈ fallbackEvents bp dir i f extent indices, e.tag = some (dir, i, f) := by
  intro e he
  unfold fallbackEvents at he
  obtain ⟨idx, _, rfl⟩ := List.mem_map.1 he
  rfl

theorem NegotiationLog.negotiation_tag {bp : WorldPipelineBlueprint} {dir : Direction} {i f : Nat}
    {a : List InitEvent} {ok : Bool} (h : NegotiationLog bp dir i f a ok) :
    ∀ e ∈ a, e.tag = some (dir, i, f) := by
  intro e he
  cases h with
  | accepted images formats => simp at he; subst he; rfl
  | threw images formats => simp at he; subst he; rfl
  | retried images formats extent images2 formats2 result2 =>
    simp only [List.mem_cons, List.mem_append, List.not_mem_nil, or_false] at he
    rcases he with he | he | he
    · subst he; rfl
    · exact fallbackEvents_tag _ _ _ _ _ _ e he
    · subst he; rfl

theorem FramesLog.frames_tag {bp : WorldPipelineBlueprint} {i start count : Nat}
    {seg : List InitEvent} {ok : Bool} (h : FramesLog bp i start count seg ok) :
    ∀ e ∈ seg, ∃ dir f, e.tag = some (dir, i, f) ∧ start ≤ f := by
  induction h with
  | done start => intro e he; simp at he
  | frame ha hb _ ih =>
    intro e he
    simp only [List.mem_append] at he
    rcases he with he | he | he
    · exact ⟨_, _, ha.negotiation_tag e he, le_refl _⟩
    · exact ⟨_, _, hb.negotiation_tag e he, le_refl _⟩
    · obtain ⟨d, f, h1, h2⟩ := ih e he
      exact ⟨d, f, h1, by omega⟩
  | outputFailed ha => intro e he; exact ⟨_, _, ha.negotiation_tag e he, le_refl _⟩
  | inputFailed ha hb =>
    intro e he
    simp only [List.mem_append] at he
    rcases he with he | he
    · exact ⟨_, _, ha.negotiation_tag e he, le_refl _⟩
    · exact ⟨_, _, hb.negotiation_tag e he, le_refl _⟩

theorem FramesLog.frames_module_eq {bp : WorldPipelineBlueprint} {i start count : Nat}
    {seg : List InitEvent} {ok : Bool} (h : FramesLog bp i start count seg ok) :
    ∀ e ∈ seg, e.module = i := by
  intro e he
  obtain ⟨d, f, h1, _⟩ := h.frames_tag e he
  exact InitEvent.module_of_tag h1

theorem ModuleLog.events_module_eq {bp : WorldPipelineBlueprint} {frameNum i : Nat}
    {a : List InitEvent} {ok : Bool} (h : ModuleLog bp frameNum i a ok) :
    ∀ e ∈ a, e.module = i := by
  intro e he
  cases h with
  | noConstructor => simp at he
  | constructThrew => simp at he; subst he; rfl
  | setAttributesThrew => simp at he; rcases he with he | he <;> subst he <;> rfl
  | framesFailed hf =>
    simp only [List.mem_cons] at he
    rcases he with he | he | he
    · subst he; rfl
    · subst he; rfl
    · exact hf.frames_module_eq e he
  | built _ hf =>
    simp only [List.mem_cons, List.mem_append, List.not_mem_nil, or_false] at he
    rcases he with he | he | he | he
    · subst he; rfl
    · subst he; rfl
    · exact hf.frames_module_eq e he
    · subst he; rfl

theorem ModuleLog.build_mem {bp : WorldPipelineBlueprint} {frameNum i : Nat}
    {a : List InitEvent} {ok : Bool} (h : ModuleLog bp frameNum i a ok) (hok : ok = true) :
    InitEvent.build i ∈ a := by
  cases h with
  | noConstructor => cases hok
  | constructThrew => cases hok
  | setAttributesThrew => cases hok
  | framesFailed _ => cases hok
  | built _ hf => simp

theorem ModulesLog.module_lt {bp : WorldPipelineBlueprint} {frameNum n : Nat}
    {seg : List InitEvent} {ok : Bool} (h : ModulesLog bp frameNum n seg ok) :
    ∀ e ∈ seg, e.module < n := by
  induction h with
  | done => intro e he; simp at he
  | module ha _ ih =>
    intro e he
    rcases List.mem_append.1 he with he | he
    · rw [ha.events_module_eq e he]; omega
    · have := ih e he; omega
  | failed ha => intro e he; rw [ha.events_module_eq e he]; omega

/-- In the log of a completed module loop, every event of a module other than the one
built first comes after the `build` of the module declared next. -/
theorem ModulesLog.build_before {bp : WorldPipelineBlueprint} {frameNum n : Nat}
    {seg : List InitEvent} {ok : Bool} (h : ModulesLog bp frameNum n seg ok) (hok : ok = true) :
    ∀ pre e post, seg = pre ++ e :: post → e.module + 1 < n →
      InitEvent.build (e.module + 1) ∈ pre := by
  induction h with
  | done => intro pre e post h; simp at h
  | @module k a rest ok1 ha hrest ih =>
    intro pre e post hsplit hlt
    rcases List.append_eq_append_iff.1 hsplit with ⟨a', hpre, hrest'⟩ | ⟨c', ha', hc'⟩
    · -- the event lies in `rest`
      have hmem : e ∈ rest := by rw [hrest']; simp
      have hmod := hrest.module_lt e hmem
      rw [hpre]
      by_cases hk : e.module + 1 = k
      · rw [hk]; exact List.mem_append_left _ (ha.build_mem rfl)
      · exact List.mem_append_right _ (ih hok a' e post hrest' (by omega))
    · cases c' with
      | nil =>
        simp only [List.nil_append] at hc'
        have hmem : e ∈ rest := by rw [← hc']; simp
        have hmod := hrest.module_lt e hmem
        simp only [List.append_nil] at ha'
        rw [← ha']
        by_cases hk : e.module + 1 = k
        · rw [hk]; exact ha.build_mem rfl
        · exact absurd (ih hok [] e post (by simpa using hc'.symm) (by omega)) (by simp)
      | cons c cs =>
        simp only [List.cons_append, List.cons.injEq] at hc'
        have hmem : e ∈ a := by rw [ha', hc'.1]; simp
        have := ha.events_module_eq e hmem
        omega
  | failed _ => cases hok

/-! ## The negotiation calls found in a log -/

theorem negotiationCalls_append (dir : Direction) (i f : Nat) (a b : List InitEvent) :
    negotiationCalls dir i f (a ++ b) = negotiationCalls dir i f a ++ negotiationCalls dir i f b := by
  simp [negotiationCalls, List.filterMap_append]

theorem fallbackAllocations_append (dir : Direction) (i f : Nat) (a b : List InitEvent) :
    fallbackAllocations dir i f (a ++ b) =
      fallbackAllocations dir i f a ++ fallbackAllocations dir i f b := by
  simp [fallbackAllocations, List.filter_append]

theorem negotiationCalls_mem_tag {dir : Direction} {i f : Nat} {l : List InitEvent}
    {c : Bool × Option Bool} (h : c ∈ negotiationCalls dir i f l) :
    ∃ e ∈ l, e.tag = some (dir, i, f) := by
  unfold negotiationCalls at h
  obtain ⟨e, he, hc⟩ := List.mem_filterMap.1 h
  refine ⟨e, he, ?_⟩
  cases e with
  | negotiate d i1 f1 retry images formats result =>
    simp only [Option.ite_none_right_eq_some] at hc
    obtain ⟨⟨h1, h2, h3⟩, _⟩ := hc
    simp [InitEvent.tag, h1, h2, h3]
  | construct _ => simp at hc
  | setAttributes _ => simp at hc
  | createImageAt _ _ _ _ _ _ _ => simp at hc
  | build _ => simp at hc

theorem untouched_of_tag_ne (dir : Direction) (i f : Nat) (l : List InitEvent)
    (h : ∀ e ∈ l, e.tag ≠ some (dir, i, f)) :
    negotiationCalls dir i f l = [] ∧ fallbackAllocations dir i f l = [] := by
  constructor
  · by_contra hne
    obtain ⟨c, hc⟩ := List.exists_mem_of_ne_nil _ hne
    obtain ⟨e, he, ht⟩ := negotiationCalls_mem_tag hc
    exact h e he ht
  · unfold fallbackAllocations
    rw [List.filter_eq_nil_iff]
    intro e he
    have := h e he
    cases e with
    | createImageAt d i1 f1 _ _ _ _ =>
      simp only [InitEvent.tag, ne_eq, Option.some.injEq, Prod.mk.injEq] at this
      simpa using this
    | construct _ => simp
    | setAttributes _ => simp
    | negotiate _ _ _ _ _ _ _ => simp
    | build _ => simp

theorem fallbackEvents_calls (bp : WorldPipelineBlueprint) (dir d : Direction) (i f i1 f1 : Nat)
    (extent : Nat × Nat) (indices : List Nat) :
    negotiationCalls dir i f (fallbackEvents bp d i1 f1 extent indices) = [] := by
  unfold fallbackEvents negotiationCalls
  rw [List.filterMap_eq_nil_iff]
  intro e he
  obtain ⟨idx, _, rfl⟩ := List.mem_map.1 he
  rfl

theorem NegotiationLog.negotiation_calls {bp : WorldPipelineBlueprint} {dir : Direction} {i f : Nat}
    {a : List InitEvent} {ok : Bool} (h : NegotiationLog bp dir i f a ok) :
    CallsWellFormed (negotiationCalls dir i f a) (fallbackAllocations dir i f a) ∧
      ((true, some false) ∈ negotiationCalls dir i f a → ok = false) := by
  cases h with
  | accepted images formats =>
    refine ⟨Or.inr (Or.inl ?_), ?_⟩ <;> simp [negotiationCalls, fallbackAllocations]
  | threw images formats =>
    refine ⟨Or.inr (Or.inr (Or.inl ?_)), ?_⟩ <;> simp [negotiationCalls, fallbackAllocations]
  | retried images formats extent images2 formats2 result2 =>
    have hc : negotiationCalls dir i f
        (.negotiate dir i f false images formats (some false) ::
          (fallbackEvents bp dir i f extent (moduleIndices bp dir i) ++
            [.negotiate dir i f true images2 formats2 result2])) =
        [(false, some false), (true, result2)] := by
      have := fallbackEvents_calls bp dir dir i f i f extent (moduleIndices bp dir i)
      rw [show (InitEvent.negotiate dir i f false images formats (some false) ::
          (fallbackEvents bp dir i f extent (moduleIndices bp dir i) ++
            [.negotiate dir i f true images2 formats2 result2])) =
          [InitEvent.negotiate dir i f false images formats (some false)] ++
          (fallbackEvents bp dir i f extent (moduleIndices bp dir i) ++
            [.negotiate dir i f true images2 formats2 result2]) from rfl,
        negotiationCalls_append, negotiationCalls_append, this]
      simp [negotiationCalls]
    rw [hc]
    refine ⟨Or.inr (Or.inr (Or.inr ⟨result2, rfl⟩)), ?_⟩
    intro hmem
    simp only [List.mem_cons, Prod.mk.injEq, Bool.true_eq_false, false_and, List.not_mem_nil,
      or_false, false_or, true_and] at hmem
    rw [← hmem]
    rfl

theorem FramesLog.frames_calls {bp : WorldPipelineBlueprint} {i1 start count : Nat}
    {seg : List InitEvent} {ok : Bool} (h : FramesLog bp i1 start count seg ok)
    (dir : Direction) (i f : Nat) :
    CallsWellFormed (negotiationCalls dir i f seg) (fallbackAllocations dir i f seg) ∧
      ((true, some false) ∈ negotiationCalls dir i f seg → ok = false) := by
  induction h with
  | done start => exact ⟨Or.inl ⟨rfl, rfl⟩, by simp [negotiationCalls]⟩
  | @frame start count a b rest ok1 ha hb hrest ih =>
    rw [negotiationCalls_append, negotiationCalls_append, fallbackAllocations_append,
      fallbackAllocations_append]
    by_cases hkey : i1 = i ∧ start = f
    · obtain ⟨rfl, rfl⟩ := hkey
      obtain ⟨hr1, hr2⟩ := untouched_of_tag_ne dir i1 start rest (by
        intro e he ht
        obtain ⟨d, f', h1, h2⟩ := hrest.frames_tag e he
        rw [h1] at ht
        simp only [Option.some.injEq, Prod.mk.injEq] at ht
        omega)
      rw [hr1, hr2]
      cases dir with
      | output =>
        obtain ⟨hb1, hb2⟩ := untouched_of_tag_ne .output i1 start b (by
          intro e he ht
          rw [hb.negotiation_tag e he] at ht
          simp at ht)
        rw [hb1, hb2]
        simp only [List.append_nil]
        refine ⟨ha.negotiation_calls.1, fun hm => ?_⟩
        exact absurd (ha.negotiation_calls.2 hm) (by simp)
      | input =>
        obtain ⟨ha1, ha2⟩ := untouched_of_tag_ne .input i1 start a (by
          intro e he ht
          rw [ha.negotiation_tag e he] at ht
          simp at ht)
        rw [ha1, ha2]
        simp only [List.append_nil, List.nil_append]
        refine ⟨hb.negotiation_calls.1, fun hm => ?_⟩
        exact absurd (hb.negotiation_calls.2 hm) (by simp)
    · obtain ⟨ha1, ha2⟩ := untouched_of_tag_ne dir i f a (by
        intro e he ht
        rw [ha.negotiation_tag e he] at ht
        simp only [Option.some.injEq, Prod.mk.injEq] at ht
        exact hkey ⟨ht.2.1, ht.2.2⟩)
      obtain ⟨hb1, hb2⟩ := untouched_of_tag_ne dir i f b (by
        intro e he ht
        rw [hb.negotiation_tag e he] at ht
        simp only [Option.some.injEq, Prod.mk.injEq] at ht
        exact hkey ⟨ht.2.1, ht.2.2⟩)
      rw [ha1, ha2, hb1, hb2]
      simpa using ih
  | @outputFailed start count a ha =>
    by_cases hkey : Direction.output = dir ∧ i1 = i ∧ start = f
    · obtain ⟨rfl, rfl, rfl⟩ := hkey
      exact ⟨ha.negotiation_calls.1, fun _ => rfl⟩
    · obtain ⟨ha1, ha2⟩ := untouched_of_tag_ne dir i f a (by
        intro e he ht
        rw [ha.negotiation_tag e he] at ht
        simp only [Option.some.injEq, Prod.mk.injEq] at ht
        exact hkey ht)
      rw [ha1, ha2]
      exact ⟨Or.inl ⟨rfl, rfl⟩, fun _ => rfl⟩
  | @inputFailed start count a b ha hb =>
    refine ⟨?_, fun _ => rfl⟩
    rw [negotiationCalls_append, fallbackAllocations_append]
    by_cases hkey : i1 = i ∧ start = f
    · obtain ⟨rfl, rfl⟩ := hkey
      cases dir with
      | output =>
        obtain ⟨hb1, hb2⟩ := untouched_of_tag_ne .output i1 start b (by
          intro e he ht
          rw [hb.negotiation_tag e he] at ht
          simp at ht)
        rw [hb1, hb2]
        simpa using ha.negotiation_calls.1
      | input =>
        obtain ⟨ha1, ha2⟩ := untouched_of_tag_ne .input i1 start a (by
          intro e he ht
          rw [ha.negotiation_tag e he] at ht
          simp at ht)
        rw [ha1, ha2]
        simpa using hb.negotiation_calls.1
    · obtain ⟨ha1, ha2⟩ := untouched_of_tag_ne dir i f a (by
        intro e he ht
        rw [ha.negotiation_tag e he] at ht
        simp only [Option.some.injEq, Prod.mk.injEq] at ht
        exact hkey ⟨ht.2.1, ht.2.2⟩)
      obtain ⟨hb1, hb2⟩ := untouched_of_tag_ne dir i f b (by
        intro e he ht
        rw [hb.negotiation_tag e he] at ht
        simp only [Option.some.injEq, Prod.mk.injEq] at ht
        exact hkey ⟨ht.2.1, ht.2.2⟩)
      rw [ha1, ha2, hb1, hb2]
      exact Or.inl ⟨rfl, rfl⟩

theorem untouched_of_tag_none (dir : Direction) (i f : Nat) (l : List InitEvent)
    (h : ∀ e ∈ l, e.tag = none) :
    negotiationCalls dir i f l = [] ∧ fallbackAllocations dir i f l = [] :=
  untouched_of_tag_ne dir i f l (fun e he ht => by rw [h e he] at ht; cases ht)

theorem FramesLog.not_mem_of_tag_none {bp : WorldPipelineBlueprint} {i start count : Nat}
    {seg : List InitEvent} {ok : Bool} (h : FramesLog bp i start count seg ok) (e : InitEvent)
    (he : e.tag = none) : e ∉ seg := by
  intro hm
  obtain ⟨d, f, h1, _⟩ := h.frames_tag e hm
  rw [he] at h1
  cases h1

theorem ModuleLog.module_calls {bp : WorldPipelineBlueprint} {frameNum i1 : Nat}
    {a : List InitEvent} {ok : Bool} (h : ModuleLog bp frameNum i1 a ok)
    (dir : Direction) (i f : Nat) :
    CallsWellFormed (negotiationCalls dir i f a) (fallbackAllocations dir i f a) ∧
      ((true, some false) ∈ negotiationCalls dir i f a →
        ok = false ∧ InitEvent.build i1 ∉ a) := by
  cases h with
  | noConstructor => exact ⟨Or.inl ⟨rfl, rfl⟩, by simp [negotiationCalls]⟩
  | constructThrew => exact ⟨Or.inl ⟨rfl, rfl⟩, by simp [negotiationCalls]⟩
  | setAttributesThrew => exact ⟨Or.inl ⟨rfl, rfl⟩, by simp [negotiationCalls]⟩
  | @framesFailed seg hf =>
    have hc : negotiationCalls dir i f (.construct i1 :: .setAttributes i1 :: seg) =
        negotiationCalls dir i f seg := by simp [negotiationCalls]
    have ha : fallbackAllocations dir i f (.construct i1 :: .setAttributes i1 :: seg) =
        fallbackAllocations dir i f seg := by simp [fallbackAllocations]
    rw [hc, ha]
    refine ⟨(hf.frames_calls dir i f).1, fun _ => ⟨rfl, ?_⟩⟩
    simp only [List.mem_cons, not_or]
    exact ⟨by simp, by simp, hf.not_mem_of_tag_none _ rfl⟩
  | @built seg ok hf =>
    have hc : negotiationCalls dir i f (.construct i1 :: .setAttributes i1 :: (seg ++ [.build i1])) =
        negotiationCalls dir i f seg := by
      simp [negotiationCalls, List.filterMap_append]
    have ha : fallbackAllocations dir i f
        (.construct i1 :: .setAttributes i1 :: (seg ++ [.build i1])) =
        fallbackAllocations dir i f seg := by
      simp [fallbackAllocations, List.filter_append]
    rw [hc, ha]
    refine ⟨(hf.frames_calls dir i f).1, fun hm => ?_⟩
    exact absurd ((hf.frames_calls dir i f).2 hm) (by simp)

theorem ModulesLog.modules_calls {bp : WorldPipelineBlueprint} {frameNum n : Nat}
    {seg : List InitEvent} {ok : Bool} (h : ModulesLog bp frameNum n seg ok)
    (dir : Direction) (i f : Nat) :
    CallsWellFormed (negotiationCalls dir i f seg) (fallbackAllocations dir i f seg) ∧
      ((true, some false) ∈ negotiationCalls dir i f seg →
        ok = false ∧ InitEvent.build i ∉ seg ∧ ∀ j < i, InitEvent.construct j ∉ seg) := by
  induction h with
  | done => exact ⟨Or.inl ⟨rfl, rfl⟩, by simp [negotiationCalls]⟩
  | @module k a rest ok1 ha hrest ih =>
    rw [negotiationCalls_append, fallbackAllocations_append]
    by_cases hik : i = k
    · subst hik
      obtain ⟨hr1, hr2⟩ := untouched_of_tag_ne dir i f rest (by
        intro e he ht
        have h1 := hrest.module_lt e he
        have h2 := InitEvent.module_of_tag ht
        omega)
      rw [hr1, hr2]
      simp only [List.append_nil]
      refine ⟨(ha.module_calls dir i f).1, fun hm => ?_⟩
      exact absurd ((ha.module_calls dir i f).2 hm).1 (by simp)
    · obtain ⟨ha1, ha2⟩ := untouched_of_tag_ne dir i f a (by
        intro e he ht
        have h1 := ha.events_module_eq e he
        have h2 := InitEvent.module_of_tag ht
        omega)
      rw [ha1, ha2]
      simp only [List.nil_append]
      refine ⟨ih.1, fun hm => ?_⟩
      obtain ⟨hok, hb, hc⟩ := ih.2 hm
      obtain ⟨e0, he0, ht0⟩ := negotiationCalls_mem_tag hm
      have hlt : i < k := by
        have h1 := hrest.module_lt e0 he0
        have h2 := InitEvent.module_of_tag ht0
        omega
      refine ⟨hok, ?_, ?_⟩
      · intro hmem
        rcases List.mem_append.1 hmem with hmem | hmem
        · have := ha.events_module_eq _ hmem
          simp only [InitEvent.module] at this
          omega
        · exact hb hmem
      · intro j hj hmem
        rcases List.mem_append.1 hmem with hmem | hmem
        · have := ha.events_module_eq _ hmem
          simp only [InitEvent.module] at this
          omega
        · exact hc j hj hmem
  | @failed k a ha =>
    refine ⟨(ha.module_calls dir i f).1, fun hm => ?_⟩
    obtain ⟨hok, hb⟩ := (ha.module_calls dir i f).2 hm
    obtain ⟨e0, he0, ht0⟩ := negotiationCalls_mem_tag hm
    have hik : i = k := by
      have h1 := ha.events_module_eq e0 he0
      have h2 := InitEvent.module_of_tag ht0
      omega
    subst hik
    refine ⟨rfl, hb, ?_⟩
    intro j hj hmem
    have := ha.events_module_eq _ hmem
    simp only [InitEvent.module] at this
    omega

theorem FramesLog.count_of_tag_none {bp : WorldPipelineBlueprint} {i start count : Nat}
    {seg : List InitEvent} {ok : Bool} (h : FramesLog bp i start count seg ok) (e : InitEvent)
    (he : e.tag = none) : seg.count e = 0 :=
  List.count_eq_zero.2 (h.not_mem_of_tag_none e he)

theorem ModulesLog.count_once {bp : WorldPipelineBlueprint} {frameNum n : Nat}
    {seg : List InitEvent} {ok : Bool} (h : ModulesLog bp frameNum n seg ok) (hok : ok = true)
    (i : Nat) (hi : i < n) :
    seg.count (.setAttributes i) = 1 ∧ seg.count (.build i) = 1 := by
  induction h with
  | done => omega
  | @module k a rest ok1 ha hrest ih =>
    rw [List.count_append, List.count_append]
    cases ha with
    | @built sg _ hf =>
      have h1 := hf.count_of_tag_none (.setAttributes i) rfl
      have h2 := hf.count_of_tag_none (.build i) rfl
      by_cases hik : i = k
      · subst hik
        have hr1 : rest.count (.setAttributes i) = 0 := List.count_eq_zero.2 (fun hm => by
          have := hrest.module_lt _ hm
          simp only [InitEvent.module] at this
          omega)
        have hr2 : rest.count (.build i) = 0 := List.count_eq_zero.2 (fun hm => by
          have := hrest.module_lt _ hm
          simp only [InitEvent.module] at this
          omega)
        simp [List.count_cons, List.count_append, h1, h2, hr1, hr2]
      · obtain ⟨ih1, ih2⟩ := ih hok (by omega)
        have hne : ¬ k = i := fun h => hik h.symm
        simp [List.count_cons, List.count_append, h1, h2, ih1, ih2, hne]
  | failed _ => cases hok

/-- **C2.** For every direction, module and frame, `init` calls the negotiation entry point
at most twice: an accepted first call is the only call and comes with no fallback
allocation; a rejected first call is followed by exactly one retry; and when the retry is
rejected as well, `init` throws, `build` of that module is never called and no module
declared earlier in the blueprint is constructed. -/
theorem init_negotiates_at_most_twice {W : Type} (fw : Framework W)
    (ctors : WorldModuleConstructors W) (bp : WorldPipelineBlueprint) (world : W)
    (dir : Direction) (i frameIndex : Nat) :
    (negotiationCalls dir i frameIndex (WorldPipeline.init fw ctors bp world).state.trace).length ≤ 2 ∧
    (∀ rest, negotiationCalls dir i frameIndex (WorldPipeline.init fw ctors bp world).state.trace =
        (false, some true) :: rest →
      rest = [] ∧
        fallbackAllocations dir i frameIndex (WorldPipeline.init fw ctors bp world).state.trace = []) ∧
    (∀ rest, negotiationCalls dir i frameIndex (WorldPipeline.init fw ctors bp world).state.trace =
        (false, some false) :: rest →
      ∃ result2, rest = [(true, result2)]) ∧
    (∀ c ∈ negotiationCalls dir i frameIndex (WorldPipeline.init fw ctors bp world).state.trace,
      c.1 = true →
        negotiationCalls dir i frameIndex (WorldPipeline.init fw ctors bp world).state.trace =
          [(false, some false), c]) ∧
    ((true, some false) ∈
        negotiationCalls dir i frameIndex (WorldPipeline.init fw ctors bp world).state.trace →
      (WorldPipeline.init fw ctors bp world).throws = true ∧
        InitEvent.build i ∉ (WorldPipeline.init fw ctors bp world).state.trace ∧
        ∀ j < i, InitEvent.construct j ∉ (WorldPipeline.init fw ctors bp world).state.trace) := by
  obtain ⟨hwf, hfail⟩ := (init_log fw ctors bp world).modules_calls dir i frameIndex
  refine ⟨?_, ?_, ?_, ?_, ?_⟩
  · rcases hwf with ⟨h, _⟩ | ⟨h, _⟩ | ⟨h, _⟩ | ⟨r2, h⟩ <;> simp [h]
  · intro rest hrest
    rcases hwf with ⟨h, _⟩ | ⟨h, ha⟩ | ⟨h, _⟩ | ⟨r2, h⟩
    · rw [h] at hrest; cases hrest
    · rw [h] at hrest
      simp only [List.cons.injEq, true_and] at hrest
      exact ⟨hrest.symm, ha⟩
    · rw [h] at hrest; simp at hrest
    · rw [h] at hrest; simp at hrest
  · intro rest hrest
    rcases hwf with ⟨h, _⟩ | ⟨h, _⟩ | ⟨h, _⟩ | ⟨r2, h⟩
    · rw [h] at hrest; cases hrest
    · rw [h] at hrest; simp at hrest
    · rw [h] at hrest; simp at hrest
    · rw [h] at hrest
      simp only [List.cons.injEq, true_and] at hrest
      exact ⟨r2, hrest.symm⟩
  · intro c hc hretry
    rcases hwf with ⟨h, _⟩ | ⟨h, _⟩ | ⟨h, _⟩ | ⟨r2, h⟩
    · rw [h] at hc; simp at hc
    · rw [h] at hc; simp at hc; rw [hc] at hretry; cases hretry
    · rw [h] at hc; simp at hc; rw [hc] at hretry; cases hretry
    · rw [h] at hc ⊢
      simp only [List.mem_cons, List.not_mem_nil, or_false] at hc
      rcases hc with hc | hc
      · rw [hc] at hretry; cases hretry
      · rw [hc]
  · intro hm
    obtain ⟨h1, h2, h3⟩ := hfail hm
    refine ⟨?_, h2, h3⟩
    simpa using h1

/-- **C4.** When `init` completes, the operations it performed on the modules are, for
`i = n - 1` down to `0`: construct module `i`, `setAttributes` once, then for each frame
`0 .. F - 1` the output negotiation followed by the input negotiation, then `build` once;
and every event of module `i` comes after the `build` of module `i + 1`. -/
theorem init_builds_modules_in_reverse_order {W : Type} (fw : Framework W)
    (ctors : WorldModuleConstructors W) (bp : WorldPipelineBlueprint) (world : W)
    (hdone : (WorldPipeline.init fw ctors bp world).throws = false) :
    (WorldPipeline.init fw ctors bp world).state.trace.filterMap InitEvent.operation =
        expectedOperations fw.imageCount bp.moduleNames_.length ∧
    (∀ i < bp.moduleNames_.length,
      (WorldPipeline.init fw ctors bp world).state.trace.count (.setAttributes i) = 1 ∧
      (WorldPipeline.init fw ctors bp world).state.trace.count (.build i) = 1) ∧
    ∀ pre e post, (WorldPipeline.init fw ctors bp world).state.trace = pre ++ e :: post →
      e.module + 1 < bp.moduleNames_.length → InitEvent.build (e.module + 1) ∈ pre := by
  have hlog := init_log fw ctors bp world
  rw [hdone] at hlog
  exact ⟨hlog.modules_operations rfl, fun i hi => hlog.count_once rfl i hi, hlog.build_before rfl⟩

/-- The rejected retry is reachable: a module that rejects every proposal makes `init`
throw after exactly two calls. -/
theorem init_negotiates_at_most_twice_witness :
    negotiationCalls .output 0 0
        (WorldPipeline.init demoFramework demoConstructors (demoBlueprint "reject") 0).state.trace =
        [(false, some false), (true, some false)] ∧
      (WorldPipeline.init demoFramework demoConstructors (demoBlueprint "reject") 0).throws = true :=
  ⟨by decide,
    ((init_negotiates_at_most_twice demoFramework demoConstructors (demoBlueprint "reject") 0
      .output 0 0).2.2.2.2 (by decide)).1⟩

/-- A pipeline of two modules, the first of which needs the fallback on every negotiation,
completes, and its operations are the expected ones. -/
theorem init_builds_modules_in_reverse_order_witness :
    (WorldPipeline.init demoFramework demoConstructors (demoBlueprint "strict") 0).throws = false ∧
      (WorldPipeline.init demoFramework demoConstructors (demoBlueprint "strict") 0).state.trace.filterMap
          InitEvent.operation =
        expectedOperations demoFramework.imageCount (demoBlueprint "strict").moduleNames_.length :=
  ⟨by decide,
    (init_builds_modules_in_reverse_order demoFramework demoConstructors (demoBlueprint "strict") 0
      (by decide)).1⟩

/-- On the small pipeline every fallback allocation of module 0 asks for the extent of the
first resolved slot, here 1920 x 1080. -/
theorem demo_fallback_allocations :
    fallbackAllocations .input 0 1
        (WorldPipeline.init demoFramework demoConstructors (demoBlueprint "strict") 0).state.trace =
      [.createImageAt .input 0 1 2 1920 1080 97] := by
  decide

/-! ## Frame executor -/

theorem closeFrame_spec {W : Type} (useAmd : Bool) (ctx : WorldPipelineContext W)
    (img : DeviceLocalImage) (h : ctx.outputImage = some img) (s : RenderState W) :
    (ctx.closeFrame useAmd s).layouts img.id = presentLayout useAmd ∧
      (ctx.closeFrame useAmd s).worldCommandBuffer = s.worldCommandBuffer ++
        [.barriersBufferImage [{ oldLayout := s.layouts img.id, newLayout := presentLayout useAmd,
                                 image := img.id }]] := by
  unfold WorldPipelineContext.closeFrame
  rw [h]
  simp [RenderState.setLayout, RenderState.barriers]

/-- **C5.** Whatever the layout of slot 0 on entry and whatever the module contexts do,
after `WorldPipelineContext::render` the tracked layout of slot 0 is the presentation
layout; the closing transition is the last command recorded, and it declares as its old
layout the layout the last module left; and the first barrier `fuseWorld` records on slot 0
declares that presentation layout as its source. -/
theorem render_leaves_slot0_presentable {W : Type} (useAmd : Bool) (ctx : WorldPipelineContext W)
    (img : DeviceLocalImage) (h : ctx.outputImage = some img) (s : RenderState W)
    (uiEnd : RenderState W → RenderState W) (overlay : DeviceLocalImage) (s2 : RenderState W) :
    (ctx.render useAmd s).layouts img.id =
        (if useAmd then VK_IMAGE_LAYOUT_COLOR_ATTACHMENT_OPTIMAL
          else VK_IMAGE_LAYOUT_PRESENT_SRC_KHR) ∧
      (ctx.render useAmd s).worldCommandBuffer =
        (WorldPipelineContext.renderModules ctx.worldModuleContexts
            (ctx.preflight useAmd s)).worldCommandBuffer ++
          [.barriersBufferImage
            [{ oldLayout := (WorldPipelineContext.renderModules ctx.worldModuleContexts
                  (ctx.preflight useAmd s)).layouts img.id
               newLayout := (ctx.render useAmd s).layouts img.id
               image := img.id }]] ∧
      ((barriersOn img.id
          ((PipelineContext.fuseWorld useAmd true uiEnd img overlay s2).overlayCommandBuffer.drop
            (uiEnd s2).overlayCommandBuffer.length)).head?.map (fun b => b.oldLayout)) =
        some ((ctx.render useAmd s).layouts img.id) := by
  obtain ⟨h1, h2⟩ := closeFrame_spec useAmd ctx img h
    (WorldPipelineContext.renderModules ctx.worldModuleContexts (ctx.preflight useAmd s))
  refine ⟨h1, ?_, ?_⟩
  · unfold WorldPipelineContext.render
    rw [h2, h1]
  · have hr : (ctx.render useAmd s).layouts img.id = presentLayout useAmd := h1
    rw [hr]
    simp [PipelineContext.fuseWorld, RenderState.setLayout, barriersOn, List.append_assoc]

/-- On a frame whose slot 0 was never written, with one module that leaves it in `GENERAL`:
the frame ends in `PRESENT_SRC_KHR`, and the preflight and the closing transition are
recorded with the tracked layouts as their old layouts. -/
theorem render_leaves_slot0_presentable_witness :
    demoPipelineContext.outputImage = some ⟨0, 1920, 1080, 37, 28⟩ ∧
      (demoPipelineContext.render false demoRenderState).layouts 0 =
        (if false then VK_IMAGE_LAYOUT_COLOR_ATTACHMENT_OPTIMAL
          else VK_IMAGE_LAYOUT_PRESENT_SRC_KHR) ∧
      (demoPipelineContext.render false demoRenderState).worldCommandBuffer =
        [.barriersBufferImage [⟨VK_IMAGE_LAYOUT_UNDEFINED, VK_IMAGE_LAYOUT_PRESENT_SRC_KHR, 0⟩],
         .barriersBufferImage [⟨VK_IMAGE_LAYOUT_GENERAL, VK_IMAGE_LAYOUT_PRESENT_SRC_KHR, 0⟩]] :=
  ⟨rfl,
    (render_leaves_slot0_presentable false demoPipelineContext ⟨0, 1920, 1080, 37, 28⟩ rfl
      demoRenderState id ⟨1, 1920, 1080, 37, 28⟩ demoRenderState).1,
    by decide⟩

/-! ## XeSS module: the disabled and uninitialised module never dispatches -/

theorem loopFrom_invariant {σ ε : Type} (body : Nat → σ → Except (ε × σ) σ) (P : σ → Prop)
    (hbody : ∀ i s, P s → P (endState (body i s)))
    (count start : Nat) (s : σ) (hs : P s) : P (endState (loopFrom body start count s)) := by
  induction count generalizing start s with
  | zero => simpa [loopFrom, endState] using hs
  | succ n ih =>
    unfold loopFrom
    have hb := hbody start s hs
    cases h : body start s with
    | ok s1 =>
      rw [h] at hb
      exact ih (start + 1) s1 hb
    | error e =>
      rw [h] at hb
      exact hb

theorem setAttribute_initialized (env : XessEnv) (key value : String) (m : XessSrModule) :
    (endState (XessSrModule.setAttribute env key value m)).initialized_ = m.initialized_ := by
  unfold XessSrModule.setAttribute
  split_ifs with h1 h2 h3
  · rfl
  · cases XessSrModule.parseQualityModeValue value with
    | none => rfl
    | some mode =>
      simp only [XessSrModule.deriveRenderResolution, endState]
      split_ifs
      · split <;> rfl
      · rfl
  · cases env.stof value <;> rfl
  · rfl

theorem setAttributes_initialized (env : XessEnv) (attributeCount : Nat)
    (attributeKVs : List String) (m : XessSrModule) :
    (endState (XessSrModule.setAttributes env attributeCount attributeKVs m)).initialized_ =
      m.initialized_ := by
  unfold XessSrModule.setAttributes
  refine loopFrom_invariant _ (fun m1 => m1.initialized_ = m.initialized_) ?_ _ _ m rfl
  intro i s hs
  exact (setAttribute_initialized env _ _ s).trans hs

theorem fallbackBlit_world {W : Type} (ctx : XessSrModuleContext) (s : RenderState W) :
    (ctx.fallbackBlit s).world = s.world := rfl

theorem render_uninitialized (env : XessEnv) (commandBuffer : Nat) (ubo : WorldUBO)
    (ctx : XessSrModuleContext) (s : RenderState XessWorld)
    (h : s.world.module.initialized_ = false) :
    ctx.render env commandBuffer ubo s =
      if s.world.moduleAlive then ctx.fallbackBlit s else s := by
  unfold XessSrModuleContext.render
  cases ha : s.world.moduleAlive with
  | false => simp
  | true =>
    simp only [Bool.not_true, Bool.false_eq_true, if_false, if_true, h]
    cases s.world.module.xessEnabled_ <;> rfl

theorem XessCall.run_uninitialized (c : XessCall) (s : RenderState XessWorld)
    (h : s.world.module.initialized_ = false) :
    (c.run s).world.module.initialized_ = false ∧
      (c.run s).world.backendCalls = s.world.backendCalls ∧
      (c.run s).world.moduleAlive = s.world.moduleAlive := by
  cases c with
  | render env commandBuffer ubo ctx =>
    simp only [XessCall.run]
    rw [render_uninitialized env commandBuffer ubo ctx s h]
    cases hma : s.world.moduleAlive with
    | false => simp [h, hma]
    | true => simp [h, hma, fallbackBlit_world]
  | setAttributes env attributeCount attributeKVs =>
    exact ⟨(setAttributes_initialized env attributeCount attributeKVs s.world.module).trans h,
      rfl, rfl⟩

theorem runCalls_uninitialized (calls : List XessCall) (s : RenderState XessWorld)
    (h : s.world.module.initialized_ = false) :
    (runCalls calls s).world.module.initialized_ = false ∧
      (runCalls calls s).world.backendCalls = s.world.backendCalls := by
  induction calls generalizing s with
  | nil => exact ⟨h, rfl⟩
  | cons c rest ih =>
    obtain ⟨h1, h2, _⟩ := c.run_uninitialized s h
    obtain ⟨h3, h4⟩ := ih (c.run s) h1
    exact ⟨h3, h4.trans h2⟩

theorem initImages_module (size : Nat) (w : XessWorld) :
    (XessSrModule.initImages size w).module.initialized_ = w.module.initialized_ ∧
      (XessSrModule.initImages size w).backendCalls = w.backendCalls := by
  unfold XessSrModule.initImages
  induction size with
  | zero => exact ⟨rfl, rfl⟩
  | succ n ih => rw [forLoop_succ]; exact ih

/-- **C6.** Setting the enable attribute to `false` clears `xessEnabled_`; `build()` on a
module with `xessEnabled_` false makes no call to the wrapper's `initialize` and leaves
`initialized_` false; and from every state after `build()` in which `initialized_` is
false, whatever sequence of `render` and `setAttributes` calls follows, `initialized_` stays
false, no call reaches the wrapper's `dispatch`, and every `render` of the sequence is
exactly the fallback blit. -/
theorem disabled_module_renders_fallback_only (env : XessEnv) (sdk : XessSdk)
    (fw : XessFramework) (m : XessSrModule) (s : RenderState XessWorld) (calls : List XessCall) :
    XessSrModule.setAttributes env 1 ["render_pipeline.module.xess_sr.attribute.enable", "false"] m =
        .ok { m with xessEnabled_ := false } ∧
    (s.world.module.xessEnabled_ = false →
      (XessSrModule.build sdk fw s.world).backendCalls = s.world.backendCalls ∧
      (XessSrModule.build sdk fw s.world).module.initialized_ = false) ∧
    ((XessSrModule.build sdk fw s.world).module.initialized_ = false →
      (runCalls calls { s with world := XessSrModule.build sdk fw s.world }).world.module.initialized_ =
          false ∧
        dispatchCalls
            (runCalls calls { s with world := XessSrModule.build sdk fw s.world }).world.backendCalls =
          dispatchCalls (XessSrModule.build sdk fw s.world).backendCalls ∧
        ∀ pre env1 commandBuffer ubo ctx post,
          calls = pre ++ XessCall.render env1 commandBuffer ubo ctx :: post →
          (runCalls pre { s with world := XessSrModule.build sdk fw s.world }).world.moduleAlive =
              true →
            ctx.render env1 commandBuffer ubo
                (runCalls pre { s with world := XessSrModule.build sdk fw s.world }) =
              ctx.fallbackBlit
                (runCalls pre { s with world := XessSrModule.build sdk fw s.world })) := by
  refine ⟨?_, ?_, ?_⟩
  · simp [XessSrModule.setAttributes, loopFrom, XessSrModule.setAttribute, parseBool]
  · intro hdis
    unfold XessSrModule.build
    simp only [hdis, Bool.not_false, if_true]
    exact ⟨(initImages_module _ _).2, (initImages_module _ _).1⟩
  · intro hinit
    obtain ⟨h1, h2⟩ := runCalls_uninitialized calls
      { s with world := XessSrModule.build sdk fw s.world } hinit
    refine ⟨h1, by rw [h2], ?_⟩
    intro pre env1 commandBuffer ubo ctx post _ halive
    obtain ⟨h3, _⟩ := runCalls_uninitialized pre
      { s with world := XessSrModule.build sdk fw s.world } hinit
    rw [render_uninitialized env1 commandBuffer ubo ctx _ h3, halive]
    rfl

/-! ## XeSS module: the layouts `render` leaves -/

theorem setLayout_layouts {W : Type} (s : RenderState W) (image : Nat) (layout : VkImageLayout)
    (k : Nat) :
    (s.setLayout image layout).layouts k = if k = image then layout else s.layouts k := by
  unfold RenderState.setLayout
  by_cases h : k = image
  · subst h; simp
  · simp [h, Function.update_noteq h]

theorem fallbackBlit_layouts {W : Type} (ctx : XessSrModuleContext) (s : RenderState W)
    (h : ctx.outputImage.id ≠ ctx.upscaledFirstHitDepthImage.id) :
    (ctx.fallbackBlit s).layouts ctx.outputImage.id = VK_IMAGE_LAYOUT_GENERAL ∧
      (ctx.fallbackBlit s).layouts ctx.upscaledFirstHitDepthImage.id =
        VK_IMAGE_LAYOUT_TRANSFER_DST_OPTIMAL := by
  unfold XessSrModuleContext.fallbackBlit
  simp only [setLayout_layouts, if_true]
  refine ⟨trivial, ?_⟩
  rw [if_neg (Ne.symm h)]
  simp [RenderState.barriers, RenderState.record, setLayout_layouts]

theorem finish_layouts (ctx : XessSrModuleContext) (s : RenderState XessWorld)
    (h1 : ctx.outputImage.id ≠ ctx.upscaledFirstHitDepthImage.id)
    (h2 : ctx.outputImage.id ≠ ctx.inputFirstHitDepthImage.id) :
    (ctx.finish s).layouts ctx.outputImage.id = VK_IMAGE_LAYOUT_GENERAL ∧
      (ctx.finish s).layouts ctx.upscaledFirstHitDepthImage.id =
        VK_IMAGE_LAYOUT_TRANSFER_DST_OPTIMAL := by
  unfold XessSrModuleContext.finish
  simp only [RenderState.record, RenderState.barriers, setLayout_layouts, if_true]
  refine ⟨?_, trivial⟩
  rw [if_neg h1, if_neg h2]

theorem fallbackBlit_commands {W : Type} (ctx : XessSrModuleContext) (s : RenderState W) :
    (ctx.fallbackBlit s).worldCommandBuffer = s.worldCommandBuffer ++
      [.barriersBufferImage
        [⟨s.layouts ctx.inputColorImage.id, VK_IMAGE_LAYOUT_TRANSFER_SRC_OPTIMAL,
            ctx.inputColorImage.id⟩,
         ⟨s.layouts ctx.outputImage.id, VK_IMAGE_LAYOUT_TRANSFER_DST_OPTIMAL, ctx.outputImage.id⟩,
         ⟨s.layouts ctx.inputFirstHitDepthImage.id, VK_IMAGE_LAYOUT_TRANSFER_SRC_OPTIMAL,
            ctx.inputFirstHitDepthImage.id⟩,
         ⟨s.layouts ctx.upscaledFirstHitDepthImage.id, VK_IMAGE_LAYOUT_TRANSFER_DST_OPTIMAL,
            ctx.upscaledFirstHitDepthImage.id⟩],
       .blitImage ctx.inputColorImage.id VK_IMAGE_LAYOUT_TRANSFER_SRC_OPTIMAL ctx.outputImage.id
          VK_IMAGE_LAYOUT_TRANSFER_DST_OPTIMAL (ctx.inputColorImage.width, ctx.inputColorImage.height)
          (ctx.outputImage.width, ctx.outputImage.height),
       .blitImage ctx.inputFirstHitDepthImage.id VK_IMAGE_LAYOUT_TRANSFER_SRC_OPTIMAL
          ctx.upscaledFirstHitDepthImage.id VK_IMAGE_LAYOUT_TRANSFER_DST_OPTIMAL
          (ctx.inputFirstHitDepthImage.width, ctx.inputFirstHitDepthImage.height)
          (ctx.upscaledFirstHitDepthImage.width, ctx.upscaledFirstHitDepthImage.height),
       .barriersBufferImage
        [⟨VK_IMAGE_LAYOUT_TRANSFER_DST_OPTIMAL, VK_IMAGE_LAYOUT_GENERAL, ctx.outputImage.id⟩]] := by
  simp [XessSrModuleContext.fallbackBlit, RenderState.barriers, RenderState.record,
    RenderState.setLayout]

/-- **C7, as the code has it.** With the module alive and the color output a different
object from the upscaled first-hit-depth output and from the first-hit-depth input, `render`
leaves the color output in `GENERAL` and the upscaled first-hit-depth output in
`TRANSFER_DST_OPTIMAL` on every path; and when the wrapper's `dispatch` returns false,
`render` is the fallback blit from the state of the dispatch, which records the blit of the
color input to the color output and of the first-hit-depth input to the upscaled
first-hit-depth output. -/
theorem render_output_layouts_when_distinct (env : XessEnv) (commandBuffer : Nat) (ubo : WorldUBO)
    (ctx : XessSrModuleContext) (s : RenderState XessWorld)
    (halive : s.world.moduleAlive = true)
    (h1 : ctx.outputImage.id ≠ ctx.upscaledFirstHitDepthImage.id)
    (h2 : ctx.outputImage.id ≠ ctx.inputFirstHitDepthImage.id) :
    (ctx.render env commandBuffer ubo s).layouts ctx.outputImage.id = VK_IMAGE_LAYOUT_GENERAL ∧
    (ctx.render env commandBuffer ubo s).layouts ctx.upscaledFirstHitDepthImage.id =
      VK_IMAGE_LAYOUT_TRANSFER_DST_OPTIMAL ∧
    ∀ xess, s.world.module.xessEnabled_ = true → s.world.module.initialized_ = true →
      s.world.module.xess_ = some xess →
      XeSSWrapper.dispatch env.sdk xess (ctx.beforeDispatch env commandBuffer ubo s).1 = false →
        ctx.render env commandBuffer ubo s =
            ctx.fallbackBlit (ctx.beforeDispatch env commandBuffer ubo s).2 ∧
          ∃ b1 b2, (ctx.render env commandBuffer ubo s).worldCommandBuffer =
            (ctx.beforeDispatch env commandBuffer ubo s).2.worldCommandBuffer ++
              [b1,
               .blitImage ctx.inputColorImage.id VK_IMAGE_LAYOUT_TRANSFER_SRC_OPTIMAL
                  ctx.outputImage.id VK_IMAGE_LAYOUT_TRANSFER_DST_OPTIMAL
                  (ctx.inputColorImage.width, ctx.inputColorImage.height)
                  (ctx.outputImage.width, ctx.outputImage.height),
               .blitImage ctx.inputFirstHitDepthImage.id VK_IMAGE_LAYOUT_TRANSFER_SRC_OPTIMAL
                  ctx.upscaledFirstHitDepthImage.id VK_IMAGE_LAYOUT_TRANSFER_DST_OPTIMAL
                  (ctx.inputFirstHitDepthImage.width, ctx.inputFirstHitDepthImage.height)
                  (ctx.upscaledFirstHitDepthImage.width, ctx.upscaledFirstHitDepthImage.height),
               b2] := by
  have hpaths : ctx.render env commandBuffer ubo s = ctx.fallbackBlit s ∨
      ctx.render env commandBuffer ubo s =
        ctx.fallbackBlit (ctx.beforeDispatch env commandBuffer ubo s).2 ∨
      ctx.render env commandBuffer ubo s =
        ctx.finish (ctx.beforeDispatch env commandBuffer ubo s).2 := by
    unfold XessSrModuleContext.render
    simp only [halive, Bool.not_true, Bool.false_eq_true, if_false]
    split
    · split_ifs
      · right; left; rfl
      · right; right; rfl
    · left; rfl
  refine ⟨?_, ?_, ?_⟩
  · rcases hpaths with h | h | h <;> rw [h]
    · exact (fallbackBlit_layouts ctx _ h1).1
    · exact (fallbackBlit_layouts ctx _ h1).1
    · exact (finish_layouts ctx _ h1 h2).1
  · rcases hpaths with h | h | h <;> rw [h]
    · exact (fallbackBlit_layouts ctx _ h1).2
    · exact (fallbackBlit_layouts ctx _ h1).2
    · exact (finish_layouts ctx _ h1 h2).2
  · intro xess he hi hx hd
    have hr : ctx.render env commandBuffer ubo s =
        ctx.fallbackBlit (ctx.beforeDispatch env commandBuffer ubo s).2 := by
      unfold XessSrModuleContext.render
      simp [halive, he, hi, hx, hd]
    refine ⟨hr, ?_⟩
    rw [hr, fallbackBlit_commands]
    exact ⟨_, _, rfl⟩

/-- The three paths of `render` on distinct images: dispatch failed. -/
theorem render_output_layouts_when_distinct_witness :
    (demoXessState true).world.moduleAlive = true ∧
      (demoContext.render (demoEnv false) 1 demoUbo (demoXessState true)).layouts 14 =
        VK_IMAGE_LAYOUT_GENERAL ∧
      (demoContext.render (demoEnv false) 1 demoUbo (demoXessState true)).layouts 15 =
        VK_IMAGE_LAYOUT_TRANSFER_DST_OPTIMAL :=
  ⟨rfl,
    (render_output_layouts_when_distinct (demoEnv false) 1 demoUbo demoContext
      (demoXessState true) rfl (by decide) (by decide)).1,
    (render_output_layouts_when_distinct (demoEnv false) 1 demoUbo demoContext
      (demoXessState true) rfl (by decide) (by decide)).2.1⟩

/-- **C7 fails as stated.** The layout is tracked per image object, and the paths of
`render` do not leave the same layouts when two images of the context are one object.
When both outputs are the same object, the fallback path and the dispatch-failure path
leave the upscaled first-hit-depth output in `GENERAL`, not in `TRANSFER_DST_OPTIMAL`, and
the success path leaves the color output in `TRANSFER_DST_OPTIMAL`, not in `GENERAL`.
When the first-hit-depth input is the color output, the success path leaves the color
output in `TRANSFER_SRC_OPTIMAL` while the fallback path leaves it in `GENERAL`. -/
theorem render_output_layouts_aliased_counterexample :
    (aliasedContext.render (demoEnv true) 1 demoUbo (demoXessState false)).layouts
        aliasedContext.upscaledFirstHitDepthImage.id = VK_IMAGE_LAYOUT_GENERAL ∧
      (aliasedContext.render (demoEnv false) 1 demoUbo (demoXessState true)).layouts
        aliasedContext.upscaledFirstHitDepthImage.id = VK_IMAGE_LAYOUT_GENERAL ∧
      (aliasedContext.render (demoEnv true) 1 demoUbo (demoXessState true)).layouts
        aliasedContext.outputImage.id = VK_IMAGE_LAYOUT_TRANSFER_DST_OPTIMAL ∧
      (feedbackContext.render (demoEnv true) 1 demoUbo (demoXessState true)).layouts
        feedbackContext.outputImage.id = VK_IMAGE_LAYOUT_TRANSFER_SRC_OPTIMAL ∧
      (feedbackContext.render (demoEnv true) 1 demoUbo (demoXessState false)).layouts
        feedbackContext.outputImage.id = VK_IMAGE_LAYOUT_GENERAL ∧
      VK_IMAGE_LAYOUT_GENERAL ≠ VK_IMAGE_LAYOUT_TRANSFER_DST_OPTIMAL ∧
      VK_IMAGE_LAYOUT_GENERAL ≠ VK_IMAGE_LAYOUT_TRANSFER_SRC_OPTIMAL := by
  decide

/-- The disabled demo module: `render` is the fallback blit and nothing reaches the
wrapper. -/
theorem demo_disabled_render :
    (demoContext.render (demoEnv true) 1 demoUbo (demoXessState false)).world.backendCalls = [] ∧
      (demoContext.render (demoEnv true) 1 demoUbo (demoXessState false)).worldCommandBuffer =
        [.barriersBufferImage
          [⟨VK_IMAGE_LAYOUT_UNDEFINED, VK_IMAGE_LAYOUT_TRANSFER_SRC_OPTIMAL, 10⟩,
           ⟨VK_IMAGE_LAYOUT_UNDEFINED, VK_IMAGE_LAYOUT_TRANSFER_DST_OPTIMAL, 14⟩,
           ⟨VK_IMAGE_LAYOUT_UNDEFINED, VK_IMAGE_LAYOUT_TRANSFER_SRC_OPTIMAL, 13⟩,
           ⟨VK_IMAGE_LAYOUT_UNDEFINED, VK_IMAGE_LAYOUT_TRANSFER_DST_OPTIMAL, 15⟩],
         .blitImage 10 VK_IMAGE_LAYOUT_TRANSFER_SRC_OPTIMAL 14 VK_IMAGE_LAYOUT_TRANSFER_DST_OPTIMAL
           (960, 540) (1920, 1080),
         .blitImage 13 VK_IMAGE_LAYOUT_TRANSFER_SRC_OPTIMAL 15 VK_IMAGE_LAYOUT_TRANSFER_DST_OPTIMAL
           (960, 540) (1920, 1080),
         .barriersBufferImage
          [⟨VK_IMAGE_LAYOUT_TRANSFER_DST_OPTIMAL, VK_IMAGE_LAYOUT_GENERAL, 14⟩]] := by
  decide

/-! ## XeSS module: the history reset -/

/-- **C8.** A call of `checkCameraReset` with the first-frame flag clear returns true exactly
when the distance from the stored camera position is greater than `1.0f` or the dot
product of the normalised directions is less than `0.866f`; a distance of 0.5 with a dot
product of 0.99 gives false, a distance of 1.5 gives true whatever the directions; and
every call, first frame or not, stores the camera it was given. -/
theorem checkCameraReset_thresholds (glm : Glm) (cameraPos cameraDir : Vec3) (m : XessSrModule)
    (hfirst : m.firstFrame_ = false) :
    ((XessSrModuleContext.checkCameraReset glm cameraPos cameraDir m).1 = true ↔
      F32.gt (glm.length (glm.sub cameraPos m.lastCameraPos_)) f32_1_0 = true ∨
      F32.lt (glm.dot (glm.normalize cameraDir) (glm.normalize m.lastCameraDir_)) f32_0_866 = true) ∧
    (glm.length (glm.sub cameraPos m.lastCameraPos_) = f32_0_5 →
      glm.dot (glm.normalize cameraDir) (glm.normalize m.lastCameraDir_) = f32_0_99 →
      (XessSrModuleContext.checkCameraReset glm cameraPos cameraDir m).1 = false) ∧
    (glm.length (glm.sub cameraPos m.lastCameraPos_) = f32_1_5 →
      (XessSrModuleContext.checkCameraReset glm cameraPos cameraDir m).1 = true) ∧
    (∀ mantissa exponent, F32.gt (.finite false mantissa exponent) f32_1_0 = true ↔
      2 ^ 149 < mantissa * 2 ^ exponent) ∧
    (∀ mantissa exponent, F32.lt (.finite false mantissa exponent) f32_0_866 = true ↔
      mantissa * 2 ^ exponent < 14529069 * 2 ^ 125) ∧
    ∀ m0 : XessSrModule,
      (XessSrModuleContext.checkCameraReset glm cameraPos cameraDir m0).2.lastCameraPos_ = cameraPos ∧
      (XessSrModuleContext.checkCameraReset glm cameraPos cameraDir m0).2.lastCameraDir_ =
        cameraDir := by
  refine ⟨?_, ?_, ?_, ?_, ?_, ?_⟩
  · simp [XessSrModuleContext.checkCameraReset, hfirst]
  · intro h1 h2
    simp only [XessSrModuleContext.checkCameraReset, hfirst, h1, h2, Bool.false_eq_true, if_false]
    decide
  · intro h1
    simp only [XessSrModuleContext.checkCameraReset, hfirst, h1, Bool.false_eq_true, if_false,
      Bool.or_eq_true]
    left
    decide
  · intro mantissa exponent
    simp [F32.gt, F32.lt, f32_1_0]
  · intro mantissa exponent
    simp [F32.lt, f32_0_866]
  · intro m0
    unfold XessSrModuleContext.checkCameraReset
    split_ifs <;> exact ⟨rfl, rfl⟩

/-- A camera that moved by 0.5 and turned to a dot product of 0.99 does not reset the
history of a module past its first frame. -/
theorem checkCameraReset_thresholds_witness :
    ({ demoModule true with firstFrame_ := false } : XessSrModule).firstFrame_ = false ∧
      (XessSrModuleContext.checkCameraReset (demoGlm f32_0_5 f32_0_99) demoUbo.cameraPos
        demoUbo.cameraViewDir { demoModule true with firstFrame_ := false }).1 = false :=
  ⟨rfl,
    (checkCameraReset_thresholds (demoGlm f32_0_5 f32_0_99) demoUbo.cameraPos demoUbo.cameraViewDir
      { demoModule true with firstFrame_ := false } rfl).2.1 rfl rfl⟩

/-- **C9.** A call of `checkCameraReset` with the first-frame flag set returns true, clears
the flag and stores the camera it was given, whatever that camera is; the next call is
decided by the two thresholds against that stored camera alone. -/
theorem checkCameraReset_first_frame (glm : Glm) (cameraPos cameraDir : Vec3) (m : XessSrModule)
    (hfirst : m.firstFrame_ = true) :
    XessSrModuleContext.checkCameraReset glm cameraPos cameraDir m =
        (true, { m with firstFrame_ := false, lastCameraPos_ := cameraPos,
                        lastCameraDir_ := cameraDir }) ∧
    ∀ nextPos nextDir : Vec3,
      (XessSrModuleContext.checkCameraReset glm nextPos nextDir
          (XessSrModuleContext.checkCameraReset glm cameraPos cameraDir m).2).1 =
        (F32.gt (glm.length (glm.sub nextPos cameraPos)) f32_1_0 ||
          F32.lt (glm.dot (glm.normalize nextDir) (glm.normalize cameraDir)) f32_0_866) := by
  have h : XessSrModuleContext.checkCameraReset glm cameraPos cameraDir m =
      (true, { m with firstFrame_ := false, lastCameraPos_ := cameraPos,
                      lastCameraDir_ := cameraDir }) := by
    simp [XessSrModuleContext.checkCameraReset, hfirst]
  refine ⟨h, ?_⟩
  intro nextPos nextDir
  rw [h]
  simp [XessSrModuleContext.checkCameraReset]

/-- The first call on a fresh module resets the history and clears the flag. -/
theorem checkCameraReset_first_frame_witness :
    (demoModule true).firstFrame_ = true ∧
      (XessSrModuleContext.checkCameraReset (demoGlm f32_1_5 f32_0_99) demoUbo.cameraPos
        demoUbo.cameraViewDir (demoModule true)).1 = true ∧
      (XessSrModuleContext.checkCameraReset (demoGlm f32_1_5 f32_0_99) demoUbo.cameraPos
        demoUbo.cameraViewDir (demoModule true)).2.firstFrame_ = false :=
  ⟨rfl,
    congrArg Prod.fst (checkCameraReset_first_frame (demoGlm f32_1_5 f32_0_99) demoUbo.cameraPos
      demoUbo.cameraViewDir (demoModule true) rfl).1,
    congrArg (fun r => r.2.firstFrame_) (checkCameraReset_first_frame (demoGlm f32_1_5 f32_0_99)
      demoUbo.cameraPos demoUbo.cameraViewDir (demoModule true) rfl).1⟩

/-! ## XeSS module: the render resolution -/

theorem floorLog2Aux_le (fuel : Nat) : ∀ (n acc b : Nat), n < 2 ^ (b + 1) →
    floorLog2Aux fuel n acc ≤ acc + b := by
  induction fuel with
  | zero => intro n acc b _; simp [floorLog2Aux]
  | succ k ih =>
    intro n acc b hn
    unfold floorLog2Aux
    split_ifs with h2
    · omega
    · have hb : 1 ≤ b := by
        by_contra hb0
        have : b = 0 := by omega
        subst this
        simp at hn
        omega
      have hhalf : n / 2 < 2 ^ ((b - 1) + 1) := by
        have : b - 1 + 1 = b := by omega
        rw [this]
        have hpow : 2 ^ (b + 1) = 2 * 2 ^ b := by rw [pow_succ]; ring
        rw [hpow] at hn
        omega
      have := ih (n / 2) (acc + 1) (b - 1) hhalf
      omega

theorem floorLog2_le (n b : Nat) (hn : n < 2 ^ (b + 1)) : floorLog2 n ≤ b := by
  have := floorLog2Aux_le n n 0 b hn
  simpa [floorLog2] using this

/-- A quotient that needs no rounding is its own binary32 value. -/
theorem roundRatio_exact (negative : Bool) (p q : Nat) (hq : 0 < q)
    (he : floorLog2 (p * 2 ^ 149 / q) - 23 ≤ 149)
    (hdvd : q * 2 ^ (floorLog2 (p * 2 ^ 149 / q) - 23) ∣ p * 2 ^ 149) :
    F32.roundRatio negative p q =
      .finite negative (p * 2 ^ 149 / (q * 2 ^ (floorLog2 (p * 2 ^ 149 / q) - 23)))
        (floorLog2 (p * 2 ^ 149 / q) - 23) := by
  unfold F32.roundRatio
  simp only
  have hD : 0 < q * 2 ^ (floorLog2 (p * 2 ^ 149 / q) - 23) := Nat.mul_pos hq (by positivity)
  have hr : p * 2 ^ 149 % (q * 2 ^ (floorLog2 (p * 2 ^ 149 / q) - 23)) = 0 :=
    Nat.mod_eq_zero_of_dvd hdvd
  rw [hr]
  simp only [Nat.mul_zero, hD, if_true]
  rw [if_neg]
  omega

theorem ofUInt32_exact (n : Nat) (hn : n < 2 ^ 24) :
    F32.ofUInt32 n =
      .finite false (n * 2 ^ 149 / 2 ^ (floorLog2 (n * 2 ^ 149) - 23))
        (floorLog2 (n * 2 ^ 149) - 23) ∧
    floorLog2 (n * 2 ^ 149) - 23 ≤ 149 := by
  have hlt : n * 2 ^ 149 < 2 ^ (172 + 1) := by
    have : (2 : Nat) ^ (172 + 1) = 2 ^ 24 * 2 ^ 149 := by rw [← pow_add]
    rw [this]
    exact Nat.mul_lt_mul_of_pos_right hn (by positivity)
  have hfl := floorLog2_le _ _ hlt
  have he : floorLog2 (n * 2 ^ 149) - 23 ≤ 149 := by omega
  refine ⟨?_, he⟩
  have h := roundRatio_exact false n 1 Nat.one_pos (by simpa using he)
    (by
      simp only [Nat.div_one, Nat.one_mul]
      exact Dvd.dvd.mul_left (pow_dvd_pow 2 he) n)
  simpa [F32.ofUInt32] using h

/-- Below `2 ^ 24` the conversion to `float`, the division by `1.0f` and the conversion back
return the number unchanged. -/
theorem native_resolution_exact (n : Nat) (hn : n < 2 ^ 24) :
    F32.toUInt32 (F32.div (F32.ofUInt32 n) f32_1_0) = n := by
  obtain ⟨hof, he⟩ := ofUInt32_exact n hn
  have hdvd : 2 ^ (floorLog2 (n * 2 ^ 149) - 23) ∣ n * 2 ^ 149 :=
    Dvd.dvd.mul_left (pow_dvd_pow 2 he) n
  have hval : n * 2 ^ 149 / 2 ^ (floorLog2 (n * 2 ^ 149) - 23) *
      2 ^ (floorLog2 (n * 2 ^ 149) - 23) = n * 2 ^ 149 := Nat.div_mul_cancel hdvd
  have hone : 8388608 * 2 ^ 126 = 2 ^ 149 := by norm_num
  have hquot : n * 2 ^ 149 * 2 ^ 149 / 2 ^ 149 = n * 2 ^ 149 :=
    Nat.mul_div_cancel _ (by positivity)
  rw [hof]
  unfold F32.div f32_1_0
  simp only [show (8388608 : Nat) ≠ 0 by decide, if_false, Bool.xor_false, hval, hone]
  have h := roundRatio_exact false (n * 2 ^ 149) (2 ^ 149) (by positivity)
    (by rw [hquot]; exact he)
    (by
      rw [hquot]
      exact Nat.mul_dvd_mul (dvd_mul_left _ _) (pow_dvd_pow 2 he) |>.trans (by
        rw [Nat.mul_comm (n * 2 ^ 149) (2 ^ 149)]))
  rw [h, hquot]
  have hm : n * 2 ^ 149 * 2 ^ 149 / (2 ^ 149 * 2 ^ (floorLog2 (n * 2 ^ 149) - 23)) =
      n * 2 ^ 149 / 2 ^ (floorLog2 (n * 2 ^ 149) - 23) := by
    rw [Nat.mul_comm (n * 2 ^ 149) (2 ^ 149)]
    exact Nat.mul_div_mul_left _ _ (by positivity)
  rw [hm]
  show n * 2 ^ 149 / 2 ^ (floorLog2 (n * 2 ^ 149) - 23) * 2 ^ (floorLog2 (n * 2 ^ 149) - 23) /
      2 ^ 149 % 2 ^ 32 = n
  rw [hval, Nat.mul_div_cancel _ (by positivity)]
  exact Nat.mod_eq_of_lt (lt_of_lt_of_le hn (by norm_num))

theorem floorLog2Aux_lt (fuel : Nat) : ∀ (n acc : Nat), n ≤ fuel →
    ∃ j, floorLog2Aux fuel n acc = acc + j ∧ n < 2 ^ (j + 1) := by
  induction fuel with
  | zero =>
    intro n acc hn
    exact ⟨0, by simp [floorLog2Aux], by omega⟩
  | succ k ih =>
    intro n acc hn
    unfold floorLog2Aux
    split_ifs with h2
    · exact ⟨0, rfl, by simpa using h2⟩
    · obtain ⟨j, hj, hlt⟩ := ih (n / 2) (acc + 1) (by omega)
      refine ⟨j + 1, by rw [hj]; ring, ?_⟩
      have hpow : 2 ^ (j + 1 + 1) = 2 * 2 ^ (j + 1) := by rw [pow_succ]; ring
      rw [hpow]
      omega

/-- The leading bit is not underestimated: `n < 2 ^ (floorLog2 n + 1)`. -/
theorem lt_pow_floorLog2 (n : Nat) : n < 2 ^ (floorLog2 n + 1) := by
  obtain ⟨j, hj, hlt⟩ := floorLog2Aux_lt n n 0 (le_refl n)
  have : floorLog2 n = j := by simpa [floorLog2] using hj
  rw [this]
  exact hlt

/-- The rounded mantissa is within half a unit of the exact quotient. -/
theorem roundRatio_nearest (negative : Bool) (p q : Nat) (hq : 0 < q)
    (he : floorLog2 (p * 2 ^ 149 / q) - 23 ≤ 252) :
    ∃ m, F32.roundRatio negative p q =
        .finite negative m (floorLog2 (p * 2 ^ 149 / q) - 23) ∧
      2 * (m * (q * 2 ^ (floorLog2 (p * 2 ^ 149 / q) - 23))) ≤
        2 * (p * 2 ^ 149) + q * 2 ^ (floorLog2 (p * 2 ^ 149 / q) - 23) ∧
      2 * (p * 2 ^ 149) ≤
        2 * (m * (q * 2 ^ (floorLog2 (p * 2 ^ 149 / q) - 23))) +
          q * 2 ^ (floorLog2 (p * 2 ^ 149 / q) - 23) := by
  unfold F32.roundRatio
  simp only
  generalize floorLog2 (p * 2 ^ 149 / q) - 23 = e at he ⊢
  generalize p * 2 ^ 149 = P
  have hD : 0 < q * 2 ^ e := Nat.mul_pos hq (by positivity)
  generalize q * 2 ^ e = D at hD ⊢
  have hdm : D * (P / D) + P % D = P := Nat.div_add_mod P D
  have hr : P % D < D := Nat.mod_lt _ hD
  have hcomm : D * (P / D) = P / D * D := Nat.mul_comm _ _
  rw [if_neg (by omega)]
  refine ⟨_, rfl, ?_⟩
  split_ifs with h1 h2
  · constructor <;> omega
  · have : (P / D + 1) * D = P / D * D + D := by ring
    constructor <;> omega
  · rcases Nat.mod_two_eq_zero_or_one (P / D) with h | h
    · rw [h]
      simp only [Nat.add_zero]
      constructor <;> omega
    · rw [h]
      have : (P / D + 1) * D = P / D * D + D := by ring
      constructor <;> omega

/-- The `float` quotient of a `uint32_t` below `2 ^ 24` by a positive `float`
`c * 2 ^ E / 2 ^ 149`, truncated: it is `k` as soon as the exact quotient, moved by half a
unit in the last place of its binary32 exponent, stays inside `(k, k + 1)`. The exponent
`e` is only known through the integer quotient `t` whose leading bit fixes it. -/
theorem div_truncates (W c E k : Nat) (hW : W < 2 ^ 24) (hc : c ≠ 0) (hk : k < 2 ^ 32)
    (h : ∀ t e, t * (c * 2 ^ E) ≤ W * 2 ^ 149 * 2 ^ 149 →
      W * 2 ^ 149 * 2 ^ 149 < (t + 1) * (c * 2 ^ E) →
      t < 2 ^ (e + 24) → (∀ b, t < 2 ^ (b + 1) → e ≤ b - 23) →
      e ≤ 149 ∧
      2 * (k * (c * 2 ^ E) * 2 ^ 149) < 2 * (W * 2 ^ 149 * 2 ^ 149) + c * 2 ^ E * 2 ^ e ∧
      2 * (W * 2 ^ 149 * 2 ^ 149) + c * 2 ^ E * 2 ^ e < 2 * ((k + 1) * (c * 2 ^ E) * 2 ^ 149)) :
    F32.toUInt32 (F32.div (F32.ofUInt32 W) (.finite false c E)) = k := by
  obtain ⟨hof, he1⟩ := ofUInt32_exact W hW
  have hval : W * 2 ^ 149 / 2 ^ (floorLog2 (W * 2 ^ 149) - 23) *
      2 ^ (floorLog2 (W * 2 ^ 149) - 23) = W * 2 ^ 149 :=
    Nat.div_mul_cancel (Dvd.dvd.mul_left (pow_dvd_pow 2 he1) W)
  rw [hof]
  unfold F32.div
  simp only [hc, if_false, Bool.xor_false, hval]
  have hq : 0 < c * 2 ^ E := Nat.mul_pos (Nat.pos_of_ne_zero hc) (by positivity)
  generalize hqdef : c * 2 ^ E = q at h hq ⊢
  generalize hPdef : W * 2 ^ 149 * 2 ^ 149 = P at h ⊢
  have hfloor : floorLog2 (P / q) - 23 + 24 ≥ floorLog2 (P / q) + 1 := by omega
  obtain ⟨he, hL, hU⟩ := h (P / q) (floorLog2 (P / q) - 23)
    (Nat.div_mul_le_self P q)
    (by rw [Nat.mul_comm]; exact Nat.lt_mul_div_succ P hq)
    (lt_of_lt_of_le (lt_pow_floorLog2 (P / q)) (Nat.pow_le_pow_right (by norm_num) hfloor))
    (fun b hb => by have := floorLog2_le (P / q) b hb; omega)
  obtain ⟨m, hm, h1, h2⟩ := roundRatio_nearest false (W * 2 ^ 149) q hq (by rw [hPdef]; omega)
  rw [hPdef] at hm h1 h2
  rw [hm]
  generalize floorLog2 (P / q) - 23 = e at he hL hU h1 h2 ⊢
  have hpow : 2 ^ (149 - e) * 2 ^ e = 2 ^ 149 := by
    rw [← pow_add]
    congr 1
    omega
  have hGD : ∀ j, (j * 2 ^ (149 - e)) * (q * 2 ^ e) = j * q * 2 ^ 149 := by
    intro j
    calc (j * 2 ^ (149 - e)) * (q * 2 ^ e) = j * q * (2 ^ (149 - e) * 2 ^ e) := by ring
      _ = j * q * 2 ^ 149 := by rw [hpow]
  have hGe : ∀ j, j * 2 ^ (149 - e) * 2 ^ e = j * 2 ^ 149 := by
    intro j
    rw [Nat.mul_assoc, hpow]
  have hlow : k * 2 ^ 149 ≤ m * 2 ^ e := by
    by_contra hlt
    have hlt2 : m * 2 ^ e < k * 2 ^ (149 - e) * 2 ^ e := by rw [hGe]; omega
    have hmG : m + 1 ≤ k * 2 ^ (149 - e) := Nat.lt_of_mul_lt_mul_right hlt2
    have hmul := Nat.mul_le_mul_right (q * 2 ^ e) hmG
    rw [hGD, Nat.add_mul, Nat.one_mul] at hmul
    omega
  have hupp : m * 2 ^ e < (k + 1) * 2 ^ 149 := by
    by_contra hge
    have hge2 : (k + 1) * 2 ^ (149 - e) * 2 ^ e ≤ m * 2 ^ e := by rw [hGe]; omega
    have hmG : (k + 1) * 2 ^ (149 - e) ≤ m := Nat.le_of_mul_le_mul_right hge2 (by positivity)
    have hmul := Nat.mul_le_mul_right (q * 2 ^ e) hmG
    rw [hGD] at hmul
    omega
  have hdiv : m * 2 ^ e / 2 ^ 149 = k :=
    Nat.div_eq_of_lt_le (by rw [Nat.mul_comm] at hlow; simpa [Nat.mul_comm] using hlow)
      (by simpa [Nat.mul_comm, Nat.succ_eq_add_one] using hupp)
  show m * 2 ^ e / 2 ^ 149 % 2 ^ 32 = k
  rw [hdiv]
  exact Nat.mod_eq_of_lt hk

/-- Below `2 ^ 20` the `float` quotient by `1.0f`, truncated, is the exact quotient by 1.0,
truncated. -/
theorem quotient_1_0 (W : Nat) (hW : W < 2 ^ 20) :
    F32.toUInt32 (F32.div (F32.ofUInt32 W) f32_1_0) = W * 10 / 10 := by
  have hk1 : 10 * (W * 10 / 10) ≤ W * 10 := Nat.mul_div_le _ _
  have hk2 : W * 10 < 10 * (W * 10 / 10 + 1) := Nat.lt_mul_div_succ _ (by decide)
  generalize W * 10 / 10 = k at hk1 hk2 ⊢
  apply div_truncates W 8388608 126 k (by omega) (by decide) (by omega)
  intro t e h1 h2 h3 h4
  have he : e ≤ 145 := by
    have := h4 168 (by omega)
    omega
  have hs : 2 ^ e ≤ 2 ^ 145 := Nat.pow_le_pow_right (by norm_num) he
  rw [pow_add] at h3
  generalize 2 ^ e = s at h3 hs ⊢
  refine ⟨by omega, ?_, ?_⟩ <;> omega

/-- Below `2 ^ 20` the `float` quotient by `1.3f`, truncated, is the exact quotient by 1.3,
truncated. -/
theorem quotient_1_3 (W : Nat) (hW : W < 2 ^ 20) :
    F32.toUInt32 (F32.div (F32.ofUInt32 W) f32_1_3) = W * 10 / 13 := by
  have hk1 : 13 * (W * 10 / 13) ≤ W * 10 := Nat.mul_div_le _ _
  have hk2 : W * 10 < 13 * (W * 10 / 13 + 1) := Nat.lt_mul_div_succ _ (by decide)
  generalize W * 10 / 13 = k at hk1 hk2 ⊢
  apply div_truncates W 10905190 126 k (by omega) (by decide) (by omega)
  intro t e h1 h2 h3 h4
  have he : e ≤ 145 := by
    have := h4 168 (by omega)
    omega
  have hs : 2 ^ e ≤ 2 ^ 145 := Nat.pow_le_pow_right (by norm_num) he
  rw [pow_add] at h3
  generalize 2 ^ e = s at h3 hs ⊢
  refine ⟨by omega, ?_, ?_⟩ <;> omega

/-- Below `2 ^ 20` the `float` quotient by `1.5f`, truncated, is the exact quotient by 1.5,
truncated. -/
theorem quotient_1_5 (W : Nat) (hW : W < 2 ^ 20) :
    F32.toUInt32 (F32.div (F32.ofUInt32 W) f32_1_5) = W * 10 / 15 := by
  have hk1 : 15 * (W * 10 / 15) ≤ W * 10 := Nat.mul_div_le _ _
  have hk2 : W * 10 < 15 * (W * 10 / 15 + 1) := Nat.lt_mul_div_succ _ (by decide)
  generalize W * 10 / 15 = k at hk1 hk2 ⊢
  apply div_truncates W 12582912 126 k (by omega) (by decide) (by omega)
  intro t e h1 h2 h3 h4
  have he : e ≤ 145 := by
    have := h4 168 (by omega)
    omega
  have hs : 2 ^ e ≤ 2 ^ 145 := Nat.pow_le_pow_right (by norm_num) he
  rw [pow_add] at h3
  generalize 2 ^ e = s at h3 hs ⊢
  refine ⟨by omega, ?_, ?_⟩ <;> omega

/-- Below `2 ^ 20` the `float` quotient by `1.7f`, truncated, is the exact quotient by 1.7,
truncated. -/
theorem quotient_1_7 (W : Nat) (hW : W < 2 ^ 20) :
    F32.toUInt32 (F32.div (F32.ofUInt32 W) f32_1_7) = W * 10 / 17 := by
  have hk1 : 17 * (W * 10 / 17) ≤ W * 10 := Nat.mul_div_le _ _
  have hk2 : W * 10 < 17 * (W * 10 / 17 + 1) := Nat.lt_mul_div_succ _ (by decide)
  generalize W * 10 / 17 = k at hk1 hk2 ⊢
  apply div_truncates W 14260634 126 k (by omega) (by decide) (by omega)
  intro t e h1 h2 h3 h4
  have he : e ≤ 145 := by
    have := h4 168 (by omega)
    omega
  have hs : 2 ^ e ≤ 2 ^ 145 := Nat.pow_le_pow_right (by norm_num) he
  rw [pow_add] at h3
  generalize 2 ^ e = s at h3 hs ⊢
  refine ⟨by omega, ?_, ?_⟩ <;> omega

/-- Below `2 ^ 20` the `float` quotient by `2.0f`, truncated, is the exact quotient by 2.0,
truncated. -/
theorem quotient_2_0 (W : Nat) (hW : W < 2 ^ 20) :
    F32.toUInt32 (F32.div (F32.ofUInt32 W) f32_2_0) = W * 10 / 20 := by
  have hk1 : 20 * (W * 10 / 20) ≤ W * 10 := Nat.mul_div_le _ _
  have hk2 : W * 10 < 20 * (W * 10 / 20 + 1) := Nat.lt_mul_div_succ _ (by decide)
  generalize W * 10 / 20 = k at hk1 hk2 ⊢
  apply div_truncates W 8388608 127 k (by omega) (by decide) (by omega)
  intro t e h1 h2 h3 h4
  have he : e ≤ 144 := by
    have := h4 167 (by omega)
    omega
  have hs : 2 ^ e ≤ 2 ^ 144 := Nat.pow_le_pow_right (by norm_num) he
  rw [pow_add] at h3
  generalize 2 ^ e = s at h3 hs ⊢
  refine ⟨by omega, ?_, ?_⟩ <;> omega

/-- Below `2 ^ 20` the `float` quotient by `2.3f`, truncated, is the exact quotient by 2.3,
truncated. -/
theorem quotient_2_3 (W : Nat) (hW : W < 2 ^ 20) :
    F32.toUInt32 (F32.div (F32.ofUInt32 W) f32_2_3) = W * 10 / 23 := by
  have hk1 : 23 * (W * 10 / 23) ≤ W * 10 := Nat.mul_div_le _ _
  have hk2 : W * 10 < 23 * (W * 10 / 23 + 1) := Nat.lt_mul_div_succ _ (by decide)
  generalize W * 10 / 23 = k at hk1 hk2 ⊢
  apply div_truncates W 9646899 127 k (by omega) (by decide) (by omega)
  intro t e h1 h2 h3 h4
  have he : e ≤ 144 := by
    have := h4 167 (by omega)
    omega
  have hs : 2 ^ e ≤ 2 ^ 144 := Nat.pow_le_pow_right (by norm_num) he
  rw [pow_add] at h3
  generalize 2 ^ e = s at h3 hs ⊢
  refine ⟨by omega, ?_, ?_⟩ <;> omega

/-- Below `2 ^ 20` the `float` quotient by `3.0f`, truncated, is the exact quotient by 3.0,
truncated. -/
theorem quotient_3_0 (W : Nat) (hW : W < 2 ^ 20) :
    F32.toUInt32 (F32.div (F32.ofUInt32 W) f32_3_0) = W * 10 / 30 := by
  have hk1 : 30 * (W * 10 / 30) ≤ W * 10 := Nat.mul_div_le _ _
  have hk2 : W * 10 < 30 * (W * 10 / 30 + 1) := Nat.lt_mul_div_succ _ (by decide)
  generalize W * 10 / 30 = k at hk1 hk2 ⊢
  apply div_truncates W 12582912 127 k (by omega) (by decide) (by omega)
  intro t e h1 h2 h3 h4
  have he : e ≤ 144 := by
    have := h4 167 (by omega)
    omega
  have hs : 2 ^ e ≤ 2 ^ 144 := Nat.pow_le_pow_right (by norm_num) he
  rw [pow_add] at h3
  generalize 2 ^ e = s at h3 hs ⊢
  refine ⟨by omega, ?_, ?_⟩ <;> omega

set_option maxRecDepth 20000 in
/-- **C10.** `getRenderResolution(W, H, mode)` returns the truncated quotients of `W` and `H`
by the ratio of the mode, the ratios being 1.0, 1.3, 1.5, 1.7, 2.0, 2.3, 3.0 in the order
of the quality modes (all in `float` arithmetic, as the source computes them); display
(1920, 1080) gives (960, 540) for Balanced and (640, 360) for UltraPerformance; NativeAA
returns the display resolution unchanged for every width and height below `2 ^ 24`; and
for every width and height below `2 ^ 20` the `float` result is the truncated quotient of
exact arithmetic by the decimal ratio. -/
theorem getRenderResolution_by_ratio_table (displayWidth displayHeight : Nat) (mode : QualityMode) :
    XessSrModule.getRenderResolution displayWidth displayHeight mode =
        (F32.toUInt32 (F32.div (F32.ofUInt32 displayWidth) (ratioTable.getD mode.code f32_1_0)),
         F32.toUInt32 (F32.div (F32.ofUInt32 displayHeight) (ratioTable.getD mode.code f32_1_0))) ∧
    XessSrModule.getRenderResolution 1920 1080 .Balanced = (960, 540) ∧
    XessSrModule.getRenderResolution 1920 1080 .UltraPerformance = (640, 360) ∧
    (displayWidth < 2 ^ 24 → displayHeight < 2 ^ 24 →
      XessSrModule.getRenderResolution displayWidth displayHeight .NativeAA =
        (displayWidth, displayHeight)) ∧
    (displayWidth < 2 ^ 20 → displayHeight < 2 ^ 20 →
      XessSrModule.getRenderResolution displayWidth displayHeight mode =
        (displayWidth * 10 / specRatioTenths mode,
         displayHeight * 10 / specRatioTenths mode)) := by
  refine ⟨?_, ?_, ?_, ?_, ?_⟩
  · cases mode <;> rfl
  · decide
  · decide
  · intro hw hh
    unfold XessSrModule.getRenderResolution renderRatio
    simp only [native_resolution_exact displayWidth hw, native_resolution_exact displayHeight hh]
  · intro hw hh
    cases mode
    · simp only [XessSrModule.getRenderResolution, renderRatio, specRatioTenths,
        quotient_1_0 _ hw, quotient_1_0 _ hh]
    · simp only [XessSrModule.getRenderResolution, renderRatio, specRatioTenths,
        quotient_1_3 _ hw, quotient_1_3 _ hh]
    · simp only [XessSrModule.getRenderResolution, renderRatio, specRatioTenths,
        quotient_1_5 _ hw, quotient_1_5 _ hh]
    · simp only [XessSrModule.getRenderResolution, renderRatio, specRatioTenths,
        quotient_1_7 _ hw, quotient_1_7 _ hh]
    · simp only [XessSrModule.getRenderResolution, renderRatio, specRatioTenths,
        quotient_2_0 _ hw, quotient_2_0 _ hh]
    · simp only [XessSrModule.getRenderResolution, renderRatio, specRatioTenths,
        quotient_2_3 _ hw, quotient_2_3 _ hh]
    · simp only [XessSrModule.getRenderResolution, renderRatio, specRatioTenths,
        quotient_3_0 _ hw, quotient_3_0 _ hh]

set_option maxRecDepth 20000 in
/-- The bound of the NativeAA case is sharp, and the quotient is the `float` quotient: at
`2 ^ 24 + 1` the conversion to `float` already rounds, and for a width of 1363150 the
`float` quotient by `1.3f` truncates to 1048577 where the exact quotient by 1.3
truncates to 1048576. -/
theorem demo_render_resolution_rounding :
    XessSrModule.getRenderResolution 16777215 1080 .NativeAA = (16777215, 1080) ∧
      XessSrModule.getRenderResolution 16777217 1080 .NativeAA = (16777216, 1080) ∧
      XessSrModule.getRenderResolution 1363150 1080 .UltraQualityPlus = (1048577, 830) ∧
      1363150 * 10 / 13 = 1048576 := by
  decide

/-! ## XeSS module: attribute parsing -/

/-- **C12.** For each of the seven quality levels, `parseQualityModeValue` accepts its
numeric code, its snake-case alias and its fully-qualified dotted key, and each yields
that level; in particular `"2"`, `"ultra_quality"` and
`"render_pipeline.module.xess_sr.attribute.quality_mode.ultra_quality"` all yield
UltraQuality. -/
theorem parseQualityModeValue_code_alias_key (mode : QualityMode) :
    XessSrModule.parseQualityModeValue mode.numeral = some mode ∧
    XessSrModule.parseQualityModeValue mode.snakeCase = some mode ∧
    XessSrModule.parseQualityModeValue mode.dottedKey = some mode ∧
    mode.numeral = String.singleton (Nat.digitChar mode.code) ∧
    XessSrModule.parseQualityModeValue "2" = some .UltraQuality ∧
    XessSrModule.parseQualityModeValue "ultra_quality" = some .UltraQuality ∧
    XessSrModule.parseQualityModeValue
      "render_pipeline.module.xess_sr.attribute.quality_mode.ultra_quality" =
        some .UltraQuality := by
  cases mode <;> decide

set_option maxRecDepth 100000 in
theorem toLower_ascii_table : ∀ n : Fin 128,
    (Char.ofNat n).toLower.toLower = (Char.ofNat n).toLower ∧
    (Char.ofNat n).toUpper.toLower = (Char.ofNat n).toLower := by
  decide

theorem toLower_ascii (c : Char) (h : c.toNat < 128) :
    c.toLower.toLower = c.toLower ∧ c.toUpper.toLower = c.toLower := by
  have := toLower_ascii_table ⟨c.toNat, h⟩
  simpa using this

theorem toLowerString_ascii (v : String) (h0 : isAsciiString v = true) :
    toLowerString (toLowerString v) = toLowerString v ∧
    toLowerString (toUpperString v) = toLowerString v := by
  have h : ∀ c ∈ v.data, c.toNat < 128 := by
    simpa [isAsciiString, List.all_eq_true] using h0
  unfold toLowerString toUpperString
  simp only [List.map_map]
  constructor
  · congr 1
    apply List.map_congr_left
    intro c hc
    exact (toLower_ascii c (h c hc)).1
  · congr 1
    apply List.map_congr_left
    intro c hc
    exact (toLower_ascii c (h c hc)).2

/-- **C13.** `parseQualityModeValue` is case-insensitive in its value: for an ASCII string
`v`, parsing `v` gives the same result (acceptance and mode) as parsing `v` with every
letter lower-cased and as parsing `v` with every letter upper-cased. -/
theorem parseQualityModeValue_case_insensitive (v : String) (h : isAsciiString v = true) :
    XessSrModule.parseQualityModeValue v = XessSrModule.parseQualityModeValue (toLowerString v) ∧
    XessSrModule.parseQualityModeValue v = XessSrModule.parseQualityModeValue (toUpperString v) := by
  obtain ⟨h1, h2⟩ := toLowerString_ascii v h
  unfold XessSrModule.parseQualityModeValue
  simp only [h1, h2, and_self]

/-- The mixed-case spelling `"Ultra_Quality"` parses as its lower-case and its
upper-case spellings do. -/
theorem parseQualityModeValue_case_insensitive_witness :
    isAsciiString "Ultra_Quality" = true ∧
    XessSrModule.parseQualityModeValue "Ultra_Quality" =
      XessSrModule.parseQualityModeValue (toLowerString "Ultra_Quality") ∧
    XessSrModule.parseQualityModeValue "Ultra_Quality" =
      XessSrModule.parseQualityModeValue (toUpperString "Ultra_Quality") :=
  ⟨by decide, parseQualityModeValue_case_insensitive "Ultra_Quality" (by decide)⟩

/-- The mixed-case, lower-case and upper-case spellings of an alias are accepted with the
same mode, and those of an unknown word are rejected alike. -/
theorem demo_parse_case :
    XessSrModule.parseQualityModeValue "Ultra_Quality" = some .UltraQuality ∧
    XessSrModule.parseQualityModeValue "ULTRA_QUALITY" = some .UltraQuality ∧
    toUpperString "Ultra_Quality" = "ULTRA_QUALITY" ∧
    XessSrModule.parseQualityModeValue "Fast" = none ∧
    XessSrModule.parseQualityModeValue "FAST" = none := by
  decide

theorem parseBool_false_iff (v : String) :
    parseBool v = false ↔ v = "0" ∨ v = "false" ∨ v = "False" ∨ v = "FALSE" := by
  unfold parseBool
  by_cases h1 : v = "1" ∨ v = "true" ∨ v = "True" ∨ v = "TRUE"
  · rcases h1 with h | h | h | h <;> subst h <;> decide
  · by_cases h2 : v = "0" ∨ v = "false" ∨ v = "False" ∨ v = "FALSE"
    · rcases h2 with h | h | h | h <;> subst h <;> decide
    · simp only [not_or] at h1 h2
      simp [h1.1, h1.2.1, h1.2.2.1, h1.2.2.2, h2.1, h2.2.1, h2.2.2.1, h2.2.2.2]

/-- **C14.** Applying the enable attribute with value `v` leaves the module with the enabled
flag false exactly when `v` is one of `"0"`, `"false"`, `"False"`, `"FALSE"` and true for
every other value (so for `"1"`, `"true"`, `"True"`, `"TRUE"` and for every value that is
not a boolean spelling), whatever the flag was before; nothing else of the module
changes. -/
theorem enable_attribute_sets_flag (env : XessEnv) (m : XessSrModule) (v : String) :
    XessSrModule.setAttributes env 1 ["render_pipeline.module.xess_sr.attribute.enable", v] m =
      .ok { m with xessEnabled_ := decide (¬ (v = "0" ∨ v = "false" ∨ v = "False" ∨ v = "FALSE")) } ∧
    parseBool "1" = true ∧ parseBool "true" = true ∧ parseBool "True" = true ∧
    parseBool "TRUE" = true ∧ parseBool "0" = false ∧ parseBool "false" = false ∧
    parseBool "False" = false ∧ parseBool "FALSE" = false ∧
    parseBool "yes" = true ∧ parseBool "" = true ∧ parseBool "tRUE" = true ∧
    parseBool "off" = true := by
  refine ⟨?_, by decide, by decide, by decide, by decide, by decide, by decide, by decide,
    by decide, by decide, by decide, by decide, by decide⟩
  have hb : parseBool v = decide (¬ (v = "0" ∨ v = "false" ∨ v = "False" ∨ v = "FALSE")) := by
    have := parseBool_false_iff v
    by_cases h : v = "0" ∨ v = "false" ∨ v = "False" ∨ v = "FALSE"
    · simp only [h, not_true_eq_false, decide_False]
      exact this.2 h
    · simp only [h, not_false_eq_true, decide_True]
      cases hp : parseBool v
      · exact absurd (this.1 hp) h
      · rfl
  simp only [XessSrModule.setAttributes, loopFrom, XessSrModule.setAttribute, List.getD_cons_zero,
    Nat.mul_zero, Nat.zero_add, List.getD_cons_succ, if_true, hb]

theorem setAttribute_unrecognised (env : XessEnv) (key value : String) (m : XessSrModule)
    (h : isRecognisedPair (key, value) = false) :
    XessSrModule.setAttribute env key value m = .ok m := by
  unfold isRecognisedPair at h
  simp only [Bool.or_eq_false_iff, decide_eq_false_iff_not, Bool.and_eq_false_imp] at h
  obtain ⟨⟨h1, h2⟩, h3⟩ := h
  unfold XessSrModule.setAttribute
  rw [if_neg h1]
  by_cases hq : XessSrModule.isQualityModeAttributeKey key = true
  · rw [if_pos hq]
    have := h2 hq
    cases hp : XessSrModule.parseQualityModeValue value with
    | none => rfl
    | some mode => simp [hp] at this
  · rw [if_neg hq, if_neg h3]

theorem setAttributes_eq_applyAttributePairs (env : XessEnv) (attributeKVs : List String) :
    ∀ (count start : Nat) (m : XessSrModule),
      loopFrom
        (fun i m => XessSrModule.setAttribute env (attributeKVs.getD (2 * i) "")
          (attributeKVs.getD (2 * i + 1) "") m) start count m =
      applyAttributePairs env
        ((List.range' start count).map fun i =>
          (attributeKVs.getD (2 * i) "", attributeKVs.getD (2 * i + 1) "")) m := by
  intro count
  induction count with
  | zero => intro start m; rfl
  | succ n ih =>
    intro start m
    simp only [loopFrom, List.range'_succ, List.map_cons, applyAttributePairs]
    cases XessSrModule.setAttribute env (attributeKVs.getD (2 * start) "")
        (attributeKVs.getD (2 * start + 1) "") m with
    | error e => rfl
    | ok m1 => exact ih (start + 1) m1

theorem setAttributes_eq_pairs (env : XessEnv) (attributeCount : Nat)
    (attributeKVs : List String) (m : XessSrModule) :
    XessSrModule.setAttributes env attributeCount attributeKVs m =
      applyAttributePairs env (attributePairs attributeCount attributeKVs) m :=
  setAttributes_eq_applyAttributePairs env attributeKVs attributeCount 0 m

theorem applyAttributePairs_filter (env : XessEnv) (pairs : List (String × String)) :
    ∀ m, applyAttributePairs env (pairs.filter isRecognisedPair) m =
      applyAttributePairs env pairs m := by
  induction pairs with
  | nil => intro m; rfl
  | cons p rest ih =>
    intro m
    by_cases hp : isRecognisedPair p = true
    · rw [List.filter_cons_of_pos hp]
      simp only [applyAttributePairs]
      cases XessSrModule.setAttribute env p.1 p.2 m with
      | error e => rfl
      | ok m1 => exact ih m1
    · have hf : isRecognisedPair (p.1, p.2) = false := by simpa using hp
      rw [List.filter_cons_of_neg hp]
      simp only [applyAttributePairs, setAttribute_unrecognised env p.1 p.2 m hf]
      exact ih m

theorem attributeKVsOf_getD (pairs : List (String × String)) :
    ∀ i, i < pairs.length →
      ((attributeKVsOf pairs).getD (2 * i) "", (attributeKVsOf pairs).getD (2 * i + 1) "") =
        pairs.getD i ("", "") := by
  induction pairs with
  | nil => intro i hi; simp at hi
  | cons p rest ih =>
    intro i hi
    cases i with
    | zero => simp [attributeKVsOf]
    | succ k =>
      have hk : k < rest.length := by simpa using hi
      have := ih k hk
      have e1 : 2 * (k + 1) = (2 * k) + 1 + 1 := by ring
      have e2 : 2 * (k + 1) + 1 = (2 * k + 1) + 1 + 1 := by ring
      simp only [attributeKVsOf, List.flatMap_cons, List.cons_append, List.nil_append, e1, e2,
        List.getD_cons_succ] at this ⊢
      exact this

theorem attributePairs_attributeKVsOf (pairs : List (String × String)) :
    attributePairs pairs.length (attributeKVsOf pairs) = pairs := by
  unfold attributePairs
  apply List.ext_getElem
  · simp
  · intro i h1 h2
    simp only [List.getElem_map, List.getElem_range', Nat.zero_add, Nat.one_mul]
    rw [attributeKVsOf_getD pairs i h2, List.getD_eq_getElem _ _ h2]

/-- **C15.** `setAttributes` leaves the module as it is for every pair whose key is not one
of the three attribute keys and for every quality-mode pair whose value
`parseQualityModeValue` rejects: the iteration on such a pair returns the module unchanged,
and a call gives the result of the call with those pairs taken out of the vector. -/
theorem setAttributes_ignores_unrecognised (env : XessEnv) (attributeCount : Nat)
    (attributeKVs : List String) (key value : String) (m : XessSrModule) :
    ((key ≠ "render_pipeline.module.xess_sr.attribute.enable" ∧
        key ≠ "render_pipeline.module.xess_sr.attribute.quality_mode" ∧
        key ≠ "render_pipeline.module.xess_sr.attribute.pre_exposure") ∨
      (key = "render_pipeline.module.xess_sr.attribute.quality_mode" ∧
        XessSrModule.parseQualityModeValue value = none) →
      isRecognisedPair (key, value) = false ∧
      XessSrModule.setAttribute env key value m = .ok m ∧
      XessSrModule.setAttributes env 1 [key, value] m = .ok m) ∧
    XessSrModule.setAttributes env attributeCount attributeKVs m =
      XessSrModule.setAttributes env
        ((attributePairs attributeCount attributeKVs).filter isRecognisedPair).length
        (attributeKVsOf ((attributePairs attributeCount attributeKVs).filter isRecognisedPair))
        m := by
  constructor
  · intro h
    have hrec : isRecognisedPair (key, value) = false := by
      unfold isRecognisedPair XessSrModule.isQualityModeAttributeKey
      rcases h with ⟨h1, h2, h3⟩ | ⟨h1, h2⟩
      · simp [h1, h2, h3]
      · subst h1
        simp [h2]
    have hstep := setAttribute_unrecognised env key value m hrec
    refine ⟨hrec, hstep, ?_⟩
    simp only [XessSrModule.setAttributes, loopFrom, List.getD_cons_zero, Nat.mul_zero,
      Nat.zero_add, List.getD_cons_succ, hstep]
  · rw [setAttributes_eq_pairs, setAttributes_eq_pairs, attributePairs_attributeKVsOf,
      applyAttributePairs_filter]

/-- A call with an unknown key, a rejected quality value and an enable pair acts as the
call with the enable pair alone. -/
theorem demo_ignored_pairs :
    (attributePairs 3
        ["some.other.key", "1",
         "render_pipeline.module.xess_sr.attribute.quality_mode", "fast",
         "render_pipeline.module.xess_sr.attribute.enable", "0"]).filter isRecognisedPair =
      [("render_pipeline.module.xess_sr.attribute.enable", "0")] := by
  decide

/-! ## XeSS module: where the render resolution comes from -/

theorem firstImage_none (images : List (Option DeviceLocalImage)) (h : ∀ x ∈ images, x = none) :
    firstImage images = none := by
  induction images with
  | nil => rfl
  | cons x rest ih =>
    have hx : x = none := h x (List.mem_cons_self _ _)
    subst hx
    exact ih (fun y hy => h y (List.mem_cons_of_mem _ hy))

theorem storeImage_fields (dir : Direction) (frameIndex i : Nat) (img : Option DeviceLocalImage)
    (m : XessSrModule) :
    (m.storeImage dir frameIndex i img).renderWidth_ = m.renderWidth_ ∧
    (m.storeImage dir frameIndex i img).renderHeight_ = m.renderHeight_ ∧
    (m.storeImage dir frameIndex i img).displayWidth_ = m.displayWidth_ ∧
    (m.storeImage dir frameIndex i img).displayHeight_ = m.displayHeight_ ∧
    (m.storeImage dir frameIndex i img).qualityMode_ = m.qualityMode_ ∧
    (m.storeImage dir frameIndex i img).xessEnabled_ = m.xessEnabled_ := by
  cases dir <;> exact ⟨rfl, rfl, rfl, rfl, rfl, rfl⟩

/-- The adoption loop changes no resolution, mode or flag of the module. -/
theorem adoptImages_fields (dir : Direction) (width height usage : Nat) (formats : List Nat)
    (frameIndex : Nat) :
    ∀ (count i : Nat) (acc : List (Option DeviceLocalImage) × XessWorld),
      let r := XessSrModule.adoptImages dir width height usage formats frameIndex i count acc
      r.2.2.module.renderWidth_ = acc.2.module.renderWidth_ ∧
      r.2.2.module.renderHeight_ = acc.2.module.renderHeight_ ∧
      r.2.2.module.displayWidth_ = acc.2.module.displayWidth_ ∧
      r.2.2.module.displayHeight_ = acc.2.module.displayHeight_ ∧
      r.2.2.module.qualityMode_ = acc.2.module.qualityMode_ ∧
      r.2.2.module.xessEnabled_ = acc.2.module.xessEnabled_ := by
  intro count
  induction count with
  | zero => intro i acc; exact ⟨rfl, rfl, rfl, rfl, rfl, rfl⟩
  | succ n ih =>
    intro i acc
    simp only [XessSrModule.adoptImages]
    cases hstep : XessSrModule.adoptImage dir width height usage formats frameIndex i acc with
    | none => exact ⟨rfl, rfl, rfl, rfl, rfl, rfl⟩
    | some acc1 =>
      have hacc : acc1.2.module.renderWidth_ = acc.2.module.renderWidth_ ∧
          acc1.2.module.renderHeight_ = acc.2.module.renderHeight_ ∧
          acc1.2.module.displayWidth_ = acc.2.module.displayWidth_ ∧
          acc1.2.module.displayHeight_ = acc.2.module.displayHeight_ ∧
          acc1.2.module.qualityMode_ = acc.2.module.qualityMode_ ∧
          acc1.2.module.xessEnabled_ = acc.2.module.xessEnabled_ := by
        unfold XessSrModule.adoptImage at hstep
        cases hget : acc.1.getD i none with
        | none =>
          simp only [hget, Option.some.injEq] at hstep
          subst hstep
          exact storeImage_fields _ _ _ _ _
        | some img =>
          simp only [hget] at hstep
          split_ifs at hstep
          simp only [Option.some.injEq] at hstep
          subst hstep
          exact storeImage_fields _ _ _ _ _
      obtain ⟨h1, h2, h3, h4, h5, h6⟩ := ih (i + 1) acc1
      simp only at h1 h2 h3 h4 h5 h6 ⊢
      obtain ⟨g1, g2, g3, g4, g5, g6⟩ := hacc
      exact ⟨h1.trans g1, h2.trans g2, h3.trans g3, h4.trans g4, h5.trans g5, h6.trans g6⟩

/-- **C11.** Where `XessSrModule` derives the render resolution from the display resolution
and the quality mode, the result is the answer of `queryOptimalInputResolution` when the
module is enabled and the query succeeds, and `getRenderResolution(display, mode)`
otherwise: in `setAttributes` on an accepted quality value with the display resolution
known (the query is made only with the framework alive), and in `setOrCreateInputImages`
with the render resolution unset and no proposed image (the display resolution then being
the module's, or the swapchain extent when it was unset). -/
theorem render_resolution_is_query_else_table (env : XessEnv) (fw : XessFramework)
    (m : XessSrModule) (w : XessWorld) (value : String) (mode : QualityMode)
    (images : List (Option DeviceLocalImage)) (formats : List Nat) (frameIndex : Nat) :
    (XessSrModule.parseQualityModeValue value = some mode →
      0 < m.displayWidth_ → 0 < m.displayHeight_ →
      ∃ m1, XessSrModule.setAttributes env 1
          ["render_pipeline.module.xess_sr.attribute.quality_mode", value] m = .ok m1 ∧
        m1.qualityMode_ = mode ∧
        (m1.displayWidth_, m1.displayHeight_) = (m.displayWidth_, m.displayHeight_) ∧
        (m1.renderWidth_, m1.renderHeight_) =
          match env.framework with
          | some fw1 =>
            specDerivedResolution env.sdk fw1 m.xessEnabled_ (m.displayWidth_, m.displayHeight_) mode
          | none => XessSrModule.getRenderResolution m.displayWidth_ m.displayHeight_ mode) ∧
    (env.framework = some fw → images.length = XessSrModule.inputImageNum →
      (∀ x ∈ images, x = none) → w.module.renderWidth_ = 0 ∨ w.module.renderHeight_ = 0 →
      ∃ display : Nat × Nat,
        display = (if w.module.displayWidth_ = 0 ∨ w.module.displayHeight_ = 0 then fw.extent
          else (w.module.displayWidth_, w.module.displayHeight_)) ∧
        ((XessSrModule.setOrCreateInputImages env images formats frameIndex w).2.module.displayWidth_,
          (XessSrModule.setOrCreateInputImages env images formats frameIndex w).2.module.displayHeight_) =
          display ∧
        ((XessSrModule.setOrCreateInputImages env images formats frameIndex w).2.module.renderWidth_,
          (XessSrModule.setOrCreateInputImages env images formats frameIndex w).2.module.renderHeight_) =
          specDerivedResolution env.sdk fw w.module.xessEnabled_ display w.module.qualityMode_) := by
  constructor
  · intro hparse hw hh
    have hpos : m.displayWidth_ > 0 ∧ m.displayHeight_ > 0 := ⟨hw, hh⟩
    simp only [XessSrModule.setAttributes, loopFrom, List.getD_cons_zero, Nat.mul_zero,
      Nat.zero_add, List.getD_cons_succ, XessSrModule.setAttribute,
      XessSrModule.isQualityModeAttributeKey, hparse, decide_True, if_true,
      show ("render_pipeline.module.xess_sr.attribute.quality_mode" =
        "render_pipeline.module.xess_sr.attribute.enable") = False from by simp, if_false,
      XessSrModule.deriveRenderResolution, hpos, and_self, specDerivedResolution]
    cases hfw : env.framework with
    | none =>
      refine ⟨_, rfl, ?_⟩
      cases m.xessEnabled_ <;> exact ⟨rfl, rfl, rfl⟩
    | some fw1 =>
      refine ⟨_, rfl, ?_⟩
      cases hen : m.xessEnabled_
      · exact ⟨rfl, rfl, rfl⟩
      · simp only [if_true]
        cases XeSSWrapper.queryOptimalInputResolution env.sdk fw1.vkInstance fw1.vkPhysicalDevice
            fw1.vkDevice m.displayWidth_ m.displayHeight_ mode.toXeSS with
        | none => exact ⟨rfl, rfl, rfl⟩
        | some answer => exact ⟨rfl, rfl, rfl⟩
  · intro hfw hlen hnone hunset
    have hfirst := firstImage_none images hnone
    refine ⟨_, rfl, ?_⟩
    have key : ∀ m2, m2 = XessSrModule.settleRenderResolution env.sdk fw images
          (XessSrModule.fillDisplayFromSwapchain fw w.module) →
        (m2.displayWidth_, m2.displayHeight_) =
          (if w.module.displayWidth_ = 0 ∨ w.module.displayHeight_ = 0 then fw.extent
            else (w.module.displayWidth_, w.module.displayHeight_)) ∧
        (m2.renderWidth_, m2.renderHeight_) =
          specDerivedResolution env.sdk fw w.module.xessEnabled_
            (if w.module.displayWidth_ = 0 ∨ w.module.displayHeight_ = 0 then fw.extent
              else (w.module.displayWidth_, w.module.displayHeight_)) w.module.qualityMode_ := by
      intro m2 hm2
      have hun : (XessSrModule.fillDisplayFromSwapchain fw w.module).renderWidth_ = 0 ∨
          (XessSrModule.fillDisplayFromSwapchain fw w.module).renderHeight_ = 0 := by
        unfold XessSrModule.fillDisplayFromSwapchain
        split_ifs <;> exact hunset
      have hen : (XessSrModule.fillDisplayFromSwapchain fw w.module).xessEnabled_ =
          w.module.xessEnabled_ := by
        unfold XessSrModule.fillDisplayFromSwapchain
        split_ifs <;> rfl
      have hq : (XessSrModule.fillDisplayFromSwapchain fw w.module).qualityMode_ =
          w.module.qualityMode_ := by
        unfold XessSrModule.fillDisplayFromSwapchain
        split_ifs <;> rfl
      have hd : ((XessSrModule.fillDisplayFromSwapchain fw w.module).displayWidth_,
          (XessSrModule.fillDisplayFromSwapchain fw w.module).displayHeight_) =
          (if w.module.displayWidth_ = 0 ∨ w.module.displayHeight_ = 0 then fw.extent
            else (w.module.displayWidth_, w.module.displayHeight_)) := by
        unfold XessSrModule.fillDisplayFromSwapchain
        split_ifs <;> rfl
      generalize XessSrModule.fillDisplayFromSwapchain fw w.module = m0 at hun hen hq hd hm2
      rw [← hd, ← hen, ← hq, hm2]
      unfold XessSrModule.settleRenderResolution specDerivedResolution
      simp only [hun, if_true, hfirst]
      cases hen0 : m0.xessEnabled_
      · simp
      · simp only [if_true]
        cases XeSSWrapper.queryOptimalInputResolution env.sdk fw.vkInstance fw.vkPhysicalDevice
            fw.vkDevice m0.displayWidth_ m0.displayHeight_ m0.qualityMode_.toXeSS with
        | none => simp
        | some answer => simp
    unfold XessSrModule.setOrCreateInputImages
    rw [if_neg (by simpa using hlen), hfw]
    simp only
    generalize hm2 : XessSrModule.settleRenderResolution env.sdk fw images
      (XessSrModule.fillDisplayFromSwapchain fw w.module) = m2
    obtain ⟨hdisp, hrend⟩ := key m2 hm2.symm
    obtain ⟨h1, h2, h3, h4, _, _⟩ := adoptImages_fields .input m2.renderWidth_ m2.renderHeight_
      xessInputImageUsage formats frameIndex images.length 0 (images, { w with module := m2 })
    simp only at h1 h2 h3 h4
    rw [h1, h2, h3, h4]
    exact ⟨hdisp, hrend⟩

set_option maxRecDepth 20000 in
/-- With a backend whose query answers 1280 x 720, an enabled module takes the answer and a
disabled one the table entry of its quality mode (1.7 for Quality: 1129 x 635); with a
backend whose query fails the enabled module takes the table entry too. All four proposed
images are then created at that size. -/
theorem demo_derived_resolution :
    ((demoInputNegotiation answeringSdk true).2.module.renderWidth_,
      (demoInputNegotiation answeringSdk true).2.module.renderHeight_) = (1280, 720) ∧
    (demoInputNegotiation answeringSdk true).1.result = true ∧
    (demoInputNegotiation answeringSdk true).1.images.map
        (fun x => x.map fun img => (img.width, img.height, img.format)) =
      [some (1280, 720, 97), some (1280, 720, 100), some (1280, 720, 83), some (1280, 720, 100)] ∧
    ((demoInputNegotiation answeringSdk false).2.module.renderWidth_,
      (demoInputNegotiation answeringSdk false).2.module.renderHeight_) = (1129, 635) ∧
    ((demoInputNegotiation (demoSdk true) true).2.module.renderWidth_,
      (demoInputNegotiation (demoSdk true) true).2.module.renderHeight_) = (1129, 635) := by
  decide

/-! ## Frame executor: the preflight and the module loop -/

theorem rowLength_put (pool : SharedImages) (f idx : Nat) (img : Option DeviceLocalImage)
    (f1 : Nat) : (pool.put f idx img).rowLength f1 = pool.rowLength f1 := by
  unfold SharedImages.rowLength SharedImages.put
  simp only [List.getD_eq_getElem?_getD, List.getElem?_modify]
  cases h : pool[f1]? with
  | none => simp
  | some row =>
    by_cases hf : f = f1
    · simp [hf]
    · simp [hf]

theorem length_put (pool : SharedImages) (f idx : Nat) (img : Option DeviceLocalImage) :
    (pool.put f idx img).length = pool.length := by
  unfold SharedImages.put
  simp

theorem at_put (pool : SharedImages) (f idx : Nat) (img : Option DeviceLocalImage)
    (f1 idx1 : Nat) :
    (pool.put f idx img).at f1 idx1 =
      if f1 = f ∧ idx1 = idx ∧ idx < pool.rowLength f then img else pool.at f1 idx1 := by
  unfold SharedImages.at SharedImages.put SharedImages.rowLength
  simp only [List.getD_eq_getElem?_getD, List.getElem?_modify]
  by_cases hf : f1 = f
  · subst hf
    cases h : pool[f1]? with
    | none => simp
    | some row =>
      simp only [Option.map_some', if_true, Option.getD_some, List.getElem?_set, true_and]
      by_cases hi : idx1 = idx
      · subst hi
        by_cases hlt : idx1 < row.length
        · simp [hlt]
        · have hle : row.length ≤ idx1 := by omega
          have hle2 : (row.set idx1 img).length ≤ idx1 := by simpa using hle
          simp [hlt, List.getElem?_eq_none hle, List.getElem?_eq_none hle2]
      · have hi2 : ¬ idx = idx1 := fun e => hi e.symm
        simp [hi, hi2]
  · have hf2 : ¬ f = f1 := fun e => hf e.symm
    cases h : pool[f1]? with
    | none => simp [hf]
    | some row => simp [hf, hf2]

theorem at_eq_none_of_rowLength_le (pool : SharedImages) (f idx : Nat)
    (h : pool.rowLength f ≤ idx) : pool.at f idx = none := by
  unfold SharedImages.at
  unfold SharedImages.rowLength at h
  simp only [List.getD_eq_getElem?_getD] at h ⊢
  rw [List.getElem?_eq_none h]
  rfl

theorem hasShape_of_rowLength (pool : SharedImages) (frames slots : Nat)
    (hlen : pool.length = frames) (hrow : ∀ f, f < frames → pool.rowLength f = slots) :
    pool.HasShape frames slots := by
  refine ⟨hlen, ?_⟩
  intro row hmem
  obtain ⟨f, hf, hget⟩ := List.getElem_of_mem hmem
  have := hrow f (hlen ▸ hf)
  unfold SharedImages.rowLength at this
  rw [List.getD_eq_getElem _ _ hf, hget] at this
  exact this

theorem rowLength_of_hasShape (pool : SharedImages) (frames slots : Nat)
    (h : pool.HasShape frames slots) (f : Nat) (hf : f < frames) : pool.rowLength f = slots := by
  obtain ⟨hlen, hrows⟩ := h
  unfold SharedImages.rowLength
  have hf2 : f < pool.length := hlen ▸ hf
  rw [List.getD_eq_getElem _ _ hf2]
  exact hrows _ (List.getElem_mem _)

/-! ## `init`: the allocation step -/

theorem emptyPool_facts (frames slots : Nat) :
    (vectorResize ([] : SharedImages) frames (List.replicate slots none)).length = frames ∧
    (∀ f, f < frames →
      SharedImages.rowLength (vectorResize [] frames (List.replicate slots none)) f = slots) ∧
    ∀ f idx, SharedImages.at (vectorResize [] frames (List.replicate slots none)) f idx = none := by
  have hp : vectorResize ([] : SharedImages) frames (List.replicate slots none) =
      List.replicate frames (List.replicate slots none) := by
    simp [vectorResize]
  rw [hp]
  refine ⟨by simp, ?_, ?_⟩
  · intro f hf
    simp [SharedImages.rowLength, List.getElem?_replicate, hf]
  · intro f idx
    unfold SharedImages.at
    simp only [List.getD_eq_getElem?_getD, List.getElem?_replicate]
    by_cases hf : f < frames
    · by_cases hi : idx < slots
      · simp [hf, hi]
      · simp [hf, hi]
    · simp [hf]

theorem getD_set_ne {α : Type} (l : List α) (n j : Nat) (x d : α) (h : n ≠ j) :
    (l.set n x).getD j d = l.getD j d := by
  simp [List.getD_eq_getElem?_getD, List.getElem?_set, h]

theorem getD_set_eq {α : Type} (l : List α) (j : Nat) (x d : α) (h : j < l.length) :
    (l.set j x).getD j d = x := by
  simp [List.getD_eq_getElem?_getD, List.getElem?_set, h]

/-- What `createImageAt` does to the pool, for a cell that exists. -/
theorem createImageAt_pool {W : Type} (fw : Framework W) (f idx width height format : Nat)
    (s : InitState W) (hin : idx < s.wp.sharedImages_.rowLength f) :
    (createImageAt fw f idx width height format s).wp.sharedImages_.length =
        s.wp.sharedImages_.length ∧
    (∀ f1, (createImageAt fw f idx width height format s).wp.sharedImages_.rowLength f1 =
        s.wp.sharedImages_.rowLength f1) ∧
    (∀ f1 idx1 img, s.wp.sharedImages_.at f1 idx1 = some img →
      (createImageAt fw f idx width height format s).wp.sharedImages_.at f1 idx1 = some img) ∧
    (∀ f1 idx1, f1 ≠ f ∨ idx1 ≠ idx →
      (createImageAt fw f idx width height format s).wp.sharedImages_.at f1 idx1 =
        s.wp.sharedImages_.at f1 idx1) ∧
    (s.wp.sharedImages_.at f idx = none → ∃ id,
      (createImageAt fw f idx width height format s).wp.sharedImages_.at f idx =
        some ⟨id, width, height, format, poolImageUsage fw.useAmd⟩) ∧
    ((createImageAt fw f idx width height format s).wp.sharedImages_.at f idx).isSome = true ∧
    (createImageAt fw f idx width height format s).wp.worldModules_ = s.wp.worldModules_ ∧
    (createImageAt fw f idx width height format s).wp.contexts_ = s.wp.contexts_ := by
  unfold createImageAt
  cases hcell : s.wp.sharedImages_.at f idx with
  | some img0 =>
    refine ⟨rfl, fun _ => rfl, fun _ _ _ h => h, fun _ _ _ => rfl, ?_, ?_, rfl, rfl⟩
    · intro h; cases h
    · show (s.wp.sharedImages_.at f idx).isSome = true
      rw [hcell]; rfl
  | none =>
    refine ⟨length_put _ _ _ _, fun f1 => rowLength_put _ _ _ _ f1, ?_, ?_, ?_, ?_, rfl, rfl⟩
    · intro f1 idx1 img h
      show (s.wp.sharedImages_.put f idx _).at f1 idx1 = some img
      rw [at_put]
      have hne : ¬ (f1 = f ∧ idx1 = idx ∧ idx < s.wp.sharedImages_.rowLength f) := by
        rintro ⟨e1, e2, _⟩
        subst e1 e2
        rw [hcell] at h
        cases h
      rw [if_neg hne]
      exact h
    · intro f1 idx1 h
      show (s.wp.sharedImages_.put f idx _).at f1 idx1 = _
      rw [at_put]
      have hne : ¬ (f1 = f ∧ idx1 = idx ∧ idx < s.wp.sharedImages_.rowLength f) := by
        rintro ⟨e1, e2, _⟩
        rcases h with h | h
        · exact h e1
        · exact h e2
      rw [if_neg hne]
    · intro _
      refine ⟨(fw.newImage s.world).1, ?_⟩
      show (s.wp.sharedImages_.put f idx _).at f idx = _
      rw [at_put]
      simp [hin]
    · show ((s.wp.sharedImages_.put f idx _).at f idx).isSome = true
      rw [at_put]
      simp [hin]

/-- What the fallback loop does to the pool and to the proposal, after `k` of its
iterations. -/
theorem fallbackFill_loop {W : Type} (fw : Framework W) (bp : WorldPipelineBlueprint)
    (dir : Direction) (i f : Nat) (extent : Nat × Nat) (indices : List Nat)
    (acc : List (Option DeviceLocalImage) × InitState W)
    (hin : ∀ idx ∈ indices, idx < acc.2.wp.sharedImages_.rowLength f) :
    ∀ k, k ≤ indices.length →
      let r := forLoop k
        (fun j (acc : List (Option DeviceLocalImage) × InitState W) =>
          let idx := indices.getD j 0
          let s1 := createImageAt fw f idx extent.1 extent.2 (bp.imageFormats_.getD idx 0)
            { acc.2 with trace := acc.2.trace ++
                [.createImageAt dir i f idx extent.1 extent.2 (bp.imageFormats_.getD idx 0)] }
          (acc.1.set j (s1.wp.sharedImages_.at f idx), s1))
        acc
      r.2.wp.sharedImages_.length = acc.2.wp.sharedImages_.length ∧
      (∀ f1, r.2.wp.sharedImages_.rowLength f1 = acc.2.wp.sharedImages_.rowLength f1) ∧
      (∀ f1 idx1 img, acc.2.wp.sharedImages_.at f1 idx1 = some img →
        r.2.wp.sharedImages_.at f1 idx1 = some img) ∧
      (∀ f1 idx1, f1 ≠ f ∨ idx1 ∉ indices.take k →
        r.2.wp.sharedImages_.at f1 idx1 = acc.2.wp.sharedImages_.at f1 idx1) ∧
      (∀ idx ∈ indices.take k, acc.2.wp.sharedImages_.at f idx = none → ∃ id,
        r.2.wp.sharedImages_.at f idx =
          some ⟨id, extent.1, extent.2, bp.imageFormats_.getD idx 0, poolImageUsage fw.useAmd⟩) ∧
      r.1.length = acc.1.length ∧
      (∀ j, j < k → (r.2.wp.sharedImages_.at f (indices.getD j 0)).isSome = true ∧
        (j < acc.1.length → r.1.getD j none = r.2.wp.sharedImages_.at f (indices.getD j 0))) ∧
      (∀ j, k ≤ j → r.1.getD j none = acc.1.getD j none) ∧
      r.2.wp.worldModules_ = acc.2.wp.worldModules_ ∧
      r.2.wp.contexts_ = acc.2.wp.contexts_ := by
  intro k
  induction k with
  | zero =>
    intro _
    simp only [forLoop_zero, List.take_zero, List.not_mem_nil, not_false_eq_true, or_true,
      implies_true, true_and, and_true]
    refine ⟨fun _ _ _ h => h, ?_, ?_⟩
    · intro idx h; cases h
    · intro j hj; omega
  | succ n ih =>
    intro hk
    have hn : n < indices.length := by omega
    obtain ⟨h1, h2, h3, h4, h5, h6, h7, h8, h9, h10⟩ := ih (by omega)
    simp only at h1 h2 h3 h4 h5 h6 h7 h8 h9 h10 ⊢
    rw [forLoop_succ]
    generalize forLoop n
        (fun j (acc : List (Option DeviceLocalImage) × InitState W) =>
          let idx := indices.getD j 0
          let s1 := createImageAt fw f idx extent.1 extent.2 (bp.imageFormats_.getD idx 0)
            { acc.2 with trace := acc.2.trace ++
                [.createImageAt dir i f idx extent.1 extent.2 (bp.imageFormats_.getD idx 0)] }
          (acc.1.set j (s1.wp.sharedImages_.at f idx), s1))
        acc = r at h1 h2 h3 h4 h5 h6 h7 h8 h9 h10 ⊢
    have hidx : indices.getD n 0 = indices[n] := List.getD_eq_getElem _ _ hn
    have hmem : indices.getD n 0 ∈ indices := by rw [hidx]; exact List.getElem_mem _
    have hrange : indices.getD n 0 <
        ({ r.2 with trace := r.2.trace ++
            [InitEvent.createImageAt dir i f (indices.getD n 0) extent.1 extent.2
              (bp.imageFormats_.getD (indices.getD n 0) 0)] } :
          InitState W).wp.sharedImages_.rowLength f := by
      show indices.getD n 0 < r.2.wp.sharedImages_.rowLength f
      rw [h2]
      exact hin _ hmem
    obtain ⟨c1, c2, c3, c4, c5, c6, c7, c8⟩ := createImageAt_pool fw f (indices.getD n 0)
      extent.1 extent.2 (bp.imageFormats_.getD (indices.getD n 0) 0)
      { r.2 with trace := r.2.trace ++
          [InitEvent.createImageAt dir i f (indices.getD n 0) extent.1 extent.2
            (bp.imageFormats_.getD (indices.getD n 0) 0)] } hrange
    simp only at c1 c2 c3 c4 c5 c6 c7 c8 ⊢
    have htake : indices.take (n + 1) = indices.take n ++ [indices.getD n 0] := by
      rw [List.take_succ, List.getElem?_eq_getElem hn, hidx]
      rfl
    refine ⟨c1.trans h1, fun f1 => (c2 f1).trans (h2 f1), ?_, ?_, ?_, ?_, ?_, ?_,
      c7.trans h9, c8.trans h10⟩
    · intro f1 idx1 img h
      exact c3 f1 idx1 img (h3 f1 idx1 img h)
    · intro f1 idx1 h
      rw [htake] at h
      have hh : f1 ≠ f ∨ idx1 ≠ indices.getD n 0 := by
        rcases h with h | h
        · exact Or.inl h
        · exact Or.inr (fun e => h (by rw [e]; simp))
      rw [c4 f1 idx1 hh]
      apply h4
      rcases h with h | h
      · exact Or.inl h
      · exact Or.inr (fun e => h (by simp [e]))
    · intro idx hidxmem hnone
      rw [htake, List.mem_append, List.mem_singleton] at hidxmem
      by_cases hprev : idx ∈ indices.take n
      · obtain ⟨id, hid⟩ := h5 idx hprev hnone
        exact ⟨id, c3 _ _ _ hid⟩
      · have he : idx = indices.getD n 0 := by
          rcases hidxmem with h | h
          · exact absurd h hprev
          · exact h
        subst he
        apply c5
        rw [h4 f _ (Or.inr hprev)]
        exact hnone
    · simp only [List.length_set]
      exact h6
    · intro j hj
      by_cases hjn : j = n
      · subst hjn
        refine ⟨c6, ?_⟩
        intro hlt
        have hlt2 : j < r.1.length := by rw [h6]; exact hlt
        exact getD_set_eq _ _ _ _ hlt2
      · have hjlt : j < n := by omega
        obtain ⟨g1, g2⟩ := h7 j hjlt
        obtain ⟨img, himg⟩ := Option.isSome_iff_exists.mp g1
        have hkeep := c3 f (indices.getD j 0) img himg
        refine ⟨by rw [hkeep]; rfl, ?_⟩
        intro hlt
        have := g2 hlt
        have hne : n ≠ j := fun e => hjn e.symm
        rw [getD_set_ne _ _ _ _ _ hne]
        exact this.trans (himg.trans hkeep.symm)
    · intro j hj
      have hne : n ≠ j := by omega
      rw [getD_set_ne _ _ _ _ _ hne]
      exact h8 j (by omega)

/-- What the fallback loop does to the pool and to the proposal. -/
theorem fallbackFill_spec {W : Type} (fw : Framework W) (bp : WorldPipelineBlueprint)
    (dir : Direction) (i f : Nat) (extent : Nat × Nat) (indices : List Nat)
    (acc : List (Option DeviceLocalImage) × InitState W)
    (hin : ∀ idx ∈ indices, idx < acc.2.wp.sharedImages_.rowLength f) :
    (fallbackFill fw bp dir i f extent indices acc).2.wp.sharedImages_.length =
      acc.2.wp.sharedImages_.length ∧
    (∀ f1, (fallbackFill fw bp dir i f extent indices acc).2.wp.sharedImages_.rowLength f1 =
      acc.2.wp.sharedImages_.rowLength f1) ∧
    (∀ f1 idx1 img, acc.2.wp.sharedImages_.at f1 idx1 = some img →
      (fallbackFill fw bp dir i f extent indices acc).2.wp.sharedImages_.at f1 idx1 = some img) ∧
    (∀ f1 idx1, f1 ≠ f ∨ idx1 ∉ indices →
      (fallbackFill fw bp dir i f extent indices acc).2.wp.sharedImages_.at f1 idx1 =
        acc.2.wp.sharedImages_.at f1 idx1) ∧
    (∀ idx ∈ indices, acc.2.wp.sharedImages_.at f idx = none → ∃ id,
      (fallbackFill fw bp dir i f extent indices acc).2.wp.sharedImages_.at f idx =
        some ⟨id, extent.1, extent.2, bp.imageFormats_.getD idx 0, poolImageUsage fw.useAmd⟩) ∧
    (fallbackFill fw bp dir i f extent indices acc).1.length = acc.1.length ∧
    (∀ j, j < indices.length →
      ((fallbackFill fw bp dir i f extent indices acc).2.wp.sharedImages_.at f
        (indices.getD j 0)).isSome = true ∧
      (j < acc.1.length → (fallbackFill fw bp dir i f extent indices acc).1.getD j none =
        (fallbackFill fw bp dir i f extent indices acc).2.wp.sharedImages_.at f
          (indices.getD j 0))) ∧
    (∀ j, indices.length ≤ j →
      (fallbackFill fw bp dir i f extent indices acc).1.getD j none = acc.1.getD j none) ∧
    (fallbackFill fw bp dir i f extent indices acc).2.wp.worldModules_ = acc.2.wp.worldModules_ ∧
    (fallbackFill fw bp dir i f extent indices acc).2.wp.contexts_ = acc.2.wp.contexts_ := by
  have h := fallbackFill_loop fw bp dir i f extent indices acc hin indices.length (le_refl _)
  simp only [List.take_length] at h
  exact h

/-! ## `init`: the ways a negotiation can go -/

theorem loopFrom_ok_induction {σ ε : Type} (body : Nat → σ → Except ε σ) (Q : Nat → σ → Prop) :
    ∀ (count start : Nat) (s s1 : σ),
      (∀ j t t1, start ≤ j → j < start + count → Q j t → body j t = .ok t1 → Q (j + 1) t1) →
      Q start s → loopFrom body start count s = .ok s1 → Q (start + count) s1 := by
  intro count
  induction count with
  | zero =>
    intro start s s1 _ hs h
    simp only [loopFrom, Except.ok.injEq] at h
    subst h
    exact hs
  | succ n ih =>
    intro start s s1 hstep hs h
    unfold loopFrom at h
    cases hb : body start s with
    | error e => simp [hb] at h
    | ok t =>
      simp only [hb] at h
      have hq := hstep start s t (le_refl _) (by omega) hs hb
      have := ih (start + 1) t s1
        (fun j t0 t1 h1 h2 => hstep j t0 t1 (by omega) (by omega)) hq h
      have e : start + 1 + n = start + (n + 1) := by omega
      rw [e] at this
      exact this

theorem loopDown_ok_induction {σ ε : Type} (body : Nat → σ → Except ε σ) (Q : Nat → σ → Prop) :
    ∀ (n : Nat) (s s1 : σ),
      (∀ k t t1, k < n → Q (k + 1) t → body k t = .ok t1 → Q k t1) →
      Q n s → loopDown body n s = .ok s1 → Q 0 s1 := by
  intro n
  induction n with
  | zero =>
    intro s s1 _ hs h
    simp only [loopDown, Except.ok.injEq] at h
    subst h
    exact hs
  | succ k ih =>
    intro s s1 hstep hs h
    unfold loopDown at h
    cases hb : body k s with
    | error e => simp [hb] at h
    | ok t =>
      simp only [hb] at h
      exact ih t s1 (fun j t0 t1 hj => hstep j t0 t1 (by omega))
        (hstep k s t (by omega) hs hb) h

theorem loopDown_invariant {σ ε : Type} (body : Nat → σ → Except (ε × σ) σ) (P : σ → Prop)
    (hbody : ∀ i s, P s → P (endState (body i s)))
    (n : Nat) (s : σ) (hs : P s) : P (endState (loopDown body n s)) := by
  induction n generalizing s with
  | zero => simpa [loopDown, endState] using hs
  | succ k ih =>
    unfold loopDown
    have hb := hbody k s hs
    cases h : body k s with
    | ok s1 =>
      rw [h] at hb
      exact ih s1 hb
    | error e =>
      rw [h] at hb
      exact hb

/-- A logged negotiation call that returned is the module's call on the outside state. -/
theorem callSetOrCreate_call {W : Type} (m : WorldModule W) (dir : Direction) (i frameIndex : Nat)
    (retry : Bool) (images : List (Option DeviceLocalImage)) (formats : List Nat)
    (s : InitState W) (r : Negotiated) (s1 : InitState W)
    (h : callSetOrCreate m dir i frameIndex retry images formats s = .ok (r, s1)) :
    ∃ w1, m.setOrCreate dir images formats frameIndex s.world = .ok (r, w1) ∧
      s1 = { s with world := w1,
                    trace := s.trace ++
                      [.negotiate dir i frameIndex retry images formats (some r.result)] } := by
  unfold callSetOrCreate at h
  cases hc : m.setOrCreate dir images formats frameIndex s.world with
  | error e => simp [hc] at h
  | ok p =>
    obtain ⟨r0, w0⟩ := p
    simp only [hc, Except.ok.injEq, Prod.mk.injEq] at h
    obtain ⟨h1, h2⟩ := h
    subst h1 h2
    exact ⟨w0, rfl, rfl⟩

/-- The ways the negotiation of one direction can go. -/
theorem negotiate_cases {W : Type} (fw : Framework W) (bp : WorldPipelineBlueprint)
    (m : WorldModule W) (dir : Direction) (i f : Nat) (s : InitState W) :
    (∃ e, callSetOrCreate m dir i f false (proposal bp dir i f s.wp.sharedImages_).1
        (proposal bp dir i f s.wp.sharedImages_).2 s = .error e ∧
      negotiate fw bp m dir i f s = .error e) ∨
    (∃ r1 s1, callSetOrCreate m dir i f false (proposal bp dir i f s.wp.sharedImages_).1
        (proposal bp dir i f s.wp.sharedImages_).2 s = .ok (r1, s1) ∧ r1.result = true ∧
      negotiate fw bp m dir i f s = .ok { s1 with wp := { s1.wp with
        sharedImages_ := writeBack f (moduleIndices bp dir i) r1.images s1.wp.sharedImages_ } }) ∨
    (∃ r1 s1, callSetOrCreate m dir i f false (proposal bp dir i f s.wp.sharedImages_).1
        (proposal bp dir i f s.wp.sharedImages_).2 s = .ok (r1, s1) ∧ r1.result = false ∧
      ((∃ e, callSetOrCreate m dir i f true (fallbackStep fw bp dir i f r1.images s1).1 r1.formats
            (fallbackStep fw bp dir i f r1.images s1).2 = .error e ∧
          negotiate fw bp m dir i f s = .error e) ∨
        (∃ r2 s3, callSetOrCreate m dir i f true (fallbackStep fw bp dir i f r1.images s1).1
            r1.formats (fallbackStep fw bp dir i f r1.images s1).2 = .ok (r2, s3) ∧
          r2.result = true ∧
          negotiate fw bp m dir i f s = .ok { s3 with wp := { s3.wp with
            sharedImages_ :=
              writeBack f (moduleIndices bp dir i) r2.images s3.wp.sharedImages_ } }) ∨
        (∃ r2 s3, callSetOrCreate m dir i f true (fallbackStep fw bp dir i f r1.images s1).1
            r1.formats (fallbackStep fw bp dir i f r1.images s1).2 = .ok (r2, s3) ∧
          r2.result = false ∧
          negotiate fw bp m dir i f s = .error (notSetProperly dir, s3)))) := by
  unfold negotiate
  simp only
  cases h1 : callSetOrCreate m dir i f false (proposal bp dir i f s.wp.sharedImages_).1
      (proposal bp dir i f s.wp.sharedImages_).2 s with
  | error e => exact Or.inl ⟨e, rfl, rfl⟩
  | ok p =>
    obtain ⟨r1, s1⟩ := p
    by_cases hr : r1.result = true
    · exact Or.inr (Or.inl ⟨r1, s1, rfl, hr, by simp only [hr, if_true]⟩)
    · have hrf : r1.result = false := by simpa using hr
      refine Or.inr (Or.inr ⟨r1, s1, rfl, hrf, ?_⟩)
      simp only [hrf, Bool.false_eq_true, if_false]
      cases h2 : callSetOrCreate m dir i f true (fallbackStep fw bp dir i f r1.images s1).1
          r1.formats (fallbackStep fw bp dir i f r1.images s1).2 with
      | error e => exact Or.inl ⟨e, rfl, rfl⟩
      | ok p2 =>
        obtain ⟨r2, s3⟩ := p2
        by_cases hr2 : r2.result = true
        · exact Or.inr (Or.inl ⟨r2, s3, rfl, hr2, by simp only [hr2, if_true]⟩)
        · have hrf2 : r2.result = false := by simpa using hr2
          exact Or.inr (Or.inr ⟨r2, s3, rfl, hrf2, by simp only [hrf2, Bool.false_eq_true, if_false]⟩)

/-- **C18, as the code has it.** The fallback step after a rejected call, for slots that are
cells of the pool row: every empty cell among the direction's slots gets a new image of the
inferred extent and of the slot's blueprint format; every cell that held an image holds the
same image; no cell of another slot or frame changes; the vector passed to the retry has,
for every slot of the direction, the image of its cell, which is not empty, and beyond
those entries it is as the rejected call left it, so that it has no empty entry when the
rejected call kept the number of entries. The retry is called with that vector. -/
theorem fallback_fills_exactly_the_empty_cells {W : Type} (fw : Framework W)
    (bp : WorldPipelineBlueprint) (dir : Direction) (i f : Nat)
    (images : List (Option DeviceLocalImage)) (s : InitState W)
    (hrange : ∀ idx ∈ moduleIndices bp dir i, idx < s.wp.sharedImages_.rowLength f) :
    (∀ idx ∈ moduleIndices bp dir i, s.wp.sharedImages_.at f idx = none → ∃ id,
      (fallbackStep fw bp dir i f images s).2.wp.sharedImages_.at f idx =
        some ⟨id,
          (inferModuleExtent s.wp.sharedImages_ fw.extent f (moduleIndices bp .output i)
            (moduleIndices bp .input i)).1,
          (inferModuleExtent s.wp.sharedImages_ fw.extent f (moduleIndices bp .output i)
            (moduleIndices bp .input i)).2,
          bp.imageFormats_.getD idx 0, poolImageUsage fw.useAmd⟩) ∧
    (∀ f1 idx1 img, s.wp.sharedImages_.at f1 idx1 = some img →
      (fallbackStep fw bp dir i f images s).2.wp.sharedImages_.at f1 idx1 = some img) ∧
    (∀ f1 idx1, f1 ≠ f ∨ idx1 ∉ moduleIndices bp dir i →
      (fallbackStep fw bp dir i f images s).2.wp.sharedImages_.at f1 idx1 =
        s.wp.sharedImages_.at f1 idx1) ∧
    (∀ j, j < (moduleIndices bp dir i).length → j < images.length →
      (fallbackStep fw bp dir i f images s).1.getD j none ≠ none ∧
      (fallbackStep fw bp dir i f images s).1.getD j none =
        (fallbackStep fw bp dir i f images s).2.wp.sharedImages_.at f
          ((moduleIndices bp dir i).getD j 0)) ∧
    (fallbackStep fw bp dir i f images s).1.length = images.length ∧
    (∀ j, (moduleIndices bp dir i).length ≤ j →
      (fallbackStep fw bp dir i f images s).1.getD j none = images.getD j none) ∧
    (images.length = (moduleIndices bp dir i).length →
      ∀ x ∈ (fallbackStep fw bp dir i f images s).1, x ≠ none) ∧
    (∀ (m : WorldModule W) (s0 : InitState W) (r1 : Negotiated),
      callSetOrCreate m dir i f false (proposal bp dir i f s0.wp.sharedImages_).1
        (proposal bp dir i f s0.wp.sharedImages_).2 s0 = .ok (r1, s) →
      r1.result = false → r1.images = images →
      ∃ result2, (negotiate fw bp m dir i f s0).state.trace =
        s.trace ++
          (fallbackEvents bp dir i f
              (inferModuleExtent s.wp.sharedImages_ fw.extent f (moduleIndices bp .output i)
                (moduleIndices bp .input i)) (moduleIndices bp dir i) ++
            [.negotiate dir i f true (fallbackStep fw bp dir i f images s).1 r1.formats
              result2])) := by
  obtain ⟨_, _, h3, h4, h5, h6, h7, h8, _, _⟩ := fallbackFill_spec fw bp dir i f
    (inferModuleExtent s.wp.sharedImages_ fw.extent f (moduleIndices bp .output i)
      (moduleIndices bp .input i)) (moduleIndices bp dir i) (images, s) hrange
  have htr : (fallbackStep fw bp dir i f images s).2.trace = s.trace ++
      fallbackEvents bp dir i f
        (inferModuleExtent s.wp.sharedImages_ fw.extent f (moduleIndices bp .output i)
          (moduleIndices bp .input i)) (moduleIndices bp dir i) :=
    fallbackFill_trace fw bp dir i f _ _ (images, s)
  have hdef : fallbackFill fw bp dir i f
        (inferModuleExtent s.wp.sharedImages_ fw.extent f (moduleIndices bp .output i)
          (moduleIndices bp .input i)) (moduleIndices bp dir i) (images, s) =
      fallbackStep fw bp dir i f images s := rfl
  rw [hdef] at h3 h4 h5 h6 h7 h8
  simp only at h3 h4 h5 h6 h7 h8
  generalize hF : fallbackStep fw bp dir i f images s = filled at h3 h4 h5 h6 h7 h8 htr ⊢
  have hentries : ∀ j, j < (moduleIndices bp dir i).length → j < images.length →
      filled.1.getD j none ≠ none ∧
      filled.1.getD j none =
        filled.2.wp.sharedImages_.at f ((moduleIndices bp dir i).getD j 0) := by
    intro j hj hlt
    obtain ⟨g1, g2⟩ := h7 j hj
    have g3 := g2 hlt
    refine ⟨?_, g3⟩
    rw [g3]
    intro hnone
    rw [hnone] at g1
    cases g1
  refine ⟨h5, h3, h4, hentries, h6, h8, ?_, ?_⟩
  · intro hlen x hx
    obtain ⟨j, hj, hget⟩ := List.getElem_of_mem hx
    have hj2 : j < images.length := by rw [← h6]; exact hj
    have := (hentries j (by rw [← hlen]; exact hj2) hj2).1
    rw [List.getD_eq_getElem _ _ hj, hget] at this
    exact this
  · intro m s0 r1 hcall hrej himg
    rcases negotiate_cases fw bp m dir i f s0 with ⟨e, he, _⟩ | ⟨r, t, hc, hr, _⟩ |
      ⟨r, t, hc, _, hcases⟩
    · rw [hcall] at he; cases he
    · rw [hcall] at hc
      simp only [Except.ok.injEq, Prod.mk.injEq] at hc
      rw [← hc.1, hrej] at hr
      cases hr
    · rw [hcall] at hc
      simp only [Except.ok.injEq, Prod.mk.injEq] at hc
      obtain ⟨e1, e2⟩ := hc
      subst e1 e2
      subst himg
      rw [hF] at hcases
      rcases hcases with ⟨e, he, hneg⟩ | ⟨r2, s3, hc2, _, hneg⟩ | ⟨r2, s3, hc2, _, hneg⟩
      · obtain ⟨_, ht⟩ := callSetOrCreate_error _ _ _ _ _ _ _ _ _ he
        exact ⟨none, by rw [hneg]; simp only [InitStep.state]; rw [ht, htr, List.append_assoc]⟩
      · obtain ⟨_, ht⟩ := callSetOrCreate_wp _ _ _ _ _ _ _ _ _ _ hc2
        exact ⟨some r2.result, by
          rw [hneg]; simp only [InitStep.state]; rw [ht, htr, List.append_assoc]⟩
      · obtain ⟨_, ht⟩ := callSetOrCreate_wp _ _ _ _ _ _ _ _ _ _ hc2
        exact ⟨some r2.result, by
          rw [hneg]; simp only [InitStep.state]; rw [ht, htr, List.append_assoc]⟩

set_option maxRecDepth 20000 in
/-- In the demo pipeline, after the allocation step, the fallback for the output slot of
module 0 (slot 1, empty) creates one image of the swapchain extent, and the vector for the
retry has no empty entry. -/
theorem fallback_fills_exactly_the_empty_cells_witness :
    (∀ idx ∈ moduleIndices (demoBlueprint "strict") .output 0,
      idx < (WorldPipeline.allocate demoFramework (demoBlueprint "strict")
        0).wp.sharedImages_.rowLength 0) ∧
    (fallbackStep demoFramework (demoBlueprint "strict") .output 0 0 [none]
      (WorldPipeline.allocate demoFramework (demoBlueprint "strict") 0)).1 =
        [some ⟨2, 1920, 1080, 97, 28⟩] ∧
    ∀ x ∈ (fallbackStep demoFramework (demoBlueprint "strict") .output 0 0 [none]
      (WorldPipeline.allocate demoFramework (demoBlueprint "strict") 0)).1, x ≠ none :=
  ⟨by decide, by decide,
    (fallback_fills_exactly_the_empty_cells demoFramework (demoBlueprint "strict") .output 0 0
      [none] (WorldPipeline.allocate demoFramework (demoBlueprint "strict") 0)
      (by decide)).2.2.2.2.2.2.1 (by decide)⟩

set_option maxRecDepth 20000 in
/-- **C18 fails as stated.** The retry is passed the vector the rejected call left, reloaded
at the entries of the direction's slots. A module that appends an empty entry to the
vector before it rejects is retried on a vector with that empty entry: in the run below
the retry of module 0 is passed the image of slot 1 followed by a null. -/
theorem fallback_retry_proposal_counterexample :
    retryProposals
        (WorldPipeline.init demoFramework moreConstructors (demoBlueprint "pad") 0).state.trace =
      [[some ⟨2, 1920, 1080, 97, 28⟩, none]] ∧
    ¬ ∀ images ∈ retryProposals
        (WorldPipeline.init demoFramework moreConstructors (demoBlueprint "pad") 0).state.trace,
      ∀ x ∈ images, x ≠ none := by
  decide

/-! ## `init`: what every event of a run satisfies -/

theorem state_eq_endState {W : Type} (r : InitStep W) : r.state = endState r := by
  cases r with
  | ok s => rfl
  | error e => rfl

/-- A property of events that every negotiation keeps holds of every event of `init`. -/
theorem init_trace_invariant {W : Type} (fw : Framework W) (ctors : WorldModuleConstructors W)
    (bp : WorldPipelineBlueprint) (world : W) (P : InitEvent → Prop)
    (hc : ∀ i, P (.construct i)) (hs : ∀ i, P (.setAttributes i)) (hb : ∀ i, P (.build i))
    (hneg : ∀ name ctor w m w1, ctors name = some ctor → ctor w = .ok (m, w1) →
      ∀ dir i f (s : InitState W), (∀ e ∈ s.trace, P e) →
        ∀ e ∈ (negotiate fw bp m dir i f s).state.trace, P e) :
    ∀ e ∈ (WorldPipeline.init fw ctors bp world).state.trace, P e := by
  have hframe : ∀ name ctor w m w1, ctors name = some ctor → ctor w = .ok (m, w1) →
      ∀ i f (s : InitState W), (∀ e ∈ s.trace, P e) →
        ∀ e ∈ (endState (negotiateFrame fw bp m i f s)).trace, P e := by
    intro name ctor w m w1 h1 h2 i f s hT
    unfold negotiateFrame
    have ho := hneg name ctor w m w1 h1 h2 .output i f s hT
    cases hout : negotiate fw bp m .output i f s with
    | error e =>
      rw [hout] at ho
      exact ho
    | ok s1 =>
      rw [hout] at ho
      have hi := hneg name ctor w m w1 h1 h2 .input i f s1 ho
      rw [state_eq_endState] at hi
      exact hi
  have hmodule : ∀ i (s : InitState W), (∀ e ∈ s.trace, P e) →
      ∀ e ∈ (endState (initModule fw ctors bp i s)).trace, P e := by
    intro i s hT
    unfold initModule
    cases hctor : ctors (bp.moduleNames_.getD i "") with
    | none => exact hT
    | some ctor =>
      simp only
      have hT0 : ∀ e ∈ s.trace ++ [InitEvent.construct i], P e := by
        intro e he
        rw [List.mem_append, List.mem_singleton] at he
        rcases he with he | he
        · exact hT e he
        · rw [he]; exact hc i
      cases hrun : ctor s.world with
      | error e => exact hT0
      | ok p =>
        obtain ⟨m, world1⟩ := p
        simp only
        have hT1 : ∀ e ∈ (s.trace ++ [InitEvent.construct i]) ++ [InitEvent.setAttributes i],
            P e := by
          intro e he
          rw [List.mem_append, List.mem_singleton] at he
          rcases he with he | he
          · exact hT0 e he
          · rw [he]; exact hs i
        cases hattr : m.setAttributes (bp.attributeCounts_.getD i 0) (bp.attributeKVs_.getD i [])
            world1 with
        | error e => exact hT1
        | ok world2 =>
          simp only
          have hloop := loopFrom_invariant (negotiateFrame fw bp m i)
            (fun t : InitState W => ∀ e ∈ t.trace, P e)
            (fun f t ht => hframe _ ctor s.world m world1 hctor hrun i f t ht)
            fw.imageCount 0
            { world := world2
              wp := { s.wp with worldModules_ := s.wp.worldModules_.set i (some m) }
              trace := (s.trace ++ [InitEvent.construct i]) ++ [InitEvent.setAttributes i] } hT1
          cases hl : loopFrom (negotiateFrame fw bp m i) 0 fw.imageCount
              { world := world2
                wp := { s.wp with worldModules_ := s.wp.worldModules_.set i (some m) }
                trace := (s.trace ++ [InitEvent.construct i]) ++ [InitEvent.setAttributes i] } with
          | error e =>
            rw [hl] at hloop
            exact hloop
          | ok s3 =>
            rw [hl] at hloop
            simp only [endState] at hloop
            have hT4 : ∀ e ∈ s3.trace ++ [InitEvent.build i], P e := by
              intro e he
              rw [List.mem_append, List.mem_singleton] at he
              rcases he with he | he
              · exact hloop e he
              · rw [he]; exact hb i
            simp only
            cases m.build s3.world with
            | error e => exact hT4
            | ok world5 => exact hT4
  have hdown := loopDown_invariant (initModule fw ctors bp)
    (fun t : InitState W => ∀ e ∈ t.trace, P e) hmodule bp.moduleNames_.length
    (WorldPipeline.allocate fw bp world) (by
      intro e he
      have hat : (WorldPipeline.allocate fw bp world).trace = [] := by
        unfold WorldPipeline.allocate
        simp only [allocateSlot0_loop_trace]
      rw [hat] at he
      cases he)
  unfold WorldPipeline.init
  cases hl : loopDown (initModule fw ctors bp) bp.moduleNames_.length
      (WorldPipeline.allocate fw bp world) with
  | error e =>
    rw [hl] at hdown
    exact hdown
  | ok s2 =>
    rw [hl] at hdown
    simp only [InitStep.state, createContexts_trace]
    exact hdown

/-- One negotiation adds only events whose formats are the blueprint's; for the retry this
needs the rejected call to have left the format vector alone. -/
theorem negotiate_formats {W : Type} (fw : Framework W) (bp : WorldPipelineBlueprint)
    (m : WorldModule W) (retries : Bool) (hkeep : retries = true → m.KeepsFormats)
    (dir : Direction) (i f : Nat) (s : InitState W)
    (hT : ∀ e ∈ s.trace, InitEvent.FormatsFromBlueprint bp retries e) :
    ∀ e ∈ (negotiate fw bp m dir i f s).state.trace, InitEvent.FormatsFromBlueprint bp retries e := by
  have hfirst : ∀ result, InitEvent.FormatsFromBlueprint bp retries
      (.negotiate dir i f false (proposal bp dir i f s.wp.sharedImages_).1
        (proposal bp dir i f s.wp.sharedImages_).2 result) := fun _ _ => rfl
  have hallocs : ∀ extent, ∀ e ∈ fallbackEvents bp dir i f extent (moduleIndices bp dir i),
      InitEvent.FormatsFromBlueprint bp retries e := by
    intro extent e he
    unfold fallbackEvents at he
    rw [List.mem_map] at he
    obtain ⟨idx, _, rfl⟩ := he
    rfl
  rcases negotiate_cases fw bp m dir i f s with ⟨e, he, hneg⟩ | ⟨r1, s1, hc, _, hneg⟩ |
    ⟨r1, s1, hc, hrej, hcases⟩
  · obtain ⟨_, ht⟩ := callSetOrCreate_error _ _ _ _ _ _ _ _ _ he
    rw [hneg]
    simp only [InitStep.state, ht]
    intro ev hev
    rw [List.mem_append, List.mem_singleton] at hev
    rcases hev with hev | hev
    · exact hT ev hev
    · rw [hev]; exact hfirst _
  · obtain ⟨_, ht⟩ := callSetOrCreate_wp _ _ _ _ _ _ _ _ _ _ hc
    rw [hneg]
    simp only [InitStep.state, ht]
    intro ev hev
    rw [List.mem_append, List.mem_singleton] at hev
    rcases hev with hev | hev
    · exact hT ev hev
    · rw [hev]; exact hfirst _
  · obtain ⟨_, ht⟩ := callSetOrCreate_wp _ _ _ _ _ _ _ _ _ _ hc
    obtain ⟨w1, hmod, _⟩ := callSetOrCreate_call _ _ _ _ _ _ _ _ _ _ hc
    have htr : (fallbackStep fw bp dir i f r1.images s1).2.trace = s1.trace ++
        fallbackEvents bp dir i f
          (inferModuleExtent s1.wp.sharedImages_ fw.extent f (moduleIndices bp .output i)
            (moduleIndices bp .input i)) (moduleIndices bp dir i) :=
      fallbackFill_trace fw bp dir i f _ _ (r1.images, s1)
    have hretry : ∀ result images, InitEvent.FormatsFromBlueprint bp retries
        (.negotiate dir i f true images r1.formats result) := by
      intro result images hr
      have := hkeep (hr rfl) dir _ _ f s.world r1 w1 hmod hrej
      rw [this]
      rfl
    have hall : ∀ result, ∀ ev ∈ (fallbackStep fw bp dir i f r1.images s1).2.trace ++
        [InitEvent.negotiate dir i f true (fallbackStep fw bp dir i f r1.images s1).1 r1.formats
          result], InitEvent.FormatsFromBlueprint bp retries ev := by
      intro result ev hev
      rw [htr, ht] at hev
      simp only [List.mem_append, List.mem_singleton] at hev
      rcases hev with ((hev | hev) | hev) | hev
      · exact hT ev hev
      · rw [hev]; exact hfirst _
      · exact hallocs _ ev hev
      · rw [hev]; exact hretry _ _
    rcases hcases with ⟨e, he, hneg⟩ | ⟨r2, s3, hc2, _, hneg⟩ | ⟨r2, s3, hc2, _, hneg⟩
    · obtain ⟨_, ht2⟩ := callSetOrCreate_error _ _ _ _ _ _ _ _ _ he
      rw [hneg]
      simp only [InitStep.state, ht2]
      exact hall none
    · obtain ⟨_, ht2⟩ := callSetOrCreate_wp _ _ _ _ _ _ _ _ _ _ hc2
      rw [hneg]
      simp only [InitStep.state, ht2]
      exact hall _
    · obtain ⟨_, ht2⟩ := callSetOrCreate_wp _ _ _ _ _ _ _ _ _ _ hc2
      rw [hneg]
      simp only [InitStep.state, ht2]
      exact hall _

/-! ## Blueprint: what a successful construction stores -/

theorem checkContinuous_formats (imageFormats : Nat → Nat) (l : List Nat) :
    ∀ (cnt : Nat) (formats r : List Nat),
      checkContinuous imageFormats l cnt formats = .ok r → r = formats ++ l.map imageFormats := by
  induction l with
  | nil =>
    intro cnt formats r h
    simp only [checkContinuous, Except.ok.injEq] at h
    simp [h]
  | cons i rest ih =>
    intro cnt formats r h
    unfold checkContinuous at h
    by_cases hi : i = cnt
    · simp only [hi, ne_eq, not_true_eq_false, if_false] at h
      have := ih (cnt + 1) (formats ++ [imageFormats cnt]) r h
      rw [this, hi]
      simp
    · simp [hi] at h

/-- What a successful construction stores: the format of every slot below the number of
distinct referenced indices, in order; the index vectors the descriptor loop read; and
every referenced index is below the number of formats. -/
theorem construct_ok_facts (reg : InOutImageNums) (params : WorldPipelineBuildParams)
    (bp : WorldPipelineBlueprint) (h : (WorldPipelineBlueprint.construct reg params).2 = .ok bp) :
    bp.imageFormats_ =
      (List.range (declaredSlots reg params).toFinset.card).map params.imageFormats ∧
    bp.modulesInputIndices_ = (blueprintModules reg params).bp.modulesInputIndices_ ∧
    bp.modulesOutputIndices_ = (blueprintModules reg params).bp.modulesOutputIndices_ ∧
    ∀ idx ∈ referencedSlots bp, idx < bp.imageFormats_.length := by
  obtain ⟨hs, hm⟩ := blueprintModules_invariant reg params
  have hfin : (blueprintModules reg params).imageIndices.toFinset =
      (declaredSlots reg params).toFinset := by
    ext k
    simp [hm k, mem_referencedSlots_iff]
  have hcard : (declaredSlots reg params).toFinset.card =
      (blueprintModules reg params).imageIndices.length := by
    rw [← hfin]
    exact List.toFinset_card_of_nodup hs.nodup
  unfold WorldPipelineBlueprint.construct at h
  simp only at h
  cases hc : checkContinuous params.imageFormats (blueprintModules reg params).imageIndices 0 [] with
  | error e => simp [hc] at h
  | ok formats =>
    simp only [hc, Except.ok.injEq] at h
    have hfmt := checkContinuous_formats _ _ _ _ _ hc
    have hrange := (checkContinuous_ok_iff params.imageFormats
      (blueprintModules reg params).imageIndices 0 []).1 ⟨formats, hc⟩
    rw [← List.range_eq_range'] at hrange
    simp only [List.nil_append] at hfmt
    subst h
    refine ⟨?_, rfl, rfl, ?_⟩
    · rw [hfmt, hcard]
      conv_lhs => rw [hrange]
    · intro idx hidx
      have hmem : idx ∈ (blueprintModules reg params).imageIndices := (hm idx).2 hidx
      rw [hrange] at hmem
      rw [hfmt, List.length_map]
      simpa using hmem

theorem moduleIndices_subset (bp : WorldPipelineBlueprint) (dir : Direction) (i : Nat) :
    ∀ idx ∈ moduleIndices bp dir i, idx ∈ referencedSlots bp := by
  intro idx hidx
  unfold referencedSlots
  rw [List.mem_append]
  cases dir with
  | output =>
    right
    simp only [moduleIndices, List.getD_eq_getElem?_getD] at hidx
    cases hget : bp.modulesOutputIndices_[i]? with
    | none => simp [hget] at hidx
    | some l =>
      simp only [hget, Option.getD_some] at hidx
      exact List.mem_flatten.2 ⟨l, List.getElem?_mem hget, hidx⟩
  | input =>
    left
    simp only [moduleIndices, List.getD_eq_getElem?_getD] at hidx
    cases hget : bp.modulesInputIndices_[i]? with
    | none => simp [hget] at hidx
    | some l =>
      simp only [hget, Option.getD_some] at hidx
      exact List.mem_flatten.2 ⟨l, List.getElem?_mem hget, hidx⟩

/-- **C20, as the code has it.** When the construction of the blueprint succeeds,
`imageFormats_` has one entry per distinct referenced slot index, entry `k` being
`params->imageFormats[k]`, and every referenced index is below that number. In `init`,
the format vector of every first negotiation call lists `imageFormats_[slot]` for the
slots of the direction, every fallback allocation asks for `imageFormats_[slot]` and the
image it creates has that format; the retry is passed the format vector as the rejected
call left it, which is the same list when the modules leave it alone. -/
theorem formats_come_from_the_blueprint {W : Type} (fw : Framework W)
    (ctors : WorldModuleConstructors W) (reg : InOutImageNums) (params : WorldPipelineBuildParams)
    (bp : WorldPipelineBlueprint) (world : W)
    (hbp : (WorldPipelineBlueprint.construct reg params).2 = .ok bp) :
    bp.imageFormats_.length = (declaredSlots reg params).toFinset.card ∧
    (∀ k, k < (declaredSlots reg params).toFinset.card →
      bp.imageFormats_[k]? = some (params.imageFormats k)) ∧
    (∀ idx ∈ referencedSlots bp, idx < bp.imageFormats_.length) ∧
    (∀ dir i f images formats result,
      InitEvent.negotiate dir i f false images formats result ∈
          (WorldPipeline.init fw ctors bp world).state.trace →
        formats = (moduleIndices bp dir i).map fun idx => bp.imageFormats_.getD idx 0) ∧
    (∀ dir i f idx width height format,
      InitEvent.createImageAt dir i f idx width height format ∈
          (WorldPipeline.init fw ctors bp world).state.trace →
        format = bp.imageFormats_.getD idx 0) ∧
    (∀ dir i f images (s : InitState W),
      (∀ idx ∈ moduleIndices bp dir i, idx < s.wp.sharedImages_.rowLength f) →
      ∀ idx ∈ moduleIndices bp dir i, s.wp.sharedImages_.at f idx = none → ∃ img,
        (fallbackStep fw bp dir i f images s).2.wp.sharedImages_.at f idx = some img ∧
        bp.imageFormats_[idx]? = some img.format) ∧
    (ctors.Yields WorldModule.KeepsFormats →
      ∀ dir i f images formats result,
        InitEvent.negotiate dir i f true images formats result ∈
            (WorldPipeline.init fw ctors bp world).state.trace →
          formats = (moduleIndices bp dir i).map fun idx => bp.imageFormats_.getD idx 0) := by
  obtain ⟨hfmt, _, _, hrange⟩ := construct_ok_facts reg params bp hbp
  have hall : ∀ retries : Bool, (retries = true → ctors.Yields WorldModule.KeepsFormats) →
      ∀ e ∈ (WorldPipeline.init fw ctors bp world).state.trace,
        InitEvent.FormatsFromBlueprint bp retries e := by
    intro retries hkeep
    apply init_trace_invariant fw ctors bp world (InitEvent.FormatsFromBlueprint bp retries)
      (fun _ => trivial) (fun _ => trivial) (fun _ => trivial)
    intro name ctor w m w1 h1 h2 dir i f s hT
    exact negotiate_formats fw bp m retries (fun hr => hkeep hr name ctor w m w1 h1 h2) dir i f s hT
  refine ⟨by rw [hfmt]; simp, ?_, hrange, ?_, ?_, ?_, ?_⟩
  · intro k hk
    rw [hfmt]
    simp [hk]
  · intro dir i f images formats result hmem
    exact hall false (fun h => by cases h) _ hmem (fun h => by cases h)
  · intro dir i f idx width height format hmem
    exact hall false (fun h => by cases h) _ hmem
  · intro dir i f images s hin idx hidx hnone
    obtain ⟨_, _, _, _, h5, _⟩ := fallbackFill_spec fw bp dir i f
      (inferModuleExtent s.wp.sharedImages_ fw.extent f (moduleIndices bp .output i)
        (moduleIndices bp .input i)) (moduleIndices bp dir i) (images, s) hin
    obtain ⟨id, hid⟩ := h5 idx hidx hnone
    refine ⟨_, hid, ?_⟩
    have hlt : idx < bp.imageFormats_.length := hrange idx (moduleIndices_subset bp dir i idx hidx)
    simp only [List.getD_eq_getElem?_getD, List.getElem?_eq_getElem hlt, Option.getD_some]
  · intro hkeep dir i f images formats result hmem
    exact hall true (fun _ => hkeep) _ hmem (fun _ => rfl)

set_option maxRecDepth 20000 in
/-- The demo blueprint is the one the constructor builds from the demo parameters; in its
run with the strict module every call, the retries included, is passed the blueprint's
formats. -/
theorem formats_come_from_the_blueprint_witness :
    (WorldPipelineBlueprint.construct (demoInitRegistry "strict") (demoInitParams "strict")).2 =
      .ok (demoBlueprint "strict") ∧
    (demoBlueprint "strict").imageFormats_.length =
      (declaredSlots (demoInitRegistry "strict") (demoInitParams "strict")).toFinset.card ∧
    InitEvent.negotiate .output 0 0 true [some ⟨2, 1920, 1080, 97, 28⟩] [97] (some true) ∈
      (WorldPipeline.init demoFramework moreConstructors (demoBlueprint "strict") 0).state.trace :=
  ⟨rfl,
    (formats_come_from_the_blueprint demoFramework moreConstructors (demoInitRegistry "strict")
      (demoInitParams "strict") (demoBlueprint "strict") 0 rfl).1,
    by decide⟩

set_option maxRecDepth 20000 in
/-- **C20 fails as stated.** The retry is passed the format vector the rejected call left.
The demo blueprint is built by the constructor; module 0 overwrites the format vector with
zeros when it rejects, and its retry for slot 1 is passed format 0 where `imageFormats_[1]`
is 97. -/
theorem retry_formats_counterexample :
    (WorldPipelineBlueprint.construct (demoInitRegistry "reformat")
        (demoInitParams "reformat")).2.toOption = some (demoBlueprint "reformat") ∧
    InitEvent.negotiate .output 0 0 true [some ⟨2, 1920, 1080, 97, 28⟩] [0] (some true) ∈
      (WorldPipeline.init demoFramework moreConstructors (demoBlueprint "reformat") 0).state.trace ∧
    (moduleIndices (demoBlueprint "reformat") .output 0).map
        (fun idx => (demoBlueprint "reformat").imageFormats_.getD idx 0) = [97] ∧
    ¬ ∀ dir i f images formats result,
      InitEvent.negotiate dir i f true images formats result ∈
          (WorldPipeline.init demoFramework moreConstructors (demoBlueprint "reformat")
            0).state.trace →
        formats = (moduleIndices (demoBlueprint "reformat") dir i).map
          fun idx => (demoBlueprint "reformat").imageFormats_.getD idx 0 := by
  refine ⟨by decide, by decide, by decide, ?_⟩
  intro h
  have := h .output 0 0 [some ⟨2, 1920, 1080, 97, 28⟩] [0] (some true) (by decide)
  revert this
  decide

/-! ## `init`: the declared slots of a module hold images -/

/-- What the write-back loop does to the pool when it writes no empty entry. -/
theorem writeBack_spec (f : Nat) (indices : List Nat) (images : List (Option DeviceLocalImage))
    (pool : SharedImages) (hrange : ∀ idx ∈ indices, idx < pool.rowLength f)
    (hall : ∀ j, j < indices.length → images.getD j none ≠ none) :
    (writeBack f indices images pool).length = pool.length ∧
    (∀ f1, (writeBack f indices images pool).rowLength f1 = pool.rowLength f1) ∧
    (∀ f1 idx1, pool.at f1 idx1 ≠ none → (writeBack f indices images pool).at f1 idx1 ≠ none) ∧
    (∀ idx ∈ indices, (writeBack f indices images pool).at f idx ≠ none) := by
  unfold writeBack
  have key : ∀ k, k ≤ indices.length →
      (forLoop k (fun j pool => pool.put f (indices.getD j 0) (images.getD j none))
        pool).length = pool.length ∧
      (∀ f1, (forLoop k (fun j pool => pool.put f (indices.getD j 0) (images.getD j none))
        pool).rowLength f1 = pool.rowLength f1) ∧
      (∀ f1 idx1, pool.at f1 idx1 ≠ none →
        (forLoop k (fun j pool => pool.put f (indices.getD j 0) (images.getD j none))
          pool).at f1 idx1 ≠ none) ∧
      (∀ idx ∈ indices.take k,
        (forLoop k (fun j pool => pool.put f (indices.getD j 0) (images.getD j none))
          pool).at f idx ≠ none) := by
    intro k
    induction k with
    | zero =>
      intro _
      simp only [forLoop_zero, List.take_zero, List.not_mem_nil, false_implies, implies_true,
        and_true, true_and]
      exact fun _ _ h => h
    | succ n ih =>
      intro hk
      have hn : n < indices.length := by omega
      obtain ⟨h1, h2, h3, h4⟩ := ih (by omega)
      rw [forLoop_succ]
      generalize forLoop n (fun j pool => pool.put f (indices.getD j 0) (images.getD j none))
        pool = p at h1 h2 h3 h4 ⊢
      have hidx : indices.getD n 0 = indices[n] := List.getD_eq_getElem _ _ hn
      have hmem : indices.getD n 0 ∈ indices := by rw [hidx]; exact List.getElem_mem _
      have hin : indices.getD n 0 < p.rowLength f := by rw [h2]; exact hrange _ hmem
      have himg := hall n hn
      have hstep : ∀ f1 idx1, p.at f1 idx1 ≠ none →
          (p.put f (indices.getD n 0) (images.getD n none)).at f1 idx1 ≠ none := by
        intro f1 idx1 h
        rw [at_put]
        split_ifs
        · exact himg
        · exact h
      refine ⟨by rw [length_put]; exact h1, fun f1 => by rw [rowLength_put]; exact h2 f1, ?_, ?_⟩
      · intro f1 idx1 h
        exact hstep f1 idx1 (h3 f1 idx1 h)
      · intro idx hidxmem
        have htake : indices.take (n + 1) = indices.take n ++ [indices.getD n 0] := by
          rw [List.take_succ, List.getElem?_eq_getElem hn, hidx]
          rfl
        rw [htake, List.mem_append, List.mem_singleton] at hidxmem
        rcases hidxmem with h | h
        · exact hstep f idx (h4 idx h)
        · rw [h, at_put, if_pos ⟨rfl, rfl, hin⟩]
          exact himg
  have := key indices.length (le_refl _)
  simpa only [List.take_length] using this

theorem getD_ne_none_of_forall (images : List (Option DeviceLocalImage)) (n : Nat)
    (hlen : n ≤ images.length) (hall : ∀ x ∈ images, x ≠ none) :
    ∀ j, j < n → images.getD j none ≠ none := by
  intro j hj
  have hj2 : j < images.length := by omega
  rw [List.getD_eq_getElem _ _ hj2]
  exact hall _ (List.getElem_mem _)

theorem proposal_length (bp : WorldPipelineBlueprint) (dir : Direction) (i f : Nat)
    (pool : SharedImages) :
    (proposal bp dir i f pool).1.length = (moduleIndices bp dir i).length := by
  simp [proposal]

/-- A negotiation that returns, with a module that leaves no empty entry when it accepts:
the pool keeps its shape, no cell that held an image is emptied, and every slot of the
direction holds an image. -/
theorem negotiate_fills {W : Type} (fw : Framework W) (bp : WorldPipelineBlueprint)
    (m : WorldModule W) (hm : m.FillsWhatItAccepts) (dir : Direction) (i f : Nat)
    (s s1 : InitState W)
    (hrange : ∀ idx ∈ moduleIndices bp dir i, idx < s.wp.sharedImages_.rowLength f)
    (h : negotiate fw bp m dir i f s = .ok s1) :
    s1.wp.sharedImages_.length = s.wp.sharedImages_.length ∧
    (∀ f1, s1.wp.sharedImages_.rowLength f1 = s.wp.sharedImages_.rowLength f1) ∧
    (∀ f1 idx1, s.wp.sharedImages_.at f1 idx1 ≠ none → s1.wp.sharedImages_.at f1 idx1 ≠ none) ∧
    (∀ idx ∈ moduleIndices bp dir i, s1.wp.sharedImages_.at f idx ≠ none) := by
  rcases negotiate_cases fw bp m dir i f s with ⟨e, _, hneg⟩ | ⟨r1, t1, hc, hr, hneg⟩ |
    ⟨r1, t1, hc, _, hcases⟩
  · rw [hneg] at h; cases h
  · rw [hneg] at h
    simp only [Except.ok.injEq] at h
    subst h
    obtain ⟨hwp, _⟩ := callSetOrCreate_wp _ _ _ _ _ _ _ _ _ _ hc
    obtain ⟨w1, hmod, _⟩ := callSetOrCreate_call _ _ _ _ _ _ _ _ _ _ hc
    obtain ⟨hlen, hall⟩ := hm dir _ _ f s.world r1 w1 hmod
    rw [proposal_length] at hlen
    simp only [hwp]
    exact writeBack_spec f _ r1.images s.wp.sharedImages_ hrange
      (getD_ne_none_of_forall _ _ hlen (hall hr))
  · obtain ⟨hwp, _⟩ := callSetOrCreate_wp _ _ _ _ _ _ _ _ _ _ hc
    obtain ⟨w1, hmod, _⟩ := callSetOrCreate_call _ _ _ _ _ _ _ _ _ _ hc
    obtain ⟨hlen1, _⟩ := hm dir _ _ f s.world r1 w1 hmod
    rw [proposal_length] at hlen1
    have hrange1 : ∀ idx ∈ moduleIndices bp dir i, idx < t1.wp.sharedImages_.rowLength f := by
      rw [hwp]; exact hrange
    obtain ⟨g1, g2, g3, _, _, g6, _⟩ := fallbackFill_spec fw bp dir i f
      (inferModuleExtent t1.wp.sharedImages_ fw.extent f (moduleIndices bp .output i)
        (moduleIndices bp .input i)) (moduleIndices bp dir i) (r1.images, t1) hrange1
    have hdef : fallbackFill fw bp dir i f
        (inferModuleExtent t1.wp.sharedImages_ fw.extent f (moduleIndices bp .output i)
          (moduleIndices bp .input i)) (moduleIndices bp dir i) (r1.images, t1) =
        fallbackStep fw bp dir i f r1.images t1 := rfl
    rw [hdef] at g1 g2 g3 g6
    simp only [hwp] at g1 g2 g3 g6
    generalize fallbackStep fw bp dir i f r1.images t1 = filled at g1 g2 g3 g6 hcases
    rcases hcases with ⟨e, _, hneg⟩ | ⟨r2, s3, hc2, hr2, hneg⟩ | ⟨r2, s3, _, _, hneg⟩
    · rw [hneg] at h; cases h
    · rw [hneg] at h
      simp only [Except.ok.injEq] at h
      subst h
      obtain ⟨hwp2, _⟩ := callSetOrCreate_wp _ _ _ _ _ _ _ _ _ _ hc2
      obtain ⟨w2, hmod2, _⟩ := callSetOrCreate_call _ _ _ _ _ _ _ _ _ _ hc2
      obtain ⟨hlen2, hall2⟩ := hm dir _ _ f filled.2.world r2 w2 hmod2
      rw [g6] at hlen2
      have hlen3 : (moduleIndices bp dir i).length ≤ r2.images.length := by omega
      have hrange2 : ∀ idx ∈ moduleIndices bp dir i,
          idx < filled.2.wp.sharedImages_.rowLength f := by
        intro idx hidx
        rw [g2]
        exact hrange idx hidx
      obtain ⟨k1, k2, k3, k4⟩ := writeBack_spec f _ r2.images filled.2.wp.sharedImages_ hrange2
        (getD_ne_none_of_forall _ _ hlen3 (hall2 hr2))
      simp only [hwp2]
      refine ⟨k1.trans g1, fun f1 => (k2 f1).trans (g2 f1), ?_, k4⟩
      intro f1 idx1 hne
      apply k3
      cases hcell : s.wp.sharedImages_.at f1 idx1 with
      | none => exact absurd hcell hne
      | some img =>
        rw [g3 f1 idx1 img hcell]
        exact Option.some_ne_none _
    · rw [hneg] at h; cases h

theorem negotiateFrame_ok {W : Type} (fw : Framework W) (bp : WorldPipelineBlueprint)
    (m : WorldModule W) (i f : Nat) (s s1 : InitState W)
    (h : negotiateFrame fw bp m i f s = .ok s1) :
    ∃ t, negotiate fw bp m .output i f s = .ok t ∧ negotiate fw bp m .input i f t = .ok s1 := by
  unfold negotiateFrame at h
  cases hout : negotiate fw bp m .output i f s with
  | error e => simp [hout] at h
  | ok t =>
    simp only [hout] at h
    exact ⟨t, rfl, h⟩

/-- A module loop body that returns: the module was constructed, the frame loop returned,
and the pool is the one the frame loop left. -/
theorem initModule_ok {W : Type} (fw : Framework W) (ctors : WorldModuleConstructors W)
    (bp : WorldPipelineBlueprint) (i : Nat) (s s1 : InitState W)
    (h : initModule fw ctors bp i s = .ok s1) :
    ∃ ctor m w1 t0 s3, ctors (bp.moduleNames_.getD i "") = some ctor ∧
      ctor s.world = .ok (m, w1) ∧ t0.wp.sharedImages_ = s.wp.sharedImages_ ∧
      loopFrom (negotiateFrame fw bp m i) 0 fw.imageCount t0 = .ok s3 ∧
      s1.wp = s3.wp := by
  unfold initModule at h
  cases hctor : ctors (bp.moduleNames_.getD i "") with
  | none => rw [hctor] at h; cases h
  | some ctor =>
    rw [hctor] at h
    simp only at h
    cases hrun : ctor s.world with
    | error e => rw [hrun] at h; cases h
    | ok p =>
      obtain ⟨m, w1⟩ := p
      rw [hrun] at h
      simp only at h
      cases hattr : m.setAttributes (bp.attributeCounts_.getD i 0) (bp.attributeKVs_.getD i [])
          w1 with
      | error e => rw [hattr] at h; cases h
      | ok w2 =>
        rw [hattr] at h
        simp only at h
        cases hl : loopFrom (negotiateFrame fw bp m i) 0 fw.imageCount
            { world := w2
              wp := { s.wp with worldModules_ := s.wp.worldModules_.set i (some m) }
              trace := (s.trace ++ [InitEvent.construct i]) ++ [InitEvent.setAttributes i] } with
        | error e => rw [hl] at h; cases h
        | ok s3 =>
          rw [hl] at h
          simp only at h
          cases hb : m.build s3.world with
          | error e => rw [hb] at h; cases h
          | ok w5 =>
            rw [hb] at h
            simp only [Except.ok.injEq] at h
            subst h
            exact ⟨ctor, m, w1,
              { world := w2
                wp := { s.wp with worldModules_ := s.wp.worldModules_.set i (some m) }
                trace := (s.trace ++ [InitEvent.construct i]) ++ [InitEvent.setAttributes i] },
              s3, rfl, hrun, rfl, hl, rfl⟩

theorem allocate_shape {W : Type} (fw : Framework W) (bp : WorldPipelineBlueprint) (world : W) :
    (WorldPipeline.allocate fw bp world).wp.sharedImages_.length = fw.imageCount ∧
    ∀ f, f < fw.imageCount →
      (WorldPipeline.allocate fw bp world).wp.sharedImages_.rowLength f =
        bp.imageFormats_.length := by
  obtain ⟨e1, e2, _⟩ := emptyPool_facts fw.imageCount bp.imageFormats_.length
  unfold WorldPipeline.allocate
  have key : ∀ (k : Nat) (s0 : InitState W),
      (forLoop k (allocateSlot0 fw bp) s0).wp.sharedImages_.length =
        s0.wp.sharedImages_.length ∧
      ∀ f, (forLoop k (allocateSlot0 fw bp) s0).wp.sharedImages_.rowLength f =
        s0.wp.sharedImages_.rowLength f := by
    intro k s0
    induction k with
    | zero => exact ⟨rfl, fun _ => rfl⟩
    | succ n ih =>
      rw [forLoop_succ]
      obtain ⟨h1, h2⟩ := ih
      simp only [allocateSlot0]
      exact ⟨by rw [length_put]; exact h1, fun f => by rw [rowLength_put]; exact h2 f⟩
  obtain ⟨k1, k2⟩ := key fw.imageCount
    { world := world
      wp :=
        { worldModules_ := vectorResize [] bp.moduleNames_.length none
          sharedImages_ :=
            vectorResize [] fw.imageCount (List.replicate bp.imageFormats_.length none)
          contexts_ := vectorResize [] fw.imageCount none }
      trace := [] }
  exact ⟨k1.trans e1, fun f hf => (k2 f).trans (e2 f hf)⟩

theorem createContexts_pool {W : Type} (fw : Framework W) (s : InitState W) :
    (createContexts fw s).wp.sharedImages_ = s.wp.sharedImages_ := by
  unfold createContexts
  induction fw.imageCount with
  | zero => rfl
  | succ k ih => rw [forLoop_succ]; exact ih

theorem slotsFilled_mono (bp : WorldPipelineBlueprint) (pool pool1 : SharedImages) (i f : Nat)
    (hmono : ∀ f1 idx1, pool.at f1 idx1 ≠ none → pool1.at f1 idx1 ≠ none)
    (h : SlotsFilled bp pool i f) : SlotsFilled bp pool1 i f :=
  fun idx hidx => hmono f idx (h idx hidx)

/-- The frame loop of one module, for modules that leave no empty entry when they accept:
the pool keeps its shape, no cell that held an image is emptied, and in every frame every
slot the module declares holds an image. -/
theorem frames_fill {W : Type} (fw : Framework W) (bp : WorldPipelineBlueprint)
    (m : WorldModule W) (hm : m.FillsWhatItAccepts) (i : Nat) (s s1 : InitState W)
    (hlen : s.wp.sharedImages_.length = fw.imageCount)
    (hrow : ∀ f, f < fw.imageCount → s.wp.sharedImages_.rowLength f = bp.imageFormats_.length)
    (hrange : ∀ dir, ∀ idx ∈ moduleIndices bp dir i, idx < bp.imageFormats_.length)
    (h : loopFrom (negotiateFrame fw bp m i) 0 fw.imageCount s = .ok s1) :
    s1.wp.sharedImages_.length = fw.imageCount ∧
    (∀ f, f < fw.imageCount → s1.wp.sharedImages_.rowLength f = bp.imageFormats_.length) ∧
    (∀ f1 idx1, s.wp.sharedImages_.at f1 idx1 ≠ none → s1.wp.sharedImages_.at f1 idx1 ≠ none) ∧
    ∀ f, f < fw.imageCount → SlotsFilled bp s1.wp.sharedImages_ i f := by
  have key := loopFrom_ok_induction (negotiateFrame fw bp m i)
    (fun j (t : InitState W) =>
      t.wp.sharedImages_.length = fw.imageCount ∧
      (∀ f, f < fw.imageCount → t.wp.sharedImages_.rowLength f = bp.imageFormats_.length) ∧
      (∀ f1 idx1, s.wp.sharedImages_.at f1 idx1 ≠ none → t.wp.sharedImages_.at f1 idx1 ≠ none) ∧
      ∀ f, f < j → SlotsFilled bp t.wp.sharedImages_ i f)
    fw.imageCount 0 s s1
    (by
      intro j t t1 _ hj ⟨q1, q2, q3, q4⟩ hstep
      have hjF : j < fw.imageCount := by omega
      obtain ⟨u, hout, hinp⟩ := negotiateFrame_ok fw bp m i j t t1 hstep
      obtain ⟨a1, a2, a3, a4⟩ := negotiate_fills fw bp m hm .output i j t u
        (fun idx hidx => by rw [q2 j hjF]; exact hrange .output idx hidx) hout
      obtain ⟨b1, b2, b3, b4⟩ := negotiate_fills fw bp m hm .input i j u t1
        (fun idx hidx => by rw [a2, q2 j hjF]; exact hrange .input idx hidx) hinp
      refine ⟨b1.trans (a1.trans q1), fun f hf => (b2 f).trans ((a2 f).trans (q2 f hf)),
        fun f1 idx1 hne => b3 f1 idx1 (a3 f1 idx1 (q3 f1 idx1 hne)), ?_⟩
      intro f hf
      by_cases hfj : f = j
      · subst hfj
        intro idx hidx
        rw [List.mem_append] at hidx
        rcases hidx with hidx | hidx
        · exact b3 f idx (a4 idx hidx)
        · exact b4 idx hidx
      · exact slotsFilled_mono bp _ _ i f (fun f1 idx1 hne => b3 f1 idx1 (a3 f1 idx1 hne))
          (q4 f (by omega)))
    ⟨hlen, hrow, fun _ _ hne => hne, fun f hf => by omega⟩ h
  obtain ⟨k1, k2, k3, k4⟩ := key
  exact ⟨k1, k2, k3, fun f hf => k4 f (by omega)⟩

theorem strictModule_fills : strictModule.FillsWhatItAccepts := by
  intro dir images formats f w r w1 h
  have hr : r = ⟨images.all Option.isSome, images, formats⟩ := by
    cases dir <;>
      · simp only [WorldModule.setOrCreate, strictModule, Except.ok.injEq, Prod.mk.injEq] at h
        exact h.1.symm
  subst hr
  refine ⟨le_refl _, ?_⟩
  intro hacc x hx hnone
  simp only [List.all_eq_true] at hacc
  have := hacc x hx
  rw [hnone] at this
  cases this

theorem strictConstructors_yields : strictConstructors.Yields WorldModule.FillsWhatItAccepts := by
  intro name ctor w m w1 h1 h2
  unfold strictConstructors at h1
  split_ifs at h1
  simp only [Option.some.injEq] at h1
  subst h1
  simp only [Except.ok.injEq, Prod.mk.injEq] at h2
  rw [← h2.1]
  exact strictModule_fills

set_option maxRecDepth 20000 in
/-- **C16 fails as stated.** A module may accept a proposal and leave an empty entry in it,
and the builder writes the entry back as it is. In the run below, on a blueprint the
constructor built, every module accepts every proposal unchanged: `init` returns normally,
and slot 1, which module 0 declares as its output and module 1 as its input, is empty in
frame 0. -/
theorem init_leaves_declared_slot_empty_counterexample :
    (WorldPipelineBlueprint.construct (demoInitRegistry "accept")
        (demoInitParams "accept")).2.toOption = some (demoBlueprint "accept") ∧
    (WorldPipeline.init demoFramework demoConstructors (demoBlueprint "accept") 0).throws = false ∧
    1 ∈ moduleIndices (demoBlueprint "accept") .output 0 ∧
    1 ∈ moduleIndices (demoBlueprint "accept") .input 1 ∧
    (WorldPipeline.init demoFramework demoConstructors (demoBlueprint "accept")
      0).state.wp.sharedImages_.at 0 1 = none := by
  decide

/-! ## XeSS module: what an accepted negotiation leaves in the vector -/

/-- The adoption loop keeps the number of entries; the entries before its start are left as
they were, and when it runs to its end every entry it walked is not empty. -/
theorem adoptImages_entries (dir : Direction) (width height usage : Nat) (formats : List Nat)
    (frameIndex : Nat) :
    ∀ (count i : Nat) (acc : List (Option DeviceLocalImage) × XessWorld),
      (XessSrModule.adoptImages dir width height usage formats frameIndex i count acc).2.1.length =
        acc.1.length ∧
      (∀ j, j < i →
        (XessSrModule.adoptImages dir width height usage formats frameIndex i count acc).2.1.getD j
          none = acc.1.getD j none) ∧
      ((XessSrModule.adoptImages dir width height usage formats frameIndex i count acc).1 = true →
        ∀ j, i ≤ j → j < i + count → j < acc.1.length →
          (XessSrModule.adoptImages dir width height usage formats frameIndex i count acc).2.1.getD
            j none ≠ none) := by
  intro count
  induction count with
  | zero =>
    intro i acc
    refine ⟨rfl, fun _ _ => rfl, ?_⟩
    intro _ j h1 h2
    omega
  | succ n ih =>
    intro i acc
    simp only [XessSrModule.adoptImages]
    cases hstep : XessSrModule.adoptImage dir width height usage formats frameIndex i acc with
    | none =>
      refine ⟨rfl, fun _ _ => rfl, ?_⟩
      intro h
      cases h
    | some acc1 =>
      have hacc : acc1.1.length = acc.1.length ∧
          (∀ j, j ≠ i → acc1.1.getD j none = acc.1.getD j none) ∧
          (i < acc.1.length → acc1.1.getD i none ≠ none) := by
        unfold XessSrModule.adoptImage at hstep
        cases hget : acc.1.getD i none with
        | none =>
          simp only [hget, Option.some.injEq] at hstep
          subst hstep
          refine ⟨by simp, ?_, ?_⟩
          · intro j hj
            exact getD_set_ne _ _ _ _ _ (fun e => hj e.symm)
          · intro hlt
            show (acc.1.set i _).getD i none ≠ none
            rw [getD_set_eq _ _ _ _ hlt]
            exact Option.some_ne_none _
        | some img =>
          simp only [hget] at hstep
          split_ifs at hstep
          simp only [Option.some.injEq] at hstep
          subst hstep
          refine ⟨rfl, fun _ _ => rfl, ?_⟩
          intro _
          show acc.1.getD i none ≠ none
          rw [hget]
          exact Option.some_ne_none _
      obtain ⟨a1, a2, a3⟩ := hacc
      obtain ⟨h1, h2, h3⟩ := ih (i + 1) acc1
      simp only
      refine ⟨h1.trans a1, ?_, ?_⟩
      · intro j hj
        rw [h2 j (by omega), a2 j (by omega)]
      · intro hok j hij hjn hjlen
        by_cases hji : j = i
        · subst hji
          rw [h2 j (by omega)]
          exact a3 hjlen
        · exact h3 hok j (by omega) (by omega) (by rw [a1]; exact hjlen)

/-- The negotiation entry points of `XessSrModule` keep the number of entries of the image
vector and, when they accept, leave no empty entry in it. -/
theorem xess_negotiation_fills (env : XessEnv) (images : List (Option DeviceLocalImage))
    (formats : List Nat) (frameIndex : Nat) (w : XessWorld) :
    ((XessSrModule.setOrCreateInputImages env images formats frameIndex w).1.images.length =
        images.length ∧
      ((XessSrModule.setOrCreateInputImages env images formats frameIndex w).1.result = true →
        ∀ x ∈ (XessSrModule.setOrCreateInputImages env images formats frameIndex w).1.images,
          x ≠ none) ∧
      (XessSrModule.setOrCreateInputImages env images formats frameIndex w).1.formats = formats) ∧
    ((XessSrModule.setOrCreateOutputImages env images formats frameIndex w).1.images.length =
        images.length ∧
      ((XessSrModule.setOrCreateOutputImages env images formats frameIndex w).1.result = true →
        ∀ x ∈ (XessSrModule.setOrCreateOutputImages env images formats frameIndex w).1.images,
          x ≠ none) ∧
      (XessSrModule.setOrCreateOutputImages env images formats frameIndex w).1.formats = formats) := by
  have key : ∀ (dir : Direction) (width height usage : Nat) (w0 : XessWorld),
      (XessSrModule.adoptImages dir width height usage formats frameIndex 0 images.length
          (images, w0)).2.1.length = images.length ∧
      ((XessSrModule.adoptImages dir width height usage formats frameIndex 0 images.length
          (images, w0)).1 = true →
        ∀ x ∈ (XessSrModule.adoptImages dir width height usage formats frameIndex 0 images.length
          (images, w0)).2.1, x ≠ none) := by
    intro dir width height usage w0
    obtain ⟨h1, _, h3⟩ := adoptImages_entries dir width height usage formats frameIndex
      images.length 0 (images, w0)
    refine ⟨h1, ?_⟩
    intro hok x hx
    obtain ⟨j, hj, hget⟩ := List.getElem_of_mem hx
    have hj2 : j < images.length := by rw [← h1]; exact hj
    have := h3 hok j (Nat.zero_le _) (by omega) hj2
    rw [List.getD_eq_getElem _ _ hj, hget] at this
    exact this
  constructor
  · unfold XessSrModule.setOrCreateInputImages
    split_ifs with hlen
    · refine ⟨rfl, ?_, rfl⟩
      intro h
      cases h
    · cases env.framework with
      | none =>
        refine ⟨rfl, ?_, rfl⟩
        intro h
        cases h
      | some fw =>
        obtain ⟨k1, k2⟩ := key .input _ _ xessInputImageUsage _
        exact ⟨k1, k2, rfl⟩
  · unfold XessSrModule.setOrCreateOutputImages
    split_ifs with hlen
    · refine ⟨rfl, ?_, rfl⟩
      intro h
      cases h
    · cases env.framework with
      | none =>
        refine ⟨rfl, ?_, rfl⟩
        intro h
        cases h
      | some fw =>
        obtain ⟨k1, k2⟩ := key .output _ _ xessOutputImageUsage _
        exact ⟨k1, k2, rfl⟩

/-! ## XeSS wrapper: `initialize`, `dispatch` and `destroy` -/

/-- Whatever it is called on, `destroy` leaves the wrapper uninitialised and without a
context. -/
theorem destroy_flags (sdk : XessSdk) (w : XeSSWrapper) :
    (XeSSWrapper.destroy sdk w).initialized_ = false ∧
      (XeSSWrapper.destroy sdk w).contextCreated_ = false :=
  ⟨rfl, rfl⟩

/-- The flag `initialize` returns and the two flags of the wrapper it leaves: either it
returned true and both are set, or it returned false and both are clear. -/
theorem initialize_flags (sdk : XessSdk) (w : XeSSWrapper) (config : XeSSConfig) :
    (( XeSSWrapper.initialize sdk w config).1 = true ∧
        ( XeSSWrapper.initialize sdk w config).2.initialized_ = true ∧
        ( XeSSWrapper.initialize sdk w config).2.contextCreated_ = true) ∨
      (( XeSSWrapper.initialize sdk w config).1 = false ∧
        ( XeSSWrapper.initialize sdk w config).2.initialized_ = false ∧
        ( XeSSWrapper.initialize sdk w config).2.contextCreated_ = false) := by
  unfold XeSSWrapper.initialize
  simp only
  split_ifs with h1 h2 h3 h4
  · exact Or.inr ⟨rfl, rfl, rfl⟩
  · exact Or.inr ⟨rfl, rfl, rfl⟩
  · refine Or.inr ⟨rfl, ?_, ?_⟩
    · unfold XeSSWrapper.initContextAndPipelines
      simp only
      split_ifs <;> rfl
    · unfold XeSSWrapper.initContextAndPipelines at h3 ⊢
      simp only at h3 ⊢
      split_ifs at h3 ⊢ <;> first | rfl | simp at h3
  · exact Or.inr ⟨rfl, rfl, rfl⟩
  · refine Or.inl ⟨rfl, rfl, ?_⟩
    unfold XeSSWrapper.initContextAndPipelines at h3 ⊢
    simp only at h3 ⊢
    split_ifs at h3 ⊢ <;> first | rfl | simp at h3

/-- **C27.** `initialize` returns true exactly when it leaves the wrapper initialised. It
returns false, with `initialized_` and `contextCreated_` both false, whenever one of the
three device handles of the configuration is null or one of the render and display
widths and heights is zero, and always in a build without `MCVR_ENABLE_XESS`. On an
uninitialised wrapper (a fresh one, one left by a failed `initialize`, one left by
`destroy`) `dispatch` returns false for every input. `destroy` is idempotent: a second
`destroy` finds no context to release and leaves the wrapper as the first left it. -/
theorem initialize_true_iff_initialized (sdk : XessSdk) (w : XeSSWrapper) (config : XeSSConfig)
    (input : XeSSInput) :
    ((( XeSSWrapper.initialize sdk w config).1 = true ↔
        ( XeSSWrapper.initialize sdk w config).2.initialized_ = true) ∧
      (( XeSSWrapper.initialize sdk w config).1 = false →
        ( XeSSWrapper.initialize sdk w config).2.initialized_ = false ∧
          ( XeSSWrapper.initialize sdk w config).2.contextCreated_ = false)) ∧
    ((config.vkInstance = 0 ∨ config.physicalDevice = 0 ∨ config.device = 0 ∨
        config.renderWidth = 0 ∨ config.renderHeight = 0 ∨ config.displayWidth = 0 ∨
        config.displayHeight = 0 ∨ sdk.enabled = false) →
      ( XeSSWrapper.initialize sdk w config).1 = false ∧
        ( XeSSWrapper.initialize sdk w config).2.initialized_ = false ∧
        ( XeSSWrapper.initialize sdk w config).2.contextCreated_ = false) ∧
    ((w.initialized_ = false → XeSSWrapper.dispatch sdk w input = false) ∧
      XeSSWrapper.dispatch sdk XeSSWrapper.new input = false ∧
      (( XeSSWrapper.initialize sdk w config).1 = false →
        XeSSWrapper.dispatch sdk ( XeSSWrapper.initialize sdk w config).2 input = false) ∧
      XeSSWrapper.dispatch sdk (XeSSWrapper.destroy sdk w) input = false) ∧
    (XeSSWrapper.destroy sdk (XeSSWrapper.destroy sdk w) = XeSSWrapper.destroy sdk w ∧
      XeSSWrapper.destroysContext sdk (XeSSWrapper.destroy sdk w) = false) := by
  have hdisp : ∀ v : XeSSWrapper, v.initialized_ = false → XeSSWrapper.dispatch sdk v input = false := by
    intro v hv
    unfold XeSSWrapper.dispatch
    simp [hv]
  have hflags := initialize_flags sdk w config
  refine ⟨⟨?_, ?_⟩, ?_, ⟨hdisp w, hdisp _ rfl, ?_, hdisp _ rfl⟩, ?_, ?_⟩
  · rcases hflags with ⟨h1, h2, _⟩ | ⟨h1, h2, _⟩
    · simp [h1, h2]
    · simp [h1, h2]
  · intro hfalse
    rcases hflags with ⟨h1, _, _⟩ | ⟨_, h2, h3⟩
    · rw [h1] at hfalse; cases hfalse
    · exact ⟨h2, h3⟩
  · intro hbad
    have hret : ( XeSSWrapper.initialize sdk w config).1 = false := by
      unfold XeSSWrapper.initialize
      simp only
      split_ifs with h1 h2 h3 h4
      · rfl
      · rfl
      · rfl
      · rfl
      · exfalso
        simp only [Bool.or_eq_true, decide_eq_true_eq, not_or] at h1
        simp only [Bool.not_eq_true', Bool.not_eq_false] at h2
        obtain ⟨⟨⟨⟨⟨⟨a1, a2⟩, a3⟩, a4⟩, a5⟩, a6⟩, a7⟩ := h1
        rcases hbad with h | h | h | h | h | h | h | h
        · exact a1 h
        · exact a2 h
        · exact a3 h
        · exact a4 h
        · exact a5 h
        · exact a6 h
        · exact a7 h
        · rw [h] at h2; cases h2
    rcases hflags with ⟨h1, _, _⟩ | ⟨_, h2, h3⟩
    · rw [h1] at hret; cases hret
    · exact ⟨hret, h2, h3⟩
  · intro hfalse
    rcases hflags with ⟨h1, _, _⟩ | ⟨_, h2, _⟩
    · rw [h1] at hfalse; cases hfalse
    · exact hdisp _ h2
  · unfold XeSSWrapper.destroy
    simp
  · unfold XeSSWrapper.destroysContext XeSSWrapper.destroy
    simp

/-- An initialisation that succeeds, one that the SDK refuses, and one with a null device:
the first leaves the wrapper initialised, the other two do not. -/
theorem demo_initialize :
    ( XeSSWrapper.initialize (demoSdk true) XeSSWrapper.new
        ⟨1, 1, 1, 960, 540, 1920, 1080, .Quality, 0, f32_1_0, f32_1_0⟩).1 = true ∧
      ( XeSSWrapper.initialize { demoSdk true with xessVKInit := fun _ _ _ _ => false }
        XeSSWrapper.new ⟨1, 1, 1, 960, 540, 1920, 1080, .Quality, 0, f32_1_0, f32_1_0⟩).1 = false ∧
      ( XeSSWrapper.initialize (demoSdk true) XeSSWrapper.new
        ⟨1, 1, 0, 960, 540, 1920, 1080, .Quality, 0, f32_1_0, f32_1_0⟩).1 = false := by
  decide

/-! ## XeSS wrapper: the translation of the quality modes -/

/-- The backend query reads the quality mode only through `toXeSSQuality`. -/
theorem queryOptimalInputResolution_congr (sdk : XessSdk) (vkInstance physicalDevice device : Nat)
    (outputWidth outputHeight : Nat) (a b : XeSSQualityMode)
    (h : toXeSSQuality a = toXeSSQuality b) :
    XeSSWrapper.queryOptimalInputResolution sdk vkInstance physicalDevice device outputWidth
        outputHeight a =
      XeSSWrapper.queryOptimalInputResolution sdk vkInstance physicalDevice device outputWidth
        outputHeight b := by
  unfold XeSSWrapper.queryOptimalInputResolution
  rw [h]

/-- **C28.** The translation of the seven quality modes to the backend's settings is not
injective: `UltraQualityPlus` and `UltraQuality` take the default branch and become the
backend's `QUALITY`, like `Quality`, in the query and in `initXeSS` alike (every other
mode has a setting of its own). So the backend query answers the same for the three modes,
`initXeSS` initialises the backend the same, and whenever the module takes its render
resolution from the query (in `setAttributes` and in `setOrCreateInputImages`) the two
modes give the render resolution of `Quality`. -/
theorem toXeSSQuality_collapses_ultra_quality (sdk : XessSdk) (env : XessEnv) (fw : XessFramework)
    (w : XeSSWrapper) (vkInstance physicalDevice device outputWidth outputHeight initFlags : Nat)
    (m : XessSrModule) (images : List (Option DeviceLocalImage)) (mode : QualityMode)
    (hmode : mode = .UltraQualityPlus ∨ mode = .UltraQuality) :
    (toXeSSQuality .UltraQualityPlus = .QUALITY ∧ toXeSSQuality .UltraQuality = .QUALITY ∧
      toXeSSQuality .Quality = .QUALITY ∧ ¬ Function.Injective toXeSSQuality ∧
      ∀ a b, toXeSSQuality a = toXeSSQuality b → a ≠ b →
        (a = .UltraQualityPlus ∨ a = .UltraQuality ∨ a = .Quality) ∧
          (b = .UltraQualityPlus ∨ b = .UltraQuality ∨ b = .Quality)) ∧
    (XeSSWrapper.queryOptimalInputResolution sdk vkInstance physicalDevice device outputWidth
        outputHeight mode.toXeSS =
      XeSSWrapper.queryOptimalInputResolution sdk vkInstance physicalDevice device outputWidth
        outputHeight .Quality ∧
      XeSSWrapper.initXeSS sdk w outputWidth outputHeight mode.toXeSS initFlags =
        XeSSWrapper.initXeSS sdk w outputWidth outputHeight .Quality initFlags) ∧
    (∀ xfw answer, m.displayWidth_ > 0 ∧ m.displayHeight_ > 0 → m.xessEnabled_ = true →
      env.framework = some xfw →
      XeSSWrapper.queryOptimalInputResolution env.sdk xfw.vkInstance xfw.vkPhysicalDevice
        xfw.vkDevice m.displayWidth_ m.displayHeight_ .Quality = some answer →
      ((XessSrModule.deriveRenderResolution env { m with qualityMode_ := mode }).renderWidth_,
        (XessSrModule.deriveRenderResolution env { m with qualityMode_ := mode }).renderHeight_) =
          answer ∧
      ((XessSrModule.deriveRenderResolution env { m with qualityMode_ := .Quality }).renderWidth_,
        (XessSrModule.deriveRenderResolution env { m with qualityMode_ := .Quality }).renderHeight_) =
          answer) ∧
    (∀ answer, (m.renderWidth_ = 0 ∨ m.renderHeight_ = 0) → firstImage images = none →
      m.xessEnabled_ = true →
      XeSSWrapper.queryOptimalInputResolution sdk fw.vkInstance fw.vkPhysicalDevice fw.vkDevice
        m.displayWidth_ m.displayHeight_ .Quality = some answer →
      ((XessSrModule.settleRenderResolution sdk fw images
            { m with qualityMode_ := mode }).renderWidth_,
        (XessSrModule.settleRenderResolution sdk fw images
            { m with qualityMode_ := mode }).renderHeight_) = answer ∧
      ((XessSrModule.settleRenderResolution sdk fw images
            { m with qualityMode_ := .Quality }).renderWidth_,
        (XessSrModule.settleRenderResolution sdk fw images
            { m with qualityMode_ := .Quality }).renderHeight_) = answer) := by
  have hq : toXeSSQuality mode.toXeSS = toXeSSQuality .Quality := by
    rcases hmode with h | h <;> subst h <;> rfl
  have hquery : ∀ (s : XessSdk) (a b c d e : Nat),
      XeSSWrapper.queryOptimalInputResolution s a b c d e mode.toXeSS =
        XeSSWrapper.queryOptimalInputResolution s a b c d e .Quality :=
    fun s a b c d e => queryOptimalInputResolution_congr s a b c d e _ _ hq
  refine ⟨⟨rfl, rfl, rfl, ?_, ?_⟩, ⟨hquery _ _ _ _ _ _, ?_⟩, ?_, ?_⟩
  · intro hinj
    have := @hinj .UltraQuality .Quality rfl
    cases this
  · intro a b hab hne
    cases a <;> cases b <;>
      first | (exfalso; exact hne rfl) | exact absurd hab (by decide) | decide
  · unfold XeSSWrapper.initXeSS
    rw [hq]
  · intro xfw answer hdisp hen hfw hans
    have hans2 := hans
    rw [← hquery] at hans2
    obtain ⟨aw, ah⟩ := answer
    constructor
    · unfold XessSrModule.deriveRenderResolution
      simp only [hdisp, hen, hfw, and_self, if_true, hans2]
    · unfold XessSrModule.deriveRenderResolution
      simp only [hdisp, hen, hfw, and_self, if_true, QualityMode.toXeSS, hans]
  · intro answer hunset hnone hen hans
    have hans2 := hans
    rw [← hquery] at hans2
    obtain ⟨aw, ah⟩ := answer
    constructor
    · unfold XessSrModule.settleRenderResolution
      simp only [hunset, hnone, hen, if_true, hans2]
    · unfold XessSrModule.settleRenderResolution
      simp only [hunset, hnone, hen, if_true, QualityMode.toXeSS, hans]

/-- With the answering SDK the query is used, and a module set to `UltraQualityPlus` gets
the render resolution of `Quality` for a 1920 x 1080 display. -/
theorem toXeSSQuality_collapses_ultra_quality_witness :
    (XessSrModule.deriveRenderResolution { demoEnv true with sdk := answeringSdk }
        { displayWidth_ := 1920, displayHeight_ := 1080,
          qualityMode_ := .UltraQualityPlus }).renderWidth_ = 1280 ∧
      (XessSrModule.deriveRenderResolution { demoEnv true with sdk := answeringSdk }
        { displayWidth_ := 1920, displayHeight_ := 1080, qualityMode_ := .Quality }).renderWidth_ =
          1280 :=
  have h := (toXeSSQuality_collapses_ultra_quality answeringSdk
    { demoEnv true with sdk := answeringSdk } ⟨(1920, 1080), 2, 1, 1, 1⟩ XeSSWrapper.new 1 1 1
    1920 1080 0 { displayWidth_ := 1920, displayHeight_ := 1080 } [] .UltraQualityPlus
    (Or.inl rfl)).2.2.1 ⟨(1920, 1080), 2, 1, 1, 1⟩ (1280, 720) (by decide) rfl rfl (by decide)
  ⟨congrArg Prod.fst h.1, congrArg Prod.fst h.2⟩

set_option maxRecDepth 20000 in
/-- Without the query the table tells the modes apart: 1920 gives 1476 for
`UltraQualityPlus` and 1129 for `Quality`. -/
theorem demo_table_tells_modes_apart :
    (XessSrModule.getRenderResolution 1920 1080 .UltraQualityPlus).1 = 1476 ∧
      (XessSrModule.getRenderResolution 1920 1080 .Quality).1 = 1129 := by
  decide

/-! ## `setAttributes`: the exception of `std::stof` -/

theorem applyAttributePairs_append (env : XessEnv) (before rest : List (String × String)) :
    ∀ (m m1 : XessSrModule), applyAttributePairs env before m = .ok m1 →
      applyAttributePairs env (before ++ rest) m = applyAttributePairs env rest m1 := by
  induction before with
  | nil =>
    intro m m1 h
    simp only [applyAttributePairs, Except.ok.injEq] at h
    subst h
    rfl
  | cons p tail ih =>
    intro m m1 h
    simp only [applyAttributePairs, List.cons_append] at h ⊢
    cases hp : XessSrModule.setAttribute env p.1 p.2 m with
    | error e => rw [hp] at h; cases h
    | ok m2 =>
      rw [hp] at h
      exact ih m2 m1 h

/-- **C29.** `setAttributes` is neither total nor atomic. When the vector lists a
`pre_exposure` pair whose value `std::stof` cannot parse (it throws), after pairs that
`setAttributes` walks without an exception, the call throws that exception instead of
skipping the pair, and the module it leaves is the one the pairs before it produce: each
of them has taken effect, and no pair after it is applied (the pairs after it do not
matter). In `WorldPipeline::init` the exception of a module's `setAttributes` leaves `init`:
the module is neither negotiated nor built. -/
theorem setAttributes_throws_at_unparsable_pre_exposure {W : Type} (env : XessEnv)
    (before after : List (String × String)) (value e : String) (m m1 : XessSrModule)
    (hstof : env.stof value = .error e)
    (hbefore : XessSrModule.setAttributes env before.length (attributeKVsOf before) m = .ok m1) :
    XessSrModule.setAttributes env
        (before ++ ("render_pipeline.module.xess_sr.attribute.pre_exposure", value) :: after).length
        (attributeKVsOf
          (before ++ ("render_pipeline.module.xess_sr.attribute.pre_exposure", value) :: after))
        m = .error (e, m1) ∧
    XessSrModule.setAttribute env "render_pipeline.module.xess_sr.attribute.pre_exposure" value m1 ≠
      .ok m1 ∧
    ∀ (fw : Framework W) (ctors : WorldModuleConstructors W) (bp : WorldPipelineBlueprint)
      (i : Nat) (s : InitState W) ctor (wm : WorldModule W) (world : W) (err : String),
      ctors (bp.moduleNames_.getD i "") = some ctor → ctor s.world = .ok (wm, world) →
      wm.setAttributes (bp.attributeCounts_.getD i 0) (bp.attributeKVs_.getD i []) world =
        .error err →
      ∃ s1, initModule fw ctors bp i s = .error (err, s1) ∧
        s1.trace = s.trace ++ [.construct i, .setAttributes i] := by
  have hstep : XessSrModule.setAttribute env
      "render_pipeline.module.xess_sr.attribute.pre_exposure" value m1 = .error (e, m1) := by
    unfold XessSrModule.setAttribute XessSrModule.isQualityModeAttributeKey
    rw [if_neg (by decide), if_neg (by decide), if_pos rfl, hstof]
  refine ⟨?_, ?_, ?_⟩
  · rw [setAttributes_eq_pairs, attributePairs_attributeKVsOf] at hbefore ⊢
    rw [applyAttributePairs_append env before _ m m1 hbefore]
    simp only [applyAttributePairs, hstep]
  · rw [hstep]
    intro h
    cases h
  · intro fw ctors bp i s ctor wm world err hctor hrun hattr
    unfold initModule
    simp only [hctor, hrun, hattr]
    exact ⟨_, rfl, by simp⟩

/-- A call that disables the module, then meets an unparsable `pre_exposure`, then a quality
pair: it throws, the module is left disabled, and its quality mode is still the default. -/
theorem setAttributes_throws_at_unparsable_pre_exposure_witness :
    XessSrModule.setAttributes (demoEnv true) 3
        (attributeKVsOf
          [("render_pipeline.module.xess_sr.attribute.enable", "0"),
           ("render_pipeline.module.xess_sr.attribute.pre_exposure", "bright"),
           ("render_pipeline.module.xess_sr.attribute.quality_mode", "balanced")])
        {} = .error ("invalid_argument", { xessEnabled_ := false }) :=
  (@setAttributes_throws_at_unparsable_pre_exposure Unit (demoEnv true)
    [("render_pipeline.module.xess_sr.attribute.enable", "0")]
    [("render_pipeline.module.xess_sr.attribute.quality_mode", "balanced")]
    "bright" "invalid_argument" {} { xessEnabled_ := false } rfl rfl).1

/-! ## `render`: when the camera history is consumed -/

/-- A `render` that reaches the dispatch leaves the outside state of the dispatch: the
module as `checkCameraReset` left it, the request logged. -/
theorem render_world_of_dispatch (env : XessEnv) (commandBuffer : Nat) (ubo : WorldUBO)
    (ctx : XessSrModuleContext) (s : RenderState XessWorld) (xess : XeSSWrapper)
    (halive : s.world.moduleAlive = true) (hen : s.world.module.xessEnabled_ = true)
    (hinit : s.world.module.initialized_ = true) (hx : s.world.module.xess_ = some xess) :
    (ctx.render env commandBuffer ubo s).world =
      { s.world with
        module := (XessSrModuleContext.checkCameraReset env.glm ubo.cameraPos ubo.cameraViewDir
          s.world.module).2
        backendCalls := s.world.backendCalls ++
          [.dispatchCall (ctx.beforeDispatch env commandBuffer ubo s).1] } := by
  have hpaths : ctx.render env commandBuffer ubo s =
        ctx.fallbackBlit (ctx.beforeDispatch env commandBuffer ubo s).2 ∨
      ctx.render env commandBuffer ubo s =
        ctx.finish (ctx.beforeDispatch env commandBuffer ubo s).2 := by
    unfold XessSrModuleContext.render
    simp only [halive, hen, hinit, hx, Bool.not_true, Bool.false_eq_true, if_false]
    split_ifs
    · left; rfl
    · right; rfl
  rcases hpaths with h | h <;> rw [h] <;> rfl

/-- With the module disabled, not initialised or without a wrapper, `render` is the
fallback blit. -/
theorem render_eq_fallbackBlit (env : XessEnv) (commandBuffer : Nat) (ubo : WorldUBO)
    (ctx : XessSrModuleContext) (s : RenderState XessWorld) (halive : s.world.moduleAlive = true)
    (h : s.world.module.xessEnabled_ = false ∨ s.world.module.initialized_ = false ∨
      s.world.module.xess_ = none) :
    ctx.render env commandBuffer ubo s = ctx.fallbackBlit s := by
  unfold XessSrModuleContext.render
  simp only [halive, Bool.not_true, Bool.false_eq_true, if_false]
  rcases h with h | h | h
  · rw [h]
  · rw [h]; cases s.world.module.xessEnabled_ <;> rfl
  · rw [h]; cases s.world.module.xessEnabled_ <;> cases s.world.module.initialized_ <;> rfl

/-- **C25.** The history-reset state is consumed before the backend is called. When `render`
reaches the dispatch with the first-frame flag set and the dispatch returns false, the
request it passed carried `resetHistory = true`, and `render` (which then takes the fallback
blit) leaves the first-frame flag cleared and the camera of this frame stored; so the
request of the next frame carries `resetHistory = true` exactly when the camera has moved
beyond the thresholds since this frame. A `render` that takes the fallback path without
reaching the dispatch (module disabled, not initialised, or without a wrapper) leaves the
first-frame flag and the stored camera, like the rest of the module, as they are. -/
theorem render_consumes_history_reset_before_dispatch (env : XessEnv) (commandBuffer : Nat)
    (ubo : WorldUBO) (ctx : XessSrModuleContext) (s : RenderState XessWorld) :
    (∀ xess, s.world.moduleAlive = true → s.world.module.xessEnabled_ = true →
      s.world.module.initialized_ = true → s.world.module.xess_ = some xess →
      s.world.module.firstFrame_ = true →
      XeSSWrapper.dispatch env.sdk xess (ctx.beforeDispatch env commandBuffer ubo s).1 = false →
        ctx.render env commandBuffer ubo s =
          ctx.fallbackBlit (ctx.beforeDispatch env commandBuffer ubo s).2 ∧
        (ctx.beforeDispatch env commandBuffer ubo s).1.resetHistory = true ∧
        (ctx.render env commandBuffer ubo s).world.backendCalls = s.world.backendCalls ++
          [.dispatchCall (ctx.beforeDispatch env commandBuffer ubo s).1] ∧
        (ctx.render env commandBuffer ubo s).world.module.firstFrame_ = false ∧
        (ctx.render env commandBuffer ubo s).world.module.lastCameraPos_ = ubo.cameraPos ∧
        (ctx.render env commandBuffer ubo s).world.module.lastCameraDir_ = ubo.cameraViewDir ∧
        ∀ (commandBuffer2 : Nat) (ubo2 : WorldUBO) (ctx2 : XessSrModuleContext),
          (ctx2.render env commandBuffer2 ubo2 (ctx.render env commandBuffer ubo s)).world.backendCalls =
            (ctx.render env commandBuffer ubo s).world.backendCalls ++
              [.dispatchCall
                (ctx2.beforeDispatch env commandBuffer2 ubo2 (ctx.render env commandBuffer ubo s)).1] ∧
          ((ctx2.beforeDispatch env commandBuffer2 ubo2
              (ctx.render env commandBuffer ubo s)).1.resetHistory = true ↔
            F32.gt (env.glm.length (env.glm.sub ubo2.cameraPos ubo.cameraPos)) f32_1_0 = true ∨
              F32.lt (env.glm.dot (env.glm.normalize ubo2.cameraViewDir)
                (env.glm.normalize ubo.cameraViewDir)) f32_0_866 = true)) ∧
    ((s.world.moduleAlive = true ∧ (s.world.module.xessEnabled_ = false ∨
        s.world.module.initialized_ = false ∨ s.world.module.xess_ = none)) →
      ctx.render env commandBuffer ubo s = ctx.fallbackBlit s ∧
      (ctx.render env commandBuffer ubo s).world = s.world ∧
      (ctx.render env commandBuffer ubo s).world.module.firstFrame_ = s.world.module.firstFrame_ ∧
      (ctx.render env commandBuffer ubo s).world.module.lastCameraPos_ =
        s.world.module.lastCameraPos_ ∧
      (ctx.render env commandBuffer ubo s).world.module.lastCameraDir_ =
        s.world.module.lastCameraDir_) := by
  constructor
  · intro xess halive hen hinit hx hfirst hfail
    have hw := render_world_of_dispatch env commandBuffer ubo ctx s xess halive hen hinit hx
    have hreset : (ctx.beforeDispatch env commandBuffer ubo s).1.resetHistory = true := by
      show (XessSrModuleContext.checkCameraReset env.glm ubo.cameraPos ubo.cameraViewDir
        s.world.module).1 = true
      unfold XessSrModuleContext.checkCameraReset
      rw [if_pos hfirst]
    have hmod : (ctx.render env commandBuffer ubo s).world.module =
        { s.world.module with firstFrame_ := false, lastCameraPos_ := ubo.cameraPos,
                              lastCameraDir_ := ubo.cameraViewDir } := by
      rw [hw]
      show (XessSrModuleContext.checkCameraReset env.glm ubo.cameraPos ubo.cameraViewDir
        s.world.module).2 = _
      unfold XessSrModuleContext.checkCameraReset
      rw [if_pos hfirst]
    refine ⟨?_, hreset, ?_, ?_, ?_, ?_, ?_⟩
    · unfold XessSrModuleContext.render
      simp [halive, hen, hinit, hx, hfail]
    · rw [hw]
    · rw [hmod]
    · rw [hmod]
    · rw [hmod]
    · intro commandBuffer2 ubo2 ctx2
      have halive2 : (ctx.render env commandBuffer ubo s).world.moduleAlive = true := by
        rw [hw]; exact halive
      have hen2 : (ctx.render env commandBuffer ubo s).world.module.xessEnabled_ = true := by
        rw [hmod]; exact hen
      have hinit2 : (ctx.render env commandBuffer ubo s).world.module.initialized_ = true := by
        rw [hmod]; exact hinit
      have hx2 : (ctx.render env commandBuffer ubo s).world.module.xess_ = some xess := by
        rw [hmod]; exact hx
      constructor
      · rw [render_world_of_dispatch env commandBuffer2 ubo2 ctx2 _ xess halive2 hen2 hinit2 hx2]
      · show (XessSrModuleContext.checkCameraReset env.glm ubo2.cameraPos ubo2.cameraViewDir
          (ctx.render env commandBuffer ubo s).world.module).1 = true ↔ _
        rw [hmod]
        unfold XessSrModuleContext.checkCameraReset
        simp only [Bool.false_eq_true, if_false, Bool.or_eq_true]
  · intro h
    obtain ⟨halive, hrest⟩ := h
    have hfb := render_eq_fallbackBlit env commandBuffer ubo ctx s halive hrest
    have hw : (ctx.render env commandBuffer ubo s).world = s.world := by
      rw [hfb]
      rfl
    refine ⟨hfb, hw, ?_, ?_, ?_⟩
    · rw [hw]
    · rw [hw]
    · rw [hw]

set_option maxRecDepth 20000 in
/-- The first frame of the demo module with a backend whose dispatch fails: the request
asks for a reset, the flag is cleared by the time the fallback runs, and the next frame
from the same camera asks for none. On the disabled module the flag stays set. -/
theorem demo_history_reset :
    (demoContext.beforeDispatch (demoEnv false) 1 demoUbo (demoXessState true)).1.resetHistory =
        true ∧
      (demoContext.render (demoEnv false) 1 demoUbo
        (demoXessState true)).world.module.firstFrame_ = false ∧
      (demoContext.beforeDispatch (demoEnv false) 1 demoUbo
        (demoContext.render (demoEnv false) 1 demoUbo (demoXessState true))).1.resetHistory =
          false ∧
      (demoContext.render (demoEnv false) 1 demoUbo
        (demoXessState false)).world.module.firstFrame_ = true := by
  decide

/-! ## Blueprint: a descriptor whose name the registry does not have -/

/-- The names the descriptor loop has stored after `n` descriptors. -/
theorem blueprintModules_names (reg : InOutImageNums) (params : WorldPipelineBuildParams)
    (n : Nat) :
    (forLoop n (blueprintModuleStep params)
      { bp := ⟨[], [], [], [], [], []⟩, imageIndices := [], registry := reg }).bp.moduleNames_ =
      (List.range n).map params.moduleNames := by
  induction n with
  | zero => simp [forLoop_zero]
  | succ k ih =>
    rw [forLoop_succ]
    simp only [blueprintModuleStep, ih, List.range_succ, List.map_append, List.map_cons,
      List.map_nil]

/-- The registry after `n` descriptors: the entries it had are kept, a name it did not have
has no entry or the entry `(0, 0)`, and the name of every descriptor walked has an entry. -/
theorem blueprintModules_registry (reg : InOutImageNums) (params : WorldPipelineBuildParams)
    (n : Nat) :
    let s := forLoop n (blueprintModuleStep params)
      { bp := ⟨[], [], [], [], [], []⟩, imageIndices := [], registry := reg }
    (∀ b v, reg.lookup b = some v → s.registry.lookup b = some v) ∧
    (∀ b, reg.lookup b = none → s.registry.lookup b = none ∨ s.registry.lookup b = some (0, 0)) ∧
    (∀ i < n, reg.lookup (params.moduleNames i) = none →
      s.registry.lookup (params.moduleNames i) = some (0, 0)) := by
  induction n with
  | zero =>
    simp only [forLoop_zero]
    exact ⟨fun _ _ h => h, fun _ h => Or.inl h, fun i hi => absurd hi (Nat.not_lt_zero i)⟩
  | succ k ih =>
    simp only at ih ⊢
    rw [forLoop_succ]
    obtain ⟨hkeep, hnew, hwalked⟩ := ih
    generalize forLoop k (blueprintModuleStep params)
      { bp := ⟨[], [], [], [], [], []⟩, imageIndices := [], registry := reg } = s at hkeep hnew hwalked
    have hreg : (blueprintModuleStep params k s).registry =
        (s.registry.index (params.moduleNames k)).2 := rfl
    rw [hreg]
    unfold InOutImageNums.index
    cases hlook : List.lookup (params.moduleNames k) s.registry with
    | some v =>
      simp only
      refine ⟨hkeep, hnew, ?_⟩
      intro i hi hnone
      rcases Nat.lt_succ_iff_lt_or_eq.1 hi with h | h
      · exact hwalked i h hnone
      · subst h
        rcases hnew _ hnone with h0 | h0
        · rw [hlook] at h0; cases h0
        · exact h0
    | none =>
      simp only [lookup_append_singleton]
      refine ⟨?_, ?_, ?_⟩
      · intro b v hb
        rw [hkeep b v hb]
      · intro b hb
        rcases hnew b hb with h0 | h0
        · rw [h0]
          by_cases hbk : b = params.moduleNames k
          · right; simp [hbk]
          · left; simp [hbk]
        · right; rw [h0]
      · intro i hi hnone
        rcases Nat.lt_succ_iff_lt_or_eq.1 hi with h | h
        · rw [hwalked i h hnone]
        · subst h
          rw [hlook]
          simp

/-- The descriptor loop does not read the index arrays of a descriptor whose name the
registry does not have. -/
theorem blueprintModules_ignores_unknown (reg : InOutImageNums) (params : WorldPipelineBuildParams)
    (k : Nat) (hname : reg.lookup (params.moduleNames k) = none) (inputs outputs : Nat → Nat)
    (n : Nat) :
    forLoop n (blueprintModuleStep
        { params with inputIndices := Function.update params.inputIndices k inputs
                      outputIndices := Function.update params.outputIndices k outputs })
      { bp := ⟨[], [], [], [], [], []⟩, imageIndices := [], registry := reg } =
    forLoop n (blueprintModuleStep params)
      { bp := ⟨[], [], [], [], [], []⟩, imageIndices := [], registry := reg } := by
  induction n with
  | zero => rfl
  | succ j ih =>
    rw [forLoop_succ, forLoop_succ, ih]
    have hnums := (blueprintModules_stored reg params j).1 (params.moduleNames j)
    simp only at hnums
    generalize forLoop j (blueprintModuleStep params)
      { bp := ⟨[], [], [], [], [], []⟩, imageIndices := [], registry := reg } = s at hnums
    by_cases hjk : j = k
    · subst hjk
      have hzero : (s.registry.index (params.moduleNames j)).1 = (0, 0) := by
        have : reg.nums (params.moduleNames j) = (0, 0) := by
          unfold InOutImageNums.nums InOutImageNums.index
          rw [hname]
        rw [← this, ← hnums]
        rfl
      simp only [blueprintModuleStep, hzero, readIndices, forLoop_zero]
    · simp only [blueprintModuleStep, Function.update_noteq hjk]

/-- **C26.** A descriptor whose module name has no entry in the registry
`Pipeline::worldModuleInOutImageNums` does not make the construction fail. The lookup
`worldModuleInOutImageNums[name]` yields `(0, 0)` and adds the entry `(name, (0, 0))`; the
descriptor is stored under its name with empty input and output index vectors; whatever
slot indices it declares, the constructor does not read them, so the blueprint or the
exception is the one the constructor gives when the descriptor declares other indices (none
is counted towards the contiguity check); and the registry the constructor leaves has the
entry `(0, 0)` for the name. -/
theorem unknown_module_name_declares_no_slot (reg : InOutImageNums)
    (params : WorldPipelineBuildParams) (k : Nat) (hk : k < params.moduleCount)
    (hname : reg.lookup (params.moduleNames k) = none) :
    reg.index (params.moduleNames k) = ((0, 0), reg ++ [(params.moduleNames k, (0, 0))]) ∧
    ((blueprintModules reg params).bp.moduleNames_[k]? = some (params.moduleNames k) ∧
      (blueprintModules reg params).bp.modulesInputIndices_[k]? = some [] ∧
      (blueprintModules reg params).bp.modulesOutputIndices_[k]? = some []) ∧
    (∀ bp, (WorldPipelineBlueprint.construct reg params).2 = .ok bp →
      bp.moduleNames_[k]? = some (params.moduleNames k) ∧
      bp.modulesInputIndices_[k]? = some [] ∧ bp.modulesOutputIndices_[k]? = some []) ∧
    (∀ inputs outputs : Nat → Nat,
      WorldPipelineBlueprint.construct reg
          { params with inputIndices := Function.update params.inputIndices k inputs
                        outputIndices := Function.update params.outputIndices k outputs } =
        WorldPipelineBlueprint.construct reg params) ∧
    (WorldPipelineBlueprint.construct reg params).1.lookup (params.moduleNames k) = some (0, 0) := by
  have hzero : reg.nums (params.moduleNames k) = (0, 0) := by
    unfold InOutImageNums.nums InOutImageNums.index
    rw [hname]
  have hstored : (blueprintModules reg params).bp.moduleNames_[k]? = some (params.moduleNames k) ∧
      (blueprintModules reg params).bp.modulesInputIndices_[k]? = some [] ∧
      (blueprintModules reg params).bp.modulesOutputIndices_[k]? = some [] := by
    obtain ⟨_, hin, hout⟩ := blueprintModules_stored reg params params.moduleCount
    unfold blueprintModules
    rw [blueprintModules_names, hin, hout]
    simp [hk, hzero]
  refine ⟨?_, hstored, ?_, ?_, ?_⟩
  · unfold InOutImageNums.index
    rw [hname]
  · intro bp hbp
    unfold WorldPipelineBlueprint.construct at hbp
    simp only at hbp
    cases hc : checkContinuous params.imageFormats (blueprintModules reg params).imageIndices 0 [] with
    | error e => simp [hc] at hbp
    | ok formats =>
      simp only [hc, Except.ok.injEq] at hbp
      subst hbp
      exact hstored
  · intro inputs outputs
    unfold WorldPipelineBlueprint.construct blueprintModules
    simp only
    rw [blueprintModules_ignores_unknown reg params k hname inputs outputs params.moduleCount]
  · have := (blueprintModules_registry reg params params.moduleCount).2.2 k hk hname
    exact this

/-- A descriptor registered under no name, placed between the two descriptors of the demo
pipeline and declaring the slots 7 and 9: the constructor succeeds with three slots, stores
it without indices, and gives the same blueprint whatever it declares. -/
theorem unknown_module_name_declares_no_slot_witness :
    (WorldPipelineBlueprint.construct demoRegistry ghostParams).2 =
      .ok { moduleNames_ := ["m", "ghost", "m"]
            attributeCounts_ := [0, 0, 0]
            attributeKVs_ := [[], [], []]
            modulesInputIndices_ := [[2], [], [1]]
            modulesOutputIndices_ := [[1], [], [0]]
            imageFormats_ := [37, 37, 37] } ∧
      (WorldPipelineBlueprint.construct demoRegistry ghostParams).1 =
        [("m", (1, 1)), ("ghost", (0, 0))] ∧
      ∀ inputs outputs : Nat → Nat,
        WorldPipelineBlueprint.construct demoRegistry
            { ghostParams with inputIndices := Function.update ghostParams.inputIndices 1 inputs
                               outputIndices := Function.update ghostParams.outputIndices 1 outputs } =
          WorldPipelineBlueprint.construct demoRegistry ghostParams :=
  ⟨rfl, by decide,
    (unknown_module_name_declares_no_slot demoRegistry ghostParams 1 (by decide) (by decide)).2.2.2.1⟩

/-! ## XeSS module: what the adoption loop accepts -/

theorem firstImage_mem (images : List (Option DeviceLocalImage)) (img : DeviceLocalImage)
    (h : firstImage images = some img) : some img ∈ images := by
  induction images with
  | nil => cases h
  | cons x rest ih =>
    cases x with
    | none => exact List.mem_cons_of_mem _ (ih h)
    | some y =>
      simp only [firstImage, Option.some.injEq] at h
      subst h
      exact List.mem_cons_self _ _

theorem firstImage_eq_none (images : List (Option DeviceLocalImage))
    (h : firstImage images = none) : ∀ x ∈ images, x = none := by
  induction images with
  | nil => intro x hx; cases hx
  | cons y rest ih =>
    cases y with
    | some z => cases h
    | none =>
      intro x hx
      rcases List.mem_cons.1 hx with hx | hx
      · exact hx
      · exact ih h x hx

/-- One iteration of the adoption loop on entry `i`: it goes on exactly when the entry is
empty or has the wanted size, it changes no other entry, it keeps an entry that held an
image, and it leaves entry `i` (when there is one) holding an image of the wanted size. -/
theorem adoptImage_spec (dir : Direction) (width height usage : Nat) (formats : List Nat)
    (frameIndex i : Nat) (acc : List (Option DeviceLocalImage) × XessWorld) :
    ((XessSrModule.adoptImage dir width height usage formats frameIndex i acc).isSome = true ↔
      ∀ img, acc.1.getD i none = some img → img.width = width ∧ img.height = height) ∧
    ∀ acc1, XessSrModule.adoptImage dir width height usage formats frameIndex i acc = some acc1 →
      acc1.1.length = acc.1.length ∧
      (∀ j, j ≠ i → acc1.1.getD j none = acc.1.getD j none) ∧
      (∀ img, acc.1.getD i none = some img → acc1.1.getD i none = some img) ∧
      (i < acc.1.length →
        ∃ img, acc1.1.getD i none = some img ∧ img.width = width ∧ img.height = height) := by
  unfold XessSrModule.adoptImage
  cases hget : acc.1.getD i none with
  | none =>
    refine ⟨⟨(fun _ img h => by cases h), fun _ => rfl⟩, ?_⟩
    intro acc1 h
    simp only [Option.some.injEq] at h
    subst h
    refine ⟨by simp, ?_, (fun img h => by cases h), ?_⟩
    · intro j hj
      exact getD_set_ne _ _ _ _ _ (fun e => hj e.symm)
    · intro hlt
      refine ⟨_, getD_set_eq _ _ _ _ hlt, rfl, rfl⟩
  | some img =>
    simp only
    by_cases hsize : img.width ≠ width ∨ img.height ≠ height
    · rw [if_pos hsize]
      refine ⟨⟨(fun h => by cases h), fun h => ?_⟩, fun acc1 h => by cases h⟩
      exfalso
      obtain ⟨h1, h2⟩ := h img rfl
      rcases hsize with h | h
      · exact h h1
      · exact h h2
    · rw [if_neg hsize]
      have hsize2 : img.width = width ∧ img.height = height := by
        constructor
        · by_contra h; exact hsize (Or.inl h)
        · by_contra h; exact hsize (Or.inr h)
      refine ⟨⟨fun _ img2 h => ?_, fun _ => rfl⟩, ?_⟩
      · simp only [Option.some.injEq] at h
        subst h
        exact hsize2
      · intro acc1 h
        simp only [Option.some.injEq] at h
        subst h
        refine ⟨rfl, fun _ _ => rfl, ?_, ?_⟩
        · intro img2 h2
          rw [hget]
          exact h2
        · intro _
          exact ⟨img, hget, hsize2⟩

/-- The adoption loop over the entries `i, ..., i + count - 1`: it runs to its end exactly
when every image among them has the wanted size; it never replaces an image; it leaves the
entries outside the range as they were; and when it runs to its end every entry of the
range holds an image of the wanted size. -/
theorem adoptImages_spec (dir : Direction) (width height usage : Nat) (formats : List Nat)
    (frameIndex : Nat) :
    ∀ (count i : Nat) (acc : List (Option DeviceLocalImage) × XessWorld),
      ((XessSrModule.adoptImages dir width height usage formats frameIndex i count acc).1 = true ↔
        ∀ j, i ≤ j → j < i + count → ∀ img, acc.1.getD j none = some img →
          img.width = width ∧ img.height = height) ∧
      (∀ j img, acc.1.getD j none = some img →
        (XessSrModule.adoptImages dir width height usage formats frameIndex i count acc).2.1.getD j
          none = some img) ∧
      ((XessSrModule.adoptImages dir width height usage formats frameIndex i count acc).1 = true →
        ∀ j, i ≤ j → j < i + count → j < acc.1.length →
          ∃ img, (XessSrModule.adoptImages dir width height usage formats frameIndex i count
            acc).2.1.getD j none = some img ∧ img.width = width ∧ img.height = height) := by
  intro count
  induction count with
  | zero =>
    intro i acc
    refine ⟨⟨fun _ j h1 h2 => by omega, fun _ => rfl⟩, fun j img h => h, ?_⟩
    intro _ j h1 h2
    omega
  | succ n ih =>
    intro i acc
    obtain ⟨hgo, hstep⟩ := adoptImage_spec dir width height usage formats frameIndex i acc
    simp only [XessSrModule.adoptImages]
    cases hrun : XessSrModule.adoptImage dir width height usage formats frameIndex i acc with
    | none =>
      have hno : ¬ ∀ img, acc.1.getD i none = some img → img.width = width ∧ img.height = height := by
        intro h
        have := hgo.2 h
        rw [hrun] at this
        cases this
      refine ⟨⟨(fun h => by cases h), fun h => ?_⟩, fun j img h => h, fun h => by cases h⟩
      exact absurd (fun img hi => h i (Nat.le_refl _) (by omega) img hi) hno
    | some acc1 =>
      obtain ⟨hlen, hother, hkeep, hfill⟩ := hstep acc1 hrun
      have hhere : ∀ img, acc.1.getD i none = some img → img.width = width ∧ img.height = height := by
        apply hgo.1
        rw [hrun]
        rfl
      obtain ⟨h1, h2, h3⟩ := ih (i + 1) acc1
      simp only
      refine ⟨?_, ?_, ?_⟩
      · rw [h1]
        constructor
        · intro h j hij hjn img hj
          by_cases hji : j = i
          · subst hji
            exact hhere img hj
          · exact h j (by omega) (by omega) img (by rw [hother j hji]; exact hj)
        · intro h j hij hjn img hj
          have hji : j ≠ i := by omega
          rw [hother j hji] at hj
          exact h j (by omega) (by omega) img hj
      · intro j img hj
        apply h2
        by_cases hji : j = i
        · subst hji
          exact hkeep img hj
        · rw [hother j hji]
          exact hj
      · intro hok j hij hjn hjlen
        by_cases hji : j = i
        · subst hji
          obtain ⟨img, himg, hsz⟩ := hfill hjlen
          exact ⟨img, h2 j img himg, hsz⟩
        · exact h3 hok j (by omega) (by omega) (by rw [hlen]; exact hjlen)
/-! ## XeSS module: the negotiation calls past their guards -/

theorem mem_iff_getD_some (images : List (Option DeviceLocalImage)) (img : DeviceLocalImage) :
    some img ∈ images ↔ ∃ j, j < images.length ∧ images.getD j none = some img := by
  constructor
  · intro h
    obtain ⟨j, hj, hget⟩ := List.getElem_of_mem h
    exact ⟨j, hj, by rw [List.getD_eq_getElem _ _ hj, hget]⟩
  · rintro ⟨j, hj, hget⟩
    rw [List.getD_eq_getElem _ _ hj] at hget
    rw [← hget]
    exact List.getElem_mem _

/-- The adoption loop run over a whole vector, as the two negotiation calls run it. -/
theorem adoptImages_whole (dir : Direction) (width height usage : Nat) (formats : List Nat)
    (frameIndex : Nat) (images : List (Option DeviceLocalImage)) (w : XessWorld) :
    ((XessSrModule.adoptImages dir width height usage formats frameIndex 0 images.length
        (images, w)).1 = true ↔
      ∀ img, some img ∈ images → img.width = width ∧ img.height = height) ∧
    ((XessSrModule.adoptImages dir width height usage formats frameIndex 0 images.length
        (images, w)).1 = true →
      ∀ x ∈ (XessSrModule.adoptImages dir width height usage formats frameIndex 0 images.length
        (images, w)).2.1, ∃ img, x = some img ∧ img.width = width ∧ img.height = height) := by
  obtain ⟨h1, _, h3⟩ := adoptImages_spec dir width height usage formats frameIndex
    images.length 0 (images, w)
  have hlen := (adoptImages_entries dir width height usage formats frameIndex
    images.length 0 (images, w)).1
  constructor
  · rw [h1]
    constructor
    · intro h img himg
      obtain ⟨j, hj, hget⟩ := (mem_iff_getD_some images img).1 himg
      exact h j (Nat.zero_le _) (by omega) img hget
    · intro h j _ hj img hget
      exact h img ((mem_iff_getD_some images img).2 ⟨j, by omega, hget⟩)
  · intro hok x hx
    obtain ⟨j, hj, hget⟩ := List.getElem_of_mem hx
    have hj2 : j < images.length := by rw [← hlen]; exact hj
    obtain ⟨img, himg, hsz⟩ := h3 hok j (Nat.zero_le _) (by omega) hj2
    rw [List.getD_eq_getElem _ _ hj, hget] at himg
    exact ⟨img, himg, hsz⟩

/-- `setOrCreateOutputImages` past its guards: it accepts exactly when every proposed image
has the display resolution it settled on, every entry then holds an image of that size, and
the module keeps that display resolution (and its render resolution). -/
theorem setOrCreateOutputImages_spec (env : XessEnv) (images : List (Option DeviceLocalImage))
    (formats : List Nat) (frameIndex : Nat) (w : XessWorld) (fw : XessFramework)
    (hlen : images.length = XessSrModule.outputImageNum) (hfw : env.framework = some fw) :
    ((XessSrModule.setOrCreateOutputImages env images formats frameIndex w).1.result = true ↔
      ∀ img, some img ∈ images →
        img.width = (XessSrModule.settleDisplayResolution fw images w.module).displayWidth_ ∧
        img.height = (XessSrModule.settleDisplayResolution fw images w.module).displayHeight_) ∧
    ((XessSrModule.setOrCreateOutputImages env images formats frameIndex w).1.result = true →
      ∀ x ∈ (XessSrModule.setOrCreateOutputImages env images formats frameIndex w).1.images,
        ∃ img, x = some img ∧
          img.width = (XessSrModule.settleDisplayResolution fw images w.module).displayWidth_ ∧
          img.height = (XessSrModule.settleDisplayResolution fw images w.module).displayHeight_) ∧
    (XessSrModule.setOrCreateOutputImages env images formats frameIndex w).2.module.displayWidth_ =
      (XessSrModule.settleDisplayResolution fw images w.module).displayWidth_ ∧
    (XessSrModule.setOrCreateOutputImages env images formats frameIndex w).2.module.displayHeight_ =
      (XessSrModule.settleDisplayResolution fw images w.module).displayHeight_ ∧
    (XessSrModule.setOrCreateOutputImages env images formats frameIndex w).2.module.renderWidth_ =
      (XessSrModule.settleDisplayResolution fw images w.module).renderWidth_ ∧
    (XessSrModule.setOrCreateOutputImages env images formats frameIndex w).2.module.renderHeight_ =
      (XessSrModule.settleDisplayResolution fw images w.module).renderHeight_ := by
  have hcall : XessSrModule.setOrCreateOutputImages env images formats frameIndex w =
      (⟨(XessSrModule.adoptImages .output
            (XessSrModule.settleDisplayResolution fw images w.module).displayWidth_
            (XessSrModule.settleDisplayResolution fw images w.module).displayHeight_
            xessOutputImageUsage formats frameIndex 0 images.length
            (images, { w with module := XessSrModule.settleDisplayResolution fw images w.module })).1,
          (XessSrModule.adoptImages .output
            (XessSrModule.settleDisplayResolution fw images w.module).displayWidth_
            (XessSrModule.settleDisplayResolution fw images w.module).displayHeight_
            xessOutputImageUsage formats frameIndex 0 images.length
            (images, { w with module := XessSrModule.settleDisplayResolution fw images w.module })).2.1,
          formats⟩,
        (XessSrModule.adoptImages .output
            (XessSrModule.settleDisplayResolution fw images w.module).displayWidth_
            (XessSrModule.settleDisplayResolution fw images w.module).displayHeight_
            xessOutputImageUsage formats frameIndex 0 images.length
            (images, { w with module := XessSrModule.settleDisplayResolution fw images w.module })).2.2) := by
    unfold XessSrModule.setOrCreateOutputImages
    rw [if_neg (by rw [hlen]; exact fun h => h rfl), hfw]
  obtain ⟨h1, h2⟩ := adoptImages_whole .output
    (XessSrModule.settleDisplayResolution fw images w.module).displayWidth_
    (XessSrModule.settleDisplayResolution fw images w.module).displayHeight_
    xessOutputImageUsage formats frameIndex images
    { w with module := XessSrModule.settleDisplayResolution fw images w.module }
  obtain ⟨f1, f2, f3, f4, _, _⟩ := adoptImages_fields .output
    (XessSrModule.settleDisplayResolution fw images w.module).displayWidth_
    (XessSrModule.settleDisplayResolution fw images w.module).displayHeight_
    xessOutputImageUsage formats frameIndex images.length 0
    (images, { w with module := XessSrModule.settleDisplayResolution fw images w.module })
  rw [hcall]
  exact ⟨h1, h2, f3, f4, f1, f2⟩

/-- `setOrCreateInputImages` past its guards, likewise, with the render resolution. -/
theorem setOrCreateInputImages_spec (env : XessEnv) (images : List (Option DeviceLocalImage))
    (formats : List Nat) (frameIndex : Nat) (w : XessWorld) (fw : XessFramework)
    (hlen : images.length = XessSrModule.inputImageNum) (hfw : env.framework = some fw) :
    ((XessSrModule.setOrCreateInputImages env images formats frameIndex w).1.result = true ↔
      ∀ img, some img ∈ images →
        img.width = (XessSrModule.settleRenderResolution env.sdk fw images
          (XessSrModule.fillDisplayFromSwapchain fw w.module)).renderWidth_ ∧
        img.height = (XessSrModule.settleRenderResolution env.sdk fw images
          (XessSrModule.fillDisplayFromSwapchain fw w.module)).renderHeight_) ∧
    ((XessSrModule.setOrCreateInputImages env images formats frameIndex w).1.result = true →
      ∀ x ∈ (XessSrModule.setOrCreateInputImages env images formats frameIndex w).1.images,
        ∃ img, x = some img ∧
          img.width = (XessSrModule.settleRenderResolution env.sdk fw images
            (XessSrModule.fillDisplayFromSwapchain fw w.module)).renderWidth_ ∧
          img.height = (XessSrModule.settleRenderResolution env.sdk fw images
            (XessSrModule.fillDisplayFromSwapchain fw w.module)).renderHeight_) ∧
    (XessSrModule.setOrCreateInputImages env images formats frameIndex w).2.module.renderWidth_ =
      (XessSrModule.settleRenderResolution env.sdk fw images
        (XessSrModule.fillDisplayFromSwapchain fw w.module)).renderWidth_ ∧
    (XessSrModule.setOrCreateInputImages env images formats frameIndex w).2.module.renderHeight_ =
      (XessSrModule.settleRenderResolution env.sdk fw images
        (XessSrModule.fillDisplayFromSwapchain fw w.module)).renderHeight_ := by
  have key : ∀ m, m = XessSrModule.settleRenderResolution env.sdk fw images
        (XessSrModule.fillDisplayFromSwapchain fw w.module) →
      XessSrModule.setOrCreateInputImages env images formats frameIndex w =
      (⟨(XessSrModule.adoptImages .input m.renderWidth_ m.renderHeight_ xessInputImageUsage formats
            frameIndex 0 images.length (images, { w with module := m })).1,
          (XessSrModule.adoptImages .input m.renderWidth_ m.renderHeight_ xessInputImageUsage formats
            frameIndex 0 images.length (images, { w with module := m })).2.1,
          formats⟩,
        (XessSrModule.adoptImages .input m.renderWidth_ m.renderHeight_ xessInputImageUsage formats
            frameIndex 0 images.length (images, { w with module := m })).2.2) := by
    intro m hm
    subst hm
    unfold XessSrModule.setOrCreateInputImages
    rw [if_neg (by rw [hlen]; exact fun h => h rfl), hfw]
  have hcall := key _ rfl
  generalize XessSrModule.settleRenderResolution env.sdk fw images
    (XessSrModule.fillDisplayFromSwapchain fw w.module) = m at hcall ⊢
  obtain ⟨h1, h2⟩ := adoptImages_whole .input m.renderWidth_ m.renderHeight_
    xessInputImageUsage formats frameIndex images { w with module := m }
  obtain ⟨f1, f2, _, _, _, _⟩ := adoptImages_fields .input m.renderWidth_ m.renderHeight_
    xessInputImageUsage formats frameIndex images.length 0 (images, { w with module := m })
  rw [hcall]
  exact ⟨h1, h2, f1, f2⟩

/-! ## XeSS module: resolutions pinned in the pool -/

theorem settleDisplayResolution_first (fw : XessFramework) (images : List (Option DeviceLocalImage))
    (m : XessSrModule) (img : DeviceLocalImage)
    (hunset : m.displayWidth_ = 0 ∨ m.displayHeight_ = 0) (hfirst : firstImage images = some img)
    (hw : 0 < img.width) (hh : 0 < img.height) :
    XessSrModule.settleDisplayResolution fw images m =
      { m with displayWidth_ := img.width, displayHeight_ := img.height } := by
  unfold XessSrModule.settleDisplayResolution
  rw [if_pos hunset, hfirst]
  simp only
  rw [if_neg (by omega)]

theorem settleDisplayResolution_none (fw : XessFramework) (images : List (Option DeviceLocalImage))
    (m : XessSrModule) (hunset : m.displayWidth_ = 0 ∨ m.displayHeight_ = 0)
    (hfirst : firstImage images = none) :
    XessSrModule.settleDisplayResolution fw images m =
      { m with displayWidth_ := fw.extent.1, displayHeight_ := fw.extent.2 } := by
  unfold XessSrModule.settleDisplayResolution
  rw [if_pos hunset, hfirst]
  simp only
  rw [if_pos hunset]

theorem settleRenderResolution_first (sdk : XessSdk) (fw : XessFramework)
    (images : List (Option DeviceLocalImage)) (m : XessSrModule) (img : DeviceLocalImage)
    (hunset : m.renderWidth_ = 0 ∨ m.renderHeight_ = 0) (hfirst : firstImage images = some img)
    (hw : 0 < img.width) (hh : 0 < img.height) :
    XessSrModule.settleRenderResolution sdk fw images m =
      { m with renderWidth_ := img.width, renderHeight_ := img.height } := by
  unfold XessSrModule.settleRenderResolution
  rw [if_pos hunset, hfirst]
  simp only
  rw [if_neg (by omega)]

theorem fillDisplayFromSwapchain_render (fw : XessFramework) (m : XessSrModule) :
    (XessSrModule.fillDisplayFromSwapchain fw m).renderWidth_ = m.renderWidth_ ∧
      (XessSrModule.fillDisplayFromSwapchain fw m).renderHeight_ = m.renderHeight_ := by
  unfold XessSrModule.fillDisplayFromSwapchain
  split_ifs <;> exact ⟨rfl, rfl⟩

/-- The two calls behind their guards: a vector of the wrong length or a dead framework is
rejected and nothing changes. -/
theorem setOrCreate_guards (env : XessEnv) (images : List (Option DeviceLocalImage))
    (formats : List Nat) (frameIndex : Nat) (w : XessWorld) :
    ((images.length ≠ XessSrModule.outputImageNum ∨ env.framework = none) →
      XessSrModule.setOrCreateOutputImages env images formats frameIndex w =
        (⟨false, images, formats⟩, w)) ∧
    ((images.length ≠ XessSrModule.inputImageNum ∨ env.framework = none) →
      XessSrModule.setOrCreateInputImages env images formats frameIndex w =
        (⟨false, images, formats⟩, w)) := by
  constructor
  · intro h
    unfold XessSrModule.setOrCreateOutputImages
    by_cases hlen : images.length ≠ XessSrModule.outputImageNum
    · rw [if_pos hlen]
    · rw [if_neg hlen]
      rcases h with h | h
      · exact absurd h hlen
      · rw [h]
  · intro h
    unfold XessSrModule.setOrCreateInputImages
    by_cases hlen : images.length ≠ XessSrModule.inputImageNum
    · rw [if_pos hlen]
    · rw [if_neg hlen]
      rcases h with h | h
      · exact absurd h hlen
      · rw [h]

/-- **C23.** The negotiation of `XessSrModule` adopts a resolution pinned in the pool. With
its display resolution unset, `setOrCreateOutputImages` (given two proposals, the framework
alive) takes it from the first non-empty proposed image, and from the swapchain extent when
every proposal is empty; with its render resolution unset, `setOrCreateInputImages` (given
four proposals) takes it from the first non-empty proposed image, whatever the backend
query would answer. Either call returns true only if the vector has the right length and
every entry ends holding an image of exactly the module's display (outputs) or render
(inputs) width and height; it returns false when the number of proposals is not 2 (outputs)
or 4 (inputs), and when a proposed image has another size. Images have a positive width
and height. -/
theorem xess_negotiation_adopts_pinned_resolution (env : XessEnv)
    (images : List (Option DeviceLocalImage)) (formats : List Nat) (frameIndex : Nat)
    (w : XessWorld) (hpos : ∀ img, some img ∈ images → 0 < img.width ∧ 0 < img.height) :
    (∀ fw, env.framework = some fw → images.length = 2 →
      (w.module.displayWidth_ = 0 ∨ w.module.displayHeight_ = 0) →
      (∀ img, firstImage images = some img →
        (XessSrModule.setOrCreateOutputImages env images formats frameIndex w).2.module.displayWidth_ =
            img.width ∧
          (XessSrModule.setOrCreateOutputImages env images formats frameIndex w).2.module.displayHeight_ =
            img.height) ∧
      (firstImage images = none →
        (XessSrModule.setOrCreateOutputImages env images formats frameIndex w).2.module.displayWidth_ =
            fw.extent.1 ∧
          (XessSrModule.setOrCreateOutputImages env images formats frameIndex w).2.module.displayHeight_ =
            fw.extent.2)) ∧
    (∀ fw img, env.framework = some fw → images.length = 4 →
      (w.module.renderWidth_ = 0 ∨ w.module.renderHeight_ = 0) → firstImage images = some img →
      (XessSrModule.setOrCreateInputImages env images formats frameIndex w).2.module.renderWidth_ =
          img.width ∧
        (XessSrModule.setOrCreateInputImages env images formats frameIndex w).2.module.renderHeight_ =
          img.height ∧
        ∀ sdk2, XessSrModule.setOrCreateInputImages { env with sdk := sdk2 } images formats
            frameIndex w =
          XessSrModule.setOrCreateInputImages env images formats frameIndex w) ∧
    ((XessSrModule.setOrCreateOutputImages env images formats frameIndex w).1.result = true →
      images.length = 2 ∧
      ∀ x ∈ (XessSrModule.setOrCreateOutputImages env images formats frameIndex w).1.images,
        ∃ img, x = some img ∧
          img.width =
            (XessSrModule.setOrCreateOutputImages env images formats frameIndex w).2.module.displayWidth_ ∧
          img.height =
            (XessSrModule.setOrCreateOutputImages env images formats frameIndex w).2.module.displayHeight_) ∧
    ((XessSrModule.setOrCreateInputImages env images formats frameIndex w).1.result = true →
      images.length = 4 ∧
      ∀ x ∈ (XessSrModule.setOrCreateInputImages env images formats frameIndex w).1.images,
        ∃ img, x = some img ∧
          img.width =
            (XessSrModule.setOrCreateInputImages env images formats frameIndex w).2.module.renderWidth_ ∧
          img.height =
            (XessSrModule.setOrCreateInputImages env images formats frameIndex w).2.module.renderHeight_) ∧
    ((images.length ≠ 2 ∨ ∃ img, some img ∈ images ∧
        (img.width ≠
            (XessSrModule.setOrCreateOutputImages env images formats frameIndex w).2.module.displayWidth_ ∨
          img.height ≠
            (XessSrModule.setOrCreateOutputImages env images formats frameIndex w).2.module.displayHeight_)) →
      (XessSrModule.setOrCreateOutputImages env images formats frameIndex w).1.result = false) ∧
    ((images.length ≠ 4 ∨ ∃ img, some img ∈ images ∧
        (img.width ≠
            (XessSrModule.setOrCreateInputImages env images formats frameIndex w).2.module.renderWidth_ ∨
          img.height ≠
            (XessSrModule.setOrCreateInputImages env images formats frameIndex w).2.module.renderHeight_)) →
      (XessSrModule.setOrCreateInputImages env images formats frameIndex w).1.result = false) := by
  obtain ⟨gout, gin⟩ := setOrCreate_guards env images formats frameIndex w
  refine ⟨?_, ?_, ?_, ?_, ?_, ?_⟩
  · intro fw hfw hlen hunset
    obtain ⟨_, _, d1, d2, _, _⟩ := setOrCreateOutputImages_spec env images formats frameIndex w fw
      hlen hfw
    rw [d1, d2]
    constructor
    · intro img hfirst
      obtain ⟨pw, ph⟩ := hpos img (firstImage_mem images img hfirst)
      rw [settleDisplayResolution_first fw images w.module img hunset hfirst pw ph]
      exact ⟨rfl, rfl⟩
    · intro hnone
      rw [settleDisplayResolution_none fw images w.module hunset hnone]
      exact ⟨rfl, rfl⟩
  · intro fw img hfw hlen hunset hfirst
    obtain ⟨pw, ph⟩ := hpos img (firstImage_mem images img hfirst)
    obtain ⟨r1, r2⟩ := fillDisplayFromSwapchain_render fw w.module
    have hunset2 : (XessSrModule.fillDisplayFromSwapchain fw w.module).renderWidth_ = 0 ∨
        (XessSrModule.fillDisplayFromSwapchain fw w.module).renderHeight_ = 0 := by
      rw [r1, r2]; exact hunset
    have hsettle : ∀ sdk : XessSdk, XessSrModule.settleRenderResolution sdk fw images
        (XessSrModule.fillDisplayFromSwapchain fw w.module) =
        { XessSrModule.fillDisplayFromSwapchain fw w.module with
          renderWidth_ := img.width, renderHeight_ := img.height } :=
      fun sdk => settleRenderResolution_first sdk fw images _ img hunset2 hfirst pw ph
    obtain ⟨_, _, d1, d2⟩ := setOrCreateInputImages_spec env images formats frameIndex w fw hlen hfw
    refine ⟨?_, ?_, ?_⟩
    · rw [d1, hsettle]
    · rw [d2, hsettle]
    · intro sdk2
      unfold XessSrModule.setOrCreateInputImages
      simp only [hfw, hsettle]
  · intro htrue
    have hlen : images.length = 2 := by
      by_contra hne
      rw [gout (Or.inl hne)] at htrue
      cases htrue
    refine ⟨hlen, ?_⟩
    cases hfw : env.framework with
    | none =>
      rw [gout (Or.inr hfw)] at htrue
      cases htrue
    | some fw =>
      obtain ⟨_, hall, d1, d2, _, _⟩ := setOrCreateOutputImages_spec env images formats frameIndex
        w fw hlen hfw
      rw [d1, d2]
      exact hall htrue
  · intro htrue
    have hlen : images.length = 4 := by
      by_contra hne
      rw [gin (Or.inl hne)] at htrue
      cases htrue
    refine ⟨hlen, ?_⟩
    cases hfw : env.framework with
    | none =>
      rw [gin (Or.inr hfw)] at htrue
      cases htrue
    | some fw =>
      obtain ⟨_, hall, d1, d2⟩ := setOrCreateInputImages_spec env images formats frameIndex
        w fw hlen hfw
      rw [d1, d2]
      exact hall htrue
  · intro h
    by_cases hlen : images.length = 2
    · cases hfw : env.framework with
      | none => rw [gout (Or.inr hfw)]
      | some fw =>
        obtain ⟨hiff, _, d1, d2, _, _⟩ := setOrCreateOutputImages_spec env images formats
          frameIndex w fw hlen hfw
        rcases h with h | ⟨img, himg, hne⟩
        · exact absurd hlen h
        · rw [d1, d2] at hne
          cases hres : (XessSrModule.setOrCreateOutputImages env images formats frameIndex
            w).1.result with
          | false => rfl
          | true =>
            obtain ⟨e1, e2⟩ := hiff.1 hres img himg
            rcases hne with hne | hne
            · exact absurd e1 hne
            · exact absurd e2 hne
    · rw [gout (Or.inl hlen)]
  · intro h
    by_cases hlen : images.length = 4
    · cases hfw : env.framework with
      | none => rw [gin (Or.inr hfw)]
      | some fw =>
        obtain ⟨hiff, _, d1, d2⟩ := setOrCreateInputImages_spec env images formats
          frameIndex w fw hlen hfw
        rcases h with h | ⟨img, himg, hne⟩
        · exact absurd hlen h
        · rw [d1, d2] at hne
          cases hres : (XessSrModule.setOrCreateInputImages env images formats frameIndex
            w).1.result with
          | false => rfl
          | true =>
            obtain ⟨e1, e2⟩ := hiff.1 hres img himg
            rcases hne with hne | hne
            · exact absurd e1 hne
            · exact absurd e2 hne
    · rw [gin (Or.inl hlen)]

/-- A fresh module offered a 1280 x 720 image for its first output slot and nothing for the
second: it takes 1280 x 720 as its display resolution. -/
theorem xess_negotiation_adopts_pinned_resolution_witness :
    (XessSrModule.setOrCreateOutputImages (demoEnv true) [some ⟨3, 1280, 720, 97, 28⟩, none]
        [97, 100] 0 (freshXessWorld true)).2.module.displayWidth_ = 1280 ∧
      (XessSrModule.setOrCreateOutputImages (demoEnv true) [some ⟨3, 1280, 720, 97, 28⟩, none]
        [97, 100] 0 (freshXessWorld true)).2.module.displayHeight_ = 720 :=
  ((xess_negotiation_adopts_pinned_resolution (demoEnv true) [some ⟨3, 1280, 720, 97, 28⟩, none]
    [97, 100] 0 (freshXessWorld true) (by simp)).1 ⟨(1920, 1080), 2, 1, 1, 1⟩ rfl rfl
      (Or.inl rfl)).1 ⟨3, 1280, 720, 97, 28⟩ rfl

set_option maxRecDepth 20000 in
/-- The same call fills the second entry at 1280 x 720 and accepts; with a 640 x 360 image
in the second entry it rejects; with three proposals it rejects; and four empty input
proposals are filled at the render resolution of the table for 1920 x 1080, 1129 x 635. -/
theorem demo_xess_negotiation :
    (XessSrModule.setOrCreateOutputImages (demoEnv true) [some ⟨3, 1280, 720, 97, 28⟩, none]
        [97, 100] 0 (freshXessWorld true)).1.result = true ∧
      (XessSrModule.setOrCreateOutputImages (demoEnv true) [some ⟨3, 1280, 720, 97, 28⟩, none]
        [97, 100] 0 (freshXessWorld true)).1.images =
          [some ⟨3, 1280, 720, 97, 28⟩, some ⟨0, 1280, 720, 100, xessOutputImageUsage⟩] ∧
      (XessSrModule.setOrCreateOutputImages (demoEnv true)
        [some ⟨3, 1280, 720, 97, 28⟩, some ⟨4, 640, 360, 100, 28⟩]
        [97, 100] 0 (freshXessWorld true)).1.result = false ∧
      (XessSrModule.setOrCreateOutputImages (demoEnv true) [none, none, none]
        [97, 100, 100] 0 (freshXessWorld true)).1.result = false ∧
      (XessSrModule.setOrCreateInputImages (demoEnv true) [none, none, none, none]
        [97, 100, 83, 100] 0 (freshXessWorld true)).1.images =
          [some ⟨0, 1129, 635, 97, xessInputImageUsage⟩,
           some ⟨1, 1129, 635, 100, xessInputImageUsage⟩,
           some ⟨2, 1129, 635, 83, xessInputImageUsage⟩,
           some ⟨3, 1129, 635, 100, xessInputImageUsage⟩] := by
  decide

/-! ## `XessSrModule` under the builder: a rejection stays a rejection -/

theorem worldModule_setOrCreate (env : XessEnv) (dir : Direction)
    (images : List (Option DeviceLocalImage)) (formats : List Nat) (frameIndex : Nat)
    (w : XessWorld) :
    (XessSrModule.worldModule env).setOrCreate dir images formats frameIndex w =
      .ok (XessSrModule.setOrCreate env dir images formats frameIndex w) := by
  cases dir <;> rfl

/-- `createImageAt` never replaces an image. -/
theorem createImageAt_keeps {W : Type} (fw : Framework W) (f idx width height format : Nat)
    (s : InitState W) (f1 idx1 : Nat) (img : DeviceLocalImage)
    (h : s.wp.sharedImages_.at f1 idx1 = some img) :
    (createImageAt fw f idx width height format s).wp.sharedImages_.at f1 idx1 = some img := by
  unfold createImageAt
  cases hcell : s.wp.sharedImages_.at f idx with
  | some img0 => exact h
  | none =>
    show (s.wp.sharedImages_.put f idx _).at f1 idx1 = some img
    rw [at_put]
    have hne : ¬ (f1 = f ∧ idx1 = idx ∧ idx < s.wp.sharedImages_.rowLength f) := by
      rintro ⟨e1, e2, _⟩
      subst e1 e2
      rw [hcell] at h
      cases h
    rw [if_neg hne]
    exact h

/-- Under the builder of an `XessWorld`, `createImageAt` leaves the upscaler module alone. -/
theorem createImageAt_module (xfw : XessFramework) (useAmd : Bool)
    (f idx width height format : Nat) (s : InitState XessWorld) :
    (createImageAt (xfw.builder useAmd) f idx width height format s).world.module =
      s.world.module := by
  unfold createImageAt
  cases s.wp.sharedImages_.at f idx <;> rfl

/-- The fallback loop, whatever the slots are: it never replaces an image of the pool, it
keeps the length of the vector, and an entry whose slot held an image before holds that
image after. -/
theorem fallbackFill_keeps {W : Type} (fw : Framework W) (bp : WorldPipelineBlueprint)
    (dir : Direction) (i f : Nat) (extent : Nat × Nat) (indices : List Nat)
    (acc : List (Option DeviceLocalImage) × InitState W) :
    (∀ f1 idx1 img, acc.2.wp.sharedImages_.at f1 idx1 = some img →
      (fallbackFill fw bp dir i f extent indices acc).2.wp.sharedImages_.at f1 idx1 = some img) ∧
    (fallbackFill fw bp dir i f extent indices acc).1.length = acc.1.length ∧
    (∀ j img, j < indices.length → j < acc.1.length →
      acc.2.wp.sharedImages_.at f (indices.getD j 0) = some img →
      (fallbackFill fw bp dir i f extent indices acc).1.getD j none = some img) := by
  unfold fallbackFill
  have key : ∀ n,
      (∀ f1 idx1 img, acc.2.wp.sharedImages_.at f1 idx1 = some img →
        (forLoop n
          (fun j (acc : List (Option DeviceLocalImage) × InitState W) =>
            let idx := indices.getD j 0
            let s1 := createImageAt fw f idx extent.1 extent.2 (bp.imageFormats_.getD idx 0)
              { acc.2 with trace := acc.2.trace ++
                  [.createImageAt dir i f idx extent.1 extent.2 (bp.imageFormats_.getD idx 0)] }
            (acc.1.set j (s1.wp.sharedImages_.at f idx), s1))
          acc).2.wp.sharedImages_.at f1 idx1 = some img) ∧
      (forLoop n
          (fun j (acc : List (Option DeviceLocalImage) × InitState W) =>
            let idx := indices.getD j 0
            let s1 := createImageAt fw f idx extent.1 extent.2 (bp.imageFormats_.getD idx 0)
              { acc.2 with trace := acc.2.trace ++
                  [.createImageAt dir i f idx extent.1 extent.2 (bp.imageFormats_.getD idx 0)] }
            (acc.1.set j (s1.wp.sharedImages_.at f idx), s1))
          acc).1.length = acc.1.length ∧
      (∀ j img, j < n → j < acc.1.length →
        acc.2.wp.sharedImages_.at f (indices.getD j 0) = some img →
        (forLoop n
          (fun j (acc : List (Option DeviceLocalImage) × InitState W) =>
            let idx := indices.getD j 0
            let s1 := createImageAt fw f idx extent.1 extent.2 (bp.imageFormats_.getD idx 0)
              { acc.2 with trace := acc.2.trace ++
                  [.createImageAt dir i f idx extent.1 extent.2 (bp.imageFormats_.getD idx 0)] }
            (acc.1.set j (s1.wp.sharedImages_.at f idx), s1))
          acc).1.getD j none = some img) := by
    intro n
    induction n with
    | zero =>
      rw [forLoop_zero]
      exact ⟨fun _ _ _ h => h, rfl, fun j _ hj => absurd hj (Nat.not_lt_zero j)⟩
    | succ k ih =>
      rw [forLoop_succ]
      obtain ⟨h1, h2, h3⟩ := ih
      generalize forLoop k
        (fun j (acc : List (Option DeviceLocalImage) × InitState W) =>
          let idx := indices.getD j 0
          let s1 := createImageAt fw f idx extent.1 extent.2 (bp.imageFormats_.getD idx 0)
            { acc.2 with trace := acc.2.trace ++
                [.createImageAt dir i f idx extent.1 extent.2 (bp.imageFormats_.getD idx 0)] }
          (acc.1.set j (s1.wp.sharedImages_.at f idx), s1))
        acc = r at h1 h2 h3
      simp only
      refine ⟨?_, ?_, ?_⟩
      · intro f1 idx1 img h
        exact createImageAt_keeps fw f _ _ _ _ _ f1 idx1 img (h1 f1 idx1 img h)
      · rw [List.length_set, h2]
      · intro j img hj hjlen hcell
        by_cases hjk : j = k
        · subst hjk
          rw [getD_set_eq _ _ _ _ (by rw [h2]; exact hjlen)]
          exact createImageAt_keeps fw f _ _ _ _ _ f _ img (h1 f _ img hcell)
        · rw [getD_set_ne _ _ _ _ _ (fun e => hjk e.symm)]
          exact h3 j img (by omega) hjlen hcell
  obtain ⟨k1, k2, k3⟩ := key indices.length
  exact ⟨k1, k2, k3⟩

/-- Under the builder of an `XessWorld`, the fallback loop leaves the upscaler module alone. -/
theorem fallbackFill_module (xfw : XessFramework) (useAmd : Bool) (bp : WorldPipelineBlueprint)
    (dir : Direction) (i f : Nat) (extent : Nat × Nat) (indices : List Nat)
    (acc : List (Option DeviceLocalImage) × InitState XessWorld) :
    (fallbackFill (xfw.builder useAmd) bp dir i f extent indices acc).2.world.module =
      acc.2.world.module := by
  unfold fallbackFill
  induction indices.length with
  | zero => rfl
  | succ k ih =>
    rw [forLoop_succ]
    simp only [createImageAt_module]
    exact ih

theorem settleDisplayResolution_set (fw : XessFramework) (images : List (Option DeviceLocalImage))
    (m : XessSrModule) (h1 : m.displayWidth_ ≠ 0) (h2 : m.displayHeight_ ≠ 0) :
    XessSrModule.settleDisplayResolution fw images m = m := by
  unfold XessSrModule.settleDisplayResolution
  rw [if_neg (by rintro (h | h); exact h1 h; exact h2 h)]

theorem settleRenderResolution_set (sdk : XessSdk) (fw : XessFramework)
    (images : List (Option DeviceLocalImage)) (m : XessSrModule) (h1 : m.renderWidth_ ≠ 0)
    (h2 : m.renderHeight_ ≠ 0) :
    XessSrModule.settleRenderResolution sdk fw images m = m := by
  unfold XessSrModule.settleRenderResolution
  rw [if_neg (by rintro (h | h); exact h1 h; exact h2 h)]

/-- With a proposed image (of positive size) the display resolution the output call settles
on has no zero side. -/
theorem settleDisplayResolution_ne_zero (fw : XessFramework)
    (images : List (Option DeviceLocalImage)) (m : XessSrModule) (img : DeviceLocalImage)
    (hmem : some img ∈ images) (hpos : ∀ x, some x ∈ images → 0 < x.width ∧ 0 < x.height) :
    (XessSrModule.settleDisplayResolution fw images m).displayWidth_ ≠ 0 ∧
      (XessSrModule.settleDisplayResolution fw images m).displayHeight_ ≠ 0 := by
  by_cases hunset : m.displayWidth_ = 0 ∨ m.displayHeight_ = 0
  · cases hfirst : firstImage images with
    | none => exact absurd (firstImage_eq_none images hfirst _ hmem) (by simp)
    | some img0 =>
      obtain ⟨pw, ph⟩ := hpos img0 (firstImage_mem images img0 hfirst)
      rw [settleDisplayResolution_first fw images m img0 hunset hfirst pw ph]
      exact ⟨by show img0.width ≠ 0; omega, by show img0.height ≠ 0; omega⟩
  · have h1 : m.displayWidth_ ≠ 0 := fun h => hunset (Or.inl h)
    have h2 : m.displayHeight_ ≠ 0 := fun h => hunset (Or.inr h)
    rw [settleDisplayResolution_set fw images m h1 h2]
    exact ⟨h1, h2⟩

/-- Likewise for the render resolution the input call settles on. -/
theorem settleRenderResolution_ne_zero (sdk : XessSdk) (fw : XessFramework)
    (images : List (Option DeviceLocalImage)) (m : XessSrModule) (img : DeviceLocalImage)
    (hmem : some img ∈ images) (hpos : ∀ x, some x ∈ images → 0 < x.width ∧ 0 < x.height) :
    (XessSrModule.settleRenderResolution sdk fw images m).renderWidth_ ≠ 0 ∧
      (XessSrModule.settleRenderResolution sdk fw images m).renderHeight_ ≠ 0 := by
  by_cases hunset : m.renderWidth_ = 0 ∨ m.renderHeight_ = 0
  · cases hfirst : firstImage images with
    | none => exact absurd (firstImage_eq_none images hfirst _ hmem) (by simp)
    | some img0 =>
      obtain ⟨pw, ph⟩ := hpos img0 (firstImage_mem images img0 hfirst)
      rw [settleRenderResolution_first sdk fw images m img0 hunset hfirst pw ph]
      exact ⟨by show img0.width ≠ 0; omega, by show img0.height ≠ 0; omega⟩
  · have h1 : m.renderWidth_ ≠ 0 := fun h => hunset (Or.inl h)
    have h2 : m.renderHeight_ ≠ 0 := fun h => hunset (Or.inr h)
    rw [settleRenderResolution_set sdk fw images m h1 h2]
    exact ⟨h1, h2⟩

/-- A rejected negotiation call of `XessSrModule` is rejected again on every vector of the
same length that still holds, entry by entry, the images the first one held, with the
module as the first call left it. -/
theorem xess_retry_rejected (env : XessEnv) (dir : Direction)
    (images images2 : List (Option DeviceLocalImage)) (formats formats2 : List Nat)
    (frameIndex : Nat) (w w2 : XessWorld)
    (hpos : ∀ img, some img ∈ images → 0 < img.width ∧ 0 < img.height)
    (hrej : (XessSrModule.setOrCreate env dir images formats frameIndex w).1.result = false)
    (hlen : images2.length = images.length)
    (hkeep : ∀ j img, images.getD j none = some img → images2.getD j none = some img)
    (hmod : w2.module = (XessSrModule.setOrCreate env dir images formats frameIndex w).2.module) :
    (XessSrModule.setOrCreate env dir images2 formats2 frameIndex w2).1.result = false := by
  have hmem2 : ∀ img, some img ∈ images → some img ∈ images2 := by
    intro img h
    obtain ⟨j, hj, hget⟩ := (mem_iff_getD_some images img).1 h
    exact (mem_iff_getD_some images2 img).2 ⟨j, by omega, hkeep j img hget⟩
  cases dir with
  | output =>
    simp only [XessSrModule.setOrCreate] at hrej hmod ⊢
    by_cases hl : images.length = XessSrModule.outputImageNum
    · cases hfw : env.framework with
      | none =>
        rw [(setOrCreate_guards env images2 formats2 frameIndex w2).1 (Or.inr hfw)]
      | some fw =>
        obtain ⟨hiff, _, d1, d2, _, _⟩ := setOrCreateOutputImages_spec env images formats
          frameIndex w fw hl hfw
        obtain ⟨hiff2, _, _, _, _, _⟩ := setOrCreateOutputImages_spec env images2 formats2
          frameIndex w2 fw (hlen.trans hl) hfw
        have hex : ∃ img, some img ∈ images ∧
            ¬ (img.width = (XessSrModule.settleDisplayResolution fw images w.module).displayWidth_ ∧
              img.height =
                (XessSrModule.settleDisplayResolution fw images w.module).displayHeight_) := by
          by_contra hno
          have hall : ∀ img, some img ∈ images →
              img.width = (XessSrModule.settleDisplayResolution fw images w.module).displayWidth_ ∧
              img.height =
                (XessSrModule.settleDisplayResolution fw images w.module).displayHeight_ := by
            intro img himg
            by_contra hbad
            exact hno ⟨img, himg, hbad⟩
          rw [hiff.2 hall] at hrej
          cases hrej
        obtain ⟨img, himg, hbad⟩ := hex
        obtain ⟨n1, n2⟩ := settleDisplayResolution_ne_zero fw images w.module img himg hpos
        have hsame : XessSrModule.settleDisplayResolution fw images2 w2.module = w2.module := by
          apply settleDisplayResolution_set
          · rw [hmod, d1]; exact n1
          · rw [hmod, d2]; exact n2
        cases hres : (XessSrModule.setOrCreateOutputImages env images2 formats2 frameIndex
          w2).1.result with
        | false => rfl
        | true =>
          exfalso
          have := hiff2.1 hres img (hmem2 img himg)
          rw [hsame, hmod, d1, d2] at this
          exact hbad this
    · rw [(setOrCreate_guards env images2 formats2 frameIndex w2).1 (Or.inl (by rw [hlen]; exact hl))]
  | input =>
    simp only [XessSrModule.setOrCreate] at hrej hmod ⊢
    by_cases hl : images.length = XessSrModule.inputImageNum
    · cases hfw : env.framework with
      | none =>
        rw [(setOrCreate_guards env images2 formats2 frameIndex w2).2 (Or.inr hfw)]
      | some fw =>
        obtain ⟨hiff, _, d1, d2⟩ := setOrCreateInputImages_spec env images formats
          frameIndex w fw hl hfw
        obtain ⟨hiff2, _, _, _⟩ := setOrCreateInputImages_spec env images2 formats2
          frameIndex w2 fw (hlen.trans hl) hfw
        generalize hm : XessSrModule.settleRenderResolution env.sdk fw images
          (XessSrModule.fillDisplayFromSwapchain fw w.module) = m at hiff d1 d2
        have hex : ∃ img, some img ∈ images ∧
            ¬ (img.width = m.renderWidth_ ∧ img.height = m.renderHeight_) := by
          by_contra hno
          have hall : ∀ img, some img ∈ images →
              img.width = m.renderWidth_ ∧ img.height = m.renderHeight_ := by
            intro img himg
            by_contra hbad
            exact hno ⟨img, himg, hbad⟩
          rw [hiff.2 hall] at hrej
          cases hrej
        obtain ⟨img, himg, hbad⟩ := hex
        obtain ⟨n1, n2⟩ := settleRenderResolution_ne_zero env.sdk fw images
          (XessSrModule.fillDisplayFromSwapchain fw w.module) img himg hpos
        rw [hm] at n1 n2
        obtain ⟨r1, r2⟩ := fillDisplayFromSwapchain_render fw w2.module
        have hsame : XessSrModule.settleRenderResolution env.sdk fw images2
            (XessSrModule.fillDisplayFromSwapchain fw w2.module) =
            XessSrModule.fillDisplayFromSwapchain fw w2.module := by
          apply settleRenderResolution_set
          · rw [r1, hmod, d1]; exact n1
          · rw [r2, hmod, d2]; exact n2
        cases hres : (XessSrModule.setOrCreateInputImages env images2 formats2 frameIndex
          w2).1.result with
        | false => rfl
        | true =>
          exfalso
          have := hiff2.1 hres img (hmem2 img himg)
          rw [hsame, r1, r2, hmod, d1, d2] at this
          exact hbad this
    · rw [(setOrCreate_guards env images2 formats2 frameIndex w2).2 (Or.inl (by rw [hlen]; exact hl))]

/-- A negotiation call of `XessSrModule` made by the builder returns, and is logged with
the flag it returned. -/
theorem callSetOrCreate_xess (env : XessEnv) (dir : Direction) (i frameIndex : Nat) (retry : Bool)
    (images : List (Option DeviceLocalImage)) (formats : List Nat) (s : InitState XessWorld) :
    callSetOrCreate (XessSrModule.worldModule env) dir i frameIndex retry images formats s =
      .ok ((XessSrModule.setOrCreate env dir images formats frameIndex s.world).1,
        { s with
          world := (XessSrModule.setOrCreate env dir images formats frameIndex s.world).2
          trace := s.trace ++ [.negotiate dir i frameIndex retry images formats
            (some (XessSrModule.setOrCreate env dir images formats frameIndex s.world).1.result)] }) := by
  unfold callSetOrCreate
  rw [worldModule_setOrCreate]

theorem setOrCreate_length (env : XessEnv) (dir : Direction)
    (images : List (Option DeviceLocalImage)) (formats : List Nat) (frameIndex : Nat)
    (w : XessWorld) :
    (XessSrModule.setOrCreate env dir images formats frameIndex w).1.images.length =
      images.length := by
  cases dir with
  | output => exact (xess_negotiation_fills env images formats frameIndex w).2.1
  | input => exact (xess_negotiation_fills env images formats frameIndex w).1.1

theorem proposal_getD (bp : WorldPipelineBlueprint) (dir : Direction) (i f : Nat)
    (pool : SharedImages) (j : Nat) (img : DeviceLocalImage)
    (h : (proposal bp dir i f pool).1.getD j none = some img) :
    j < (moduleIndices bp dir i).length ∧ pool.at f ((moduleIndices bp dir i).getD j 0) = some img := by
  unfold proposal at h
  simp only at h
  by_cases hj : j < (moduleIndices bp dir i).length
  · refine ⟨hj, ?_⟩
    rw [List.getD_eq_getElem _ _ (by simpa using hj), List.getElem_map] at h
    rw [List.getD_eq_getElem _ _ hj]
    exact h
  · exfalso
    have hle : ((moduleIndices bp dir i).map fun idx => pool.at f idx).length ≤ j := by
      simpa using Nat.le_of_not_lt hj
    rw [List.getD_eq_default _ _ hle] at h
    cases h

/-- The negotiation of one direction by `XessSrModule`, when its first call is rejected on a
proposal of images of positive size: the retry after the fallback is rejected as well, and
the negotiation throws. -/
theorem xess_negotiate_rejected (env : XessEnv) (xfw : XessFramework) (useAmd : Bool)
    (bp : WorldPipelineBlueprint) (dir : Direction) (i f : Nat) (s : InitState XessWorld)
    (hpos : ∀ img, some img ∈ (proposal bp dir i f s.wp.sharedImages_).1 →
      0 < img.width ∧ 0 < img.height)
    (hrej : (XessSrModule.setOrCreate env dir (proposal bp dir i f s.wp.sharedImages_).1
      (proposal bp dir i f s.wp.sharedImages_).2 f s.world).1.result = false) :
    ∃ s3 images2 formats2,
      negotiate (xfw.builder useAmd) bp (XessSrModule.worldModule env) dir i f s =
        .error (notSetProperly dir, s3) ∧
      InitEvent.negotiate dir i f true images2 formats2 (some false) ∈ s3.trace := by
  have hretry : ∀ (r1 : Negotiated) (s1 : InitState XessWorld),
      callSetOrCreate (XessSrModule.worldModule env) dir i f false
        (proposal bp dir i f s.wp.sharedImages_).1 (proposal bp dir i f s.wp.sharedImages_).2 s =
        .ok (r1, s1) →
      (XessSrModule.setOrCreate env dir
        (fallbackStep (xfw.builder useAmd) bp dir i f r1.images s1).1 r1.formats f
        (fallbackStep (xfw.builder useAmd) bp dir i f r1.images s1).2.world).1.result = false := by
    intro r1 s1 h1
    rw [callSetOrCreate_xess] at h1
    simp only [Except.ok.injEq, Prod.mk.injEq] at h1
    obtain ⟨e1, e2⟩ := h1
    subst e1 e2
    obtain ⟨_, k2, k3⟩ := fallbackFill_keeps (xfw.builder useAmd) bp dir i f
      (inferModuleExtent s.wp.sharedImages_ (xfw.builder useAmd).extent f
        (moduleIndices bp .output i) (moduleIndices bp .input i))
      (moduleIndices bp dir i)
      ((XessSrModule.setOrCreate env dir (proposal bp dir i f s.wp.sharedImages_).1
          (proposal bp dir i f s.wp.sharedImages_).2 f s.world).1.images,
        { s with
          world := (XessSrModule.setOrCreate env dir (proposal bp dir i f s.wp.sharedImages_).1
            (proposal bp dir i f s.wp.sharedImages_).2 f s.world).2
          trace := s.trace ++ [.negotiate dir i f false (proposal bp dir i f s.wp.sharedImages_).1
            (proposal bp dir i f s.wp.sharedImages_).2
            (some (XessSrModule.setOrCreate env dir (proposal bp dir i f s.wp.sharedImages_).1
              (proposal bp dir i f s.wp.sharedImages_).2 f s.world).1.result)] })
    have hlen1 := setOrCreate_length env dir (proposal bp dir i f s.wp.sharedImages_).1
      (proposal bp dir i f s.wp.sharedImages_).2 f s.world
    have hplen := proposal_length bp dir i f s.wp.sharedImages_
    apply xess_retry_rejected env dir (proposal bp dir i f s.wp.sharedImages_).1 _
      (proposal bp dir i f s.wp.sharedImages_).2 _ f s.world _ hpos hrej
    · unfold fallbackStep
      rw [k2, hlen1]
    · intro j img hj
      obtain ⟨hjl, hcell⟩ := proposal_getD bp dir i f s.wp.sharedImages_ j img hj
      unfold fallbackStep
      apply k3 j img hjl
      · show j < (XessSrModule.setOrCreate env dir (proposal bp dir i f s.wp.sharedImages_).1
          (proposal bp dir i f s.wp.sharedImages_).2 f s.world).1.images.length
        rw [hlen1, hplen]
        exact hjl
      · exact hcell
    · unfold fallbackStep
      rw [fallbackFill_module]
  rcases negotiate_cases (xfw.builder useAmd) bp (XessSrModule.worldModule env) dir i f s with
    ⟨e, h1, _⟩ | ⟨r1, s1, h1, hr, _⟩ | ⟨r1, s1, h1, hr, hrest⟩
  · rw [callSetOrCreate_xess] at h1
    cases h1
  · exfalso
    rw [callSetOrCreate_xess] at h1
    simp only [Except.ok.injEq, Prod.mk.injEq] at h1
    rw [← h1.1, hrej] at hr
    cases hr
  · have hr2 := hretry r1 s1 h1
    rcases hrest with ⟨e, h2, _⟩ | ⟨r2, s3, h2, hr3, _⟩ | ⟨r2, s3, h2, hr3, hneg⟩
    · rw [callSetOrCreate_xess] at h2
      cases h2
    · exfalso
      rw [callSetOrCreate_xess] at h2
      simp only [Except.ok.injEq, Prod.mk.injEq] at h2
      rw [← h2.1, hr2] at hr3
      cases hr3
    · refine ⟨s3, (fallbackStep (xfw.builder useAmd) bp dir i f r1.images s1).1, r1.formats,
        hneg, ?_⟩
      obtain ⟨_, ht⟩ := callSetOrCreate_wp _ _ _ _ _ _ _ _ _ _ h2
      rw [ht, hr3]
      exact List.mem_append_right _ (List.mem_singleton_self _)

/-! ## `init`: a property of the log that every step keeps -/

/-- A property of logs that holds of the empty log, that the `construct`, `setAttributes` and
`build` events keep, and that the negotiation of every module the registry can construct
for its place keeps, holds of the log of `init`, whether `init` returns or throws. -/
theorem init_log_invariant {W : Type} (fw : Framework W) (ctors : WorldModuleConstructors W)
    (bp : WorldPipelineBlueprint) (world : W) (I : List InitEvent → Prop) (h0 : I [])
    (hc : ∀ t i, I t → I (t ++ [.construct i])) (hs : ∀ t i, I t → I (t ++ [.setAttributes i]))
    (hb : ∀ t i, I t → I (t ++ [.build i]))
    (hneg : ∀ i ctor w m w1, ctors (bp.moduleNames_.getD i "") = some ctor →
      ctor w = .ok (m, w1) →
      ∀ dir f (s : InitState W), I s.trace → I (negotiate fw bp m dir i f s).state.trace) :
    I (WorldPipeline.init fw ctors bp world).state.trace := by
  have hframe : ∀ i ctor w m w1, ctors (bp.moduleNames_.getD i "") = some ctor →
      ctor w = .ok (m, w1) →
      ∀ f (s : InitState W), I s.trace → I (endState (negotiateFrame fw bp m i f s)).trace := by
    intro i ctor w m w1 h1 h2 f s hT
    unfold negotiateFrame
    have ho := hneg i ctor w m w1 h1 h2 .output f s hT
    cases hout : negotiate fw bp m .output i f s with
    | error e =>
      rw [hout] at ho
      exact ho
    | ok s1 =>
      rw [hout] at ho
      have hi := hneg i ctor w m w1 h1 h2 .input f s1 ho
      rw [state_eq_endState] at hi
      exact hi
  have hmodule : ∀ i (s : InitState W), I s.trace →
      I (endState (initModule fw ctors bp i s)).trace := by
    intro i s hT
    unfold initModule
    cases hctor : ctors (bp.moduleNames_.getD i "") with
    | none => exact hT
    | some ctor =>
      simp only
      have hT0 := hc s.trace i hT
      cases hrun : ctor s.world with
      | error e => exact hT0
      | ok p =>
        obtain ⟨m, world1⟩ := p
        simp only
        have hT1 := hs _ i hT0
        cases hattr : m.setAttributes (bp.attributeCounts_.getD i 0) (bp.attributeKVs_.getD i [])
            world1 with
        | error e => exact hT1
        | ok world2 =>
          simp only
          have hloop := loopFrom_invariant (negotiateFrame fw bp m i)
            (fun t : InitState W => I t.trace)
            (fun f t ht => hframe i ctor s.world m world1 hctor hrun f t ht)
            fw.imageCount 0
            { world := world2
              wp := { s.wp with worldModules_ := s.wp.worldModules_.set i (some m) }
              trace := (s.trace ++ [InitEvent.construct i]) ++ [InitEvent.setAttributes i] } hT1
          cases hl : loopFrom (negotiateFrame fw bp m i) 0 fw.imageCount
              { world := world2
                wp := { s.wp with worldModules_ := s.wp.worldModules_.set i (some m) }
                trace := (s.trace ++ [InitEvent.construct i]) ++ [InitEvent.setAttributes i] } with
          | error e =>
            rw [hl] at hloop
            exact hloop
          | ok s3 =>
            rw [hl] at hloop
            simp only [endState] at hloop
            have hT4 := hb _ i hloop
            simp only
            cases m.build s3.world with
            | error e => exact hT4
            | ok world5 => exact hT4
  have hdown := loopDown_invariant (initModule fw ctors bp)
    (fun t : InitState W => I t.trace) hmodule bp.moduleNames_.length
    (WorldPipeline.allocate fw bp world) (by
      have hat : (WorldPipeline.allocate fw bp world).trace = [] := by
        unfold WorldPipeline.allocate
        simp only [allocateSlot0_loop_trace]
      show I (WorldPipeline.allocate fw bp world).trace
      rw [hat]
      exact h0)
  unfold WorldPipeline.init
  cases hl : loopDown (initModule fw ctors bp) bp.moduleNames_.length
      (WorldPipeline.allocate fw bp world) with
  | error e =>
    rw [hl] at hdown
    exact hdown
  | ok s2 =>
    rw [hl] at hdown
    simp only [InitStep.state, createContexts_trace]
    exact hdown

/-- The log of one negotiation opens with its first call, made on the proposal read from
the pool and logged with the flag the module returned; no other first call follows in it. -/
theorem negotiate_first_event {W : Type} (fw : Framework W) (bp : WorldPipelineBlueprint)
    (m : WorldModule W) (dir : Direction) (i f : Nat) (s : InitState W) :
    ∃ r0 rest, (negotiate fw bp m dir i f s).state.trace =
        s.trace ++ (.negotiate dir i f false (proposal bp dir i f s.wp.sharedImages_).1
          (proposal bp dir i f s.wp.sharedImages_).2 r0 :: rest) ∧
      (∀ e ∈ rest, ∀ d i1 f1 im fo r, e ≠ InitEvent.negotiate d i1 f1 false im fo r) ∧
      (∀ r1 w1, m.setOrCreate dir (proposal bp dir i f s.wp.sharedImages_).1
          (proposal bp dir i f s.wp.sharedImages_).2 f s.world = .ok (r1, w1) →
        r0 = some r1.result) := by
  have hcall : ∀ r1 s1, callSetOrCreate m dir i f false (proposal bp dir i f s.wp.sharedImages_).1
      (proposal bp dir i f s.wp.sharedImages_).2 s = .ok (r1, s1) →
      ∀ r w1, m.setOrCreate dir (proposal bp dir i f s.wp.sharedImages_).1
        (proposal bp dir i f s.wp.sharedImages_).2 f s.world = .ok (r, w1) →
      some r1.result = some r.result := by
    intro r1 s1 h1 r w1 hm
    obtain ⟨w0, hm0, _⟩ := callSetOrCreate_call _ _ _ _ _ _ _ _ _ _ h1
    rw [hm0] at hm
    simp only [Except.ok.injEq, Prod.mk.injEq] at hm
    rw [hm.1]
  rcases negotiate_cases fw bp m dir i f s with
    ⟨e, h1, hn⟩ | ⟨r1, s1, h1, hr, hn⟩ | ⟨r1, s1, h1, hr, hrest⟩
  · obtain ⟨_, ht⟩ := callSetOrCreate_error _ _ _ _ _ _ _ _ _ h1
    refine ⟨none, [], ?_, (fun e he => by cases he), ?_⟩
    · rw [hn]
      exact ht
    · intro r1 w1 hm
      unfold callSetOrCreate at h1
      rw [hm] at h1
      cases h1
  · obtain ⟨_, ht⟩ := callSetOrCreate_wp _ _ _ _ _ _ _ _ _ _ h1
    refine ⟨some r1.result, [], ?_, (fun e he => by cases he), hcall r1 s1 h1⟩
    rw [hn]
    exact ht
  · obtain ⟨_, ht⟩ := callSetOrCreate_wp _ _ _ _ _ _ _ _ _ _ h1
    have hfb : (fallbackStep fw bp dir i f r1.images s1).2.trace =
        s1.trace ++ fallbackEvents bp dir i f
          (inferModuleExtent s1.wp.sharedImages_ fw.extent f (moduleIndices bp .output i)
            (moduleIndices bp .input i)) (moduleIndices bp dir i) := by
      unfold fallbackStep
      exact fallbackFill_trace _ _ _ _ _ _ _ _
    have hrestOk : ∀ r2, ∀ e ∈ fallbackEvents bp dir i f
          (inferModuleExtent s1.wp.sharedImages_ fw.extent f (moduleIndices bp .output i)
            (moduleIndices bp .input i)) (moduleIndices bp dir i) ++
          [InitEvent.negotiate dir i f true (fallbackStep fw bp dir i f r1.images s1).1
            r1.formats r2],
        ∀ d i1 f1 im fo r, e ≠ InitEvent.negotiate d i1 f1 false im fo r := by
      intro r2 e he d i1 f1 im fo r heq
      rw [List.mem_append, List.mem_singleton] at he
      rcases he with he | he
      · unfold fallbackEvents at he
        rw [List.mem_map] at he
        obtain ⟨idx, _, hidx⟩ := he
        rw [heq] at hidx
        cases hidx
      · rw [heq] at he
        cases he
    rcases hrest with ⟨e, h2, hn⟩ | ⟨r2, s3, h2, hr3, hn⟩ | ⟨r2, s3, h2, hr3, hn⟩
    · obtain ⟨_, ht2⟩ := callSetOrCreate_error _ _ _ _ _ _ _ _ _ h2
      refine ⟨some r1.result, _, ?_, hrestOk none, hcall r1 s1 h1⟩
      rw [hn]
      show e.2.trace = _
      rw [ht2, hfb, ht]
      simp
    · obtain ⟨_, ht2⟩ := callSetOrCreate_wp _ _ _ _ _ _ _ _ _ _ h2
      refine ⟨some r1.result, _, ?_, hrestOk (some r2.result), hcall r1 s1 h1⟩
      rw [hn]
      show s3.trace = _
      rw [ht2, hfb, ht]
      simp
    · obtain ⟨_, ht2⟩ := callSetOrCreate_wp _ _ _ _ _ _ _ _ _ _ h2
      refine ⟨some r1.result, _, ?_, hrestOk (some r2.result), hcall r1 s1 h1⟩
      rw [hn]
      show s3.trace = _
      rw [ht2, hfb, ht]
      simp

/-- **C24.** For `XessSrModule` the builder's fallback never turns a rejection into an
acceptance. From every state of `init` whose pool images have a positive width and height,
a negotiation whose first call to the module is rejected ends with the retry rejected as
well and throws. And in every run of `init`, a rejected first call of a module constructed
as an `XessSrModule`, made on images of positive size, is followed by a rejected retry, and
`init` throws. -/
theorem xess_rejection_is_final (env : XessEnv) (xfw : XessFramework) (useAmd : Bool)
    (bp : WorldPipelineBlueprint) (dir : Direction) (i f : Nat) :
    (∀ s : InitState XessWorld,
      (∀ f1 idx img, s.wp.sharedImages_.at f1 idx = some img → 0 < img.width ∧ 0 < img.height) →
      (XessSrModule.setOrCreate env dir (proposal bp dir i f s.wp.sharedImages_).1
        (proposal bp dir i f s.wp.sharedImages_).2 f s.world).1.result = false →
      ∃ s3 images2 formats2,
        negotiate (xfw.builder useAmd) bp (XessSrModule.worldModule env) dir i f s =
          .error (notSetProperly dir, s3) ∧
        InitEvent.negotiate dir i f true images2 formats2 (some false) ∈ s3.trace) ∧
    (∀ (ctors : WorldModuleConstructors XessWorld) (world : XessWorld)
      (images : List (Option DeviceLocalImage)) (formats : List Nat),
      (∀ ctor w m w1, ctors (bp.moduleNames_.getD i "") = some ctor → ctor w = .ok (m, w1) →
        m = XessSrModule.worldModule env) →
      (∀ img, some img ∈ images → 0 < img.width ∧ 0 < img.height) →
      InitEvent.negotiate dir i f false images formats (some false) ∈
        (WorldPipeline.init (xfw.builder useAmd) ctors bp world).state.trace →
      (∃ images2 formats2, InitEvent.negotiate dir i f true images2 formats2 (some false) ∈
        (WorldPipeline.init (xfw.builder useAmd) ctors bp world).state.trace) ∧
      (WorldPipeline.init (xfw.builder useAmd) ctors bp world).throws = true) := by
  constructor
  · intro s hpool hrej
    apply xess_negotiate_rejected env xfw useAmd bp dir i f s _ hrej
    intro img himg
    obtain ⟨j, _, hget⟩ := (mem_iff_getD_some _ img).1 himg
    obtain ⟨_, hcell⟩ := proposal_getD bp dir i f s.wp.sharedImages_ j img hget
    exact hpool _ _ img hcell
  · intro ctors world images formats hxess hpos hfirst
    have hinv := init_log_invariant (xfw.builder useAmd) ctors bp world
      (fun t => ∀ images formats,
        InitEvent.negotiate dir i f false images formats (some false) ∈ t →
        (∀ img, some img ∈ images → 0 < img.width ∧ 0 < img.height) →
        ∃ images2 formats2, InitEvent.negotiate dir i f true images2 formats2 (some false) ∈ t)
      (by intro _ _ h; cases h)
      (by
        intro t k ht im fo hmem hp
        rw [List.mem_append, List.mem_singleton] at hmem
        rcases hmem with hmem | hmem
        · obtain ⟨a, b, hab⟩ := ht im fo hmem hp
          exact ⟨a, b, List.mem_append_left _ hab⟩
        · cases hmem)
      (by
        intro t k ht im fo hmem hp
        rw [List.mem_append, List.mem_singleton] at hmem
        rcases hmem with hmem | hmem
        · obtain ⟨a, b, hab⟩ := ht im fo hmem hp
          exact ⟨a, b, List.mem_append_left _ hab⟩
        · cases hmem)
      (by
        intro t k ht im fo hmem hp
        rw [List.mem_append, List.mem_singleton] at hmem
        rcases hmem with hmem | hmem
        · obtain ⟨a, b, hab⟩ := ht im fo hmem hp
          exact ⟨a, b, List.mem_append_left _ hab⟩
        · cases hmem)
      (by
        intro i0 ctor w m w1 hctor hrun dir0 f0 s hI im fo hmem hp
        obtain ⟨r0, rest, hT, hrest, hr0⟩ :=
          negotiate_first_event (xfw.builder useAmd) bp m dir0 i0 f0 s
        rw [hT] at hmem
        rw [List.mem_append, List.mem_cons] at hmem
        rcases hmem with hmem | hmem | hmem
        · obtain ⟨a, b, hab⟩ := hI im fo hmem hp
          refine ⟨a, b, ?_⟩
          rw [hT]
          exact List.mem_append_left _ hab
        · simp only [InitEvent.negotiate.injEq] at hmem
          obtain ⟨e1, e2, e3, _, e5, e6, e7⟩ := hmem
          subst e1 e2 e3 e5 e6
          have hm : m = XessSrModule.worldModule env := hxess ctor w m w1 hctor hrun
          subst hm
          have hres := hr0 _ _ (worldModule_setOrCreate env dir
            (proposal bp dir i f s.wp.sharedImages_).1 (proposal bp dir i f s.wp.sharedImages_).2
            f s.world)
          rw [← e7] at hres
          simp only [Option.some.injEq] at hres
          obtain ⟨s3, images2, formats2, hneg, hretry⟩ :=
            xess_negotiate_rejected env xfw useAmd bp dir i f s hp hres.symm
          refine ⟨images2, formats2, ?_⟩
          rw [hneg]
          exact hretry
        · exact absurd rfl (hrest _ hmem dir i f im fo (some false)))
    obtain ⟨images2, formats2, hretry⟩ := hinv images formats hfirst hpos
    refine ⟨⟨images2, formats2, hretry⟩, ?_⟩
    have hcalls : (true, some false) ∈ negotiationCalls dir i f
        (WorldPipeline.init (xfw.builder useAmd) ctors bp world).state.trace := by
      unfold negotiationCalls
      rw [List.mem_filterMap]
      exact ⟨_, hretry, by simp⟩
    have := ((init_log (xfw.builder useAmd) ctors bp world).modules_calls dir i f).2 hcalls
    simpa using this.1

set_option maxRecDepth 100000 in
/-- The demo pipeline: the half-size module, built first, fills slot 1 at 960 x 540; the
upscaler is then proposed slot 0 at 1920 x 1080 and slot 1 at 960 x 540 as its outputs,
rejects them, is retried on the same two images after the fallback, and `init` throws. -/
theorem xess_rejection_is_final_witness :
    (WorldPipeline.init (demoXessFramework.builder false) (xessConstructors (demoEnv true) 2)
      xessBlueprint (freshXessWorld true)).throws = true :=
  ((xess_rejection_is_final (demoEnv true) demoXessFramework false xessBlueprint .output 0 0).2
    (xessConstructors (demoEnv true) 2) (freshXessWorld true)
    [some ⟨0, 1920, 1080, 97, 28⟩, some ⟨2, 960, 540, 97, 28⟩] [97, 100]
    (by
      intro ctor w m w1 h1 h2
      have hc : ctor = fun w => .ok (XessSrModule.worldModule (demoEnv true),
          { w with module := XessSrModule.init 2 {} }) := by
        simp only [xessConstructors, xessBlueprint, List.getD_cons_zero, if_true,
          Option.some.injEq] at h1
        exact h1.symm
      subst hc
      simp only [Except.ok.injEq, Prod.mk.injEq] at h2
      exact h2.1.symm)
    (by
      intro img h
      simp only [List.mem_cons, Option.some.injEq, List.mem_singleton, List.not_mem_nil,
        or_false] at h
      rcases h with h | h <;> subst h <;> decide)
    (by decide)).2

set_option maxRecDepth 100000 in
/-- Without the half-size image in slot 1 the upscaler accepts its proposals and `init`
returns; with it, the log ends with the rejected retry. -/
theorem demo_xess_under_builder :
    (WorldPipeline.init (demoXessFramework.builder false) (xessConstructors (demoEnv true) 2)
      { xessBlueprint with modulesInputIndices_ := [[2, 3, 4, 5], []] }
      (freshXessWorld true)).throws = false ∧
    (WorldPipeline.init (demoXessFramework.builder false) (xessConstructors (demoEnv true) 2)
      xessBlueprint (freshXessWorld true)).state.trace.getLast? =
      some (.negotiate .output 0 0 true
        [some ⟨0, 1920, 1080, 97, 28⟩, some ⟨2, 960, 540, 97, 28⟩] [97, 100] (some false)) := by
  decide

/-! ## `init`: the shape of the pool and the bounds of the indices -/

/-- Two pools with the same number of rows and, row by row, the same number of cells. -/
theorem createImageAt_shape {W : Type} (fw : Framework W) (f idx width height format : Nat)
    (s : InitState W) :
    (createImageAt fw f idx width height format s).wp.sharedImages_.length =
        s.wp.sharedImages_.length ∧
      ∀ f1, (createImageAt fw f idx width height format s).wp.sharedImages_.rowLength f1 =
        s.wp.sharedImages_.rowLength f1 := by
  unfold createImageAt
  cases s.wp.sharedImages_.at f idx with
  | some img => exact ⟨rfl, fun _ => rfl⟩
  | none => exact ⟨length_put _ _ _ _, fun f1 => rowLength_put _ _ _ _ f1⟩

theorem fallbackFill_shape {W : Type} (fw : Framework W) (bp : WorldPipelineBlueprint)
    (dir : Direction) (i f : Nat) (extent : Nat × Nat) (indices : List Nat)
    (acc : List (Option DeviceLocalImage) × InitState W) :
    (fallbackFill fw bp dir i f extent indices acc).2.wp.sharedImages_.length =
        acc.2.wp.sharedImages_.length ∧
      ∀ f1, (fallbackFill fw bp dir i f extent indices acc).2.wp.sharedImages_.rowLength f1 =
        acc.2.wp.sharedImages_.rowLength f1 := by
  unfold fallbackFill
  induction indices.length with
  | zero => exact ⟨rfl, fun _ => rfl⟩
  | succ k ih =>
    rw [forLoop_succ]
    obtain ⟨h1, h2⟩ := ih
    simp only
    obtain ⟨c1, c2⟩ := createImageAt_shape fw f (indices.getD k 0) extent.1 extent.2
      (bp.imageFormats_.getD (indices.getD k 0) 0)
      { (forLoop k
          (fun j (acc : List (Option DeviceLocalImage) × InitState W) =>
            let idx := indices.getD j 0
            let s1 := createImageAt fw f idx extent.1 extent.2 (bp.imageFormats_.getD idx 0)
              { acc.2 with trace := acc.2.trace ++
                  [.createImageAt dir i f idx extent.1 extent.2 (bp.imageFormats_.getD idx 0)] }
            (acc.1.set j (s1.wp.sharedImages_.at f idx), s1))
          acc).2 with
        trace := (forLoop k
          (fun j (acc : List (Option DeviceLocalImage) × InitState W) =>
            let idx := indices.getD j 0
            let s1 := createImageAt fw f idx extent.1 extent.2 (bp.imageFormats_.getD idx 0)
              { acc.2 with trace := acc.2.trace ++
                  [.createImageAt dir i f idx extent.1 extent.2 (bp.imageFormats_.getD idx 0)] }
            (acc.1.set j (s1.wp.sharedImages_.at f idx), s1))
          acc).2.trace ++
            [.createImageAt dir i f (indices.getD k 0) extent.1 extent.2
              (bp.imageFormats_.getD (indices.getD k 0) 0)] }
    exact ⟨c1.trans h1, fun f1 => (c2 f1).trans (h2 f1)⟩

theorem writeBack_shape (f : Nat) (indices : List Nat) (images : List (Option DeviceLocalImage))
    (pool : SharedImages) :
    (writeBack f indices images pool).length = pool.length ∧
      ∀ f1, (writeBack f indices images pool).rowLength f1 = pool.rowLength f1 := by
  unfold writeBack
  induction indices.length with
  | zero => exact ⟨rfl, fun _ => rfl⟩
  | succ k ih =>
    rw [forLoop_succ]
    obtain ⟨h1, h2⟩ := ih
    exact ⟨(length_put _ _ _ _).trans h1, fun f1 => (rowLength_put _ _ _ _ f1).trans (h2 f1)⟩

/-- Whatever the module does, a negotiation leaves the pool with the rows and the cells it
had, whether it returns or throws. -/
theorem negotiate_shape {W : Type} (fw : Framework W) (bp : WorldPipelineBlueprint)
    (m : WorldModule W) (dir : Direction) (i f : Nat) (s : InitState W) :
    (negotiate fw bp m dir i f s).state.wp.sharedImages_.length = s.wp.sharedImages_.length ∧
      ∀ f1, (negotiate fw bp m dir i f s).state.wp.sharedImages_.rowLength f1 =
        s.wp.sharedImages_.rowLength f1 := by
  rcases negotiate_cases fw bp m dir i f s with
    ⟨e, h1, hn⟩ | ⟨r1, s1, h1, hr, hn⟩ | ⟨r1, s1, h1, hr, hrest⟩
  · obtain ⟨hwp, _⟩ := callSetOrCreate_error _ _ _ _ _ _ _ _ _ h1
    rw [hn]
    show e.2.wp.sharedImages_.length = _ ∧ ∀ f1, e.2.wp.sharedImages_.rowLength f1 = _
    rw [hwp]
    exact ⟨rfl, fun _ => rfl⟩
  · obtain ⟨hwp, _⟩ := callSetOrCreate_wp _ _ _ _ _ _ _ _ _ _ h1
    rw [hn]
    obtain ⟨w1, w2⟩ := writeBack_shape f (moduleIndices bp dir i) r1.images s1.wp.sharedImages_
    have hs1 : s1.wp.sharedImages_ = s.wp.sharedImages_ := by rw [hwp]
    exact ⟨w1.trans (by rw [hs1]), fun f1 => (w2 f1).trans (by rw [hs1])⟩
  · obtain ⟨hwp, _⟩ := callSetOrCreate_wp _ _ _ _ _ _ _ _ _ _ h1
    have hfb : (fallbackStep fw bp dir i f r1.images s1).2.wp.sharedImages_.length =
          s.wp.sharedImages_.length ∧
        ∀ f1, (fallbackStep fw bp dir i f r1.images s1).2.wp.sharedImages_.rowLength f1 =
          s.wp.sharedImages_.rowLength f1 := by
      unfold fallbackStep
      obtain ⟨a1, a2⟩ := fallbackFill_shape fw bp dir i f
        (inferModuleExtent s1.wp.sharedImages_ fw.extent f (moduleIndices bp .output i)
          (moduleIndices bp .input i)) (moduleIndices bp dir i) (r1.images, s1)
      have hs1 : s1.wp.sharedImages_ = s.wp.sharedImages_ := by rw [hwp]
      exact ⟨a1.trans (by rw [hs1]), fun f1 => (a2 f1).trans (by rw [hs1])⟩
    obtain ⟨b1, b2⟩ := hfb
    rcases hrest with ⟨e, h2, hn⟩ | ⟨r2, s3, h2, hr3, hn⟩ | ⟨r2, s3, h2, hr3, hn⟩
    · obtain ⟨hwp2, _⟩ := callSetOrCreate_error _ _ _ _ _ _ _ _ _ h2
      rw [hn]
      show e.2.wp.sharedImages_.length = _ ∧ ∀ f1, e.2.wp.sharedImages_.rowLength f1 = _
      rw [hwp2]
      exact ⟨b1, b2⟩
    · obtain ⟨hwp2, _⟩ := callSetOrCreate_wp _ _ _ _ _ _ _ _ _ _ h2
      rw [hn]
      obtain ⟨w1, w2⟩ := writeBack_shape f (moduleIndices bp dir i) r2.images s3.wp.sharedImages_
      have hs3 : s3.wp.sharedImages_ =
          (fallbackStep fw bp dir i f r1.images s1).2.wp.sharedImages_ := by rw [hwp2]
      exact ⟨w1.trans ((by rw [hs3] : _ = _).trans b1),
        fun f1 => (w2 f1).trans ((by rw [hs3] : _ = _).trans (b2 f1))⟩
    · obtain ⟨hwp2, _⟩ := callSetOrCreate_wp _ _ _ _ _ _ _ _ _ _ h2
      rw [hn]
      show s3.wp.sharedImages_.length = _ ∧ ∀ f1, s3.wp.sharedImages_.rowLength f1 = _
      rw [hwp2]
      exact ⟨b1, b2⟩

/-- The body of the module loop leaves the pool with the rows and the cells it had. -/
theorem initModule_shape {W : Type} (fw : Framework W) (ctors : WorldModuleConstructors W)
    (bp : WorldPipelineBlueprint) (i : Nat) (s : InitState W) (frames slots : Nat)
    (h : s.wp.sharedImages_.length = frames ∧ ∀ f, f < frames → s.wp.sharedImages_.rowLength f = slots) :
    (endState (initModule fw ctors bp i s)).wp.sharedImages_.length = frames ∧
      ∀ f, f < frames →
        (endState (initModule fw ctors bp i s)).wp.sharedImages_.rowLength f = slots := by
  have hframe : ∀ m f (t : InitState W),
      (t.wp.sharedImages_.length = frames ∧
        ∀ f1, f1 < frames → t.wp.sharedImages_.rowLength f1 = slots) →
      (endState (negotiateFrame fw bp m i f t)).wp.sharedImages_.length = frames ∧
        ∀ f1, f1 < frames →
          (endState (negotiateFrame fw bp m i f t)).wp.sharedImages_.rowLength f1 = slots := by
    intro m f t ht
    unfold negotiateFrame
    obtain ⟨o1, o2⟩ := negotiate_shape fw bp m .output i f t
    cases hout : negotiate fw bp m .output i f t with
    | error e =>
      rw [hout] at o1 o2
      exact ⟨o1.trans ht.1, fun f1 hf1 => (o2 f1).trans (ht.2 f1 hf1)⟩
    | ok s1 =>
      rw [hout] at o1 o2
      obtain ⟨i1, i2⟩ := negotiate_shape fw bp m .input i f s1
      rw [state_eq_endState] at i1 i2
      exact ⟨i1.trans (o1.trans ht.1), fun f1 hf1 => (i2 f1).trans ((o2 f1).trans (ht.2 f1 hf1))⟩
  unfold initModule
  cases hctor : ctors (bp.moduleNames_.getD i "") with
  | none => exact h
  | some ctor =>
    simp only
    cases hrun : ctor s.world with
    | error e => exact h
    | ok p =>
      obtain ⟨m, world1⟩ := p
      simp only
      cases hattr : m.setAttributes (bp.attributeCounts_.getD i 0) (bp.attributeKVs_.getD i [])
          world1 with
      | error e => exact h
      | ok world2 =>
        simp only
        have hloop := loopFrom_invariant (negotiateFrame fw bp m i)
          (fun t : InitState W => t.wp.sharedImages_.length = frames ∧
            ∀ f1, f1 < frames → t.wp.sharedImages_.rowLength f1 = slots)
          (fun f t ht => hframe m f t ht)
          fw.imageCount 0
          { world := world2
            wp := { s.wp with worldModules_ := s.wp.worldModules_.set i (some m) }
            trace := (s.trace ++ [InitEvent.construct i]) ++ [InitEvent.setAttributes i] } h
        cases hl : loopFrom (negotiateFrame fw bp m i) 0 fw.imageCount
            { world := world2
              wp := { s.wp with worldModules_ := s.wp.worldModules_.set i (some m) }
              trace := (s.trace ++ [InitEvent.construct i]) ++ [InitEvent.setAttributes i] } with
        | error e =>
          rw [hl] at hloop
          exact hloop
        | ok s3 =>
          rw [hl] at hloop
          simp only [endState] at hloop
          simp only
          cases m.build s3.world with
          | error e => exact hloop
          | ok world5 => exact hloop

/-- The pool `init` ends with, returning or throwing, has the rows and cells of the
allocation step: one row per swapchain image, one cell per format of the blueprint. -/
theorem init_shape {W : Type} (fw : Framework W) (ctors : WorldModuleConstructors W)
    (bp : WorldPipelineBlueprint) (world : W) :
    (WorldPipeline.init fw ctors bp world).state.wp.sharedImages_.HasShape fw.imageCount
      bp.imageFormats_.length := by
  have hdown := loopDown_invariant (initModule fw ctors bp)
    (fun t : InitState W => t.wp.sharedImages_.length = fw.imageCount ∧
      ∀ f, f < fw.imageCount → t.wp.sharedImages_.rowLength f = bp.imageFormats_.length)
    (fun i s hs => initModule_shape fw ctors bp i s _ _ hs) bp.moduleNames_.length
    (WorldPipeline.allocate fw bp world) (allocate_shape fw bp world)
  unfold WorldPipeline.init
  cases hl : loopDown (initModule fw ctors bp) bp.moduleNames_.length
      (WorldPipeline.allocate fw bp world) with
  | error e =>
    rw [hl] at hdown
    exact hasShape_of_rowLength _ _ _ hdown.1 hdown.2
  | ok s2 =>
    rw [hl] at hdown
    simp only [InitStep.state, createContexts_pool]
    exact hasShape_of_rowLength _ _ _ hdown.1 hdown.2

/-- A property of events that holds of the log of every negotiation for a frame below the
frame count holds of every event of the module loop. -/
theorem FramesLog.frames_lift {bp : WorldPipelineBlueprint} {frameNum i start count : Nat}
    {seg : List InitEvent} {ok : Bool} (P : InitEvent → Prop)
    (hneg : ∀ dir i f a ok, f < frameNum → NegotiationLog bp dir i f a ok → ∀ e ∈ a, P e)
    (h : FramesLog bp i start count seg ok) (hle : start + count ≤ frameNum) :
    ∀ e ∈ seg, P e := by
  induction h with
  | done start => intro e he; simp at he
  | frame ha hb _ ih =>
    intro e he
    simp only [List.mem_append] at he
    rcases he with he | he | he
    · exact hneg _ _ _ _ _ (by omega) ha e he
    · exact hneg _ _ _ _ _ (by omega) hb e he
    · exact ih (by omega) e he
  | outputFailed ha => intro e he; exact hneg _ _ _ _ _ (by omega) ha e he
  | inputFailed ha hb =>
    intro e he
    simp only [List.mem_append] at he
    rcases he with he | he
    · exact hneg _ _ _ _ _ (by omega) ha e he
    · exact hneg _ _ _ _ _ (by omega) hb e he

theorem ModuleLog.module_lift {bp : WorldPipelineBlueprint} {frameNum i : Nat}
    {a : List InitEvent} {ok : Bool} (P : InitEvent → Prop)
    (hc : ∀ i, P (.construct i)) (hs : ∀ i, P (.setAttributes i)) (hb : ∀ i, P (.build i))
    (hneg : ∀ dir i f a ok, f < frameNum → NegotiationLog bp dir i f a ok → ∀ e ∈ a, P e)
    (h : ModuleLog bp frameNum i a ok) : ∀ e ∈ a, P e := by
  intro e he
  cases h with
  | noConstructor => simp at he
  | constructThrew => simp at he; subst he; exact hc i
  | setAttributesThrew =>
    simp at he
    rcases he with he | he
    · subst he; exact hc i
    · subst he; exact hs i
  | framesFailed hf =>
    simp only [List.mem_cons] at he
    rcases he with he | he | he
    · subst he; exact hc i
    · subst he; exact hs i
    · exact hf.frames_lift P hneg (by omega) e he
  | built _ hf =>
    simp only [List.mem_cons, List.mem_append, List.not_mem_nil, or_false] at he
    rcases he with he | he | he | he
    · subst he; exact hc i
    · subst he; exact hs i
    · exact hf.frames_lift P hneg (by omega) e he
    · subst he; exact hb i

theorem ModulesLog.modules_lift {bp : WorldPipelineBlueprint} {frameNum n : Nat}
    {seg : List InitEvent} {ok : Bool} (P : InitEvent → Prop)
    (hc : ∀ i, P (.construct i)) (hs : ∀ i, P (.setAttributes i)) (hb : ∀ i, P (.build i))
    (hneg : ∀ dir i f a ok, f < frameNum → NegotiationLog bp dir i f a ok → ∀ e ∈ a, P e)
    (h : ModulesLog bp frameNum n seg ok) : ∀ e ∈ seg, P e := by
  induction h with
  | done => intro e he; simp at he
  | module ha _ ih =>
    intro e he
    rcases List.mem_append.1 he with he | he
    · exact ha.module_lift P hc hs hb hneg e he
    · exact ih e he
  | failed ha => intro e he; exact ha.module_lift P hc hs hb hneg e he

/-- The slot of every fallback allocation of a negotiation is one of the slots the module
declares for the direction. -/
theorem NegotiationLog.fallback_slot {bp : WorldPipelineBlueprint} {dir : Direction} {i f : Nat}
    {a : List InitEvent} {ok : Bool} (h : NegotiationLog bp dir i f a ok) :
    ∀ e ∈ a, ∀ d i1 f1 idx w ht fmt, e = InitEvent.createImageAt d i1 f1 idx w ht fmt →
      idx ∈ moduleIndices bp dir i := by
  intro e he d i1 f1 idx w ht fmt heq
  cases h with
  | accepted images formats => simp at he; subst he; cases heq
  | threw images formats => simp at he; subst he; cases heq
  | retried images formats extent images2 formats2 result2 =>
    simp only [List.mem_cons, List.mem_append, List.not_mem_nil, or_false] at he
    rcases he with he | he | he
    · subst he; cases heq
    · unfold fallbackEvents at he
      obtain ⟨idx1, hidx1, h1⟩ := List.mem_map.1 he
      rw [heq] at h1
      cases h1
      exact hidx1
    · subst he; cases heq

/-- Every negotiation event of `init` is for a frame below the swapchain image count. -/
theorem init_frames_lt {W : Type} (fw : Framework W) (ctors : WorldModuleConstructors W)
    (bp : WorldPipelineBlueprint) (world : W) :
    ∀ e ∈ (WorldPipeline.init fw ctors bp world).state.trace, ∀ d i f,
      e.tag = some (d, i, f) → f < fw.imageCount := by
  refine (init_log fw ctors bp world).modules_lift
    (fun e => ∀ d i f, e.tag = some (d, i, f) → f < fw.imageCount) ?_ ?_ ?_ ?_
  · intro i d i1 f h; cases h
  · intro i d i1 f h; cases h
  · intro i d i1 f h; cases h
  · intro dir i f a ok hf hlog e he d i1 f1 h
    rw [hlog.negotiation_tag e he] at h
    cases h
    exact hf

/-- Every fallback allocation of `init` is for a slot some module of the blueprint
references. -/
theorem init_fallback_slots {W : Type} (fw : Framework W) (ctors : WorldModuleConstructors W)
    (bp : WorldPipelineBlueprint) (world : W) :
    ∀ e ∈ (WorldPipeline.init fw ctors bp world).state.trace, ∀ d i f idx w ht fmt,
      e = InitEvent.createImageAt d i f idx w ht fmt → idx ∈ referencedSlots bp := by
  refine (init_log fw ctors bp world).modules_lift
    (fun e => ∀ d i f idx w ht fmt, e = InitEvent.createImageAt d i f idx w ht fmt →
      idx ∈ referencedSlots bp) ?_ ?_ ?_ ?_
  · intro i d i1 f idx w ht fmt h; cases h
  · intro i d i1 f idx w ht fmt h; cases h
  · intro i d i1 f idx w ht fmt h; cases h
  · intro dir i f a ok _ hlog e he d i1 f1 idx w ht fmt h
    exact moduleIndices_subset bp dir i idx (hlog.fallback_slot e he d i1 f1 idx w ht fmt h)

/-- A descriptor list that references no slot gives an empty set of indices. -/
theorem blueprintModules_no_slot (reg : InOutImageNums) (params : WorldPipelineBuildParams)
    (h : declaredSlots reg params = []) : (blueprintModules reg params).imageIndices = [] := by
  obtain ⟨_, hm⟩ := blueprintModules_invariant reg params
  apply List.eq_nil_iff_forall_not_mem.2
  intro k hk
  have := (mem_referencedSlots_iff reg params k).1 ((hm k).1 hk)
  rw [h] at this
  cases this

theorem at_of_rowLength_zero (pool : SharedImages) (f idx : Nat)
    (h : SharedImages.rowLength pool f = 0) : SharedImages.at pool f idx = none := by
  unfold SharedImages.rowLength at h
  unfold SharedImages.at
  rw [List.length_eq_zero.1 h]
  rfl

/-- C30. A blueprint that constructs successfully stores only indices below the number of
its formats, which is positive when it references a slot: the pool `init` allocates has one
row per swapchain image and one cell per format, every negotiation and `init` as a whole
keep that shape, every negotiation and fallback allocation of `init` is for a frame below
the image count and a slot below the number of formats, and on such a pool the test
`idx >= size` of `inferModuleExtent` is false at every declared index. A descriptor list
that references no slot constructs too, with no format: the rows of the allocated pool have
no cell, and the cell 0 the allocation step writes does not exist. -/
theorem stored_indices_are_in_bounds {W : Type} (reg : InOutImageNums)
    (params : WorldPipelineBuildParams) (fw : Framework W) (ctors : WorldModuleConstructors W)
    (world : W) :
    (∀ bp, (WorldPipelineBlueprint.construct reg params).2 = .ok bp →
      (referencedSlots bp ≠ [] → 0 < bp.imageFormats_.length) ∧
      (∀ idx ∈ referencedSlots bp, idx < bp.imageFormats_.length) ∧
      (∀ dir i, ∀ idx ∈ moduleIndices bp dir i, idx < bp.imageFormats_.length) ∧
      (WorldPipeline.allocate fw bp world).wp.sharedImages_.HasShape fw.imageCount
        bp.imageFormats_.length ∧
      (∀ (m : WorldModule W) dir i f (s : InitState W),
        s.wp.sharedImages_.HasShape fw.imageCount bp.imageFormats_.length →
        (negotiate fw bp m dir i f s).state.wp.sharedImages_.HasShape fw.imageCount
          bp.imageFormats_.length) ∧
      (WorldPipeline.init fw ctors bp world).state.wp.sharedImages_.HasShape fw.imageCount
        bp.imageFormats_.length ∧
      (∀ e ∈ (WorldPipeline.init fw ctors bp world).state.trace, ∀ d i f,
        e.tag = some (d, i, f) → f < fw.imageCount) ∧
      (∀ e ∈ (WorldPipeline.init fw ctors bp world).state.trace, ∀ d i f idx w ht fmt,
        e = InitEvent.createImageAt d i f idx w ht fmt →
          f < fw.imageCount ∧ idx < bp.imageFormats_.length) ∧
      (∀ pool : SharedImages, pool.HasShape fw.imageCount bp.imageFormats_.length →
        ∀ f, f < fw.imageCount → ∀ dir i, ∀ idx ∈ moduleIndices bp dir i,
          ¬ idx ≥ (pool.getD f []).length)) ∧
    (declaredSlots reg params = [] →
      ∃ bp, (WorldPipelineBlueprint.construct reg params).2 = .ok bp ∧
        bp.imageFormats_ = [] ∧ referencedSlots bp = [] ∧
        ∀ f, f < fw.imageCount →
          SharedImages.rowLength (WorldPipeline.allocate fw bp world).wp.sharedImages_ f = 0 ∧
          SharedImages.at (WorldPipeline.allocate fw bp world).wp.sharedImages_ f 0 = none) := by
  constructor
  · intro bp hbp
    obtain ⟨_, _, _, hlt⟩ := construct_ok_facts reg params bp hbp
    have hmod : ∀ dir i, ∀ idx ∈ moduleIndices bp dir i, idx < bp.imageFormats_.length :=
      fun dir i idx hidx => hlt idx (moduleIndices_subset bp dir i idx hidx)
    refine ⟨?_, hlt, hmod, ?_, ?_, init_shape fw ctors bp world,
      init_frames_lt fw ctors bp world, ?_, ?_⟩
    · intro hne
      obtain ⟨idx, hidx⟩ := List.exists_mem_of_ne_nil _ hne
      exact Nat.lt_of_le_of_lt (Nat.zero_le idx) (hlt idx hidx)
    · obtain ⟨a1, a2⟩ := allocate_shape fw bp world
      exact hasShape_of_rowLength _ _ _ a1 a2
    · intro m dir i f s hs
      obtain ⟨n1, n2⟩ := negotiate_shape fw bp m dir i f s
      exact hasShape_of_rowLength _ _ _ (n1.trans hs.1)
        (fun f1 hf1 => (n2 f1).trans (rowLength_of_hasShape _ _ _ hs f1 hf1))
    · intro e he d i f idx w ht fmt heq
      refine ⟨init_frames_lt fw ctors bp world e he d i f ?_,
        hlt idx (init_fallback_slots fw ctors bp world e he d i f idx w ht fmt heq)⟩
      rw [heq]
      rfl
    · intro pool hpool f hf dir i idx hidx
      have hrow := rowLength_of_hasShape pool _ _ hpool f hf
      unfold SharedImages.rowLength at hrow
      rw [hrow]
      exact Nat.not_le.2 (hmod dir i idx hidx)
  · intro hnone
    have hidx := blueprintModules_no_slot reg params hnone
    have hbp : (WorldPipelineBlueprint.construct reg params).2 =
        .ok { (blueprintModules reg params).bp with imageFormats_ := [] } := by
      unfold WorldPipelineBlueprint.construct
      simp only [hidx, checkContinuous]
    refine ⟨_, hbp, rfl, ?_, ?_⟩
    · apply List.eq_nil_iff_forall_not_mem.2
      intro k hk
      have hk2 : k ∈ referencedSlots (blueprintModules reg params).bp := hk
      rw [mem_referencedSlots_iff, hnone] at hk2
      cases hk2
    · intro f hf
      have hrow := (allocate_shape fw
        { (blueprintModules reg params).bp with imageFormats_ := [] } world).2 f hf
      exact ⟨hrow, at_of_rowLength_zero _ _ _ hrow⟩

/-- The demo pipeline (slots 0, 1 and 2) on the demo framework: three formats, and the pool
`init` ends with has two rows of three cells. The list of the single descriptor `ghost`
references no slot: it constructs with no format, and the allocated rows have no cell 0. -/
theorem stored_indices_are_in_bounds_witness :
    ((WorldPipelineBlueprint.construct demoRegistry (demoParams 2)).2 =
        .ok { moduleNames_ := ["m", "m"]
              attributeCounts_ := [0, 0]
              attributeKVs_ := [[], []]
              modulesInputIndices_ := [[2], [1]]
              modulesOutputIndices_ := [[1], [0]]
              imageFormats_ := [37, 37, 37] } ∧
      (WorldPipeline.init demoFramework demoConstructors
          { moduleNames_ := ["m", "m"]
            attributeCounts_ := [0, 0]
            attributeKVs_ := [[], []]
            modulesInputIndices_ := [[2], [1]]
            modulesOutputIndices_ := [[1], [0]]
            imageFormats_ := [37, 37, 37] } 0).state.wp.sharedImages_.HasShape 2 3) ∧
    declaredSlots demoRegistry
        { ghostParams with moduleCount := 1, moduleNames := fun _ => "ghost" } = [] ∧
    ∃ bp, (WorldPipelineBlueprint.construct demoRegistry
          { ghostParams with moduleCount := 1, moduleNames := fun _ => "ghost" }).2 = .ok bp ∧
        bp.imageFormats_ = [] ∧ referencedSlots bp = [] ∧
        ∀ f, f < demoFramework.imageCount →
          SharedImages.rowLength (WorldPipeline.allocate demoFramework bp 0).wp.sharedImages_ f
            = 0 ∧
          SharedImages.at (WorldPipeline.allocate demoFramework bp 0).wp.sharedImages_ f 0
            = none :=
  ⟨⟨rfl, ((stored_indices_are_in_bounds demoRegistry (demoParams 2) demoFramework
      demoConstructors 0).1 _ rfl).2.2.2.2.2.1⟩,
    by decide,
    (stored_indices_are_in_bounds demoRegistry
      { ghostParams with moduleCount := 1, moduleNames := fun _ => "ghost" } demoFramework
      demoConstructors 0).2 (by decide)⟩

/-! ## `render`: the transitions agree with the tracked layouts -/

theorem fallbackBlit_eq_steps {W : Type} (ctx : XessSrModuleContext) (s : RenderState W) :
    ctx.fallbackBlit s = runSteps ctx.fallbackSteps s := rfl

theorem prepare_eq_steps (ctx : XessSrModuleContext) (s : RenderState XessWorld) :
    ctx.prepare s = ctx.toShaderRead (ctx.convertDepth (ctx.toGeneral s)) := rfl

theorem beforeDispatch_eq_steps (env : XessEnv) (commandBuffer : Nat) (ubo : WorldUBO)
    (ctx : XessSrModuleContext) (s : RenderState XessWorld) :
    (ctx.beforeDispatch env commandBuffer ubo s).2 =
      runSteps (ctx.dispatchSteps env commandBuffer ubo) s := rfl

theorem finish_eq_steps (ctx : XessSrModuleContext) (s : RenderState XessWorld) :
    ctx.finish s = runSteps ctx.finishSteps s := rfl

theorem runSteps_append {W : Type} (a b : List (RenderState W → RenderState W))
    (s : RenderState W) : runSteps (a ++ b) s = runSteps b (runSteps a s) := by
  unfold runSteps
  rw [List.foldl_append]

theorem tracksLayouts_append {W : Type} (a b : List (RenderState W → RenderState W))
    (s : RenderState W) :
    TracksLayouts (a ++ b) s ↔ TracksLayouts a s ∧ TracksLayouts b (runSteps a s) := by
  induction a generalizing s with
  | nil =>
    show TracksLayouts b s ↔ True ∧ TracksLayouts b s
    simp
  | cons step rest ih =>
    show ((RecordsTransitions s (step s) ∨ RecordsNoTransition s (step s)) ∧
        TracksLayouts (rest ++ b) (step s)) ↔
      ((RecordsTransitions s (step s) ∨ RecordsNoTransition s (step s)) ∧
        TracksLayouts rest (step s)) ∧ TracksLayouts b (runSteps rest (step s))
    rw [ih (step s)]
    constructor
    · rintro ⟨h1, h2, h3⟩; exact ⟨⟨h1, h2⟩, h3⟩
    · rintro ⟨⟨h1, h2⟩, h3⟩; exact ⟨h1, h2, h3⟩

/-- The path `render` takes is the run of its spans. -/
theorem render_eq_steps (env : XessEnv) (commandBuffer : Nat) (ubo : WorldUBO)
    (ctx : XessSrModuleContext) (s : RenderState XessWorld) :
    ctx.render env commandBuffer ubo s = runSteps (ctx.renderSteps env commandBuffer ubo s) s := by
  unfold XessSrModuleContext.render XessSrModuleContext.renderSteps
  cases halive : s.world.moduleAlive with
  | false => rfl
  | true =>
    cases he : s.world.module.xessEnabled_ <;> cases hi : s.world.module.initialized_ <;>
      cases hx : s.world.module.xess_ <;>
      simp only [Bool.not_true, Bool.false_eq_true, if_false] <;>
      first
        | rfl
        | (split
           · rw [runSteps_append, ← beforeDispatch_eq_steps, ← fallbackBlit_eq_steps]
           · rw [runSteps_append, ← beforeDispatch_eq_steps, ← finish_eq_steps])
theorem barriers_layouts {W : Type} (s : RenderState W) (batch : List ImageBarrier) :
    (s.barriers batch).layouts = s.layouts := rfl

theorem record_layouts {W : Type} (s : RenderState W) (c : Command) :
    (s.record c).layouts = s.layouts := rfl

/-- What pairwise distinct images give: no two of the eight identities are equal. -/
theorem imageIds_nodup (ctx : XessSrModuleContext) (h : ctx.imageIds.Nodup) :
    let c := ctx.inputColorImage.id
    let f := ctx.inputFirstHitDepthImage.id
    let o := ctx.outputImage.id
    let u := ctx.upscaledFirstHitDepthImage.id
    let v := ctx.deviceDepthImage.id
    let x := ctx.xessMotionVectorImage.id
    (c ≠ o ∧ c ≠ u ∧ c ≠ f ∧ o ≠ f ∧ o ≠ u ∧ f ≠ u) ∧
      (o ≠ c ∧ o ≠ v ∧ o ≠ x) ∧ (f ≠ o ∧ u ≠ o ∧ u ≠ f ∧ u ≠ c ∧ f ≠ c) := by
  unfold XessSrModuleContext.imageIds at h
  simp only [List.nodup_cons, List.mem_cons, List.mem_singleton, List.not_mem_nil, not_or,
    or_false] at h
  intro c f o u v x
  obtain ⟨⟨_, _, hcf, hco, hcu, _, _⟩, _, _, ⟨hfo, hfu, _, _⟩, ⟨hou, hov, hox⟩, _⟩ := h
  exact ⟨⟨hco, hcu, hcf, Ne.symm hfo, hou, hfu⟩, ⟨Ne.symm hco, hov, hox⟩,
    ⟨hfo, Ne.symm hou, Ne.symm hfu, Ne.symm hcu, Ne.symm hcf⟩⟩

theorem toTransfer_records {W : Type} (ctx : XessSrModuleContext) (s : RenderState W)
    (h : ctx.imageIds.Nodup) : RecordsTransitions s (ctx.toTransfer s) := by
  obtain ⟨⟨hco, hcu, hcf, hof, hou, hfu⟩, _, ⟨hfo, huo, huf, huc, hfc⟩⟩ := imageIds_nodup ctx h
  refine ⟨_, rfl, ?_, ?_⟩
  · intro b hb
    simp only [List.mem_cons, List.mem_singleton, List.not_mem_nil, or_false] at hb
    rcases hb with rfl | rfl | rfl | rfl <;>
      simp only [XessSrModuleContext.toTransfer, setLayout_layouts, barriers_layouts, if_true,
        if_neg hco, if_neg hcu, if_neg hcf, if_neg hof, if_neg hou, if_neg hfu, and_self]
  · intro image himage
    simp only [List.mem_cons, List.mem_singleton, List.not_mem_nil, or_false, forall_eq_or_imp,
      forall_eq] at himage
    obtain ⟨h1, h2, h3, h4⟩ := himage
    simp only [XessSrModuleContext.toTransfer, setLayout_layouts, barriers_layouts,
      if_neg (Ne.symm h1), if_neg (Ne.symm h2), if_neg (Ne.symm h3), if_neg (Ne.symm h4)]

theorem toTransfer_output {W : Type} (ctx : XessSrModuleContext) (s : RenderState W)
    (h : ctx.imageIds.Nodup) :
    (ctx.toTransfer s).layouts ctx.outputImage.id = VK_IMAGE_LAYOUT_TRANSFER_DST_OPTIMAL := by
  obtain ⟨⟨_, _, _, hof, hou, _⟩, _, _⟩ := imageIds_nodup ctx h
  simp only [XessSrModuleContext.toTransfer, setLayout_layouts, barriers_layouts, if_true,
    if_neg hof, if_neg hou]

theorem blits_commands {W : Type} (ctx : XessSrModuleContext) (s : RenderState W) :
    (ctx.blits s).worldCommandBuffer = s.worldCommandBuffer ++
      [.blitImage ctx.inputColorImage.id VK_IMAGE_LAYOUT_TRANSFER_SRC_OPTIMAL ctx.outputImage.id
        VK_IMAGE_LAYOUT_TRANSFER_DST_OPTIMAL
        (ctx.inputColorImage.width, ctx.inputColorImage.height)
        (ctx.outputImage.width, ctx.outputImage.height),
       .blitImage ctx.inputFirstHitDepthImage.id VK_IMAGE_LAYOUT_TRANSFER_SRC_OPTIMAL
        ctx.upscaledFirstHitDepthImage.id VK_IMAGE_LAYOUT_TRANSFER_DST_OPTIMAL
        (ctx.inputFirstHitDepthImage.width, ctx.inputFirstHitDepthImage.height)
        (ctx.upscaledFirstHitDepthImage.width, ctx.upscaledFirstHitDepthImage.height)] := by
  simp [XessSrModuleContext.blits, RenderState.record]

theorem blits_records {W : Type} (ctx : XessSrModuleContext) (s : RenderState W) :
    RecordsNoTransition s (ctx.blits s) := by
  refine ⟨_, blits_commands ctx s, ?_, rfl⟩
  intro batch hmem
  simp at hmem

theorem outputToGeneral_records {W : Type} (ctx : XessSrModuleContext) (s : RenderState W)
    (hs : s.layouts ctx.outputImage.id = VK_IMAGE_LAYOUT_TRANSFER_DST_OPTIMAL) :
    RecordsTransitions s (ctx.outputToGeneral s) := by
  refine ⟨_, rfl, ?_, ?_⟩
  · intro b hb
    simp only [List.mem_singleton] at hb
    subst hb
    simp only [XessSrModuleContext.outputToGeneral, setLayout_layouts, if_true, hs, and_self]
  · intro image himage
    simp only [List.mem_singleton, forall_eq] at himage
    simp only [XessSrModuleContext.outputToGeneral, setLayout_layouts, barriers_layouts,
      if_neg (Ne.symm himage)]

/-- On pairwise distinct images the spans of `fallbackBlit` track the layouts, from any
state. -/
theorem fallbackSteps_track {W : Type} (ctx : XessSrModuleContext) (s : RenderState W)
    (h : ctx.imageIds.Nodup) : TracksLayouts ctx.fallbackSteps s :=
  ⟨Or.inl (toTransfer_records ctx s h), Or.inr (blits_records ctx _),
    Or.inl (outputToGeneral_records ctx _ (toTransfer_output ctx s h)), trivial⟩

theorem toGeneral_records {W : Type} (ctx : XessSrModuleContext) (s : RenderState W) :
    RecordsTransitions s (ctx.toGeneral s) := by
  refine ⟨_, rfl, ?_, ?_⟩
  · intro b hb
    simp only [List.mem_cons, List.mem_singleton, List.not_mem_nil, or_false] at hb
    rcases hb with rfl | rfl | rfl | rfl | rfl | rfl <;>
      (simp only [XessSrModuleContext.toGeneral, setLayout_layouts, barriers_layouts, if_true,
        true_and]
       try (split_ifs <;> rfl))
  · intro image himage
    simp only [List.mem_cons, List.mem_singleton, List.not_mem_nil, or_false, forall_eq_or_imp,
      forall_eq] at himage
    obtain ⟨h1, h2, h3, h4, h5, h6⟩ := himage
    simp only [XessSrModuleContext.toGeneral, setLayout_layouts, barriers_layouts,
      if_neg (Ne.symm h1), if_neg (Ne.symm h2), if_neg (Ne.symm h3), if_neg (Ne.symm h4),
      if_neg (Ne.symm h5), if_neg (Ne.symm h6)]

theorem toGeneral_output {W : Type} (ctx : XessSrModuleContext) (s : RenderState W) :
    (ctx.toGeneral s).layouts ctx.outputImage.id = VK_IMAGE_LAYOUT_GENERAL := by
  simp only [XessSrModuleContext.toGeneral, setLayout_layouts, if_true]

theorem convertDepth_commands (ctx : XessSrModuleContext) (s : RenderState XessWorld) :
    (ctx.convertDepth s).worldCommandBuffer = s.worldCommandBuffer ++
      [.bindDescriptorTable, .bindComputePipeline,
       .pushConstants s.world.module.renderWidth_ s.world.module.renderHeight_,
       .dispatch ((s.world.module.renderWidth_ + 15) / 16)
         ((s.world.module.renderHeight_ + 15) / 16) 1,
       .barriersMemory] := by
  simp [XessSrModuleContext.convertDepth, RenderState.record]

theorem convertDepth_records (ctx : XessSrModuleContext) (s : RenderState XessWorld) :
    RecordsNoTransition s (ctx.convertDepth s) := by
  refine ⟨_, convertDepth_commands ctx s, ?_, rfl⟩
  intro batch hmem
  simp at hmem

theorem toShaderRead_records {W : Type} (ctx : XessSrModuleContext) (s : RenderState W) :
    RecordsTransitions s (ctx.toShaderRead s) := by
  refine ⟨_, rfl, ?_, ?_⟩
  · intro b hb
    simp only [List.mem_cons, List.mem_singleton, List.not_mem_nil, or_false] at hb
    rcases hb with rfl | rfl | rfl <;>
      (simp only [XessSrModuleContext.toShaderRead, setLayout_layouts, barriers_layouts,
        if_true, true_and]
       try (split_ifs <;> rfl))
  · intro image himage
    simp only [List.mem_cons, List.mem_singleton, List.not_mem_nil, or_false, forall_eq_or_imp,
      forall_eq] at himage
    obtain ⟨h1, h2, h3⟩ := himage
    simp only [XessSrModuleContext.toShaderRead, setLayout_layouts, barriers_layouts,
      if_neg (Ne.symm h1), if_neg (Ne.symm h2), if_neg (Ne.symm h3)]

theorem toShaderRead_output {W : Type} (ctx : XessSrModuleContext) (s : RenderState W)
    (h : ctx.imageIds.Nodup) :
    (ctx.toShaderRead s).layouts ctx.outputImage.id = s.layouts ctx.outputImage.id := by
  obtain ⟨_, ⟨hoc, hov, hox⟩, _⟩ := imageIds_nodup ctx h
  simp only [XessSrModuleContext.toShaderRead, setLayout_layouts, barriers_layouts,
    if_neg hoc, if_neg hov, if_neg hox]

theorem request_keeps (env : XessEnv) (commandBuffer : Nat) (ubo : WorldUBO)
    (ctx : XessSrModuleContext) (s : RenderState XessWorld) :
    (ctx.request env commandBuffer ubo s).worldCommandBuffer = s.worldCommandBuffer ∧
      (ctx.request env commandBuffer ubo s).layouts = s.layouts := by
  unfold XessSrModuleContext.request
  cases XessSrModuleContext.checkCameraReset env.glm ubo.cameraPos ubo.cameraViewDir
    s.world.module
  exact ⟨rfl, rfl⟩

theorem request_records (env : XessEnv) (commandBuffer : Nat) (ubo : WorldUBO)
    (ctx : XessSrModuleContext) (s : RenderState XessWorld) :
    RecordsNoTransition s (ctx.request env commandBuffer ubo s) := by
  obtain ⟨h1, h2⟩ := request_keeps env commandBuffer ubo ctx s
  refine ⟨[], ?_, ?_, h2⟩
  · rw [h1, List.append_nil]
  · intro batch hmem
    cases hmem

/-- The spans up to the call of the wrapper track the layouts, from any state. -/
theorem dispatchSteps_track (env : XessEnv) (commandBuffer : Nat) (ubo : WorldUBO)
    (ctx : XessSrModuleContext) (s : RenderState XessWorld) :
    TracksLayouts (ctx.dispatchSteps env commandBuffer ubo) s :=
  ⟨Or.inl (toGeneral_records ctx s), Or.inr (convertDepth_records ctx _),
    Or.inl (toShaderRead_records ctx _), Or.inr (request_records env commandBuffer ubo ctx _),
    trivial⟩

/-- On pairwise distinct images the color output is tracked as `GENERAL` when the wrapper
is called. -/
theorem dispatchSteps_output (env : XessEnv) (commandBuffer : Nat) (ubo : WorldUBO)
    (ctx : XessSrModuleContext) (s : RenderState XessWorld) (h : ctx.imageIds.Nodup) :
    (runSteps (ctx.dispatchSteps env commandBuffer ubo) s).layouts ctx.outputImage.id =
      VK_IMAGE_LAYOUT_GENERAL := by
  show (ctx.request env commandBuffer ubo
    (ctx.toShaderRead (ctx.convertDepth (ctx.toGeneral s)))).layouts ctx.outputImage.id = _
  rw [(request_keeps env commandBuffer ubo ctx _).2, toShaderRead_output ctx _ h]
  exact toGeneral_output ctx s

theorem markOutput_records {W : Type} (ctx : XessSrModuleContext) (s : RenderState W)
    (hs : s.layouts ctx.outputImage.id = VK_IMAGE_LAYOUT_GENERAL) :
    RecordsNoTransition s (ctx.markOutput s) := by
  refine ⟨[], ?_, ?_, ?_⟩
  · show s.worldCommandBuffer = s.worldCommandBuffer ++ []
    rw [List.append_nil]
  · intro batch hmem
    cases hmem
  · funext k
    rw [XessSrModuleContext.markOutput, setLayout_layouts]
    split_ifs with hk
    · rw [hk, hs]
    · rfl

theorem depthToTransfer_records {W : Type} (ctx : XessSrModuleContext) (s : RenderState W)
    (h : ctx.imageIds.Nodup) : RecordsTransitions s (ctx.depthToTransfer s) := by
  obtain ⟨⟨_, _, _, _, _, hfu⟩, _, _⟩ := imageIds_nodup ctx h
  refine ⟨_, rfl, ?_, ?_⟩
  · intro b hb
    simp only [List.mem_cons, List.mem_singleton, List.not_mem_nil, or_false] at hb
    rcases hb with rfl | rfl <;>
      simp only [XessSrModuleContext.depthToTransfer, setLayout_layouts, barriers_layouts,
        if_true, if_neg hfu, and_self]
  · intro image himage
    simp only [List.mem_cons, List.mem_singleton, List.not_mem_nil, or_false, forall_eq_or_imp,
      forall_eq] at himage
    obtain ⟨h1, h2⟩ := himage
    simp only [XessSrModuleContext.depthToTransfer, setLayout_layouts, barriers_layouts,
      if_neg (Ne.symm h1), if_neg (Ne.symm h2)]

theorem depthBlit_records (ctx : XessSrModuleContext) (s : RenderState XessWorld) :
    RecordsNoTransition s (ctx.depthBlit s) := by
  refine ⟨[_], rfl, ?_, rfl⟩
  intro batch hmem
  simp at hmem

/-- On pairwise distinct images the closing spans track the layouts, from a state in which
the color output is tracked as `GENERAL`. -/
theorem finishSteps_track (ctx : XessSrModuleContext) (s : RenderState XessWorld)
    (h : ctx.imageIds.Nodup)
    (hs : s.layouts ctx.outputImage.id = VK_IMAGE_LAYOUT_GENERAL) :
    TracksLayouts ctx.finishSteps s :=
  ⟨Or.inr (markOutput_records ctx s hs), Or.inl (depthToTransfer_records ctx _ h),
    Or.inr (depthBlit_records ctx _), trivial⟩

theorem recordsNoTransition_refl {W : Type} (s : RenderState W) : RecordsNoTransition s s := by
  refine ⟨[], (List.append_nil _).symm, ?_, rfl⟩
  intro batch hmem
  cases hmem

theorem preflight_records {W : Type} (useAmd : Bool) (ctx : WorldPipelineContext W)
    (s : RenderState W) :
    RecordsTransitions s (ctx.preflight useAmd s) ∨
      RecordsNoTransition s (ctx.preflight useAmd s) := by
  unfold WorldPipelineContext.preflight
  cases ctx.outputImage with
  | none => exact Or.inr (recordsNoTransition_refl s)
  | some outputImage =>
    simp only
    split_ifs with hu
    · left
      refine ⟨_, rfl, ?_, ?_⟩
      · intro b hb
        simp only [List.mem_singleton] at hb
        subst hb
        simp only [setLayout_layouts, if_true, hu, and_self]
      · intro image himage
        simp only [List.mem_singleton, forall_eq] at himage
        simp only [setLayout_layouts, barriers_layouts, if_neg (Ne.symm himage)]
    · exact Or.inr (recordsNoTransition_refl s)

theorem closeFrame_records {W : Type} (useAmd : Bool) (ctx : WorldPipelineContext W)
    (s : RenderState W) :
    RecordsTransitions s (ctx.closeFrame useAmd s) ∨
      RecordsNoTransition s (ctx.closeFrame useAmd s) := by
  unfold WorldPipelineContext.closeFrame
  cases ctx.outputImage with
  | none => exact Or.inr (recordsNoTransition_refl s)
  | some outputImage =>
    left
    refine ⟨_, rfl, ?_, ?_⟩
    · intro b hb
      simp only [List.mem_singleton] at hb
      subst hb
      simp only [setLayout_layouts, if_true, and_self]
    · intro image himage
      simp only [List.mem_singleton, forall_eq] at himage
      simp only [setLayout_layouts, barriers_layouts, if_neg (Ne.symm himage)]
/-- C22. On a context whose eight images are pairwise distinct objects, `render` is the run
of its spans, and every span, from the state the spans before it leave, either records one
batch of layout transitions in which every barrier declares as old layout the layout
tracked for its image at that moment, after which the layout tracked for every image of the
batch is the new layout declared and no other image has changed, or records no transition
and changes no tracked layout: on the path of the disabled module (`fallbackBlit` alone),
on the dispatch-failure path and on the success path. The preflight and the closing
transition of `WorldPipelineContext::render` are such spans from every state. -/
theorem render_transitions_match_tracked_layouts {W : Type} (env : XessEnv) (commandBuffer : Nat)
    (ubo : WorldUBO) (ctx : XessSrModuleContext) (hdistinct : ctx.imageIds.Nodup) :
    (∀ s : RenderState XessWorld,
      ctx.render env commandBuffer ubo s =
          runSteps (ctx.renderSteps env commandBuffer ubo s) s ∧
        TracksLayouts (ctx.renderSteps env commandBuffer ubo s) s) ∧
    (∀ s : RenderState XessWorld, TracksLayouts ctx.fallbackSteps s) ∧
    (∀ s : RenderState XessWorld,
      TracksLayouts (ctx.dispatchSteps env commandBuffer ubo ++ ctx.fallbackSteps) s) ∧
    (∀ s : RenderState XessWorld,
      TracksLayouts (ctx.dispatchSteps env commandBuffer ubo ++ ctx.finishSteps) s) ∧
    ∀ (useAmd : Bool) (wctx : WorldPipelineContext W) (s : RenderState W),
      wctx.render useAmd s =
          wctx.closeFrame useAmd
            (WorldPipelineContext.renderModules wctx.worldModuleContexts
              (wctx.preflight useAmd s)) ∧
        (RecordsTransitions s (wctx.preflight useAmd s) ∨
          RecordsNoTransition s (wctx.preflight useAmd s)) ∧
        ∀ t : RenderState W, RecordsTransitions t (wctx.closeFrame useAmd t) ∨
          RecordsNoTransition t (wctx.closeFrame useAmd t) := by
  have hfail : ∀ s : RenderState XessWorld,
      TracksLayouts (ctx.dispatchSteps env commandBuffer ubo ++ ctx.fallbackSteps) s :=
    fun s => (tracksLayouts_append _ _ s).2
      ⟨dispatchSteps_track env commandBuffer ubo ctx s, fallbackSteps_track ctx _ hdistinct⟩
  have hsucc : ∀ s : RenderState XessWorld,
      TracksLayouts (ctx.dispatchSteps env commandBuffer ubo ++ ctx.finishSteps) s :=
    fun s => (tracksLayouts_append _ _ s).2
      ⟨dispatchSteps_track env commandBuffer ubo ctx s,
        finishSteps_track ctx _ hdistinct
          (dispatchSteps_output env commandBuffer ubo ctx s hdistinct)⟩
  refine ⟨?_, fun s => fallbackSteps_track ctx s hdistinct, hfail, hsucc, ?_⟩
  · intro s
    refine ⟨render_eq_steps env commandBuffer ubo ctx s, ?_⟩
    unfold XessSrModuleContext.renderSteps
    split
    · trivial
    · split
      · split
        · exact hfail s
        · exact hsucc s
      · exact fallbackSteps_track ctx s hdistinct
  · intro useAmd wctx s
    exact ⟨rfl, preflight_records useAmd wctx s, fun t => closeFrame_records useAmd wctx t⟩

/-- The demo context (identities 10 to 17) on the three paths: the enabled module with a
dispatch that succeeds, with one that fails, and the disabled module. -/
theorem render_transitions_match_tracked_layouts_witness :
    demoContext.imageIds.Nodup ∧
      TracksLayouts (demoContext.renderSteps (demoEnv true) 1 demoUbo (demoXessState true))
        (demoXessState true) ∧
      TracksLayouts (demoContext.renderSteps (demoEnv false) 1 demoUbo (demoXessState true))
        (demoXessState true) ∧
      TracksLayouts (demoContext.renderSteps (demoEnv true) 1 demoUbo (demoXessState false))
        (demoXessState false) :=
  ⟨by decide,
    ((@render_transitions_match_tracked_layouts Unit (demoEnv true) 1 demoUbo demoContext
      (by decide)).1 (demoXessState true)).2,
    ((@render_transitions_match_tracked_layouts Unit (demoEnv false) 1 demoUbo demoContext
      (by decide)).1 (demoXessState true)).2,
    ((@render_transitions_match_tracked_layouts Unit (demoEnv true) 1 demoUbo demoContext
      (by decide)).1 (demoXessState false)).2⟩

/-- The paths of the demo module by their spans: seven spans when the dispatch succeeds or
fails, three when the module is disabled; and on the context whose first-hit-depth input is
the color output, the last batch of `fallbackBlit` declares `TRANSFER_DST_OPTIMAL` for an
image tracked as `TRANSFER_SRC_OPTIMAL`. -/
theorem demo_render_spans :
    (demoContext.renderSteps (demoEnv true) 1 demoUbo (demoXessState true)).length = 7 ∧
      (demoContext.renderSteps (demoEnv false) 1 demoUbo (demoXessState true)).length = 7 ∧
      (demoContext.renderSteps (demoEnv true) 1 demoUbo (demoXessState false)).length = 3 ∧
      ¬ feedbackContext.imageIds.Nodup ∧
      (feedbackContext.blits (feedbackContext.toTransfer (demoXessState false))).layouts
        feedbackContext.outputImage.id = VK_IMAGE_LAYOUT_TRANSFER_SRC_OPTIMAL ∧
      VK_IMAGE_LAYOUT_TRANSFER_SRC_OPTIMAL ≠ VK_IMAGE_LAYOUT_TRANSFER_DST_OPTIMAL := by
  decide

/-! ## `Pipeline::recreate`: the old modules are closed before the old pipeline is collected -/

theorem preCloseModules_spec {W : Type} (s : RecreateState W) :
    (Pipeline.preCloseModules s).trace = s.trace ++ preCloseEvents s.pipeline.worldPipeline_ ∧
      (Pipeline.preCloseModules s).pipeline = s.pipeline := by
  unfold Pipeline.preCloseModules preCloseEvents
  cases s.pipeline.worldPipeline_ with
  | none => exact ⟨(List.append_nil _).symm, rfl⟩
  | some wp =>
    simp only
    induction wp.worldModules_.length with
    | zero => exact ⟨(List.append_nil _).symm, rfl⟩
    | succ k ih =>
      rw [forLoop_succ, List.range_succ, List.filterMap_append]
      obtain ⟨h1, h2⟩ := ih
      cases hget : wp.worldModules_.getD k none with
      | none =>
        simp only [List.filterMap_cons, List.filterMap_nil, hget, Option.map_none',
          List.append_nil]
        exact ⟨h1, h2⟩
      | some m =>
        simp only [List.filterMap_cons, List.filterMap_nil, hget, Option.map_some']
        refine ⟨?_, h2⟩
        rw [h1, List.append_assoc]

theorem createContexts_loop {W : Type} (n : Nat) (s : RecreateState W) :
    (forLoop n
        (fun i (s : RecreateState W) =>
          { s with
            pipeline := { s.pipeline with
              contexts_ :=
                s.pipeline.contexts_.set i (some (PipelineContext.create i s.pipeline)) }
            trace := s.trace ++ [.createContext i] }) s).trace =
        s.trace ++ (List.range n).map RecreateEvent.createContext ∧
      (forLoop n
        (fun i (s : RecreateState W) =>
          { s with
            pipeline := { s.pipeline with
              contexts_ :=
                s.pipeline.contexts_.set i (some (PipelineContext.create i s.pipeline)) }
            trace := s.trace ++ [.createContext i] }) s).pipeline.worldPipeline_ =
        s.pipeline.worldPipeline_ := by
  induction n with
  | zero => exact ⟨(List.append_nil _).symm, rfl⟩
  | succ k ih =>
    rw [forLoop_succ, List.range_succ, List.map_append]
    obtain ⟨h1, h2⟩ := ih
    refine ⟨?_, h2⟩
    simp only [List.map_cons, List.map_nil]
    rw [h1, List.append_assoc]

theorem recreateContexts_spec {W : Type} (out : PipelineOutside W) (imageCount : Nat)
    (s : RecreateState W) :
    (Pipeline.recreateContexts out imageCount s).trace =
        s.trace ++ RecreateEvent.collectContexts ::
          (List.range imageCount).map RecreateEvent.createContext ∧
      (Pipeline.recreateContexts out imageCount s).pipeline.worldPipeline_ =
        s.pipeline.worldPipeline_ := by
  unfold Pipeline.recreateContexts
  obtain ⟨h1, h2⟩ := createContexts_loop imageCount
    ({ world := out.collect s.world
       pipeline := { s.pipeline with contexts_ := vectorResize [] imageCount none }
       trace := s.trace ++ [.collectContexts] } : RecreateState W)
  refine ⟨?_, h2⟩
  rw [h1, List.append_assoc]
  rfl

theorem preCloseEvents_mem {W : Type} (worldPipeline : Option (WorldPipeline W))
    (e : RecreateEvent) (h : e ∈ preCloseEvents worldPipeline) : ∃ i, e = .preClose i := by
  unfold preCloseEvents at h
  cases worldPipeline with
  | none => cases h
  | some wp =>
    simp only [List.mem_filterMap] at h
    obtain ⟨i, _, hi⟩ := h
    cases hm : wp.worldModules_.getD i none with
    | none => rw [hm] at hi; cases hi
    | some m =>
      rw [hm] at hi
      simp only [Option.map_some', Option.some.injEq] at hi
      exact ⟨i, hi.symm⟩

/-- Every module of the world pipeline has exactly one `preClose` among the calls. -/
theorem preCloseEvents_count {W : Type} (wp : WorldPipeline W) (i : Nat) (m : WorldModule W)
    (h : wp.worldModules_.getD i none = some m) :
    (preCloseEvents (some wp)).count (.preClose i) = 1 := by
  have hnodup : (preCloseEvents (some wp)).Nodup := by
    unfold preCloseEvents
    refine List.Nodup.filterMap ?_ (List.nodup_range _)
    intro a b e ha hb
    cases hma : wp.worldModules_.getD a none with
    | none => rw [hma] at ha; cases ha
    | some ma =>
      cases hmb : wp.worldModules_.getD b none with
      | none => rw [hmb] at hb; cases hb
      | some mb =>
        rw [hma] at ha
        rw [hmb] at hb
        simp only [Option.map_some', Option.mem_def, Option.some.injEq] at ha hb
        rw [← hb] at ha
        cases ha
        rfl
  have hmem : RecreateEvent.preClose i ∈ preCloseEvents (some wp) := by
    unfold preCloseEvents
    rw [List.mem_filterMap]
    have hlt : i < wp.worldModules_.length := by
      by_contra hge
      rw [List.getD_eq_default _ _ (Nat.le_of_not_lt hge)] at h
      cases h
    exact ⟨i, List.mem_range.2 hlt, by rw [h]; rfl⟩
  exact List.count_eq_one_of_mem hnodup hmem

/-- Once the UI module is created, `recreate` goes on to the `preClose` loop and the
hand-over; what follows depends on the blueprint and on the factory alone. -/
theorem recreate_after_ui {W : Type} (out : PipelineOutside W) (imageCount : Nat)
    (p : Pipeline W) (world : W) (ui : Nat) (world2 : W)
    (hui : out.createUiModule (out.collect world) = .ok (ui, world2)) :
    (p.worldPipelineBlueprint_ = none →
      ∃ t, Pipeline.recreate out imageCount p world = .ok t ∧
        t.pipeline.worldPipeline_ = none ∧
        t.trace = [.collectUiModule, .createUiModule] ++ preCloseEvents p.worldPipeline_ ++
          .collectWorldPipeline :: RecreateEvent.collectContexts ::
            (List.range imageCount).map RecreateEvent.createContext) ∧
    (∀ bp, p.worldPipelineBlueprint_ = some bp →
      ∃ tail2, (tail2 = [] ∨ tail2 = RecreateEvent.collectContexts ::
          (List.range imageCount).map RecreateEvent.createContext) ∧
        (endState (Pipeline.recreate out imageCount p world)).trace =
          [.collectUiModule, .createUiModule] ++ preCloseEvents p.worldPipeline_ ++
            .collectWorldPipeline :: .createWorldPipeline :: tail2) := by
  obtain ⟨h1, h2⟩ := preCloseModules_spec
    ({ world := world2, pipeline := { p with uiModule_ := some ui }
       trace := [.collectUiModule, .createUiModule] } : RecreateState W)
  unfold Pipeline.recreate
  simp only [hui]
  generalize Pipeline.preCloseModules
    ({ world := world2, pipeline := { p with uiModule_ := some ui }
       trace := [.collectUiModule, .createUiModule] } : RecreateState W) = s3 at h1 h2 ⊢
  have hbp3 : s3.pipeline.worldPipelineBlueprint_ = p.worldPipelineBlueprint_ := by rw [h2]
  have ht3 : s3.trace =
      [.collectUiModule, .createUiModule] ++ preCloseEvents p.worldPipeline_ := h1
  constructor
  · intro hnone
    rw [hbp3, hnone]
    refine ⟨_, rfl, ?_, ?_⟩
    · rw [(recreateContexts_spec out imageCount _).2]
    · rw [(recreateContexts_spec out imageCount _).1]
      simp only [ht3, List.append_assoc, List.singleton_append]
  · intro bp hsome
    rw [hbp3, hsome]
    simp only
    cases out.createWorldPipeline bp (out.collect s3.world) with
    | error e =>
      refine ⟨[], Or.inl rfl, ?_⟩
      simp only [endState, ht3, List.append_assoc, List.singleton_append, List.cons_append,
        List.nil_append]
    | ok r =>
      obtain ⟨wp, world6⟩ := r
      refine ⟨_, Or.inr rfl, ?_⟩
      simp only [endState]
      rw [(recreateContexts_spec out imageCount _).1]
      simp only [ht3, List.append_assoc, List.singleton_append, List.cons_append,
        List.nil_append]

/-- Without a blueprint `recreate` does not depend on the factory of the world pipeline. -/
theorem recreate_without_blueprint {W : Type} (out : PipelineOutside W) (imageCount : Nat)
    (p : Pipeline W) (world : W) (h : p.worldPipelineBlueprint_ = none)
    (create2 : WorldPipelineBlueprint → W → Except String (WorldPipeline W × W)) :
    Pipeline.recreate { out with createWorldPipeline := create2 } imageCount p world =
      Pipeline.recreate out imageCount p world := by
  unfold Pipeline.recreate
  simp only
  cases out.createUiModule (out.collect world) with
  | error e => rfl
  | ok r =>
    obtain ⟨ui, world2⟩ := r
    simp only
    have hbp : (Pipeline.preCloseModules
        ({ world := world2, pipeline := { p with uiModule_ := some ui }
           trace := [.collectUiModule, .createUiModule] } : RecreateState W)
        ).pipeline.worldPipelineBlueprint_ = none := by
      rw [(preCloseModules_spec _).2]
      exact h
    simp only [hbp]
    rfl

theorem count_preClose {W : Type} (wp : WorldPipeline W) (tail : List RecreateEvent)
    (hno : ∀ i, RecreateEvent.preClose i ∉ tail) (i : Nat) (m : WorldModule W)
    (hm : wp.worldModules_.getD i none = some m) :
    ([RecreateEvent.collectUiModule, RecreateEvent.createUiModule] ++
      preCloseEvents (some wp) ++ RecreateEvent.collectWorldPipeline :: tail).count
        (.preClose i) = 1 := by
  have h0 := List.count_eq_zero_of_not_mem (hno i)
  simp [List.count_append, List.count_cons, preCloseEvents_count wp i m hm, h0]

theorem contexts_events (imageCount : Nat) :
    ∀ e ∈ RecreateEvent.collectContexts ::
        (List.range imageCount).map RecreateEvent.createContext,
      (∀ i, e ≠ RecreateEvent.preClose i) ∧ e ≠ RecreateEvent.collectWorldPipeline ∧
        e ≠ RecreateEvent.createWorldPipeline := by
  intro e he
  rcases List.mem_cons.1 he with he | he
  · subst he
    refine ⟨?_, ?_, ?_⟩
    · intro i h; cases h
    · intro h; cases h
    · intro h; cases h
  · obtain ⟨k, _, hk⟩ := List.mem_map.1 he
    subst hk
    refine ⟨?_, ?_, ?_⟩
    · intro i h; cases h
    · intro h; cases h
    · intro h; cases h

/-- C21. `recreate` logs, after the collection and the creation of the UI module, one
`preClose` for every module of the previous world pipeline, in order, then the hand-over of
the previous world pipeline to the collector; no `preClose` and no hand-over follows, so
every module is closed exactly once and before the hand-over. With a blueprint the factory
of the world pipeline is called right after the hand-over and only there. Without a
blueprint it is not called at all: `recreate` returns, the new world pipeline is null, and
the result is the same whatever the factory would have done. When `UIModule::create`
throws, nothing of this is reached. -/
theorem recreate_closes_modules_before_collecting {W : Type} (out : PipelineOutside W)
    (imageCount : Nat) (p : Pipeline W) (world : W) :
    (∀ e, out.createUiModule (out.collect world) = .error e →
      Pipeline.recreate out imageCount p world =
        .error (e, { world := out.collect world, pipeline := p
                     trace := [.collectUiModule, .createUiModule] })) ∧
    (∀ ui world2, out.createUiModule (out.collect world) = .ok (ui, world2) →
      ∃ tail,
        (endState (Pipeline.recreate out imageCount p world)).trace =
          [.collectUiModule, .createUiModule] ++ preCloseEvents p.worldPipeline_ ++
            .collectWorldPipeline :: tail ∧
        (∀ i, RecreateEvent.preClose i ∉ tail) ∧
        RecreateEvent.collectWorldPipeline ∉ tail ∧
        (∀ wp i m, p.worldPipeline_ = some wp → wp.worldModules_.getD i none = some m →
          (endState (Pipeline.recreate out imageCount p world)).trace.count (.preClose i) = 1) ∧
        (∀ bp, p.worldPipelineBlueprint_ = some bp →
          ∃ tail2, tail = .createWorldPipeline :: tail2 ∧
            RecreateEvent.createWorldPipeline ∉ tail2) ∧
        (p.worldPipelineBlueprint_ = none →
          RecreateEvent.createWorldPipeline ∉
            (endState (Pipeline.recreate out imageCount p world)).trace ∧
          (∃ t, Pipeline.recreate out imageCount p world = .ok t ∧
            t.pipeline.worldPipeline_ = none) ∧
          ∀ create2, Pipeline.recreate { out with createWorldPipeline := create2 } imageCount
            p world = Pipeline.recreate out imageCount p world)) := by
  constructor
  · intro e he
    unfold Pipeline.recreate
    simp only [he]
  · intro ui world2 hui
    obtain ⟨hA, hB⟩ := recreate_after_ui out imageCount p world ui world2 hui
    have hctx := contexts_events imageCount
    have hpre : ∀ e ∈ preCloseEvents p.worldPipeline_,
        e ≠ RecreateEvent.createWorldPipeline := by
      intro e he h
      obtain ⟨i, hi⟩ := preCloseEvents_mem _ e he
      rw [hi] at h
      cases h
    cases hbp : p.worldPipelineBlueprint_ with
    | none =>
      obtain ⟨t, ht, hwp, htr⟩ := hA hbp
      have hend : endState (Pipeline.recreate out imageCount p world) = t := by rw [ht]; rfl
      rw [hend]
      refine ⟨_, htr, ?_, ?_, ?_, ?_, ?_⟩
      · intro i hmem
        exact (hctx _ hmem).1 i rfl
      · intro hmem
        exact (hctx _ hmem).2.1 rfl
      · intro wp i m hp hm
        rw [htr, hp]
        exact count_preClose wp _ (fun k hmem => (hctx _ hmem).1 k rfl) i m hm
      · intro bp h
        cases h
      · intro _
        refine ⟨?_, ⟨t, ht, hwp⟩, ?_⟩
        · rw [htr]
          intro hmem
          rcases List.mem_append.1 hmem with h | h
          · rcases List.mem_append.1 h with h | h
            · simp at h
            · exact hpre _ h rfl
          · rcases List.mem_cons.1 h with h | h
            · cases h
            · exact (hctx _ h).2.2 rfl
        · intro create2
          exact recreate_without_blueprint out imageCount p world hbp create2
    | some bp =>
      obtain ⟨tail2, hor, htr⟩ := hB bp hbp
      have htail2 : ∀ e ∈ tail2, (∀ i, e ≠ RecreateEvent.preClose i) ∧
          e ≠ RecreateEvent.collectWorldPipeline ∧ e ≠ RecreateEvent.createWorldPipeline := by
        intro e he
        rcases hor with h | h
        · rw [h] at he
          cases he
        · rw [h] at he
          exact hctx e he
      have hno : ∀ i, RecreateEvent.preClose i ∉ RecreateEvent.createWorldPipeline :: tail2 := by
        intro i hmem
        rcases List.mem_cons.1 hmem with h | h
        · cases h
        · exact (htail2 _ h).1 i rfl
      refine ⟨_, htr, hno, ?_, ?_, ?_, ?_⟩
      · intro hmem
        rcases List.mem_cons.1 hmem with h | h
        · cases h
        · exact (htail2 _ h).2.1 rfl
      · intro wp i m hp hm
        rw [htr, hp]
        exact count_preClose wp _ hno i m hm
      · intro bp2 _
        exact ⟨tail2, rfl, fun hmem => (htail2 _ hmem).2.2 rfl⟩
      · intro h
        cases h

/-- The demo pipeline of two modules, recreated over two swapchain images: without a
blueprint both modules are closed, in order, before the hand-over, and no world pipeline is
created; with a blueprint the factory is called after the hand-over. -/
theorem recreate_closes_modules_before_collecting_witness :
    (endState (Pipeline.recreate demoOutside 2 (demoPipeline none) 0)).trace =
        [.collectUiModule, .createUiModule, .preClose 0, .preClose 1, .collectWorldPipeline,
         .collectContexts, .createContext 0, .createContext 1] ∧
      (endState (Pipeline.recreate demoOutside 2 (demoPipeline none) 0)).world = 111 ∧
      (endState (Pipeline.recreate demoOutside 2 (demoPipeline none) 0)).pipeline.worldPipeline_.isNone
        = true ∧
      (endState (Pipeline.recreate demoOutside 2 (demoPipeline (some (demoBlueprint "accept")))
          0)).trace =
        [.collectUiModule, .createUiModule, .preClose 0, .preClose 1, .collectWorldPipeline,
         .createWorldPipeline, .collectContexts, .createContext 0, .createContext 1] ∧
      (endState (Pipeline.recreate demoOutside 2 (demoPipeline none) 0)).trace.count
        (.preClose 1) = 1 :=
  ⟨by decide, by decide, by decide, by decide,
    ((recreate_closes_modules_before_collecting demoOutside 2 (demoPipeline none) 0).2 0 1
      rfl).elim (fun _ h => h.2.2.2.1 _ 1 _ rfl rfl)⟩

/-! ## `init`: the slots a module declares, after a completed run -/

/-- **C16, as the code has it.** For a blueprint the constructor built and a module `i` of
it: when module `i` and every module declared before it, which `init` builds after it,
never shorten the image vector they are passed and leave no empty entry in it when they
accept, then after `init` has returned normally every slot module `i` declares as output or
input holds an image in the pool, in every frame. Nothing is asked of the modules declared
after module `i`. -/
theorem init_fills_declared_slots {W : Type} (fw : Framework W)
    (ctors : WorldModuleConstructors W) (reg : InOutImageNums) (params : WorldPipelineBuildParams)
    (bp : WorldPipelineBlueprint) (world : W) (s : InitState W) (i : Nat)
    (hbp : (WorldPipelineBlueprint.construct reg params).2 = .ok bp)
    (hmods : ∀ j, j ≤ i → ∀ ctor w m w1, ctors (bp.moduleNames_.getD j "") = some ctor →
      ctor w = .ok (m, w1) → m.FillsWhatItAccepts)
    (hinit : WorldPipeline.init fw ctors bp world = .ok s) :
    ∀ f idx, i < bp.moduleNames_.length → f < fw.imageCount →
      idx ∈ moduleIndices bp .output i ∨ idx ∈ moduleIndices bp .input i →
      s.wp.sharedImages_.at f idx ≠ none := by
  obtain ⟨_, _, _, hin⟩ := construct_ok_facts reg params bp hbp
  have hrange : ∀ i dir, ∀ idx ∈ moduleIndices bp dir i, idx < bp.imageFormats_.length :=
    fun i dir idx hidx => hin idx (moduleIndices_subset bp dir i idx hidx)
  unfold WorldPipeline.init at hinit
  cases hloop : loopDown (initModule fw ctors bp) bp.moduleNames_.length
      (WorldPipeline.allocate fw bp world) with
  | error e => rw [hloop] at hinit; cases hinit
  | ok s2 =>
    rw [hloop] at hinit
    simp only [Except.ok.injEq] at hinit
    subst hinit
    have key := loopDown_ok_induction (initModule fw ctors bp)
      (fun k (t : InitState W) =>
        (t.wp.sharedImages_.length = fw.imageCount ∧
          ∀ f, f < fw.imageCount → t.wp.sharedImages_.rowLength f = bp.imageFormats_.length) ∧
        (k ≤ i → i < bp.moduleNames_.length → ∀ f, f < fw.imageCount →
          SlotsFilled bp t.wp.sharedImages_ i f))
      bp.moduleNames_.length (WorldPipeline.allocate fw bp world) s2
      (by
        intro k t t1 _ ⟨q12, q3⟩ hstep
        have hshape := initModule_shape fw ctors bp k t _ _ q12
        rw [hstep] at hshape
        refine ⟨hshape, ?_⟩
        intro hki hi f hf
        obtain ⟨ctor, m, w1, t0, s3, hctor, hrun, hpool, hframes, hwp⟩ :=
          initModule_ok fw ctors bp k t t1 hstep
        have hm := hmods k hki ctor t.world m w1 hctor hrun
        obtain ⟨_, _, f3, f4⟩ := frames_fill fw bp m hm k t0 s3 (by rw [hpool]; exact q12.1)
          (fun g hg => by rw [hpool]; exact q12.2 g hg) (fun dir => hrange k dir) hframes
        rw [hwp]
        by_cases hik : i = k
        · subst hik
          exact f4 f hf
        · exact slotsFilled_mono bp _ _ i f (fun g idx1 hne => f3 g idx1 (by rw [hpool]; exact hne))
            (q3 (by omega) hi f hf))
      ⟨allocate_shape fw bp world, fun hle hlt => by omega⟩ hloop
    obtain ⟨_, k3⟩ := key
    intro f idx hi hf hidx
    rw [createContexts_pool]
    exact k3 (Nat.zero_le _) hi f hf idx (List.mem_append.2 hidx)

set_option maxRecDepth 20000 in
/-- The demo pipeline with the strict module, which rejects a proposal with an empty entry,
as module 0 and the accepting module, which leaves empty entries as they are, as module 1:
the blueprint is the constructor's, `init` returns, and the two slots module 0 declares
hold an image in frame 0. -/
theorem init_fills_declared_slots_witness :
    (WorldPipelineBlueprint.construct (demoInitRegistry "strict") (demoInitParams "strict")).2 =
      .ok (demoBlueprint "strict") ∧
    strictModule.FillsWhatItAccepts ∧
    WorldPipeline.init demoFramework demoConstructors (demoBlueprint "strict") 0 =
      .ok (WorldPipeline.init demoFramework demoConstructors (demoBlueprint "strict") 0).state ∧
    (WorldPipeline.init demoFramework demoConstructors (demoBlueprint "strict")
      0).state.wp.sharedImages_.at 0 1 ≠ none ∧
    (WorldPipeline.init demoFramework demoConstructors (demoBlueprint "strict")
      0).state.wp.sharedImages_.at 0 2 ≠ none :=
  ⟨rfl, strictModule_fills, rfl,
    init_fills_declared_slots demoFramework demoConstructors (demoInitRegistry "strict")
      (demoInitParams "strict") (demoBlueprint "strict") 0 _ 0 rfl
      (fun j hj ctor w m w1 h1 h2 => by
        have hj0 : j = 0 := Nat.le_zero.1 hj
        subst hj0
        have hc : ctor = fun w => .ok (strictModule, w) := by
          have h3 : demoConstructors "strict" = some ctor := h1
          simp only [demoConstructors] at h3
          exact (Option.some.inj h3).symm
        subst hc
        simp only [Except.ok.injEq, Prod.mk.injEq] at h2
        rw [← h2.1]
        exact strictModule_fills)
      rfl 0 1 (by decide) (by decide) (by decide),
    init_fills_declared_slots demoFramework demoConstructors (demoInitRegistry "strict")
      (demoInitParams "strict") (demoBlueprint "strict") 0 _ 0 rfl
      (fun j hj ctor w m w1 h1 h2 => by
        have hj0 : j = 0 := Nat.le_zero.1 hj
        subst hj0
        have hc : ctor = fun w => .ok (strictModule, w) := by
          have h3 : demoConstructors "strict" = some ctor := h1
          simp only [demoConstructors] at h3
          exact (Option.some.inj h3).symm
        subst hc
        simp only [Except.ok.injEq, Prod.mk.injEq] at h2
        rw [← h2.1]
        exact strictModule_fills)
      rfl 0 2 (by decide) (by decide) (by decide)⟩

set_option maxRecDepth 20000 in
/-- Why the modules built later count: with the strict module as module 1 and, as module 0,
a module that accepts after emptying the image vector, on a blueprint the constructor
built, `init` returns normally, and slot 1, which the strict module declares as its input
and filled in its own negotiation, is empty in frame 0: module 0, built after it, wrote the
emptied entry back. -/
theorem demo_later_module_empties_slot :
    (WorldPipelineBlueprint.construct [("null", (1, 1)), ("strict", (1, 1))]
        nullingParams).2.toOption = some nullingBlueprint ∧
    (WorldPipeline.init demoFramework nullingConstructors nullingBlueprint 0).throws = false ∧
    1 ∈ moduleIndices nullingBlueprint .input 1 ∧
    nullingBlueprint.moduleNames_.getD 1 "" = "strict" ∧
    (WorldPipeline.init demoFramework nullingConstructors nullingBlueprint
      0).state.wp.sharedImages_.at 0 1 = none := by
  decide

/-! ## `init`: the allocation step on a blueprint without slots -/

set_option maxRecDepth 100000 in
/-- The same through the builder: `init` on the blueprint of the three logging modules
returns, and the contexts it stores for the frames 0 and 1 render the modules as 0, 1, 2
and as 10, 11, 12. -/
theorem demo_init_contexts_render :
    (WorldPipeline.init loggingFramework loggingConstructors loggingBlueprint []).throws = false ∧
    ((WorldPipeline.init loggingFramework loggingConstructors loggingBlueprint
        []).state.wp.contexts_.map fun c =>
      c.map fun ctx => (ctx.render false (loggingRenderState VK_IMAGE_LAYOUT_UNDEFINED)).world) =
      [some [0, 1, 2], some [10, 11, 12]] := by
  decide

end MCVR
